import Mathlib

/-! # PDFium render status: a shallow embedding

The central interpreter of `core/fpdfapi/render/cpdf_renderstatus.cpp` is embedded as
state-passing Lean functions.

* Floating point values (`float`) are exact rationals.
* Pointers are references (`Ref`): either to something that exists before the render
  starts, or to something allocated while rendering.
* Collaborators that are not part of the file (the raster device, bitmaps, the text, image,
  shading and tiling renderers, the options object, the geometry helpers) are an `Env` of
  functions.  Every call made on a collaborator is appended to a call log; what a
  collaborator answers is a function of the log so far and of the arguments.
* `g_CurrentRecursionDepth` is a field of the global state `G`.
* The recursion of the interpreter is tied in `RenderSingleObject`, which takes the number
  of nested `RenderSingleObject` activations it may still open as fuel.
-/

set_option linter.unusedTactic false
set_option linter.unreachableTactic false
set_option linter.unusedVariables false
set_option linter.unusedSectionVars false

namespace PDFium

/-! ## Values -/

/-- A pointer: to an object of the document or the caller, or to one made while rendering. -/
inductive Ref where
  | given (n : Nat)
  | fresh (n : Nat)
  deriving DecidableEq, Repr

/-- The six coefficients of `CFX_Matrix`. -/
structure CFX_Matrix where
  a : ℚ
  b : ℚ
  c : ℚ
  d : ℚ
  e : ℚ
  f : ℚ
  deriving DecidableEq

/-- The default constructed `CFX_Matrix()`. -/
def CFX_Matrix.identity : CFX_Matrix := ⟨1, 0, 0, 1, 0, 0⟩

/-- Integer device rectangle `FX_RECT`. -/
structure FX_RECT where
  left : Int
  top : Int
  right : Int
  bottom : Int
  deriving DecidableEq

/-- Float rectangle `CFX_FloatRect`. -/
structure CFX_FloatRect where
  left : ℚ
  bottom : ℚ
  right : ℚ
  top : ℚ
  deriving DecidableEq

/-- Tag `CPDF_PageObject::Type`. -/
inductive PageObjectType where
  | kText
  | kPath
  | kImage
  | kShading
  | kForm
  deriving DecidableEq, Repr

/-- Blend modes; everything that is not `kNormal` is kept by its number. -/
inductive BlendMode where
  | kNormal
  | kOther (n : Nat)
  deriving DecidableEq, Repr

/-- The values of `CFX_FillRenderOptions::FillType`. -/
inductive FillType where
  | kNoFill
  | kEvenOdd
  | kWinding
  deriving DecidableEq, Repr

/-- The values of `TextRenderingMode`. -/
inductive TextRenderingMode where
  | MODE_UNKNOWN
  | MODE_FILL
  | MODE_STROKE
  | MODE_FILL_STROKE
  | MODE_INVISIBLE
  | MODE_FILL_CLIP
  | MODE_STROKE_CLIP
  | MODE_FILL_STROKE_CLIP
  | MODE_CLIP
  deriving DecidableEq, Repr

/-- Bitmap formats named in the file. -/
inductive FXDIB_Format where
  | k8bppMask
  | kBgr
  | kBgrx
  | kBgra
  | kBgraPremul
  deriving DecidableEq, Repr

/-- The fields of `CFX_FillRenderOptions` the file sets. -/
structure CFX_FillRenderOptions where
  fill_type : FillType
  rect_aa : Bool
  aliased_path : Bool
  adjust_stroke : Bool
  stroke : Bool
  text_mode : Bool
  stroke_text_mode : Bool
  deriving DecidableEq

/-- The constructor `CFX_FillRenderOptions(fill_type)`. -/
def CFX_FillRenderOptions.ofType (t : FillType) : CFX_FillRenderOptions :=
  ⟨t, false, false, false, false, false, false⟩

/-- The default constructor `CFX_FillRenderOptions()`. -/
def CFX_FillRenderOptions.default : CFX_FillRenderOptions := CFX_FillRenderOptions.ofType .kNoFill

/-- The named constructor `CFX_FillRenderOptions::WindingOptions()`. -/
def CFX_FillRenderOptions.WindingOptions : CFX_FillRenderOptions :=
  CFX_FillRenderOptions.ofType .kWinding

/-- A `CFX_Path` handed to the device. -/
inductive CFX_Path where
  | doc (n : Nat)
  | emptyRect
  | floatRect (r : CFX_FloatRect)
  | glyph (n : Nat) (m : CFX_Matrix)
  | accum (r : Ref)
  deriving DecidableEq

/-- Pattern kinds, as `AsTilingPattern` and `AsShadingPattern` tell them apart. -/
inductive PatternKind where
  | tiling
  | shading
  | other
  deriving DecidableEq, Repr

/-- What the file reads of a `CPDF_Color`. -/
structure CPDF_Color where
  is_null : Bool
  is_pattern : Bool
  pattern : Option (Nat × PatternKind)
  deriving DecidableEq

/-- What the file reads of a `CPDF_ColorState`. -/
structure CPDF_ColorState where
  has_ref : Bool
  fill_color : CPDF_Color
  stroke_color : CPDF_Color
  fill_colorref : Nat
  stroke_colorref : Nat
  deriving DecidableEq

/-- What the file reads of a `CPDF_GeneralState`. -/
structure CPDF_GeneralState where
  blend_type : BlendMode
  soft_mask : Option Nat
  smask_matrix : CFX_Matrix
  fill_alpha : ℚ
  stroke_alpha : ℚ
  tr : Option Nat
  transfer_func : Option Nat
  stroke_adjust : Bool
  deriving DecidableEq

/-- What the file reads of a `CPDF_TextState`. -/
structure CPDF_TextState where
  font : Nat
  font_size : ℚ
  text_mode : TextRenderingMode
  ctm0 : ℚ
  ctm1 : ℚ
  ctm2 : ℚ
  ctm3 : ℚ
  deriving DecidableEq

/-- One sub-path of a clip path: `GetPath(i)` and `GetClipType(i)`. -/
structure ClipSubPath where
  path : Option Nat
  points_empty : Bool
  clip_type : FillType
  deriving DecidableEq

/-- The shared data behind a `CPDF_ClipPath` with a reference.  `texts` holds the text
objects used as a clip mask, a `none` entry being a break marker. -/
structure ClipPathData where
  ref : Ref
  paths : List ClipSubPath
  texts : List (Option Ref)
  deriving DecidableEq

/-- A `CPDF_ClipPath`: `none` is a clip path without a reference (`!HasRef()`). -/
abbrev CPDF_ClipPath := Option ClipPathData

/-- The comparison `operator==` of two clip paths: identity of the shared data. -/
def CPDF_ClipPath.same (x y : CPDF_ClipPath) : Bool :=
  match x, y with
  | none, none => true
  | some p, some q => p.ref == q.ref
  | _, _ => false

/-- The bundle `CPDF_GraphicStates`. -/
structure CPDF_GraphicStates where
  clip_path : CPDF_ClipPath
  graph_state : Nat
  color_state : CPDF_ColorState
  text_state : CPDF_TextState
  general_state : CPDF_GeneralState
  deriving DecidableEq

/-- The two flags of `CPDF_Transparency`. -/
structure CPDF_Transparency where
  isolated : Bool
  group : Bool
  deriving DecidableEq

/-- A page object.  `self` is its address (filled in when it is taken from a list); the
fields after `states` belong to one kind of object each. -/
structure CPDF_PageObject where
  self : Ref
  type : PageObjectType
  active : Bool
  rect : CFX_FloatRect
  states : CPDF_GraphicStates
  filltype : FillType
  stroke : Bool
  matrix : CFX_Matrix
  path : CFX_Path
  char_codes : List Nat
  char_positions : List ℚ
  text_matrix : CFX_Matrix
  image : Nat
  image_dict_has_smask : Bool
  shading_pattern : Nat
  form : Nat
  form_matrix : CFX_Matrix
  deriving DecidableEq

/-- A `CPDF_Form` (a `CPDF_PageObjectHolder`): its object list, a `none` entry being a null
pointer, and what the file reads of its dictionary. -/
structure CPDF_Form where
  objects : List (Option Ref)
  transparency : CPDF_Transparency
  dict_oc : Option Nat
  dict_resources : Option Nat
  bbox : CFX_FloatRect

/-- What the file reads of a `CPDF_Font`. -/
structure CPDF_Font where
  is_type3 : Bool
  has_face : Bool
  font_matrix : CFX_Matrix

/-- What the file reads of a `CPDF_Type3Char`. -/
structure CPDF_Type3Char where
  colored : Bool
  form : Nat
  sole_image : Bool
  bitmap : Option Nat
  matrix : CFX_Matrix

/-- What the file reads of a `CFX_GlyphBitmap`. -/
structure CFX_GlyphBitmap where
  bitmap : Nat
  left : Int
  top : Int
  is_mask : Bool
  width : Int
  height : Int
  deriving DecidableEq

/-- A slot of the `glyphs` vector: `TextGlyphPos`. -/
structure TextGlyphPos where
  glyph : Option CFX_GlyphBitmap
  origin_x : Int
  origin_y : Int
  deriving DecidableEq

/-- The values of `CPDF_ColorSpace::Family` the file tells apart. -/
inductive Family where
  | kUnknown
  | kLab
  | kICCBased
  | kOther (n : Nat)
  deriving DecidableEq, Repr

/-- What `GetBackgroundColor` reads of the colour space of a soft mask group, with the
colour `GetRGBOrZerosOnError` gives for the backdrop array. -/
structure ColorSpaceInfo where
  family : Family
  is_special : Bool
  is_normal : Bool
  red : ℚ
  green : ℚ
  blue : ℚ

/-- What the file reads of a soft mask dictionary: the parsed group form (`G`), the transfer
function (`TR`, when it is a dictionary or a stream and loads), the subtype, the backdrop
array (`BC`) and the colour space of the group. -/
structure SMaskDict where
  group : Option Nat
  func : Option Nat
  is_alpha : Bool
  has_bc : Bool
  colorspace : Option ColorSpaceInfo

/-- Colour modes of `CPDF_RenderOptions`. -/
inductive ColorMode where
  | kNormal
  | kGray
  | kAlpha
  | kForcedColor
  deriving DecidableEq, Repr

/-- The flags `CPDF_RenderOptions::Options` and the colour mode. -/
structure CPDF_RenderOptions where
  color_mode : ColorMode
  bRectAA : Bool
  bNoPathSmooth : Bool
  bNoTextSmooth : Bool
  bConvertFillToStroke : Bool
  bForceHalftone : Bool
  oc_context : Option Nat
  deriving DecidableEq

/-- A default constructed `CPDF_RenderOptions`. -/
def CPDF_RenderOptions.default : CPDF_RenderOptions :=
  ⟨.kNormal, false, false, false, false, false, none⟩

/-- The bits of `FXDC_RENDER_CAPS` the file tests. -/
structure RenderCaps where
  get_bits : Bool
  soft_clip : Bool
  alpha_output : Bool
  premultiplied_alpha : Bool
  deriving DecidableEq

/-! ## Calls on collaborators -/

/-- A call the file makes on a collaborator: the raster device, a bitmap, the text, image,
shading and tiling renderers, a scaled render buffer, the render context. -/
inductive Call where
  | SaveState
  | RestoreState (keep_saved : Bool)
  | SetClip_PathFill (path : CFX_Path) (mt : Option CFX_Matrix) (opts : CFX_FillRenderOptions)
  | SetClip_PathStroke (path : CFX_Path) (mt : CFX_Matrix) (graph_state : Nat)
  | SetClip_Rect (rect : FX_RECT)
  | DrawPath (path : CFX_Path) (mt : CFX_Matrix) (graph_state : Nat) (fill_argb : Nat)
      (stroke_argb : Nat) (opts : CFX_FillRenderOptions)
  | SetBitMask (bitmap : Ref) (left : Int) (top : Int) (argb : Nat)
  | SetDIBits (bitmap : Ref) (left : Int) (top : Int)
  | SetDIBitsWithBlend (bitmap : Ref) (left : Int) (top : Int) (blend : BlendMode)
  | StartDIBits (bitmap : Ref) (alpha : ℚ) (argb : Nat) (mt : CFX_Matrix)
  | GetDIBits (bitmap : Ref) (left : Int) (top : Int)
  | CreateCompatibleBitmap (bitmap : Ref) (width : Int) (height : Int)
  | MultiplyAlpha (alpha : ℚ)
  | MultiplyAlphaMask (mask : Ref)
  | Create (width : Int) (height : Int) (format : FXDIB_Format)
  | CreateWithBackdrop (width : Int) (height : Int) (format : FXDIB_Format)
      (backdrop : Option Ref)
  | Attach (bitmap : Ref)
  | Clear (argb : Nat)
  | ClipTo (clone : Ref) (rect : FX_RECT)
  | CompositeBitmap (left : Int) (top : Int) (width : Int) (height : Int) (source : Ref)
      (src_left : Int) (src_top : Int) (blend : BlendMode)
  | CompositeMask (left : Int) (top : Int) (width : Int) (height : Int) (mask : Ref)
      (argb : Nat) (src_left : Int) (src_top : Int) (blend : BlendMode)
  | DeriveMask (source : Ref) (luminosity : Bool) (func : Option Nat)
  | DrawTextPath (text : Ref) (font_size : ℚ) (text_matrix : CFX_Matrix)
      (mt : Option CFX_Matrix) (fill_argb : Nat) (stroke_argb : Nat)
      (clipping_path : Option Ref) (opts : CFX_FillRenderOptions)
  | DrawNormalText (text : Ref) (font_size : ℚ) (text_matrix : CFX_Matrix) (fill_argb : Nat)
      (options : CPDF_RenderOptions)
  | ShadingDraw (cur_obj : Option Ref) (pattern : Nat) (mt : CFX_Matrix) (rect : FX_RECT)
      (alpha : Int) (options : CPDF_RenderOptions)
  | ShadingLoad (pattern : Nat)
  | TilingLoad (pattern : Nat) (obj : Ref)
  | TilingDraw (screen : Ref) (obj : Ref) (pattern : Nat) (mt : CFX_Matrix) (clip_box : FX_RECT)
      (stroke : Bool)
  | ImageStart (obj : Ref) (mt : CFX_Matrix) (std_cs : Bool)
  | ImageStartBitmap (bitmap : Nat) (argb : Nat) (mt : CFX_Matrix)
  | ImageContinue (pause : Option Nat)
  | ScaledBufferInitialize (device : Ref) (obj : Ref) (rect : FX_RECT)
      (options : CPDF_RenderOptions) (res : Int)
  | OutputToDevice
  | ContextRender (stop_obj : Option Ref) (options : CPDF_RenderOptions) (mt : CFX_Matrix)
  deriving DecidableEq

/-- A logged call: the collaborator it was made on and the call. -/
structure Event where
  target : Ref
  call : Call
  deriving DecidableEq

/-! ## The state outside the render status -/

/-- The state shared by all render statuses: the process-wide recursion counter, the
highest value that counter has held (kept to state bounds on it), the allocation counter
and the call log. -/
structure G where
  depth : Nat
  peak : Nat
  fresh : Nat
  log : List Event
  deriving DecidableEq

/-- How a run ends: normally, in `NOTREACHED()` or a failed `CHECK`, or by using up the
fuel of the model. -/
inductive Res (α : Type) where
  | ok (a : α) (g : G)
  | aborted (g : G)
  | starved
  deriving DecidableEq

/-- A computation over the shared state. -/
def R (α : Type) : Type := G → Res α

/-- Sequencing: an abort or a lack of fuel ends the run. -/
def R.bind {α β : Type} (m : R α) (f : α → R β) : R β := fun g =>
  match m g with
  | .ok a g1 => f a g1
  | .aborted g1 => .aborted g1
  | .starved => .starved

instance : Monad R where
  pure a := fun g => .ok a g
  bind := R.bind

/-- The macro `NOTREACHED()` and a failed `CHECK`: the process ends. -/
def NOTREACHED {α : Type} : R α := fun g => .aborted g

/-- The call log so far. -/
def getLog : R (List Event) := fun g => .ok g.log g

/-- Allocation of a new object. -/
def alloc : R Ref := fun g => .ok (.fresh g.fresh) { g with fresh := g.fresh + 1 }

/-! ## The render status -/

/-- The members of `CPDF_RenderStatus`. -/
structure CPDF_RenderStatus where
  device_ : Ref
  options_ : CPDF_RenderOptions
  stop_obj_ : Option Ref
  transparency_ : CPDF_Transparency
  drop_objects_ : Bool
  std_cs_ : Bool
  load_mask_ : Bool
  group_family_ : Family
  in_group_ : Bool
  type3_char_ : Option Nat
  t3_fill_color_ : Nat
  type3_font_cache_ : List Nat
  form_resource_ : Option Nat
  page_resource_ : Option Nat
  device_matrix_ : CFX_Matrix
  initial_states_ : CPDF_GraphicStates
  print_ : Bool
  cur_obj_ : Option Ref
  last_clip_path_ : CPDF_ClipPath
  stopped_ : Bool
  image_renderer_ : Option Ref
  deriving DecidableEq

/-! ## Collaborators -/

/-- Everything the file takes from outside: the document, the platform, and what the
collaborators answer.  An answer depends on the call log so far. -/
structure Env where
  is_win : Bool
  is_apple : Bool
  use_skia : Bool
  pdf_use_skia : Bool
  obj : Ref → CPDF_PageObject
  form : Nat → CPDF_Form
  font : Nat → CPDF_Font
  smask : Nat → SMaskDict
  LoadChar : Nat → Nat → Option Nat
  type3char : Nat → CPDF_Type3Char
  LoadGlyph : Nat → Nat → CFX_Matrix → Option CFX_GlyphBitmap
  page_resources : Option Nat
  default_states : CPDF_GraphicStates
  result : List Event → Event → Bool
  GetClipBox : List Event → Ref → FX_RECT
  GetRenderCaps : List Event → Ref → RenderCaps
  IsPrinter : List Event → Ref → Bool
  GetBackDrop : List Event → Ref → Option Ref
  GetBitmap : List Event → Ref → Option Ref
  IsMaskFormat : List Event → Ref → Bool
  IsAlphaFormat : List Event → Ref → Bool
  GetWidth : List Event → Ref → Int
  GetHeight : List Event → Ref → Int
  GetResult : List Event → Ref → Bool
  ScaledBufferMatrix : List Event → Ref → CFX_Matrix
  CheckPageObjectVisible : CPDF_RenderOptions → CPDF_PageObject → Bool
  CheckOCGDictVisible : CPDF_RenderOptions → Nat → Bool
  TranslateColor : CPDF_RenderOptions → Nat → Nat
  TranslateObjectFillColor : CPDF_RenderOptions → Nat → PageObjectType → Nat
  TranslateObjectStrokeColor : CPDF_RenderOptions → Nat → PageObjectType → Nat
  GetTransferFunc : Nat → Option Nat
  TransferTranslateColor : Nat → Nat → Nat
  AlphaAndColorRefToArgb : Int → Nat → Nat
  HasFillColor : CPDF_ColorState → Bool
  HasStrokeColor : CPDF_ColorState → Bool
  Concat : CFX_Matrix → CFX_Matrix → CFX_Matrix
  GetInverse : CFX_Matrix → CFX_Matrix
  Translate : CFX_Matrix → ℚ → ℚ → CFX_Matrix
  Scale : CFX_Matrix → ℚ → ℚ → CFX_Matrix
  TransformRect : CFX_Matrix → CFX_FloatRect → CFX_FloatRect
  ToFloatRect : FX_RECT → CFX_FloatRect
  GetOuterRect : CFX_FloatRect → FX_RECT
  GetTransformedBBox : CPDF_PageObject → CFX_Matrix → FX_RECT
  Intersect : FX_RECT → FX_RECT → FX_RECT
  RectIsEmpty : FX_RECT → Bool
  RectValid : FX_RECT → Bool
  RoundF : ℚ → Int
  GetFlipMatrix : Int → Int → Int → Int → CFX_Matrix
  MulAlphaChannel : Nat → Int → Nat
  ArgbAlpha : Nat → Int
  pattern_to_form : Nat → CFX_Matrix
  new_path_object : CPDF_PageObject
  AppendTexts : List (Option Ref) → List Ref → List (Option Ref)
  GetOrigin : TextGlyphPos → Int → Int → Option (Int × Int)
  GetGlyphsBBox : List TextGlyphPos → FX_RECT
  SafeAdd : Int → Int → Option Int
  SafeSub : Int → Int → Option Int
  GetCharPosList : CPDF_PageObject → List (Option Nat × CFX_Matrix)
  ArgbEncode : Int → Int → Int → Int → Nat

/-! ## Helpers of the anonymous namespace -/

/-- The constant `kRenderMaxRecursionDepth`. -/
def kRenderMaxRecursionDepth : Nat := 64

/-- The conversion `static_cast<int32_t>` of a float: truncation towards zero. -/
def truncToInt (q : ℚ) : Int := if 0 ≤ q then ⌊q⌋ else ⌈q⌉

/-- The function `GetFillOptionsForDrawPathWithBlend`. -/
def GetFillOptionsForDrawPathWithBlend (options : CPDF_RenderOptions)
    (path_obj : CPDF_PageObject) (fill_type : FillType) (is_stroke : Bool)
    (is_type3_char : Bool) : CFX_FillRenderOptions :=
  let o := CFX_FillRenderOptions.ofType fill_type
  let o := if fill_type ≠ .kNoFill ∧ options.bRectAA then { o with rect_aa := true } else o
  let o := if options.bNoPathSmooth then { o with aliased_path := true } else o
  let o := if path_obj.states.general_state.stroke_adjust then { o with adjust_stroke := true }
    else o
  let o := if is_stroke then { o with stroke := true } else o
  if is_type3_char then { o with text_mode := true } else o

/-- The function `GetFillOptionsForDrawTextPath`. -/
def GetFillOptionsForDrawTextPath (options : CPDF_RenderOptions) (text_obj : CPDF_PageObject)
    (is_stroke : Bool) (is_fill : Bool) : CFX_FillRenderOptions :=
  let o := CFX_FillRenderOptions.default
  let o := if is_stroke ∧ is_fill then { o with stroke := true, stroke_text_mode := true }
    else o
  let o := if text_obj.states.general_state.stroke_adjust then { o with adjust_stroke := true }
    else o
  if options.bNoTextSmooth then { o with aliased_path := true } else o

/-- The function `GetFormatForLuminosity`. -/
def GetFormatForLuminosity (env : Env) (is_luminosity : Bool) : FXDIB_Format :=
  if !is_luminosity then .k8bppMask
  else if env.is_apple then .kBgrx
  else if env.use_skia then .kBgrx
  else .kBgr

/-- The function `IsAvailableMatrix`. -/
def IsAvailableMatrix (matrix : CFX_Matrix) : Bool :=
  if matrix.a = 0 ∨ matrix.d = 0 then matrix.b ≠ 0 ∧ matrix.c ≠ 0
  else if matrix.b = 0 ∨ matrix.c = 0 then matrix.a ≠ 0 ∧ matrix.d ≠ 0
  else true

/-- The function `MissingFillColor`. -/
def MissingFillColor (cs : CPDF_ColorState) : Bool := !cs.has_ref || cs.fill_color.is_null

/-- The function `MissingStrokeColor`. -/
def MissingStrokeColor (cs : CPDF_ColorState) : Bool := !cs.has_ref || cs.stroke_color.is_null

/-- The function `Type3CharMissingFillColor`. -/
def Type3CharMissingFillColor (env : Env) (pChar : Option Nat) (cs : CPDF_ColorState) : Bool :=
  match pChar with
  | none => false
  | some c => !(env.type3char c).colored || MissingFillColor cs

/-- The function `Type3CharMissingStrokeColor`. -/
def Type3CharMissingStrokeColor (env : Env) (pChar : Option Nat) (cs : CPDF_ColorState) :
    Bool :=
  match pChar with
  | none => false
  | some c => !(env.type3char c).colored || MissingStrokeColor cs

/-! ## Primitive steps -/

/-- A call on a collaborator: it is appended to the log, and answered from the log before
it and the call. -/
def call (env : Env) (target : Ref) (c : Call) : R Bool := fun g =>
  .ok (env.result g.log ⟨target, c⟩) { g with log := g.log ++ [⟨target, c⟩] }

/-- A question to a collaborator that changes nothing. -/
def ask {α : Type} (q : List Event → α) : R α := fun g => .ok (q g.log) g

/-- An object of the document, with its address. -/
def Env.deref (env : Env) (p : Ref) : CPDF_PageObject := { env.obj p with self := p }

/-- A default constructed `CPDF_GraphicStates`. -/
def CPDF_GraphicStates.empty : CPDF_GraphicStates where
  clip_path := none
  graph_state := 0
  color_state := ⟨false, ⟨true, false, none⟩, ⟨true, false, none⟩, 0, 0⟩
  text_state := ⟨0, 0, .MODE_FILL, 1, 0, 0, 1⟩
  general_state := ⟨.kNormal, none, CFX_Matrix.identity, 1, 1, none, none, false⟩

/-! ## Actions

The accessors of `core/fpdfdoc/cpdf_action.cpp`.  The dictionary and the document belong to
the parser layer; what the file reads of them are the fields below. -/

namespace CPDF_Action

/-- The table `kActionTypeStrings`. -/
def kActionTypeStrings : List String :=
  ["GoTo", "GoToR", "GoToE", "Launch", "Thread", "URI", "Sound", "Movie", "Hide", "Named",
    "SubmitForm", "ResetForm", "ImportData", "JavaScript", "SetOCGState", "Rendition", "Trans",
    "GoTo3DView"]

/-- The enumerators of `CPDF_Action::Type` the file names, by their underlying values.  The
enumeration is declared in `cpdf_action.h`, which is not among the sources, so the values are
parameters; a `Type` is its underlying value and `static_cast<Type>(n)` is `n`. -/
structure TypeValues where
  kUnknown : Nat
  kGoTo : Nat
  kGoToR : Nat
  kGoToE : Nat
  kLaunch : Nat
  kURI : Nat
  kSubmitForm : Nat
  kImportData : Nat
  kLast : Nat

/-- The numbering in which `kUnknown` is 0 and every other enumerator has the position of
its name in `kActionTypeStrings`, counted from 1. -/
def TypeValues.table : TypeValues := ⟨0, 1, 2, 3, 4, 6, 11, 13, 18⟩

/-- What the file reads of the action dictionary: the name at `S` (empty when there is
none), the direct objects at `D` and `F`, the byte string at `F` of the dictionary at `Win`
when there is one, and the byte string at `URI`. -/
structure CPDF_Dictionary where
  S : String
  D : Option Nat
  F : Option Nat
  Win : Option String
  URI : String

/-- What `GetURI` reads of the document: whether it has a root, whether the root has a
dictionary at `URI`, and the string of the `Base` entry of that dictionary when the entry is
a string or a stream. -/
structure CPDF_Document where
  has_root : Bool
  uri : Option (Option String)

/-- The helpers of other files the accessors call. -/
structure Helpers where
  ValidateDictOptionalType : Option CPDF_Dictionary → String → Bool
  CreateDest : CPDF_Document → Option Nat → Option Nat
  GetFileName : Nat → String
  FromDefANSI : String → String

/-- The member `dict_`; `none` is a null pointer. -/
structure Action where
  dict_ : Option CPDF_Dictionary

/-- The loop of `GetType` over the table, from index `i` on. -/
def GetType.loop (csType : String) : List String → Nat → Option Nat
  | [], _ => none
  | name :: rest, i => if csType = name then some (i + 1) else GetType.loop csType rest (i + 1)

/-- The method `GetType`.  The result `none` stands for the use of a null `dict_`. -/
def GetType (T : TypeValues) (h : Helpers) (a : Action) : Option Nat :=
  if !h.ValidateDictOptionalType a.dict_ "Action" then some T.kUnknown
  else
    match a.dict_ with
    | none => none
    | some dict =>
      let csType := dict.S
      if csType = "" then some T.kUnknown
      else
        match GetType.loop csType kActionTypeStrings 0 with
        | some type => some type
        | none => some T.kUnknown

/-- The method `GetDest`; a destination is the array it wraps, `none` being the null
destination `CPDF_Dest(nullptr)`. -/
def GetDest (T : TypeValues) (h : Helpers) (a : Action) (doc : CPDF_Document) :
    Option (Option Nat) :=
  match GetType T h a with
  | none => none
  | some type =>
    if type ≠ T.kGoTo ∧ type ≠ T.kGoToR ∧ type ≠ T.kGoToE then some none
    else
      match a.dict_ with
      | none => none
      | some dict => some (h.CreateDest doc dict.D)

/-- The method `GetFilePath`. -/
def GetFilePath (T : TypeValues) (h : Helpers) (a : Action) : Option String :=
  match GetType T h a with
  | none => none
  | some type =>
    if type ≠ T.kGoToR ∧ type ≠ T.kGoToE ∧ type ≠ T.kLaunch ∧ type ≠ T.kSubmitForm ∧
        type ≠ T.kImportData then some ""
    else
      match a.dict_ with
      | none => none
      | some dict =>
        match dict.F with
        | some pFile => some (h.GetFileName pFile)
        | none =>
          if type ≠ T.kLaunch then some ""
          else
            match dict.Win with
            | none => some ""
            | some f => some (h.FromDefANSI f)

/-- The method `ByteString::Find` for one character: the index of its first occurrence. -/
def Find (c : Char) : List Char → Option Nat
  | [] => none
  | x :: rest => if x = c then some 0 else (Find c rest).map (· + 1)

/-- The method `GetURI`. -/
def GetURI (T : TypeValues) (h : Helpers) (a : Action) (doc : CPDF_Document) :
    Option String :=
  match GetType T h a with
  | none => none
  | some type =>
    if type ≠ T.kURI then some ""
    else
      match a.dict_ with
      | none => none
      | some dict =>
        let csURI := dict.URI
        if !doc.has_root then none
        else
          match doc.uri with
          | some pURI =>
            let result := Find ':' csURI.toList
            if result = none ∨ result = some 0 then
              match pURI with
              | some base => some (base ++ csURI)
              | none => some csURI
            else some csURI
          | none => some csURI

/-- The type `GetType` returns as claim C14 words it: `kUnknown` when the name at `S` is
missing or not in the table, else the position of the name in the table. -/
def claimedType (T : TypeValues) (dict : CPDF_Dictionary) : Nat :=
  if dict.S = "" ∨ dict.S ∉ kActionTypeStrings then T.kUnknown
  else kActionTypeStrings.indexOf dict.S + 1

/-- Helpers for closed statements: a dictionary validates when `ok` holds. -/
def Demo.helpers (ok : Bool) : Helpers :=
  ⟨fun _ _ => ok, fun _ d => d, fun _ => "test.pdf", fun s => s⟩

/-- A launch action with a file specification. -/
def Demo.launch : Action := ⟨some ⟨"Launch", none, some 1, none, ""⟩⟩

/-- A go-to action. -/
def Demo.goTo : Action := ⟨some ⟨"GoTo", some 5, none, none, ""⟩⟩

/-- A document without an `URI` dictionary in its root. -/
def Demo.doc : CPDF_Document := ⟨true, none⟩

end CPDF_Action

/-! ## Character maps: the methods of core/fpdfapi/font/cpdf_cmap.cpp -/

namespace CPDF_CMap

/-- The enumeration `CIDCoding`, with the enumerators the file names and the value a CMap
starts with. -/
inductive CIDCoding where
  | kUNKNOWN
  | kGB
  | kBIG5
  | kJIS
  | kKOREA
  | kUCS2
  | kCID
  | kUTF16
  deriving DecidableEq

/-- The enumeration `CPDF_CMap::CodingScheme`. -/
inductive CodingScheme where
  | OneByte
  | TwoBytes
  | MixedTwoBytes
  | MixedFourBytes
  deriving DecidableEq

/-- A `CPDF_CMap::CodeRange`: the size of the characters and the arrays of four lower and
four upper bytes. -/
structure CodeRange where
  char_size_ : Nat
  lower_ : List Nat
  upper_ : List Nat
  deriving DecidableEq

/-- A `CPDF_CMap::CIDRange`; the codes are 32 bits wide, the CID 16 bits. -/
structure CIDRange where
  start_code_ : Nat
  end_code_ : Nat
  start_cid_ : Nat
  deriving DecidableEq

/-- The members of a `CPDF_CMap` the functions below read.  The embedded map is a pointer
into the tables of `fxcmap`; a vector is the list of its elements. -/
structure CMap where
  coding_ : CIDCoding
  coding_scheme_ : CodingScheme
  mixed_two_byte_leading_bytes_ : List Bool
  mixed_four_byte_leading_ranges_ : List CodeRange
  embed_map_ : Option Nat
  direct_charcode_to_cidtable_ : List Nat
  additional_charcode_to_cidmappings_ : List CIDRange
  deriving DecidableEq

/-- The inner `while` loop of `CheckFourByteCodeRange`: the number of leading bytes of
`codes`, counted from `iChar`, that lie within the bounds of the range. -/
def CheckFourByteCodeRange.matched (range : CodeRange) : List Nat → Nat → Nat
  | [], iChar => iChar
  | code :: rest, iChar =>
    if code < range.lower_.getD iChar 0 ∨ code > range.upper_.getD iChar 0 then iChar
    else CheckFourByteCodeRange.matched range rest (iChar + 1)

/-- The loop of `CheckFourByteCodeRange` over the ranges, which are given last first. -/
def CheckFourByteCodeRange.loop (codes : List Nat) : List CodeRange → Nat
  | [] => 0
  | range :: rest =>
    if range.char_size_ < codes.length then CheckFourByteCodeRange.loop codes rest
    else
      let iChar := CheckFourByteCodeRange.matched range codes 0
      if iChar = range.char_size_ then 2
      else if iChar ≠ 0 then (if codes.length = range.char_size_ then 2 else 1)
      else CheckFourByteCodeRange.loop codes rest

/-- The function `CheckFourByteCodeRange`: 2 for a character, 1 for the start of one, 0
otherwise. -/
def CheckFourByteCodeRange (codes : List Nat) (ranges : List CodeRange) : Nat :=
  CheckFourByteCodeRange.loop codes ranges.reverse

/-- The character code `GetNextChar` makes of the bytes of a character: each step shifts
the 32-bit code by a byte and adds the next byte. -/
def GetNextChar.charcode (codes : List Nat) : Nat :=
  codes.foldl (fun charcode code => (charcode <<< 8 + code) % 2 ^ 32) 0

/-- The `while (true)` loop of `GetNextChar` for `MixedFourBytes`: `codes` are the
`char_size` bytes read so far and the first argument is `4 - char_size`.  The result is the
character code and the offset; there is none where the code reads the string out of
range. -/
def GetNextChar.four (ranges : List CodeRange) (pBytes : List Nat) :
    Nat → List Nat → Nat → Option (Nat × Nat)
  | 0, codes, offset =>
    if CheckFourByteCodeRange codes ranges = 0 then some (0, offset)
    else if CheckFourByteCodeRange codes ranges = 2 then
      some (GetNextChar.charcode codes, offset)
    else some (0, offset)
  | room + 1, codes, offset =>
    if CheckFourByteCodeRange codes ranges = 0 then some (0, offset)
    else if CheckFourByteCodeRange codes ranges = 2 then
      some (GetNextChar.charcode codes, offset)
    else if offset = pBytes.length then some (0, offset)
    else
      match pBytes[offset]? with
      | some code => GetNextChar.four ranges pBytes room (codes ++ [code]) (offset + 1)
      | none => none

/-- The expression `offset < pBytes.size() ? pBytes[offset++] : 0`: the byte and the
offset. -/
def GetNextChar.next (pBytes : List Nat) (offset : Nat) : Nat × Nat :=
  match pBytes[offset]? with
  | some byte => (byte, offset + 1)
  | none => (0, offset)

/-- The method `CPDF_CMap::GetNextChar`: the character code and the offset after the call.
There is no result where the code indexes a vector or the string out of range. -/
def GetNextChar (cmap : CMap) (pString : List Nat) (offset : Nat) : Option (Nat × Nat) :=
  match cmap.coding_scheme_ with
  | .OneByte => some (GetNextChar.next pString offset)
  | .TwoBytes =>
    let byte1 := GetNextChar.next pString offset
    let byte2 := GetNextChar.next pString byte1.2
    some (256 * byte1.1 + byte2.1, byte2.2)
  | .MixedTwoBytes =>
    let byte1 := GetNextChar.next pString offset
    match cmap.mixed_two_byte_leading_bytes_[byte1.1]? with
    | none => none
    | some false => some (byte1.1, byte1.2)
    | some true =>
      let byte2 := GetNextChar.next pString byte1.2
      some (256 * byte1.1 + byte2.1, byte2.2)
  | .MixedFourBytes =>
    let code0 := GetNextChar.next pString offset
    GetNextChar.four cmap.mixed_four_byte_leading_ranges_ pString 3 [code0.1] code0.2

/-- How a loop of the model ends: with a count, in an access out of range, or out of the
fuel of the model. -/
inductive Steps where
  | count (n : Nat)
  | fault
  | starved
  deriving DecidableEq

/-- The loop of `CountChar` for `MixedTwoBytes`, from the index `i` with `count` characters
counted; `fuel` bounds the iterations. -/
def CountChar.mixed (leading : List Bool) (pString : List Nat) : Nat → Nat → Nat → Steps
  | 0, i, count => if i < pString.length then .starved else .count count
  | fuel + 1, i, count =>
    match pString[i]? with
    | none => .count count
    | some byte =>
      match leading[byte]? with
      | none => .fault
      | some true => CountChar.mixed leading pString fuel (i + 1 + 1) (count + 1)
      | some false => CountChar.mixed leading pString fuel (i + 1) (count + 1)

/-- The loop `while (offset < pString.GetLength())` of `CountChar` for `MixedFourBytes`;
`fuel` bounds the iterations. -/
def CountChar.four (cmap : CMap) (pString : List Nat) : Nat → Nat → Nat → Steps
  | 0, offset, count => if offset < pString.length then .starved else .count count
  | fuel + 1, offset, count =>
    if offset < pString.length then
      match GetNextChar cmap pString offset with
      | none => .fault
      | some next => CountChar.four cmap pString fuel next.2 (count + 1)
    else .count count

/-- The method `CPDF_CMap::CountChar`.  The loops get as much fuel as the string has
bytes. -/
def CountChar (cmap : CMap) (pString : List Nat) : Steps :=
  match cmap.coding_scheme_ with
  | .OneByte => .count pString.length
  | .TwoBytes => .count ((pString.length + 1) / 2)
  | .MixedTwoBytes =>
    CountChar.mixed cmap.mixed_two_byte_leading_bytes_ pString pString.length 0 0
  | .MixedFourBytes => CountChar.four cmap pString pString.length 0 0

/-- The inner `while` loop of `GetFourByteCharSizeImpl`: the number of the bytes of
`codes`, counted from `iChar`, that lie within the bounds of the range. -/
def GetFourByteCharSizeImpl.matched (range : CodeRange) : List Nat → Nat → Nat
  | [], iChar => iChar
  | code :: rest, iChar =>
    if code < range.lower_.getD iChar 0 ∨ code > range.upper_.getD iChar 0 then iChar
    else GetFourByteCharSizeImpl.matched range rest (iChar + 1)

/-- The loop of `GetFourByteCharSizeImpl` over the ranges, given last first, for the last
`size` bytes `codes`. -/
def GetFourByteCharSizeImpl.ranges (codes : List Nat) : List CodeRange → Bool
  | [] => false
  | range :: rest =>
    if range.char_size_ < codes.length then GetFourByteCharSizeImpl.ranges codes rest
    else if GetFourByteCharSizeImpl.matched range codes 0 = range.char_size_ then true
    else GetFourByteCharSizeImpl.ranges codes rest

/-- The loop of `GetFourByteCharSizeImpl` over the offsets: `codes` are the bytes from the
offset on. -/
def GetFourByteCharSizeImpl.offsets (ranges : List CodeRange) : List Nat → Nat
  | [] => 1
  | code :: rest =>
    if GetFourByteCharSizeImpl.ranges (code :: rest) ranges.reverse then (code :: rest).length
    else GetFourByteCharSizeImpl.offsets ranges rest

/-- The function `GetFourByteCharSizeImpl`. -/
def GetFourByteCharSizeImpl (charcode : Nat) (ranges : List CodeRange) : Nat :=
  if ranges = [] then 1
  else
    GetFourByteCharSizeImpl.offsets ranges
      [0, 0, (charcode >>> 8 &&& 0xFF) % 256, charcode % 256]

/-- The conversion `static_cast<char>(n)`: the low byte. -/
def toChar (n : Nat) : Nat := n % 256

/-- The method `CPDF_CMap::AppendChar`: the string with the bytes of the character code
appended.  There is no result where the code indexes the vector of leading bytes out of
range. -/
def AppendChar (cmap : CMap) (str : List Nat) (charcode : Nat) : Option (List Nat) :=
  match cmap.coding_scheme_ with
  | .OneByte => some (str ++ [toChar charcode])
  | .TwoBytes => some (str ++ [toChar (charcode / 256), toChar (charcode % 256)])
  | .MixedTwoBytes =>
    if charcode < 0x100 then
      match cmap.mixed_two_byte_leading_bytes_[charcode]? with
      | none => none
      | some false => some (str ++ [toChar charcode])
      | some true => some (str ++ [toChar (charcode >>> 8), toChar charcode])
    else some (str ++ [toChar (charcode >>> 8), toChar charcode])
  | .MixedFourBytes =>
    if charcode < 0x100 then
      let iSize := GetFourByteCharSizeImpl charcode cmap.mixed_four_byte_leading_ranges_
      let pad := if iSize ≠ 0 then iSize - 1 else 0
      some (str ++ List.replicate pad (toChar 0) ++ [toChar charcode])
    else if charcode < 0x10000 then
      some (str ++ [toChar (charcode >>> 8), toChar charcode])
    else if charcode < 0x1000000 then
      some (str ++ [toChar (charcode >>> 16), toChar (charcode >>> 8), toChar charcode])
    else
      some (str ++ [toChar (charcode >>> 24), toChar (charcode >>> 16), toChar (charcode >>> 8),
        toChar charcode])
/-- The order of the `std::sort` call in `SetAdditionalMappings`, by end code. -/
abbrev endCodeLE (arg1 arg2 : CIDRange) : Prop := arg1.end_code_ ≤ arg2.end_code_

/-- The method `CPDF_CMap::SetAdditionalMappings`.  `std::sort` is an insertion sort here;
what is used of it is that its result is a permutation of the ranges in ascending order of
the end code. -/
def SetAdditionalMappings (cmap : CMap) (mappings : List CIDRange) : CMap :=
  if cmap.coding_scheme_ ≠ .MixedFourBytes ∨ mappings = [] then cmap
  else { cmap with additional_charcode_to_cidmappings_ := mappings.insertionSort endCodeLE }

/-- The call `std::ranges::lower_bound` of `CIDFromCharCode` on the sorted ranges: the first
range whose end code is not below the character code. -/
def lower_bound (ranges : List CIDRange) (charcode : Nat) : Option CIDRange :=
  ranges.find? fun range => !decide (range.end_code_ < charcode)

/-- The method `CPDF_CMap::CIDFromCharCode`; `embedded` is `fxcmap::CIDFromCharCode`.  The
result is 16 bits wide, the arithmetic on the codes 32 bits. -/
def CIDFromCharCode (embedded : Nat → Nat → Nat) (cmap : CMap) (charcode : Nat) : Nat :=
  if cmap.coding_ = .kCID then charcode % 2 ^ 16
  else
    match cmap.embed_map_ with
    | some map => embedded map charcode % 2 ^ 16
    | none =>
      if cmap.direct_charcode_to_cidtable_ = [] then charcode % 2 ^ 16
      else
        match cmap.direct_charcode_to_cidtable_[charcode]? with
        | some cid => cid
        | none =>
          match lower_bound cmap.additional_charcode_to_cidmappings_ charcode with
          | none => 0
          | some it =>
            if it.start_code_ > charcode then 0
            else (it.start_cid_ + charcode + 2 ^ 32 - it.start_code_) % 2 ^ 32 % 2 ^ 16

/-! ### Definitions in the words of the claims -/

/-- The successive `GetNextChar` calls that move the offset to the end of the string: their
number, from the offset `offset` on; `fuel` bounds the calls. -/
def callsToEnd (cmap : CMap) (pString : List Nat) : Nat → Nat → Steps
  | 0, offset => if offset < pString.length then .starved else .count 0
  | fuel + 1, offset =>
    if offset < pString.length then
      match GetNextChar cmap pString offset with
      | none => .fault
      | some next =>
        match callsToEnd cmap pString fuel next.2 with
        | .count n => .count (n + 1)
        | .fault => .fault
        | .starved => .starved
    else .count 0

/-- The character codes claim C25 speaks of: those `GetNextChar` returns from a complete
character of the coding scheme. -/
def roundTripCode (cmap : CMap) (c : Nat) : Prop :=
  match cmap.coding_scheme_ with
  | .OneByte => c < 256
  | .TwoBytes => c < 65536
  | .MixedTwoBytes =>
    (c < 256 ∧ cmap.mixed_two_byte_leading_bytes_[c]? = some false) ∨
      (256 ≤ c ∧ c < 65536 ∧ cmap.mixed_two_byte_leading_bytes_[c / 256]? = some true)
  | .MixedFourBytes => False

/-- The range contains the character code. -/
def CIDRange.contains (range : CIDRange) (c : Nat) : Prop :=
  range.start_code_ ≤ c ∧ c ≤ range.end_code_

/-- Two ranges have no character code in common. -/
def CIDRange.disjoint (r1 r2 : CIDRange) : Prop := ∀ c, ¬ (r1.contains c ∧ r2.contains c)

/-- A CMap of the demo: the coding scheme `MixedTwoBytes` with the leading bytes `0x81` to
`0xfe`, as `LoadLeadingSegments` makes them for `GBK-EUC`. -/
def Demo.gbk : CMap :=
  ⟨.kGB, .MixedTwoBytes, (List.range 256).map (fun b => decide (0x81 ≤ b ∧ b ≤ 0xfe)), [], none,
    [], []⟩

/-- A count with `count` added. -/
def Steps.bump (count : Nat) : Steps → Steps
  | .count n => .count (count + n)
  | .fault => .fault
  | .starved => .starved

/-- A CMap of the demo with the coding scheme `MixedFourBytes` and code ranges for
characters of one byte (`0x00` to `0x80`) and of two bytes (`0x81 0x40` to `0xfe 0xfe`). -/
def Demo.four : CMap :=
  ⟨.kUNKNOWN, .MixedFourBytes, [], [⟨1, [0, 0, 0, 0], [0x80, 0, 0, 0]⟩,
    ⟨2, [0x81, 0x40, 0, 0], [0xfe, 0xfe, 0, 0]⟩], none, List.replicate 4 0, []⟩

instance : DecidableRel endCodeLE := fun arg1 arg2 =>
  inferInstanceAs (Decidable (arg1.end_code_ ≤ arg2.end_code_))

instance : IsTotal CIDRange endCodeLE := ⟨fun arg1 arg2 => Nat.le_total _ _⟩

instance : IsTrans CIDRange endCodeLE := ⟨fun _ _ _ h1 h2 => Nat.le_trans h1 h2⟩

/-- Two ranges of the demo: the first has its start code above its end code and so contains
no character code, the second contains `70001` to `70007`. -/
def Demo.ranges : List CIDRange := [⟨70010, 70005, 1⟩, ⟨70001, 70007, 5⟩]

/-- Two ranges of the demo that contain character codes, given with the higher one first. -/
def Demo.sound : List CIDRange := [⟨70010, 70020, 1⟩, ⟨70001, 70007, 5⟩]

end CPDF_CMap

/-! ## Wide strings: the UTF-8 decoder of core/fxcrt/widestring.cpp -/

namespace WideString

/-- Modelled from the spec: the constant `pdfium::kMaximumSupplementaryCodePoint`, which is
declared outside the sources; it is the code point U+10FFFF the comment in
`AppendCodePointToWideString` names. -/
def kMaximumSupplementaryCodePoint : Nat := 0x10FFFF

/-- Modelled from the spec: the constant `pdfium::kMinimumSupplementaryCodePoint`, which is
declared outside the sources; it is the first code point that UTF-16 encodes as a surrogate
pair, U+10000. -/
def kMinimumSupplementaryCodePoint : Nat := 0x10000

/-- The function `AppendCodePointToWideString`.  `wchar16` says that `WCHAR_T_IS_16_BIT` is
defined and `pair` gives the high and the low surrogate of `pdfium::SurrogatePair`; a wide
string is the list of its characters. -/
def AppendCodePointToWideString (wchar16 : Bool) (pair : Nat → Nat × Nat) (code_point : Nat)
    (buffer : List Nat) : List Nat :=
  if code_point > kMaximumSupplementaryCodePoint then buffer
  else if wchar16 then
    if code_point < kMinimumSupplementaryCodePoint then buffer ++ [code_point % 2 ^ 16]
    else buffer ++ [(pair code_point).1, (pair code_point).2]
  else buffer ++ [code_point]

/-- The local variables of `UTF8Decode`. -/
structure DecodeState where
  buffer : List Nat
  remaining : Int
  code_point : Nat
  deriving DecidableEq

/-- The body of the loop of `UTF8Decode` for one byte. -/
def UTF8Decode.step (wchar16 : Bool) (pair : Nat → Nat × Nat) (st : DecodeState) (byte : Nat) :
    DecodeState :=
  let code_unit := byte % 256
  if code_unit < 0x80 then
    { st with
      remaining := 0,
      buffer := AppendCodePointToWideString wchar16 pair code_unit st.buffer }
  else if code_unit < 0xc0 then
    if st.remaining > 0 then
      let remaining := st.remaining - 1
      let code_point := (st.code_point <<< 6) % 2 ^ 32 ||| (code_unit &&& 0x3f)
      if remaining = 0 then
        { remaining := remaining, code_point := code_point,
          buffer := AppendCodePointToWideString wchar16 pair code_point st.buffer }
      else { st with remaining := remaining, code_point := code_point }
    else st
  else if code_unit < 0xe0 then { st with remaining := 1, code_point := code_unit &&& 0x1f }
  else if code_unit < 0xf0 then { st with remaining := 2, code_point := code_unit &&& 0x0f }
  else if code_unit < 0xf8 then { st with remaining := 3, code_point := code_unit &&& 0x07 }
  else { st with remaining := 0 }

/-- The loop of `UTF8Decode` over the bytes. -/
def UTF8Decode.loop (wchar16 : Bool) (pair : Nat → Nat × Nat) :
    List Nat → DecodeState → DecodeState
  | [], st => st
  | byte :: rest, st =>
    UTF8Decode.loop wchar16 pair rest (UTF8Decode.step wchar16 pair st byte)

/-- The function `UTF8Decode`. -/
def UTF8Decode (wchar16 : Bool) (pair : Nat → Nat × Nat) (bsStr : List Nat) : List Nat :=
  (UTF8Decode.loop wchar16 pair bsStr ⟨[], 0, 0⟩).buffer

/-- The method `WideString::FromUTF8`. -/
def FromUTF8 (wchar16 : Bool) (pair : Nat → Nat × Nat) (str : List Nat) : List Nat :=
  UTF8Decode wchar16 pair str

/-! ### Definitions in the words of the claim -/

/-- The standard UTF-8 encoding of a value below `0x200000`, which covers the code points:
one byte below `0x80`, two below `0x800`, three below `0x10000`, four otherwise. -/
def encode (cp : Nat) : List Nat :=
  if cp < 0x80 then [cp]
  else if cp < 0x800 then [0xc0 + cp / 64, 0x80 + cp % 64]
  else if cp < 0x10000 then [0xe0 + cp / 4096, 0x80 + cp / 64 % 64, 0x80 + cp % 64]
  else [0xf0 + cp / 262144, 0x80 + cp / 4096 % 64, 0x80 + cp / 64 % 64, 0x80 + cp % 64]

/-- A piece of an input: the sequence of a value below `0x200000`, or a byte that cannot
start or continue a sequence where it stands (a continuation byte with no sequence open, or
a byte from `0xf8` on). -/
inductive Piece where
  | sequence (value : Nat)
  | stray (byte : Nat)
  deriving DecidableEq

/-- The bytes of a piece. -/
def Piece.bytes : Piece → List Nat
  | .sequence value => encode value
  | .stray byte => [byte]

/-- The character a piece stands for: the value of a sequence when it is a code point, at
most U+10FFFF; nothing for a sequence of a higher value and for a stray byte. -/
def Piece.character : Piece → Option Nat
  | .sequence value => if value ≤ 0x10FFFF then some value else none
  | .stray _ => none

/-- A piece as the claim takes it: a value below `0x200000`, or a byte that is a
continuation byte or lies from `0xf8` on. -/
def Piece.wellFormed : Piece → Prop
  | .sequence value => value < 0x200000
  | .stray byte => (0x80 ≤ byte ∧ byte < 0xc0) ∨ (0xf8 ≤ byte ∧ byte < 0x100)

end WideString

/-! ## JavaScript globals: the methods of cjs_global.cpp -/

namespace CJS_Global

/-- The enumeration `CFX_Value::DataType`. -/
inductive DataType where
  | kNumber
  | kBoolean
  | kString
  | kObject
  | kNull
  deriving DecidableEq

/-- The messages of `JSMessage` the file names. -/
inductive JSMessage where
  | kParamError
  | kGlobalNotFoundError
  | kUnknownProperty
  | kObjectTypeError
  deriving DecidableEq

/-- A value of the JavaScript engine, as far as the file tells values apart; an object is
given by its address in the heap of the engine. -/
inductive V8Value where
  | undefined
  | null
  | number (d : ℚ)
  | boolean (b : Bool)
  | string (s : String)
  | object (address : Nat)
  | other
  deriving DecidableEq

/-- A `CJS_Result`: success without or with a return value, or failure with a message. -/
inductive CJS_Result where
  | Success (ret : Option V8Value)
  | Failure (err : JSMessage)
  deriving DecidableEq

/-- The result `v8::Intercepted` of an interceptor. -/
inductive Intercepted where
  | kYes
  | kNo
  deriving DecidableEq

/-- A `CFX_KeyValue`: a key with a `CFX_Value`, whose object data is a list of key values. -/
inductive CFX_KeyValue where
  | mk (sKey : String) (nType : DataType) (dData : ℚ) (bData : Bool) (sData : String)
      (objData : List CFX_KeyValue)

/-- The key of a key value. -/
def CFX_KeyValue.sKey : CFX_KeyValue → String
  | .mk sKey _ _ _ _ _ => sKey

/-- The type of a key value. -/
def CFX_KeyValue.nType : CFX_KeyValue → DataType
  | .mk _ nType _ _ _ _ => nType

/-- The number of a key value. -/
def CFX_KeyValue.dData : CFX_KeyValue → ℚ
  | .mk _ _ dData _ _ _ => dData

/-- The boolean of a key value. -/
def CFX_KeyValue.bData : CFX_KeyValue → Bool
  | .mk _ _ _ bData _ _ => bData

/-- The string of a key value. -/
def CFX_KeyValue.sData : CFX_KeyValue → String
  | .mk _ _ _ _ sData _ => sData

/-- The object data of a key value. -/
def CFX_KeyValue.objData : CFX_KeyValue → List CFX_KeyValue
  | .mk _ _ _ _ _ objData => objData

/-- A `CFX_GlobalData::Element`: a stored global. -/
structure Element where
  data : CFX_KeyValue
  bPersistent : Bool

/-- A `CJS_Global::JSGlobalData`; the handle `pData` is the address of an object, or
empty. -/
structure JSGlobalData where
  nType : DataType
  dData : ℚ
  bData : Bool
  sData : String
  pData : Option Nat
  bPersistent : Bool
  bDeleted : Bool
  deriving DecidableEq

/-- The heap of the JavaScript engine: the properties of each object, by address. -/
abbrev Heap : Type := List (List (String × V8Value))

/-- What the engine decides: whether the handle of the next new object is empty, the
conversions of values, and a default constructed `JSGlobalData`, whose class is declared
outside the sources. -/
structure Engine where
  emptyHandle : Nat → Bool
  ToByteString : V8Value → String
  ToBoolean : V8Value → Bool
  ToDouble : V8Value → ℚ
  ToObject : V8Value → Option Nat
  fresh : JSGlobalData

/-- The members of a `CJS_Global`: the map of the globals in key order, the stored globals
and the address of the JavaScript object of the global object (`ToV8Object()`). -/
structure Global where
  map_global_ : List (String × JSGlobalData)
  global_data_ : List Element
  self : Nat

/-- The call `map_global_.find(propname)`: the data at the key, if there is an entry. -/
def find (map_global : List (String × JSGlobalData)) (propname : String) :
    Option JSGlobalData :=
  (map_global.find? fun entry => entry.1 = propname).map fun entry => entry.2

/-- An assignment through the iterator `it`: the data of the first entry at the key is
changed. -/
def assign (f : JSGlobalData → JSGlobalData) (propname : String) :
    List (String × JSGlobalData) → List (String × JSGlobalData)
  | [] => []
  | entry :: rest =>
    if entry.1 = propname then (entry.1, f entry.2) :: rest
    else entry :: assign f propname rest

/-- The assignment `map_global_[propname] = ...` for a key that has no entry: the entry is
put at its place in key order. -/
def insert (propname : String) (data : JSGlobalData) :
    List (String × JSGlobalData) → List (String × JSGlobalData)
  | [] => [(propname, data)]
  | entry :: rest =>
    if propname < entry.1 then (propname, data) :: entry :: rest
    else entry :: insert propname data rest

/-- The method `CJS_Global::HasProperty`. -/
def HasProperty (g : Global) (propname : String) : Bool :=
  (find g.map_global_ propname).isSome

/-- The method `CJS_Global::DelProperty`. -/
def DelProperty (g : Global) (propname : String) : Bool × Global :=
  match find g.map_global_ propname with
  | none => (false, g)
  | some _ =>
    (true, { g with
      map_global_ := assign (fun data => { data with bDeleted := true }) propname
        g.map_global_ })

/-- The function `CJS_Global::queryprop_static`: whether the query is intercepted, and the
attributes it returns (`v8::PropertyAttribute::None` is 0). -/
def queryprop_static (pObj : Option Global) (property : String) : Intercepted × Option Int :=
  match pObj with
  | none => (.kNo, none)
  | some g => if !HasProperty g property then (.kNo, none) else (.kYes, some 0)

/-- The method `CJS_Global::GetProperty`. -/
def GetProperty (g : Global) (propname : String) : CJS_Result :=
  match find g.map_global_ propname with
  | none => .Success none
  | some pData =>
    if pData.bDeleted then .Success none
    else
      match pData.nType with
      | .kNumber => .Success (some (.number pData.dData))
      | .kBoolean => .Success (some (.boolean pData.bData))
      | .kString => .Success (some (.string pData.sData))
      | .kObject =>
        .Success (some (match pData.pData with
          | some address => V8Value.object address
          | none => V8Value.undefined))
      | .kNull => .Success (some .null)

/-- The method `CJS_Global::SetGlobalVariables`. -/
def SetGlobalVariables (engine : Engine) (g : Global) (propname : String) (nType : DataType)
    (dData : ℚ) (bData : Bool) (sData : String) (pData : Option Nat)
    (bDefaultPersistent : Bool) : CJS_Result × Global :=
  if propname = "" then (.Failure .kUnknownProperty, g)
  else
    match find g.map_global_ propname with
    | some _ =>
      let update := fun (pTemp : JSGlobalData) =>
        let pTemp :=
          if pTemp.bDeleted ∨ pTemp.nType ≠ nType then
            { pTemp with dData := 0, bData := false, sData := "", nType := nType }
          else pTemp
        let pTemp := { pTemp with bDeleted := false }
        match nType with
        | .kNumber => { pTemp with dData := dData }
        | .kBoolean => { pTemp with bData := bData }
        | .kString => { pTemp with sData := sData }
        | .kObject => { pTemp with pData := pData }
        | .kNull => pTemp
      (.Success none, { g with map_global_ := assign update propname g.map_global_ })
    | none =>
      let pNewData : JSGlobalData :=
        match nType with
        | .kNumber =>
          { engine.fresh with nType := .kNumber, dData := dData,
                              bPersistent := bDefaultPersistent }
        | .kBoolean =>
          { engine.fresh with nType := .kBoolean, bData := bData,
                              bPersistent := bDefaultPersistent }
        | .kString =>
          { engine.fresh with nType := .kString, sData := sData,
                              bPersistent := bDefaultPersistent }
        | .kObject =>
          { engine.fresh with nType := .kObject, pData := pData,
                              bPersistent := bDefaultPersistent }
        | .kNull => { engine.fresh with nType := .kNull, bPersistent := bDefaultPersistent }
      (.Success none, { g with map_global_ := insert propname pNewData g.map_global_ })

/-- The method `CJS_Global::SetProperty`. -/
def SetProperty (engine : Engine) (g : Global) (propname : String) (vp : V8Value) :
    CJS_Result × Global :=
  match vp with
  | .number _ =>
    SetGlobalVariables engine g propname .kNumber (engine.ToDouble vp) false "" none false
  | .boolean _ =>
    SetGlobalVariables engine g propname .kBoolean 0 (engine.ToBoolean vp) "" none false
  | .string _ =>
    SetGlobalVariables engine g propname .kString 0 false (engine.ToByteString vp) none false
  | .object _ =>
    SetGlobalVariables engine g propname .kObject 0 false "" (engine.ToObject vp) false
  | .null => SetGlobalVariables engine g propname .kNull 0 false "" none false
  | .undefined => (.Success none, (DelProperty g propname).2)
  | .other => (.Failure .kObjectTypeError, g)

/-- The method `CJS_Global::EnumProperties`: the elements of the array it returns. -/
def EnumProperties (g : Global) : List V8Value :=
  g.map_global_.filterMap fun it => if it.2.bDeleted then none else some (.string it.1)

/-- The method `CJS_Global::setPersistent`. -/
def setPersistent (engine : Engine) (g : Global) (params : List V8Value) :
    CJS_Result × Global :=
  match params with
  | [name, flag] =>
    match find g.map_global_ (engine.ToByteString name) with
    | none => (.Failure .kGlobalNotFoundError, g)
    | some data =>
      if data.bDeleted then (.Failure .kGlobalNotFoundError, g)
      else
        (.Success none, { g with
          map_global_ := assign (fun data => { data with bPersistent := engine.ToBoolean flag })
            (engine.ToByteString name) g.map_global_ })
  | _ => (.Failure .kParamError, g)

/-- The call `pRuntime->NewObject()`: the address of the new object, or an empty handle, and
the heap. -/
def NewObject (engine : Engine) (heap : Heap) : Option Nat × Heap :=
  if engine.emptyHandle heap.length then (none, heap) else (some heap.length, heap ++ [[]])

/-- A property is set on a list of properties. -/
def setProperty (key : String) (value : V8Value) :
    List (String × V8Value) → List (String × V8Value)
  | [] => [(key, value)]
  | entry :: rest =>
    if entry.1 = key then (key, value) :: rest else entry :: setProperty key value rest

/-- The call `pRuntime->PutObjectProperty(pObj, key, value)` of the engine. -/
def RuntimePutObjectProperty (heap : Heap) (pObj : Nat) (key : String) (value : V8Value) :
    Heap :=
  heap.modify (setProperty key value) pObj

mutual
/-- The method `CJS_Global::PutObjectProperty`.  `live` says that `GetRuntime()` is not
null; there is no result where the null pointer is dereferenced. -/
def PutObjectProperty (engine : Engine) (live : Bool) (heap : Heap) (pObj : Nat) :
    CFX_KeyValue → Option Heap
  | .mk _ _ _ _ _ objData =>
    if live then some heap
    else PutObjectProperty.loop engine live heap pObj objData
/-- The loop of `CJS_Global::PutObjectProperty` over the object data, reached with a null
runtime pointer only, which every case dereferences. -/
def PutObjectProperty.loop (engine : Engine) (live : Bool) (heap : Heap) (pObj : Nat) :
    List CFX_KeyValue → Option Heap
  | [] => some heap
  | pObjData :: rest =>
    if !live then none
    else
      match pObjData with
      | .mk sKey nType dData bData sData objData =>
        match nType with
        | .kNumber =>
          PutObjectProperty.loop engine live
            (RuntimePutObjectProperty heap pObj sKey (.number dData)) pObj rest
        | .kBoolean =>
          PutObjectProperty.loop engine live
            (RuntimePutObjectProperty heap pObj sKey (.boolean bData)) pObj rest
        | .kString =>
          PutObjectProperty.loop engine live
            (RuntimePutObjectProperty heap pObj sKey (.string sData)) pObj rest
        | .kObject =>
          match NewObject engine heap with
          | (none, heap1) => PutObjectProperty.loop engine live heap1 pObj rest
          | (some pNewObj, heap1) =>
            match PutObjectProperty engine live heap1 pNewObj
                (.mk sKey nType dData bData sData objData) with
            | none => none
            | some heap2 =>
              PutObjectProperty.loop engine live
                (RuntimePutObjectProperty heap2 pObj sKey (.object pNewObj)) pObj rest
        | .kNull =>
          PutObjectProperty.loop engine live
            (RuntimePutObjectProperty heap pObj sKey .null) pObj rest
end
/-- The loop of `CJS_Global::UpdateGlobalPersistentVariables` over the stored globals, run
with a runtime; `live` is what `GetRuntime()` gives inside `PutObjectProperty`. -/
def UpdateGlobalPersistentVariables.loop (engine : Engine) (live : Bool) :
    List Element → Global → Heap → Option (Global × Heap)
  | [], g, heap => some (g, heap)
  | pData :: rest, g, heap =>
    match pData.data.nType with
    | .kNumber =>
      UpdateGlobalPersistentVariables.loop engine live rest
        (SetGlobalVariables engine g pData.data.sKey .kNumber pData.data.dData false "" none
          pData.bPersistent).2
        (RuntimePutObjectProperty heap g.self pData.data.sKey (.number pData.data.dData))
    | .kBoolean =>
      UpdateGlobalPersistentVariables.loop engine live rest
        (SetGlobalVariables engine g pData.data.sKey .kBoolean 0 pData.data.bData "" none
          pData.bPersistent).2
        (RuntimePutObjectProperty heap g.self pData.data.sKey (.boolean pData.data.bData))
    | .kString =>
      UpdateGlobalPersistentVariables.loop engine live rest
        (SetGlobalVariables engine g pData.data.sKey .kString 0 false pData.data.sData none
          pData.bPersistent).2
        (RuntimePutObjectProperty heap g.self pData.data.sKey (.string pData.data.sData))
    | .kObject =>
      match NewObject engine heap with
      | (none, heap1) => UpdateGlobalPersistentVariables.loop engine live rest g heap1
      | (some pObj, heap1) =>
        match PutObjectProperty engine live heap1 pObj pData.data with
        | none => none
        | some heap2 =>
          UpdateGlobalPersistentVariables.loop engine live rest
            (SetGlobalVariables engine g pData.data.sKey .kObject 0 false "" (some pObj)
              pData.bPersistent).2
            (RuntimePutObjectProperty heap2 g.self pData.data.sKey (.object pObj))
    | .kNull =>
      UpdateGlobalPersistentVariables.loop engine live rest
        (SetGlobalVariables engine g pData.data.sKey .kNull 0 false "" none
          pData.bPersistent).2
        (RuntimePutObjectProperty heap g.self pData.data.sKey .null)

/-- The method `CJS_Global::UpdateGlobalPersistentVariables`; the runtime is given by its
heap, and is null when there is none. -/
def UpdateGlobalPersistentVariables (engine : Engine) (pRuntime : Option Heap) (g : Global) :
    Option (Global × Option Heap) :=
  match pRuntime with
  | none => some (g, none)
  | some heap =>
    (UpdateGlobalPersistentVariables.loop engine true g.global_data_ g heap).map
      fun r => (r.1, some r.2)

/-! ### Definitions in the words of the claims -/

/-- The properties a restored object has according to claim C30: one for every element of
the stored list, a nested object being shown by its own properties. -/
def claimedKeys (pData : CFX_KeyValue) : List String :=
  pData.objData.map CFX_KeyValue.sKey

/-- An engine of the demo: handles are never empty, a string converts to itself and a number
to itself. -/
def Demo.engine : Engine where
  emptyHandle := fun _ => false
  ToByteString := fun v => match v with
    | .string s => s
    | _ => ""
  ToBoolean := fun v => match v with
    | .boolean b => b
    | _ => false
  ToDouble := fun v => match v with
    | .number d => d
    | _ => 0
  ToObject := fun v => match v with
    | .object address => some address
    | _ => none
  fresh := ⟨.kNumber, 0, false, "", none, false, false⟩

/-- A global object of the demo with the one global `x`, the number 1; its JavaScript object
is at the address 0. -/
def Demo.global : Global :=
  ⟨[("x", ⟨.kNumber, 1, false, "", none, false, false⟩)], [], 0⟩

/-- A global object of the demo with one stored global: the persistent object `obj` with the
one element `a`, the number 1. -/
def Demo.stored : Global :=
  ⟨[], [⟨.mk "obj" .kObject 0 false "" [.mk "a" .kNumber 1 false "" []], true⟩], 0⟩

end CJS_Global

namespace CPDF_RenderStatus

/-- The constructor `CPDF_RenderStatus(pContext, pDevice)`; the members start at the values
the class gives them. -/
def new (pDevice : Ref) : CPDF_RenderStatus where
  device_ := pDevice
  options_ := CPDF_RenderOptions.default
  stop_obj_ := none
  transparency_ := ⟨false, false⟩
  drop_objects_ := false
  std_cs_ := false
  load_mask_ := false
  group_family_ := .kUnknown
  in_group_ := false
  type3_char_ := none
  t3_fill_color_ := 0
  type3_font_cache_ := []
  form_resource_ := none
  page_resource_ := none
  device_matrix_ := CFX_Matrix.identity
  initial_states_ := CPDF_GraphicStates.empty
  print_ := false
  cur_obj_ := none
  last_clip_path_ := none
  stopped_ := false
  image_renderer_ := none

/-- The initial states `Initialize` stores.  `SetDefaultStates` gives the states of the
environment. -/
def Initialize.states (env : Env) (type3_char : Option Nat)
    (pParentStatus : Option CPDF_RenderStatus) (pInitialStates : Option CPDF_GraphicStates) :
    CPDF_GraphicStates :=
  match pInitialStates, type3_char with
  | some states, none =>
    match pParentStatus with
    | some parent =>
      let pcs := parent.initial_states_.color_state
      let cs := states.color_state
      let cs := if !env.HasFillColor cs then
          { cs with has_ref := true, fill_colorref := pcs.fill_colorref,
                    fill_color := pcs.fill_color }
        else cs
      let cs := if !env.HasStrokeColor cs then
          { cs with has_ref := true, stroke_colorref := pcs.fill_colorref,
                    stroke_color := pcs.stroke_color }
        else cs
      { states with color_state := cs }
    | none => states
  | _, _ => env.default_states

/-- The method `Initialize`. -/
def Initialize (env : Env) (st : CPDF_RenderStatus) (pParentStatus : Option CPDF_RenderStatus)
    (pInitialStates : Option CPDF_GraphicStates) : R CPDF_RenderStatus := do
  let printer ← ask (env.IsPrinter · st.device_)
  pure { st with
    print_ := if env.is_win then printer else st.print_,
    page_resource_ := env.page_resources,
    initial_states_ := Initialize.states env st.type3_char_ pParentStatus pInitialStates }

/-- The method `GetObjectClippedRect`. -/
def GetObjectClippedRect (env : Env) (st : CPDF_RenderStatus) (pObj : CPDF_PageObject)
    (mtObj2Device : CFX_Matrix) : R FX_RECT := do
  let box ← ask (env.GetClipBox · st.device_)
  pure (env.Intersect (env.GetTransformedBBox pObj mtObj2Device) box)

/-- The method `GetClippedBBox`. -/
def GetClippedBBox (env : Env) (st : CPDF_RenderStatus) (rect : FX_RECT) : R FX_RECT := do
  let box ← ask (env.GetClipBox · st.device_)
  pure (env.Intersect rect box)

/-- The transfer function of an object: the one cached on its general state, or else the one
of the document cache (which `GetFillArgbForType3` and `GetStrokeArgb` then store on the
object). -/
def objTransferFunc (env : Env) (pObj : CPDF_PageObject) (tr : Nat) : Option Nat :=
  match pObj.states.general_state.transfer_func with
  | some f => some f
  | none => env.GetTransferFunc tr

/-- The method `GetFillArgbForType3`. -/
def GetFillArgbForType3 (env : Env) (st : CPDF_RenderStatus) (pObj : CPDF_PageObject) : Nat :=
  let cs := if MissingFillColor pObj.states.color_state then st.initial_states_.color_state
    else pObj.states.color_state
  let colorref := cs.fill_colorref
  if colorref = 0xFFFFFFFF then 0
  else
    let alpha := truncToInt (pObj.states.general_state.fill_alpha * 255)
    let colorref := match pObj.states.general_state.tr with
      | some tr =>
        match objTransferFunc env pObj tr with
        | some f => env.TransferTranslateColor f colorref
        | none => colorref
      | none => colorref
    env.TranslateObjectFillColor st.options_ (env.AlphaAndColorRefToArgb alpha colorref) pObj.type

/-- The method `GetFillArgb`. -/
def GetFillArgb (env : Env) (st : CPDF_RenderStatus) (pObj : CPDF_PageObject) : Nat :=
  if Type3CharMissingFillColor env st.type3_char_ pObj.states.color_state then st.t3_fill_color_
  else GetFillArgbForType3 env st pObj

/-- The method `GetStrokeArgb`. -/
def GetStrokeArgb (env : Env) (st : CPDF_RenderStatus) (pObj : CPDF_PageObject) : Nat :=
  if Type3CharMissingStrokeColor env st.type3_char_ pObj.states.color_state then
    st.t3_fill_color_
  else
    let cs := if MissingStrokeColor pObj.states.color_state then st.initial_states_.color_state
      else pObj.states.color_state
    let colorref := cs.stroke_colorref
    if colorref = 0xFFFFFFFF then 0
    else
      let alpha := truncToInt (pObj.states.general_state.stroke_alpha * 255)
      let colorref := match pObj.states.general_state.tr with
        | some tr =>
          match objTransferFunc env pObj tr with
          | some f => env.TransferTranslateColor f colorref
          | none => colorref
        | none => colorref
      env.TranslateObjectStrokeColor st.options_ (env.AlphaAndColorRefToArgb alpha colorref)
        pObj.type

/-- The method `GetCompatibleArgbFormat`. -/
def GetCompatibleArgbFormat (env : Env) (st : CPDF_RenderStatus) : R FXDIB_Format := do
  let caps ← ask (env.GetRenderCaps · st.device_)
  pure (if env.pdf_use_skia ∧ caps.premultiplied_alpha then .kBgraPremul else .kBgra)

/-- The method `GetBackgroundColor`: the colour and the colour space family it stores. -/
def GetBackgroundColor (env : Env) (smask : SMaskDict) : Nat × Family :=
  let kDefaultColor := env.ArgbEncode 255 0 0 0
  if !smask.has_bc then (kDefaultColor, .kUnknown)
  else match smask.colorspace with
    | none => (kDefaultColor, .kUnknown)
    | some cs =>
      if cs.family = .kLab ∨ cs.is_special ∨ (cs.family = .kICCBased ∧ !cs.is_normal) then
        (kDefaultColor, .kUnknown)
      else
        (env.ArgbEncode 255 (truncToInt (cs.red * 255)) (truncToInt (cs.green * 255))
          (truncToInt (cs.blue * 255)), cs.family)

/-- The method `GetBackdrop`. -/
def GetBackdrop (env : Env) (st : CPDF_RenderStatus) (pObj : Option Ref) (bbox : FX_RECT)
    (bBackAlphaRequired : Bool) : R (Option Ref) := do
  let width := bbox.right - bbox.left
  let height := bbox.bottom - bbox.top
  let backdrop ← alloc
  let created ←
    (if bBackAlphaRequired ∧ !st.drop_objects_ then call env backdrop (.Create width height .kBgra)
    else call env st.device_ (.CreateCompatibleBitmap backdrop width height))
  if !created then pure none
  else do
    let alpha_format ← ask (env.IsAlphaFormat · backdrop)
    let caps ← ask (env.GetRenderCaps · st.device_)
    if (if alpha_format then caps.alpha_output else caps.get_bits) then do
      let _ ← call env st.device_ (.GetDIBits backdrop bbox.left bbox.top)
      pure (some backdrop)
    else do
      let FinalMatrix := env.Translate st.device_matrix_ (-bbox.left) (-bbox.top)
      let _ ← (if !alpha_format then call env backdrop (.Clear 0xffffffff) else pure true)
      let device ← alloc
      let _ ← call env device (.Attach backdrop)
      let _ ← call env device (.ContextRender pObj st.options_ FinalMatrix)
      pure (some backdrop)

/-- The first part of `CompositeDIBitmap`, for the blend mode Normal: `true` when the method
returns from it. -/
def CompositeDIBitmap.normal (env : Env) (st : CPDF_RenderStatus) (bitmap : Ref) (left : Int)
    (top : Int) (mask_argb : Nat) (alpha : ℚ) : R Bool := do
  let is_mask ← ask (env.IsMaskFormat · bitmap)
  if is_mask then
    if env.is_win then
      let fill_argb := env.TranslateColor st.options_ mask_argb
      let fill_argb := if alpha ≠ 1 then
          env.MulAlphaChannel fill_argb (env.RoundF (alpha * 255) / 255)
        else fill_argb
      call env st.device_ (.SetBitMask bitmap left top fill_argb)
    else NOTREACHED
  else if alpha ≠ 1 then
    if env.use_skia then do
      let width ← ask (env.GetWidth · bitmap)
      let height ← ask (env.GetHeight · bitmap)
      let matrix := env.GetFlipMatrix width height left top
      let _ ← call env st.device_ (.StartDIBits bitmap alpha 0 matrix)
      pure true
    else do
      let _ ← call env bitmap (.MultiplyAlpha alpha)
      call env st.device_ (.SetDIBits bitmap left top)
  else call env st.device_ (.SetDIBits bitmap left top)

/-- The part of `CompositeDIBitmap` taken when the device gives its background and the
bitmap is a non-isolated group. -/
def CompositeDIBitmap.group (env : Env) (st : CPDF_RenderStatus) (bitmap : Ref) (left : Int)
    (top : Int) (mask_argb : Nat) (blend_mode : BlendMode) : R Unit := do
  let width ← ask (env.GetWidth · bitmap)
  let height ← ask (env.GetHeight · bitmap)
  let box ← ask (env.GetClipBox · st.device_)
  let rect := env.Intersect ⟨left, top, left + width, top + height⟩ box
  let is_mask ← ask (env.IsMaskFormat · bitmap)
  let back ← ask (env.GetBackDrop · st.device_)
  let bits ← ask (env.GetBitmap · st.device_)
  match back, bits with
  | some backdrop, some device_bitmap => do
    let pClone ← alloc
    let cloned ← call env backdrop (.ClipTo pClone rect)
    if !cloned then pure ()
    else do
      let cw ← ask (env.GetWidth · pClone)
      let ch ← ask (env.GetHeight · pClone)
      let _ ← call env pClone (.CompositeBitmap 0 0 cw ch device_bitmap rect.left rect.top
        .kNormal)
      let left := min left 0
      let top := min top 0
      let _ ←
        (if is_mask then
          if env.is_win then
            call env pClone (.CompositeMask 0 0 cw ch bitmap mask_argb left top blend_mode)
          else NOTREACHED
        else call env pClone (.CompositeBitmap 0 0 cw ch bitmap left top blend_mode))
      let _ ← call env st.device_ (.SetDIBits pClone rect.left rect.top)
      pure ()
  | some _, none => do
    let _ ← call env st.device_ (.SetDIBits bitmap rect.left rect.top)
    pure ()
  | none, _ =>
    if !is_mask then do
      let _ ← call env st.device_ (.SetDIBitsWithBlend bitmap rect.left rect.top blend_mode)
      pure ()
    else pure ()

/-- The last part of `CompositeDIBitmap`: the backdrop is fetched and composited by hand. -/
def CompositeDIBitmap.fallback (env : Env) (st : CPDF_RenderStatus) (bitmap : Ref)
    (left : Int) (top : Int) (mask_argb : Nat) (blend_mode : BlendMode) (bIsolated : Bool) :
    R Unit := do
  let width ← ask (env.GetWidth · bitmap)
  let height ← ask (env.GetHeight · bitmap)
  let bbox ← GetClippedBBox env st ⟨left, top, left + width, top + height⟩
  let got ← GetBackdrop env st st.cur_obj_ bbox (blend_mode ≠ .kNormal ∧ bIsolated)
  match got with
  | none => pure ()
  | some backdrop => do
    let is_mask ← ask (env.IsMaskFormat · bitmap)
    let _ ←
      (if is_mask then
        if env.is_win then
          call env backdrop (.CompositeMask (left - bbox.left) (top - bbox.top) width height
            bitmap mask_argb 0 0 blend_mode)
        else NOTREACHED
      else
        call env backdrop (.CompositeBitmap (left - bbox.left) (top - bbox.top) width height
          bitmap 0 0 blend_mode))
    let bw ← ask (env.GetWidth · backdrop)
    let bh ← ask (env.GetHeight · backdrop)
    let new_backdrop ← alloc
    let created ← call env new_backdrop (.Create bw bh .kBgrx)
    if !created then NOTREACHED
    else do
      let _ ← call env new_backdrop (.Clear 0xffffffff)
      let nw ← ask (env.GetWidth · new_backdrop)
      let nh ← ask (env.GetHeight · new_backdrop)
      let _ ← call env new_backdrop (.CompositeBitmap 0 0 nw nh backdrop 0 0 .kNormal)
      let _ ← call env st.device_ (.SetDIBits new_backdrop bbox.left bbox.top)
      pure ()

/-- The method `CompositeDIBitmap`. -/
def CompositeDIBitmap (env : Env) (st : CPDF_RenderStatus) (bitmap : Ref) (left : Int)
    (top : Int) (mask_argb : Nat) (alpha : ℚ) (blend_mode : BlendMode)
    (transparency : CPDF_Transparency) : R Unit := do
  let done ←
    (if blend_mode = .kNormal then CompositeDIBitmap.normal env st bitmap left top mask_argb alpha
    else pure false)
  if done then pure ()
  else do
    let bIsolated := transparency.isolated
    let bBackAlphaRequired := blend_mode ≠ .kNormal ∧ bIsolated ∧ !st.drop_objects_
    let caps ← ask (env.GetRenderCaps · st.device_)
    let bGetBackGround := caps.alpha_output ∨
      (!caps.alpha_output ∧ caps.get_bits ∧ ¬ bBackAlphaRequired)
    if bGetBackGround then
      if bIsolated ∨ !transparency.group then do
        let is_mask ← ask (env.IsMaskFormat · bitmap)
        if !is_mask then do
          let _ ← call env st.device_ (.SetDIBitsWithBlend bitmap left top blend_mode)
          pure ()
        else pure ()
      else CompositeDIBitmap.group env st bitmap left top mask_argb blend_mode
    else CompositeDIBitmap.fallback env st bitmap left top mask_argb blend_mode bIsolated

/-- The method `SelectClipPath`. -/
def SelectClipPath (env : Env) (st : CPDF_RenderStatus) (path_obj : CPDF_PageObject)
    (mtObj2Device : CFX_Matrix) (stroke : Bool) : R Bool :=
  let path_matrix := env.Concat path_obj.matrix mtObj2Device
  if stroke then
    call env st.device_ (.SetClip_PathStroke path_obj.path path_matrix
      path_obj.states.graph_state)
  else
    let fill_options := CFX_FillRenderOptions.ofType path_obj.filltype
    let fill_options :=
      if st.options_.bNoPathSmooth then { fill_options with aliased_path := true }
      else fill_options
    call env st.device_ (.SetClip_PathFill path_obj.path (some path_matrix) fill_options)

/-- The method `ClipPattern`. -/
def ClipPattern (env : Env) (st : CPDF_RenderStatus) (page_obj : CPDF_PageObject)
    (mtObj2Device : CFX_Matrix) (stroke : Bool) : R Bool :=
  if page_obj.type = .kPath then SelectClipPath env st page_obj mtObj2Device stroke
  else if page_obj.type = .kImage then do
    let _ ← call env st.device_ (.SetClip_Rect (env.GetTransformedBBox page_obj mtObj2Device))
    pure true
  else pure false

/-- The method `DrawShadingPattern`.  The `StateRestorer` saves the device state when it is
made and restores it on every way out. -/
def DrawShadingPattern (env : Env) (st : CPDF_RenderStatus) (pattern : Nat)
    (pPageObj : CPDF_PageObject) (mtObj2Device : CFX_Matrix) (stroke : Bool) : R Unit := do
  let loaded ← call env (.given pattern) (.ShadingLoad pattern)
  if !loaded then pure ()
  else do
    let _ ← call env st.device_ .SaveState
    let clipped ← ClipPattern env st pPageObj mtObj2Device stroke
    if !clipped then do
      let _ ← call env st.device_ (.RestoreState false)
      pure ()
    else do
      let rect ← GetObjectClippedRect env st pPageObj mtObj2Device
      if env.RectIsEmpty rect then do
        let _ ← call env st.device_ (.RestoreState false)
        pure ()
      else do
        let matrix := env.Concat (env.pattern_to_form pattern) mtObj2Device
        let alpha := env.RoundF (255 * (if stroke then pPageObj.states.general_state.stroke_alpha
          else pPageObj.states.general_state.fill_alpha))
        let _ ← call env st.device_ (.ShadingDraw st.cur_obj_ pattern matrix rect alpha
          st.options_)
        let _ ← call env st.device_ (.RestoreState false)
        pure ()

/-- The method `ProcessShading`. -/
def ProcessShading (env : Env) (st : CPDF_RenderStatus) (pShadingObj : CPDF_PageObject)
    (mtObj2Device : CFX_Matrix) : R Unit := do
  let rect ← GetObjectClippedRect env st pShadingObj mtObj2Device
  if env.RectIsEmpty rect then pure ()
  else do
    let matrix := env.Concat pShadingObj.matrix mtObj2Device
    let _ ← call env st.device_ (.ShadingDraw st.cur_obj_ pShadingObj.shading_pattern matrix
      rect (env.RoundF (255 * pShadingObj.states.general_state.fill_alpha)) st.options_)
    pure ()

/-- The method `DrawTilingPattern`. -/
def DrawTilingPattern (env : Env) (st : CPDF_RenderStatus) (pattern : Nat)
    (pPageObj : CPDF_PageObject) (mtObj2Device : CFX_Matrix) (stroke : Bool) : R Unit := do
  let loaded ← call env (.given pattern) (.TilingLoad pattern pPageObj.self)
  if !loaded then pure ()
  else do
    let _ ← call env st.device_ .SaveState
    let clipped ← ClipPattern env st pPageObj mtObj2Device stroke
    if !clipped then do
      let _ ← call env st.device_ (.RestoreState false)
      pure ()
    else do
      let clip_box ← ask (env.GetClipBox · st.device_)
      if env.RectIsEmpty clip_box then do
        let _ ← call env st.device_ (.RestoreState false)
        pure ()
      else do
        let screen ← alloc
        let drawn ← call env st.device_ (.TilingDraw screen pPageObj.self pattern mtObj2Device
          clip_box stroke)
        if !drawn then do
          let _ ← call env st.device_ (.RestoreState false)
          pure ()
        else do
          CompositeDIBitmap env st screen clip_box.left clip_box.top 0 1 .kNormal ⟨false, false⟩
          let _ ← call env st.device_ (.RestoreState false)
          pure ()

/-- The method `DrawPathWithPattern`. -/
def DrawPathWithPattern (env : Env) (st : CPDF_RenderStatus) (path_obj : CPDF_PageObject)
    (mtObj2Device : CFX_Matrix) (pColor : CPDF_Color) (stroke : Bool) : R Unit :=
  match pColor.pattern with
  | none => pure ()
  | some (p, .tiling) => DrawTilingPattern env st p path_obj mtObj2Device stroke
  | some (p, .shading) => DrawShadingPattern env st p path_obj mtObj2Device stroke
  | some (_, .other) => pure ()

/-- The method `ProcessPathPattern`; the two flags it may clear are its result. -/
def ProcessPathPattern (env : Env) (st : CPDF_RenderStatus) (path_obj : CPDF_PageObject)
    (mtObj2Device : CFX_Matrix) (fill_type : FillType) (stroke : Bool) :
    R (FillType × Bool) := do
  let fill_type ←
    (if fill_type ≠ .kNoFill ∧ path_obj.states.color_state.fill_color.is_pattern then do
      DrawPathWithPattern env st path_obj mtObj2Device path_obj.states.color_state.fill_color
        false
      pure FillType.kNoFill
    else pure fill_type)
  let stroke ←
    (if stroke ∧ path_obj.states.color_state.stroke_color.is_pattern then do
      DrawPathWithPattern env st path_obj mtObj2Device path_obj.states.color_state.stroke_color
        true
      pure false
    else pure stroke)
  pure (fill_type, stroke)

/-- The method `ProcessPath`. -/
def ProcessPath (env : Env) (st : CPDF_RenderStatus) (path_obj : CPDF_PageObject)
    (mtObj2Device : CFX_Matrix) : R Bool := do
  let (fill_type, stroke) ←
    (ProcessPathPattern env st path_obj mtObj2Device path_obj.filltype path_obj.stroke)
  if fill_type = .kNoFill ∧ !stroke then pure true
  else
    let convert := st.options_.color_mode = .kForcedColor ∧ st.options_.bConvertFillToStroke ∧
      fill_type ≠ .kNoFill
    let stroke := if convert then true else stroke
    let fill_type := if convert then FillType.kNoFill else fill_type
    let fill_argb := if fill_type ≠ .kNoFill then GetFillArgb env st path_obj else 0
    let stroke_argb := if stroke then GetStrokeArgb env st path_obj else 0
    let path_matrix := env.Concat path_obj.matrix mtObj2Device
    if !IsAvailableMatrix path_matrix then pure true
    else
      call env st.device_ (.DrawPath path_obj.path path_matrix path_obj.states.graph_state
        fill_argb stroke_argb
        (GetFillOptionsForDrawPathWithBlend st.options_ path_obj fill_type stroke
          st.type3_char_.isSome))

/-- The method `ProcessImage`. -/
def ProcessImage (env : Env) (st : CPDF_RenderStatus) (pImageObj : CPDF_PageObject)
    (mtObj2Device : CFX_Matrix) : R Bool := do
  let render ← alloc
  let started ← call env render (.ImageStart pImageObj.self mtObj2Device st.std_cs_)
  let _ ← (if started then call env render (.ImageContinue none) else pure true)
  ask (env.GetResult · render)

/-! ## The recursive interpreter

Every function below that can reach `RenderSingleObject` takes it as the argument `rso`;
the recursion is closed in `RenderSingleObject` itself. -/

/-- The type of `RenderSingleObject`: the status it runs on, the object and the matrix. -/
abbrev Rso : Type := CPDF_RenderStatus → CPDF_PageObject → CFX_Matrix → R CPDF_RenderStatus

/-- The cull test of `RenderObjectList`: the rectangle of the object lies outside the clip
rectangle. -/
def culled (clip_rect : CFX_FloatRect) (obj : CPDF_PageObject) : Bool :=
  decide (obj.rect.left > clip_rect.right) || decide (obj.rect.right < clip_rect.left) ||
  decide (obj.rect.bottom > clip_rect.top) || decide (obj.rect.top < clip_rect.bottom)

/-- The loop of `RenderObjectList` over the object list. -/
def RenderObjectList.loop (env : Env) (rso : Rso) (mtObj2Device : CFX_Matrix)
    (clip_rect : CFX_FloatRect) : List (Option Ref) → CPDF_RenderStatus → R CPDF_RenderStatus
  | [], st => pure st
  | pCurObj :: rest, st =>
    if pCurObj = st.stop_obj_ then pure { st with stopped_ := true }
    else
      match pCurObj with
      | none => RenderObjectList.loop env rso mtObj2Device clip_rect rest st
      | some p =>
        if !(env.deref p).active then RenderObjectList.loop env rso mtObj2Device clip_rect rest st
        else if culled clip_rect (env.deref p) then
          RenderObjectList.loop env rso mtObj2Device clip_rect rest st
        else do
          let st1 ← rso st (env.deref p) mtObj2Device
          if st1.stopped_ then pure st1
          else RenderObjectList.loop env rso mtObj2Device clip_rect rest st1

/-- The method `RenderObjectList`; the object holder is given by its number. -/
def RenderObjectList (env : Env) (rso : Rso) (st : CPDF_RenderStatus) (pObjectHolder : Nat)
    (mtObj2Device : CFX_Matrix) : R CPDF_RenderStatus := do
  let box ← ask (env.GetClipBox · st.device_)
  let clip_rect := env.TransformRect (env.GetInverse mtObj2Device) (env.ToFloatRect box)
  RenderObjectList.loop env rso mtObj2Device clip_rect (env.form pObjectHolder).objects st

/-- The method `DrawObjWithBackgroundToDevice`. -/
def DrawObjWithBackgroundToDevice (env : Env) (rso : Rso) (st : CPDF_RenderStatus)
    (obj : CPDF_PageObject) (object_to_device : CFX_Matrix) (device : Ref)
    (device_matrix : CFX_Matrix) : R Unit := do
  let pFormResource :=
    if obj.type = .kForm then (env.form obj.form).dict_resources else none
  let status := { new device with
    options_ := st.options_, device_matrix_ := device_matrix,
    transparency_ := st.transparency_, drop_objects_ := st.drop_objects_,
    form_resource_ := pFormResource, in_group_ := st.in_group_ }
  let status ← Initialize env status none none
  let _ ← rso status obj (env.Concat object_to_device device_matrix)
  pure ()

/-- The method `DrawObjWithBackground`. -/
def DrawObjWithBackground (env : Env) (rso : Rso) (st : CPDF_RenderStatus)
    (pObj : CPDF_PageObject) (mtObj2Device : CFX_Matrix) : R Unit := do
  let rect ← GetObjectClippedRect env st pObj mtObj2Device
  if env.RectIsEmpty rect then pure ()
  else do
    let caps ← ask (env.GetRenderCaps · st.device_)
    if caps.get_bits then
      DrawObjWithBackgroundToDevice env rso st pObj mtObj2Device st.device_ CFX_Matrix.identity
    else if env.is_win then do
      let buffer ← alloc
      let res : Int := if pObj.type = .kImage ∧ st.print_ then 0 else 300
      let ready ← call env buffer (.ScaledBufferInitialize st.device_ pObj.self rect st.options_
        res)
      if !ready then pure ()
      else do
        let buffer_matrix ← ask (env.ScaledBufferMatrix · buffer)
        DrawObjWithBackgroundToDevice env rso st pObj mtObj2Device buffer buffer_matrix
        let _ ← call env buffer .OutputToDevice
        pure ()
    else NOTREACHED

/-- The status `ProcessForm` makes for the object list of the form, before `Initialize`. -/
def ProcessForm.status (env : Env) (st : CPDF_RenderStatus) (pFormObj : CPDF_PageObject) :
    CPDF_RenderStatus :=
  { new st.device_ with
    options_ := st.options_, stop_obj_ := st.stop_obj_,
    transparency_ := st.transparency_, drop_objects_ := st.drop_objects_,
    form_resource_ := (env.form pFormObj.form).dict_resources, in_group_ := st.in_group_ }

/-- The nested scope of `ProcessForm`: the new status is initialised, the device state is
saved by the `StateRestorer`, and the object list of the form is rendered. -/
def ProcessForm.nested (env : Env) (rso : Rso) (st : CPDF_RenderStatus)
    (pFormObj : CPDF_PageObject) (mtObj2Device : CFX_Matrix) : R CPDF_RenderStatus := do
  let status ← Initialize env (ProcessForm.status env st pFormObj) (some st)
    (some pFormObj.states)
  let _ ← call env st.device_ .SaveState
  RenderObjectList env rso status pFormObj.form (env.Concat pFormObj.form_matrix mtObj2Device)

/-- The `OC` test of `ProcessForm`: the form has an optional content dictionary that is not
visible. -/
def ProcessForm.hidden (env : Env) (st : CPDF_RenderStatus) (pFormObj : CPDF_PageObject) :
    Bool :=
  match (env.form pFormObj.form).dict_oc with
  | some pOC => !env.CheckOCGDictVisible st.options_ pOC
  | none => false

/-- The method `ProcessForm`. -/
def ProcessForm (env : Env) (rso : Rso) (st : CPDF_RenderStatus) (pFormObj : CPDF_PageObject)
    (mtObj2Device : CFX_Matrix) : R (Bool × CPDF_RenderStatus) :=
  if ProcessForm.hidden env st pFormObj then pure (true, st)
  else do
    let status ← ProcessForm.nested env rso st pFormObj mtObj2Device
    let _ ← call env st.device_ (.RestoreState false)
    pure (true, { st with stopped_ := status.stopped_ })

/-- The method `CloneObjStates`. -/
def CloneObjStates (pSrcStates : Option CPDF_GraphicStates) (stroke : Bool) :
    Option CPDF_GraphicStates :=
  match pSrcStates with
  | none => none
  | some src =>
    let pObjColor := if stroke then src.color_state.stroke_color else src.color_state.fill_color
    if !pObjColor.is_null then
      let ref := if stroke then src.color_state.stroke_colorref else src.color_state.fill_colorref
      some { src with color_state :=
        { src.color_state with has_ref := true, fill_colorref := ref, stroke_colorref := ref } }
    else some src

/-- The status `ProcessType3Text` makes for the content stream of a glyph, on the device or
on a bitmap device. -/
def Type3Status (env : Env) (st : CPDF_RenderStatus) (device : Ref)
    (options : CPDF_RenderOptions) (pForm : Nat) (pType3Char : Nat) (fill_argb : Nat)
    (pType3Font : Nat) (pStates : Option CPDF_GraphicStates) : R CPDF_RenderStatus := do
  let status := { new device with
    options_ := options, transparency_ := (env.form pForm).transparency,
    type3_char_ := some pType3Char, t3_fill_color_ := fill_argb,
    drop_objects_ := st.drop_objects_, form_resource_ := (env.form pForm).dict_resources }
  let status ← Initialize env status (some st) pStates
  pure { status with type3_font_cache_ := st.type3_font_cache_ ++ [pType3Font] }

/-- The inner loop of `ProcessType3Text` that blits the glyph bitmaps collected so far. -/
def ProcessType3Text.flush (env : Env) (st : CPDF_RenderStatus) (fill_argb : Nat) :
    List TextGlyphPos → R Unit
  | [] => pure ()
  | glyph :: rest =>
    match glyph.glyph with
    | none => ProcessType3Text.flush env st fill_argb rest
    | some bitmap =>
      match env.GetOrigin glyph 0 0 with
      | none => ProcessType3Text.flush env st fill_argb rest
      | some (x, y) => do
        let _ ← call env st.device_ (.SetBitMask (.given bitmap.bitmap) x y fill_argb)
        ProcessType3Text.flush env st fill_argb rest

/-- One glyph given by a content stream: the collected bitmaps are flushed, then the form
of the glyph is rendered by a new status.  The result is `some b` when `ProcessType3Text`
returns `b` from here. -/
def ProcessType3Text.content (env : Env) (rso : Rso) (st : CPDF_RenderStatus)
    (textobj : CPDF_PageObject) (fill_argb : Nat) (fill_alpha : Int) (pType3Font : Nat)
    (pType3Char : Nat) (matrix : CFX_Matrix) (iChar : Nat) (glyphs : List TextGlyphPos) :
    R (Option Bool × List TextGlyphPos) := do
  let glyphs ←
    (if glyphs ≠ [] then do
      ProcessType3Text.flush env st fill_argb (glyphs.take iChar)
      pure ([] : List TextGlyphPos)
    else pure glyphs)
  let pStates := CloneObjStates (some textobj.states) false
  let options := { st.options_ with bForceHalftone := true, bRectAA := true }
  let pForm := (env.type3char pType3Char).form
  if fill_alpha = 255 then do
    let status ← Type3Status env st st.device_ options pForm pType3Char fill_argb pType3Font
      pStates
    let _ ← call env st.device_ .SaveState
    let _ ← RenderObjectList env rso status pForm matrix
    let _ ← call env st.device_ (.RestoreState false)
    pure (none, glyphs)
  else
    let rect := env.GetOuterRect (env.TransformRect matrix (env.form pForm).bbox)
    if !env.RectValid rect then pure (none, glyphs)
    else do
      let bitmap_device ← alloc
      let created ← call env bitmap_device
        (.Create (rect.right - rect.left) (rect.bottom - rect.top) .kBgra)
      if !created then pure (some true, glyphs)
      else do
        let status ← Type3Status env st bitmap_device options pForm pType3Char fill_argb
          pType3Font pStates
        let matrix := env.Translate matrix (-rect.left) (-rect.top)
        let _ ← RenderObjectList env rso status pForm matrix
        let _ ← call env st.device_ (.SetDIBits bitmap_device rect.left rect.top)
        pure (none, glyphs)

/-- One glyph given by a bitmap. -/
def ProcessType3Text.bitmap (env : Env) (st : CPDF_RenderStatus) (fill_argb : Nat)
    (pType3Font : Nat) (pType3Char : Nat) (charcode : Nat) (matrix : CFX_Matrix) (iChar : Nat)
    (glyphs : List TextGlyphPos) : R (Option Bool × List TextGlyphPos) :=
  match (env.type3char pType3Char).bitmap with
  | none => pure (none, glyphs)
  | some char_bitmap =>
    if env.is_win ∧ st.print_ then do
      let image_matrix := env.Concat (env.type3char pType3Char).matrix matrix
      let renderer ← alloc
      let started ← call env renderer (.ImageStartBitmap char_bitmap fill_argb image_matrix)
      let _ ← (if started then call env renderer (.ImageContinue none) else pure true)
      let result ← ask (env.GetResult · renderer)
      if !result then pure (some false, glyphs) else pure (none, glyphs)
    else
      match env.LoadGlyph pType3Font charcode matrix with
      | none => pure (none, glyphs)
      | some pBitmap =>
        let origin_x := env.RoundF matrix.e
        let origin_y := env.RoundF matrix.f
        if glyphs = [] then
          match env.SafeAdd origin_x pBitmap.left with
          | none => pure (none, glyphs)
          | some left =>
            match env.SafeSub origin_y pBitmap.top with
            | none => pure (none, glyphs)
            | some top => do
              let _ ← call env st.device_ (.SetBitMask (.given pBitmap.bitmap) left top
                fill_argb)
              pure (none, glyphs)
        else pure (none, glyphs.set iChar ⟨some pBitmap, origin_x, origin_y⟩)

/-- The loop of `ProcessType3Text` over the character codes, from index `iChar` on. -/
def ProcessType3Text.loop (env : Env) (rso : Rso) (st : CPDF_RenderStatus)
    (textobj : CPDF_PageObject) (mtObj2Device : CFX_Matrix) (fill_argb : Nat)
    (fill_alpha : Int) (pType3Font : Nat) (char_matrix : CFX_Matrix) :
    List Nat → Nat → List TextGlyphPos → R (Option Bool × List TextGlyphPos)
  | [], _, glyphs => pure (none, glyphs)
  | charcode :: rest, iChar, glyphs =>
    if charcode = 0xFFFFFFFF then
      ProcessType3Text.loop env rso st textobj mtObj2Device fill_argb fill_alpha pType3Font
        char_matrix rest (iChar + 1) glyphs
    else
      match env.LoadChar pType3Font charcode with
      | none =>
        ProcessType3Text.loop env rso st textobj mtObj2Device fill_argb fill_alpha pType3Font
          char_matrix rest (iChar + 1) glyphs
      | some pType3Char => do
        let advance : ℚ := if iChar > 0 then textobj.char_positions.getD (iChar - 1) 0 else 0
        let matrix := { char_matrix with e := char_matrix.e + advance }
        let matrix := env.Concat (env.Concat matrix textobj.text_matrix) mtObj2Device
        let (returned, glyphs) ←
          (if !(env.type3char pType3Char).sole_image then
            ProcessType3Text.content env rso st textobj fill_argb fill_alpha pType3Font
              pType3Char matrix iChar glyphs
          else
            ProcessType3Text.bitmap env st fill_argb pType3Font pType3Char charcode matrix iChar
              glyphs)
        match returned with
        | some b => pure (some b, glyphs)
        | none =>
          ProcessType3Text.loop env rso st textobj mtObj2Device fill_argb fill_alpha pType3Font
            char_matrix rest (iChar + 1) glyphs

/-- The last loop of `ProcessType3Text`: the collected glyph bitmaps are composited into one
mask. -/
def ProcessType3Text.compose (env : Env) (bitmap : Ref) (rect : FX_RECT) (fill_argb : Nat) :
    List TextGlyphPos → R Unit
  | [] => pure ()
  | glyph :: rest =>
    match glyph.glyph with
    | none => ProcessType3Text.compose env bitmap rect fill_argb rest
    | some b =>
      if !b.is_mask then ProcessType3Text.compose env bitmap rect fill_argb rest
      else
        match env.GetOrigin glyph rect.left rect.top with
        | none => ProcessType3Text.compose env bitmap rect fill_argb rest
        | some (x, y) => do
          let _ ← call env bitmap (.CompositeMask x y b.width b.height (.given b.bitmap)
            fill_argb 0 0 .kNormal)
          ProcessType3Text.compose env bitmap rect fill_argb rest

/-- The method `ProcessType3Text`. -/
def ProcessType3Text (env : Env) (rso : Rso) (st : CPDF_RenderStatus)
    (textobj : CPDF_PageObject) (mtObj2Device : CFX_Matrix) : R Bool :=
  let pType3Font := textobj.states.text_state.font
  if pType3Font ∈ st.type3_font_cache_ then pure true
  else
    let fill_argb := GetFillArgbForType3 env st textobj
    let fill_alpha := env.ArgbAlpha fill_argb
    if env.is_win ∧ st.print_ ∧ fill_alpha < 255 then pure false
    else do
      let font_size := textobj.states.text_state.font_size
      let char_matrix := env.Scale (env.font pType3Font).font_matrix font_size font_size
      let glyphs : List TextGlyphPos :=
        if !st.print_ then List.replicate textobj.char_codes.length ⟨none, 0, 0⟩ else []
      let (returned, glyphs) ←
        (ProcessType3Text.loop env rso st textobj mtObj2Device fill_argb fill_alpha pType3Font
          char_matrix textobj.char_codes 0 glyphs)
      match returned with
      | some b => pure b
      | none =>
        if glyphs = [] then pure true
        else do
          let rect := env.GetGlyphsBBox glyphs
          let bitmap ← alloc
          let created ← call env bitmap
            (.Create (rect.right - rect.left) (rect.bottom - rect.top) .k8bppMask)
          if !created then pure true
          else do
            ProcessType3Text.compose env bitmap rect fill_argb glyphs
            let _ ← call env st.device_ (.SetBitMask bitmap rect.left rect.top fill_argb)
            pure true

/-- The loop of `DrawTextPathWithPattern` over the character positions, for a stroked
text. -/
def DrawTextPathWithPattern.loop (env : Env) (st : CPDF_RenderStatus)
    (textobj : CPDF_PageObject) (mtObj2Device : CFX_Matrix) (mtTextMatrix : CFX_Matrix)
    (fill : Bool) (stroke : Bool) : List (Option Nat × CFX_Matrix) → R Unit
  | [] => pure ()
  | charpos :: rest =>
    match charpos.1 with
    | none =>
      DrawTextPathWithPattern.loop env st textobj mtObj2Device mtTextMatrix fill stroke rest
    | some pPath => do
      let matrix := env.Concat charpos.2 mtTextMatrix
      let address ← alloc
      let path : CPDF_PageObject := { env.new_path_object with
        self := address, type := .kPath,
        states := { env.new_path_object.states with
          graph_state := textobj.states.graph_state, color_state := textobj.states.color_state },
        stroke := stroke,
        filltype := if fill then FillType.kWinding else FillType.kNoFill,
        path := .glyph pPath matrix, matrix := CFX_Matrix.identity }
      let _ ← ProcessPath env st path mtObj2Device
      DrawTextPathWithPattern.loop env st textobj mtObj2Device mtTextMatrix fill stroke rest

/-- The method `DrawTextPathWithPattern`.  The path object it builds for a text that is not
stroked lives at a new address, with a new clip path: the last applied one with a copy of
the text appended. -/
def DrawTextPathWithPattern (env : Env) (rso : Rso) (st : CPDF_RenderStatus)
    (textobj : CPDF_PageObject) (mtObj2Device : CFX_Matrix) (mtTextMatrix : CFX_Matrix)
    (fill : Bool) (stroke : Bool) : R CPDF_RenderStatus :=
  if !stroke then do
    let address ← alloc
    let clip_ref ← alloc
    let clip : ClipPathData := match st.last_clip_path_ with
      | some last => ⟨clip_ref, last.paths, env.AppendTexts last.texts [textobj.self]⟩
      | none => ⟨clip_ref, [], env.AppendTexts [] [textobj.self]⟩
    let path : CPDF_PageObject := { env.new_path_object with
      self := address, type := .kPath, filltype := .kWinding,
      states := { env.new_path_object.states with
        clip_path := some clip, color_state := textobj.states.color_state,
        general_state := textobj.states.general_state },
      path := .floatRect textobj.rect, rect := textobj.rect }
    let saved := st.cur_obj_
    let st1 ← rso st path mtObj2Device
    pure { st1 with cur_obj_ := saved }
  else do
    DrawTextPathWithPattern.loop env st textobj mtObj2Device mtTextMatrix fill stroke
      (env.GetCharPosList textobj)
    pure st

/-- What the `switch` of `ProcessText` decides. -/
inductive TextPaint where
  | flags (is_fill : Bool) (is_stroke : Bool) (is_clip : Bool)
  | done
  | unreachable
  deriving DecidableEq

/-- The choice of `is_fill`, `is_stroke` and `is_clip` in `ProcessText`. -/
def textPaint (clipping : Bool) (mode : TextRenderingMode) (has_face : Bool) : TextPaint :=
  if clipping then .flags false false true
  else
    match mode with
    | .MODE_FILL => .flags true false false
    | .MODE_FILL_CLIP => .flags true false false
    | .MODE_STROKE => if has_face then .flags false true false else .flags true false false
    | .MODE_STROKE_CLIP => if has_face then .flags false true false else .flags true false false
    | .MODE_FILL_STROKE => .flags true has_face false
    | .MODE_FILL_STROKE_CLIP => .flags true has_face false
    | .MODE_INVISIBLE => .unreachable
    | .MODE_CLIP => .done
    | .MODE_UNKNOWN => .unreachable

/-- The part of `ProcessText` after the choice of what to paint. -/
def ProcessText.paint (env : Env) (rso : Rso) (st : CPDF_RenderStatus)
    (textobj : CPDF_PageObject) (mtObj2Device : CFX_Matrix) (clipping_path : Option Ref)
    (is_fill : Bool) (is_stroke : Bool) (is_clip : Bool) : R (Bool × CPDF_RenderStatus) :=
  let stroke_pattern := is_stroke && textobj.states.color_state.stroke_color.is_pattern
  let stroke_argb := if is_stroke ∧ !stroke_pattern then GetStrokeArgb env st textobj else 0
  let fill_pattern := is_fill && textobj.states.color_state.fill_color.is_pattern
  let fill_argb := if is_fill ∧ !fill_pattern then GetFillArgb env st textobj else 0
  let bPattern := stroke_pattern || fill_pattern
  let text_matrix := textobj.text_matrix
  if !IsAvailableMatrix text_matrix then pure (true, st)
  else
    let font_size := textobj.states.text_state.font_size
    if bPattern then do
      let st1 ← DrawTextPathWithPattern env rso st textobj mtObj2Device text_matrix is_fill
        is_stroke
      pure (true, st1)
    else if is_clip ∨ is_stroke then do
      let ts := textobj.states.text_state
      let adjust := is_stroke ∧ (ts.ctm0 ≠ 1 ∨ ts.ctm3 ≠ 1)
      let ctm : CFX_Matrix := ⟨ts.ctm0, ts.ctm1, ts.ctm2, ts.ctm3, 0, 0⟩
      let text_matrix := if adjust then env.Concat text_matrix (env.GetInverse ctm)
        else text_matrix
      let device_matrix := if adjust then env.Concat ctm mtObj2Device else mtObj2Device
      let drawn ← call env st.device_ (.DrawTextPath textobj.self font_size text_matrix
        (some device_matrix) fill_argb stroke_argb clipping_path
        (GetFillOptionsForDrawTextPath st.options_ textobj is_stroke is_fill))
      pure (drawn, st)
    else do
      let text_matrix := env.Concat text_matrix mtObj2Device
      let drawn ← call env st.device_ (.DrawNormalText textobj.self font_size text_matrix
        fill_argb st.options_)
      pure (drawn, st)

/-- The method `ProcessText`. -/
def ProcessText (env : Env) (rso : Rso) (st : CPDF_RenderStatus) (textobj : CPDF_PageObject)
    (mtObj2Device : CFX_Matrix) (clipping_path : Option Ref) :
    R (Bool × CPDF_RenderStatus) :=
  if textobj.char_codes = [] then pure (true, st)
  else if textobj.states.text_state.text_mode = .MODE_INVISIBLE then pure (true, st)
  else if (env.font textobj.states.text_state.font).is_type3 then do
    let b ← ProcessType3Text env rso st textobj mtObj2Device
    pure (b, st)
  else
    match textPaint clipping_path.isSome textobj.states.text_state.text_mode
        (env.font textobj.states.text_state.font).has_face with
    | .done => pure (true, st)
    | .unreachable => NOTREACHED
    | .flags is_fill is_stroke is_clip =>
      ProcessText.paint env rso st textobj mtObj2Device clipping_path is_fill is_stroke is_clip

/-- The method `ProcessObjectNoClip`. -/
def ProcessObjectNoClip (env : Env) (rso : Rso) (st : CPDF_RenderStatus)
    (pObj : CPDF_PageObject) (mtObj2Device : CFX_Matrix) : R CPDF_RenderStatus :=
  match pObj.type with
  | .kShading => do
    ProcessShading env st pObj mtObj2Device
    pure st
  | .kText => do
    let (bRet, st1) ← ProcessText env rso st pObj mtObj2Device none
    if !bRet then do
      DrawObjWithBackground env rso st1 pObj mtObj2Device
      pure st1
    else pure st1
  | .kPath => do
    let bRet ← ProcessPath env st pObj mtObj2Device
    if !bRet then do
      DrawObjWithBackground env rso st pObj mtObj2Device
      pure st
    else pure st
  | .kImage => do
    let bRet ← ProcessImage env st pObj mtObj2Device
    if !bRet then do
      DrawObjWithBackground env rso st pObj mtObj2Device
      pure st
    else pure st
  | .kForm => do
    let (bRet, st1) ← ProcessForm env rso st pObj mtObj2Device
    if !bRet then do
      DrawObjWithBackground env rso st1 pObj mtObj2Device
      pure st1
    else pure st1

/-- The first loop of `ProcessClipPath`, over the sub-paths. -/
def ProcessClipPath.paths (env : Env) (st : CPDF_RenderStatus) (mtObj2Device : CFX_Matrix) :
    List ClipSubPath → R Unit
  | [] => pure ()
  | sub :: rest =>
    match sub.path with
    | none => ProcessClipPath.paths env st mtObj2Device rest
    | some pPath => do
      let _ ←
        (if sub.points_empty then
          call env st.device_ (.SetClip_PathFill .emptyRect none
            CFX_FillRenderOptions.WindingOptions)
        else
          call env st.device_ (.SetClip_PathFill (.doc pPath) (some mtObj2Device)
            (CFX_FillRenderOptions.ofType sub.clip_type)))
      ProcessClipPath.paths env st mtObj2Device rest

/-- The second loop of `ProcessClipPath`, over the texts; `pTextClippingPath` is the path the
glyph outlines are collected in. -/
def ProcessClipPath.texts (env : Env) (rso : Rso) (mtObj2Device : CFX_Matrix) :
    List (Option Ref) → Option Ref → CPDF_RenderStatus → R CPDF_RenderStatus
  | [], _, st => pure st
  | entry :: rest, pTextClippingPath, st =>
    match entry with
    | some pText => do
      let clipping ← (match pTextClippingPath with
        | some path => pure path
        | none => alloc)
      let done ← ProcessText env rso st (env.deref pText) mtObj2Device (some clipping)
      ProcessClipPath.texts env rso mtObj2Device rest (some clipping) done.2
    | none =>
      match pTextClippingPath with
      | none => ProcessClipPath.texts env rso mtObj2Device rest none st
      | some clipping => do
        let fill_options :=
          if st.options_.bNoTextSmooth then
            { CFX_FillRenderOptions.WindingOptions with aliased_path := true }
          else CFX_FillRenderOptions.WindingOptions
        let _ ← call env st.device_ (.SetClip_PathFill (.accum clipping) none fill_options)
        ProcessClipPath.texts env rso mtObj2Device rest none st

/-- The method `ProcessClipPath`. -/
def ProcessClipPath (env : Env) (rso : Rso) (st : CPDF_RenderStatus) (ClipPath : CPDF_ClipPath)
    (mtObj2Device : CFX_Matrix) : R CPDF_RenderStatus :=
  match ClipPath with
  | none =>
    if st.last_clip_path_.isSome then do
      let _ ← call env st.device_ (.RestoreState true)
      pure { st with last_clip_path_ := none }
    else pure st
  | some clip =>
    if CPDF_ClipPath.same st.last_clip_path_ ClipPath then pure st
    else do
      let st := { st with last_clip_path_ := ClipPath }
      let _ ← call env st.device_ (.RestoreState true)
      ProcessClipPath.paths env st mtObj2Device clip.paths
      if clip.texts.length = 0 then pure st
      else do
        let caps ← ask (env.GetRenderCaps · st.device_)
        if !st.print_ ∧ !caps.soft_clip then pure st
        else ProcessClipPath.texts env rso mtObj2Device clip.texts none st

/-- The method `LoadSMask`; the soft mask dictionary is given by its number. -/
def LoadSMask (env : Env) (rso : Rso) (st : CPDF_RenderStatus) (smask_dict : Nat)
    (clip_rect : FX_RECT) (smask_matrix : CFX_Matrix) : R (Option Ref) :=
  let smask := env.smask smask_dict
  match smask.group with
  | none => pure none
  | some form => do
    let matrix := env.Translate smask_matrix (-clip_rect.left) (-clip_rect.top)
    let bitmap_device ← alloc
    let bLuminosity := !smask.is_alpha
    let width := clip_rect.right - clip_rect.left
    let height := clip_rect.bottom - clip_rect.top
    let created ← call env bitmap_device
      (.Create width height (GetFormatForLuminosity env bLuminosity))
    if !created then pure none
    else do
      let background : Nat × Family :=
        if bLuminosity then GetBackgroundColor env smask else (0, Family.kUnknown)
      let _ ← call env bitmap_device (.Clear background.1)
      let options := { CPDF_RenderOptions.default with
        color_mode := if bLuminosity then ColorMode.kNormal else ColorMode.kAlpha }
      let status := { new bitmap_device with
        options_ := options, group_family_ := background.2, load_mask_ := bLuminosity,
        std_cs_ := true, form_resource_ := (env.form form).dict_resources,
        drop_objects_ := st.drop_objects_ }
      let status ← Initialize env status none none
      let _ ← RenderObjectList env rso status form matrix
      let result_mask ← alloc
      let made ← call env result_mask (.Create width height .k8bppMask)
      if !made then pure none
      else do
        let _ ← call env result_mask (.DeriveMask bitmap_device bLuminosity smask.func)
        pure (some result_mask)

/-- The local variables `ProcessTransparency` computes before it decides. -/
structure TransparencyLocals where
  blend_type : BlendMode
  pSMaskDict : Option Nat
  pFormResource : Option Nat
  group_alpha : ℚ
  initial_alpha : ℚ
  transparency : CPDF_Transparency
  bGroupTransparent : Bool
  bTextClip : Bool

/-- The first part of `ProcessTransparency`, up to `bTextClip`; `caps` are the render
capabilities of the device. -/
def ProcessTransparency.locals (env : Env) (st : CPDF_RenderStatus)
    (pPageObj : CPDF_PageObject) (caps : RenderCaps) : TransparencyLocals :=
  let is_form := decide (pPageObj.type = .kForm)
  { blend_type := pPageObj.states.general_state.blend_type
    pSMaskDict :=
      match pPageObj.states.general_state.soft_mask with
      | some d =>
        if pPageObj.type = .kImage ∧ pPageObj.image_dict_has_smask then none else some d
      | none => none
    pFormResource := if is_form then (env.form pPageObj.form).dict_resources else none
    group_alpha := if is_form then pPageObj.states.general_state.fill_alpha else 1
    initial_alpha := if is_form then st.initial_states_.general_state.fill_alpha else 1
    transparency := if is_form then (env.form pPageObj.form).transparency else st.transparency_
    bGroupTransparent := if is_form then (env.form pPageObj.form).transparency.isolated
      else false
    bTextClip := !st.print_ && (match pPageObj.states.clip_path with
        | some clip => decide (clip.texts.length > 0)
        | none => false) && !caps.soft_clip }

/-- The test of `ProcessTransparency`: nothing asks for a special treatment. -/
def ProcessTransparency.plain (v : TransparencyLocals) : Bool :=
  v.pSMaskDict.isNone && decide (v.group_alpha = 1) && decide (v.blend_type = .kNormal) &&
  !v.bTextClip && !v.bGroupTransparent && decide (v.initial_alpha = 1)

/-- The loop of `ProcessTransparency` that draws the clip texts into the text mask; it ends
at the first null entry. -/
def ProcessTransparency.textMask (env : Env) (text_device : Ref) (new_matrix : CFX_Matrix) :
    List (Option Ref) → R Unit
  | [] => pure ()
  | entry :: rest =>
    match entry with
    | none => pure ()
    | some p => do
      let _ ← call env text_device (.DrawTextPath p
        (env.deref p).states.text_state.font_size (env.deref p).text_matrix (some new_matrix)
        0xffffffff 0 none CFX_FillRenderOptions.default)
      ProcessTransparency.textMask env text_device new_matrix rest

/-- The status `ProcessTransparency` makes for the bitmap device, before `Initialize`. -/
def ProcessTransparency.status (st : CPDF_RenderStatus) (v : TransparencyLocals)
    (bitmap_device : Ref) : CPDF_RenderStatus :=
  { new bitmap_device with
    options_ := st.options_, stop_obj_ := st.stop_obj_, std_cs_ := true,
    drop_objects_ := st.drop_objects_, form_resource_ := v.pFormResource,
    in_group_ := v.transparency.group }

/-- The nested scope of `ProcessTransparency`: the object is rendered, without its clip, by
a new status on the bitmap device. -/
def ProcessTransparency.nested (env : Env) (rso : Rso) (st : CPDF_RenderStatus)
    (pPageObj : CPDF_PageObject) (v : TransparencyLocals) (bitmap_device : Ref)
    (new_matrix : CFX_Matrix) : R CPDF_RenderStatus := do
  let bitmap_render ← Initialize env (ProcessTransparency.status st v bitmap_device) none none
  ProcessObjectNoClip env rso bitmap_render pPageObj new_matrix

/-- The part of `ProcessTransparency` from the render into the bitmap device on. -/
def ProcessTransparency.render (env : Env) (rso : Rso) (st : CPDF_RenderStatus)
    (pPageObj : CPDF_PageObject) (mtObj2Device : CFX_Matrix) (v : TransparencyLocals)
    (rect : FX_RECT) (bitmap_device : Ref) (new_matrix : CFX_Matrix)
    (text_mask_bitmap : Option Ref) : R (Bool × CPDF_RenderStatus) := do
  let bitmap_render ← ProcessTransparency.nested env rso st pPageObj v bitmap_device new_matrix
  let st := { st with stopped_ := bitmap_render.stopped_ }
  let _ ← (match v.pSMaskDict with
    | some d => do
      let smask_matrix := env.Concat pPageObj.states.general_state.smask_matrix mtObj2Device
      let smask_bitmap ← LoadSMask env rso st d rect smask_matrix
      match smask_bitmap with
      | some mask => call env bitmap_device (.MultiplyAlphaMask mask)
      | none => pure true
    | none => pure true)
  let _ ← (match text_mask_bitmap with
    | some mask => call env bitmap_device (.MultiplyAlphaMask mask)
    | none => pure true)
  let _ ← (if v.transparency.group then call env bitmap_device (.MultiplyAlpha v.group_alpha)
    else pure true)
  let _ ← (if v.initial_alpha ≠ 1 ∧ !st.in_group_ then
      call env bitmap_device (.MultiplyAlpha v.initial_alpha)
    else pure true)
  let transparency := if pPageObj.type = .kForm then { st.transparency_ with group := true }
    else st.transparency_
  CompositeDIBitmap env st bitmap_device rect.left rect.top 0 1 v.blend_type transparency
  pure (true, st)

/-- The part of `ProcessTransparency` that sets up the bitmap device and the text mask. -/
def ProcessTransparency.buffer (env : Env) (rso : Rso) (st : CPDF_RenderStatus)
    (pPageObj : CPDF_PageObject) (mtObj2Device : CFX_Matrix) (v : TransparencyLocals) :
    R (Bool × CPDF_RenderStatus) := do
  let box ← ask (env.GetClipBox · st.device_)
  let rect := env.Intersect (env.GetTransformedBBox pPageObj mtObj2Device) box
  if env.RectIsEmpty rect then pure (true, st)
  else do
    let width := rect.right - rect.left
    let height := rect.bottom - rect.top
    let caps ← ask (env.GetRenderCaps · st.device_)
    let (failed, backdrop) ←
      (if !v.transparency.isolated ∧ caps.get_bits then do
        let backdrop ← alloc
        let made ← call env st.device_ (.CreateCompatibleBitmap backdrop width height)
        if !made then pure (true, (none : Option Ref))
        else do
          let _ ← call env st.device_ (.GetDIBits backdrop rect.left rect.top)
          pure (false, some backdrop)
      else pure (false, (none : Option Ref)))
    if failed then pure (true, st)
    else do
      let bitmap_device ← alloc
      let format ← GetCompatibleArgbFormat env st
      let created ← call env bitmap_device (.CreateWithBackdrop width height format backdrop)
      if !created then pure (true, st)
      else do
        let new_matrix := env.Translate mtObj2Device (-rect.left) (-rect.top)
        if v.bTextClip then do
          let text_mask_bitmap ← alloc
          let made ← call env text_mask_bitmap (.Create width height .k8bppMask)
          if !made then pure (true, st)
          else do
            let text_device ← alloc
            let _ ← call env text_device (.Attach text_mask_bitmap)
            ProcessTransparency.textMask env text_device new_matrix
              (match pPageObj.states.clip_path with
                | some clip => clip.texts
                | none => [])
            ProcessTransparency.render env rso st pPageObj mtObj2Device v rect bitmap_device
              new_matrix (some text_mask_bitmap)
        else
          ProcessTransparency.render env rso st pPageObj mtObj2Device v rect bitmap_device
            new_matrix none

/-- The method `ProcessTransparency`. -/
def ProcessTransparency (env : Env) (rso : Rso) (st : CPDF_RenderStatus)
    (pPageObj : CPDF_PageObject) (mtObj2Device : CFX_Matrix) : R (Bool × CPDF_RenderStatus) := do
  let caps ← ask (env.GetRenderCaps · st.device_)
  let v := ProcessTransparency.locals env st pPageObj caps
  if ProcessTransparency.plain v then pure (false, st)
  else if env.is_win ∧ st.print_ then do
    DrawObjWithBackground env rso st pPageObj mtObj2Device
    pure (true, st)
  else ProcessTransparency.buffer env rso st pPageObj mtObj2Device v

/-- The body of `RenderSingleObject` after the depth guard. -/
def RenderSingleObject.body (env : Env) (rso : Rso) (st : CPDF_RenderStatus)
    (pObj : CPDF_PageObject) (mtObj2Device : CFX_Matrix) : R CPDF_RenderStatus :=
  let st := { st with cur_obj_ := some pObj.self }
  if !env.CheckPageObjectVisible st.options_ pObj then pure st
  else do
    let st ← ProcessClipPath env rso st pObj.states.clip_path mtObj2Device
    let (handled, st) ← ProcessTransparency env rso st pObj mtObj2Device
    if handled then pure st
    else ProcessObjectNoClip env rso st pObj mtObj2Device

/-- The entry of `RenderSingleObject`: the `AutoRestorer` saves the counter, which is then
incremented and compared with the maximum. -/
def RenderSingleObject.enter (g : G) : G :=
  { g with depth := g.depth + 1, peak := max g.peak (g.depth + 1) }

/-- The method `RenderSingleObject`.  The first argument bounds how many activations may be
open at once; the `AutoRestorer` puts the counter back on every return. -/
def RenderSingleObject (env : Env) : Nat → Rso
  | 0 => fun _ _ _ _ => .starved
  | fuel + 1 => fun st pObj mtObj2Device g =>
    let g1 := RenderSingleObject.enter g
    if g1.depth > kRenderMaxRecursionDepth then .ok st { g1 with depth := g.depth }
    else
      match RenderSingleObject.body env (RenderSingleObject env fuel) st pObj mtObj2Device g1 with
      | .ok st1 g2 => .ok st1 { g2 with depth := g.depth }
      | .aborted g2 => .aborted g2
      | .starved => .starved

/-- The first branch of `ContinueSingleObject`: an image render is in flight. -/
def ContinueSingleObject.resume (env : Env) (rso : Rso) (st : CPDF_RenderStatus)
    (renderer : Ref) (pObj : CPDF_PageObject) (mtObj2Device : CFX_Matrix)
    (pPause : Option Nat) : R (Bool × CPDF_RenderStatus) := do
  let more ← call env renderer (.ImageContinue pPause)
  if more then pure (true, st)
  else do
    let result ← ask (env.GetResult · renderer)
    if !result then do
      DrawObjWithBackground env rso st pObj mtObj2Device
      pure (false, { st with image_renderer_ := none })
    else pure (false, { st with image_renderer_ := none })

/-- The method `ContinueSingleObject`. -/
def ContinueSingleObject (env : Env) (rso : Rso) (st : CPDF_RenderStatus)
    (pObj : CPDF_PageObject) (mtObj2Device : CFX_Matrix) (pPause : Option Nat) :
    R (Bool × CPDF_RenderStatus) :=
  match st.image_renderer_ with
  | some renderer => ContinueSingleObject.resume env rso st renderer pObj mtObj2Device pPause
  | none =>
    let st := { st with cur_obj_ := some pObj.self }
    if !env.CheckPageObjectVisible st.options_ pObj then pure (false, st)
    else do
      let st ← ProcessClipPath env rso st pObj.states.clip_path mtObj2Device
      let (handled, st) ← ProcessTransparency env rso st pObj mtObj2Device
      if handled then pure (false, st)
      else if pObj.type ≠ .kImage then do
        let st ← ProcessObjectNoClip env rso st pObj mtObj2Device
        pure (false, st)
      else do
        let renderer ← alloc
        let st := { st with image_renderer_ := some renderer }
        let started ← call env renderer (.ImageStart pObj.self mtObj2Device false)
        if !started then do
          let result ← ask (env.GetResult · renderer)
          if !result then do
            DrawObjWithBackground env rso st pObj mtObj2Device
            pure (false, { st with image_renderer_ := none })
          else pure (false, { st with image_renderer_ := none })
        else ContinueSingleObject.resume env rso st renderer pObj mtObj2Device pPause

/-! ## A small document for closed statements -/

namespace Demo

/-- A plain, visible path object with the rectangle (0, 0, 10, 10). -/
def path (n : Nat) : CPDF_PageObject where
  self := .given n
  type := .kPath
  active := true
  rect := ⟨0, 0, 10, 10⟩
  states := CPDF_GraphicStates.empty
  filltype := .kWinding
  stroke := false
  matrix := CFX_Matrix.identity
  path := .doc n
  char_codes := []
  char_positions := []
  text_matrix := CFX_Matrix.identity
  image := 0
  image_dict_has_smask := false
  shading_pattern := 0
  form := 0
  form_matrix := CFX_Matrix.identity

/-- A form object that invokes the form `f`. -/
def formObject (n : Nat) (f : Nat) : CPDF_PageObject :=
  { path n with type := .kForm, form := f }

/-- A text object of one character in the font `f`. -/
def text (n : Nat) (f : Nat) : CPDF_PageObject :=
  { path n with
    type := .kText, char_codes := [65],
    states := { CPDF_GraphicStates.empty with
      text_state := { CPDF_GraphicStates.empty.text_state with font := f } } }

/-- A path that is filled with a plain colour and stroked with a pattern colour. -/
def patternStroked (n : Nat) : CPDF_PageObject :=
  { path n with
    stroke := true,
    states := { CPDF_GraphicStates.empty with
      color_state := ⟨true, ⟨false, false, none⟩, ⟨false, true, none⟩, 0, 0⟩ } }

/-- A form object that invokes the form `f` with a blend mode other than `Normal`. -/
def blended (n : Nat) (f : Nat) : CPDF_PageObject :=
  { formObject n f with
    states := { CPDF_GraphicStates.empty with
      general_state := { CPDF_GraphicStates.empty.general_state with blend_type := .kOther 1 } } }

/-- The objects of the document: 10, 21, 23 and 24 are form objects, the last with a blend
mode, 20 and 22 are texts in Type-3 fonts, 30 is stroked with a pattern, every other object
is a plain path. -/
def objects (r : Ref) : CPDF_PageObject :=
  match r with
  | .given 10 => formObject 10 1
  | .given 20 => text 20 0
  | .given 21 => formObject 21 3
  | .given 22 => text 22 1
  | .given 23 => formObject 23 7
  | .given 24 => blended 24 7
  | .given 30 => patternStroked 30
  | .given n => path n
  | .fresh n => path n

/-- The object lists of the document.  Form 0 is a page of five paths; form 1 contains the
form object that invokes it; form 2 is the glyph of font 0 and invokes form 3, which shows a
text in font 0 again; form 5 is the glyph of font 1; form 4 is a page with a text in font 1
and a path; forms 6 and 8 are pages with a form object for form 7 and a path, the form
object of form 8 has a blend mode. -/
def forms (n : Nat) : CPDF_Form :=
  let list : List (Option Ref) :=
    match n with
    | 0 => [some (.given 1), some (.given 2), some (.given 3), some (.given 4), some (.given 5)]
    | 1 => [some (.given 10)]
    | 2 => [some (.given 1), some (.given 21)]
    | 3 => [some (.given 20)]
    | 4 => [some (.given 22), some (.given 5)]
    | 5 => [some (.given 3), some (.given 4)]
    | 6 => [some (.given 23), some (.given 5)]
    | 7 => [some (.given 3), some (.given 4)]
    | 8 => [some (.given 24), some (.given 5)]
    | _ => []
  ⟨list, ⟨false, false⟩, none, none, ⟨0, 0, 10, 10⟩⟩

/-- Collaborators that always succeed: a device with the clip box (0, 0, 100, 100) that can
read back its bits and clips softly, geometry helpers that leave their argument as it is,
Type-3 fonts whose glyphs are content streams (font 1 has form 5, every other font form 2). -/
def env : Env where
  is_win := false
  is_apple := false
  use_skia := false
  pdf_use_skia := false
  obj := objects
  form := forms
  font := fun _ => ⟨true, true, CFX_Matrix.identity⟩
  smask := fun _ => ⟨none, none, false, false, none⟩
  LoadChar := fun f _ => some f
  type3char := fun c => ⟨true, if c = 1 then 5 else 2, false, none, CFX_Matrix.identity⟩
  LoadGlyph := fun _ _ _ => none
  page_resources := none
  default_states := CPDF_GraphicStates.empty
  result := fun _ _ => true
  GetClipBox := fun _ _ => ⟨0, 0, 100, 100⟩
  GetRenderCaps := fun _ _ => ⟨true, true, false, false⟩
  IsPrinter := fun _ _ => false
  GetBackDrop := fun _ _ => none
  GetBitmap := fun _ _ => none
  IsMaskFormat := fun _ _ => false
  IsAlphaFormat := fun _ _ => false
  GetWidth := fun _ _ => 0
  GetHeight := fun _ _ => 0
  GetResult := fun _ _ => true
  ScaledBufferMatrix := fun _ _ => CFX_Matrix.identity
  CheckPageObjectVisible := fun _ _ => true
  CheckOCGDictVisible := fun _ _ => true
  TranslateColor := fun _ c => c
  TranslateObjectFillColor := fun _ c _ => c
  TranslateObjectStrokeColor := fun _ c _ => c
  GetTransferFunc := fun _ => none
  TransferTranslateColor := fun _ c => c
  AlphaAndColorRefToArgb := fun _ c => c
  HasFillColor := fun _ => true
  HasStrokeColor := fun _ => true
  Concat := fun m _ => m
  GetInverse := fun m => m
  Translate := fun m _ _ => m
  Scale := fun m _ _ => m
  TransformRect := fun _ r => r
  ToFloatRect := fun r => ⟨r.left, r.top, r.right, r.bottom⟩
  GetOuterRect := fun _ => ⟨0, 0, 100, 100⟩
  GetTransformedBBox := fun _ _ => ⟨0, 0, 10, 10⟩
  Intersect := fun r _ => r
  RectIsEmpty := fun _ => false
  RectValid := fun _ => true
  RoundF := fun _ => 0
  GetFlipMatrix := fun _ _ _ _ => CFX_Matrix.identity
  MulAlphaChannel := fun c _ => c
  ArgbAlpha := fun _ => 255
  pattern_to_form := fun _ => CFX_Matrix.identity
  new_path_object := path 0
  AppendTexts := fun l t => l ++ t.map some ++ [none]
  GetOrigin := fun _ _ _ => none
  GetGlyphsBBox := fun _ => ⟨0, 0, 0, 0⟩
  SafeAdd := fun a b => some (a + b)
  SafeSub := fun a b => some (a - b)
  GetCharPosList := fun _ => []
  ArgbEncode := fun _ _ _ _ => 0

/-- The state of a process that has rendered nothing yet. -/
def start : G := ⟨0, 0, 0, []⟩

/-- A state in which the recursion counter stands at its maximum. -/
def deep : G := ⟨64, 64, 0, []⟩

/-- A fresh status on the device 0. -/
def status : CPDF_RenderStatus := new (.given 0)

/-- The call log of an outcome. -/
def logOf {α : Type} : Res α → List Event
  | .ok _ g => g.log
  | .aborted g => g.log
  | .starved => []

/-- The highest value the recursion counter has held in an outcome. -/
def peakOf {α : Type} : Res α → Nat
  | .ok _ g => g.peak
  | .aborted g => g.peak
  | .starved => 0

/-- The stopped flag of the status an outcome returns. -/
def stoppedOf : Res CPDF_RenderStatus → Option Bool
  | .ok st _ => some st.stopped_
  | _ => none

/-- The paths of the document that an outcome has handed to `DrawPath`, in order. -/
def drawn {α : Type} (r : Res α) : List Nat :=
  (logOf r).filterMap fun e =>
    match e.call with
    | .DrawPath (.doc n) _ _ _ _ _ => some n
    | _ => none

end Demo

/-! ## Vocabulary of the proofs -/

/-- The bound the recursion counter keeps below, seen from a state whose counter is `d`. -/
def peakCap (d : Nat) : Nat := max (kRenderMaxRecursionDepth + 1) (d + 1)

/-- What a run that ends in an abort keeps: the counter has stayed below its bound and the
log has only grown. -/
def ExtA (g g1 : G) : Prop :=
  g1.peak ≤ max g.peak (peakCap g.depth) ∧ g.log <+: g1.log

/-- What a run that returns keeps: in addition the counter is back at its value. -/
def Ext (g g1 : G) : Prop := ExtA g g1 ∧ g1.depth = g.depth

/-- The outcome of a run from `g`: it has not run out of fuel, and the result satisfies `P`
when it returned. -/
def Res.post {α : Type} (g : G) (P : α → Prop) : Res α → Prop
  | .ok a g1 => Ext g g1 ∧ P a
  | .aborted g1 => ExtA g g1
  | .starved => False

/-- A computation is good at depth `d`: from every state whose counter is `d` it ends as
`Res.post` says. -/
def Good {α : Type} (d : Nat) (P : α → Prop) (m : R α) : Prop :=
  ∀ g, g.depth = d → Res.post g P (m g)

/-- What rendering leaves untouched in a status: everything but the current object, the
last applied clip path and the stopped flag. -/
def Frame (st st1 : CPDF_RenderStatus) : Prop :=
  { st1 with cur_obj_ := st.cur_obj_, last_clip_path_ := st.last_clip_path_,
             stopped_ := st.stopped_ } = st

/-- A `RenderSingleObject` that is good at depth `d`. -/
def GoodRso (d : Nat) (rso : Rso) : Prop := ∀ st obj mt, Good d (Frame st) (rso st obj mt)

/-! ## Definitions in the words of the claims -/

/-- The objects of a list that are handed to `RenderSingleObject`, in list order: the
non-null, active objects whose rectangle is not disjoint from the clip rectangle. -/
def handedOver (env : Env) (clip_rect : CFX_FloatRect) (objs : List (Option Ref)) :
    List CPDF_PageObject :=
  objs.filterMap fun p =>
    match p with
    | some r =>
      if (env.deref r).active && !culled clip_rect (env.deref r) then some (env.deref r)
      else none
    | none => none

/-- The objects of a list are handed to `rso` one after the other. -/
def renderEach (rso : Rso) (mt : CFX_Matrix) :
    List CPDF_PageObject → CPDF_RenderStatus → R CPDF_RenderStatus
  | [], st => pure st
  | obj :: rest, st => do
    let st1 ← rso st obj mt
    renderEach rso mt rest st1

/-- The device clip box at the state `g`, mapped through the inverse of the transform. -/
def entryClipRect (env : Env) (st : CPDF_RenderStatus) (mt : CFX_Matrix) (g : G) :
    CFX_FloatRect :=
  env.TransformRect (env.GetInverse mt) (env.ToFloatRect (env.GetClipBox g.log st.device_))

/-- An outcome that is not a return with the stopped flag set. -/
def notStopped : Res CPDF_RenderStatus → Bool
  | .ok st _ => !st.stopped_
  | _ => true

/-- The object's clip path carries text and the device lacks soft-clip support while not
printing. -/
def textClipUnsupported (st : CPDF_RenderStatus) (obj : CPDF_PageObject) (caps : RenderCaps) :
    Prop :=
  (∃ clip, obj.states.clip_path = some clip ∧ clip.texts.length > 0) ∧
    caps.soft_clip = false ∧ st.print_ = false

/-- A soft-mask dictionary is present and the object is not an image whose own dictionary has
an `SMask` entry. -/
def softMaskApplies (obj : CPDF_PageObject) : Prop :=
  obj.states.general_state.soft_mask.isSome ∧
    ¬ (obj.type = .kImage ∧ obj.image_dict_has_smask = true)

/-- The condition of claim C5 as it is written; the group fill alpha is the fill alpha of
a form object and 1 for every other object, and the inherited initial-state fill alpha is
the fill alpha of the initial states of the status. -/
def claimedSpecial (env : Env) (st : CPDF_RenderStatus) (obj : CPDF_PageObject)
    (caps : RenderCaps) : Prop :=
  softMaskApplies obj ∨
  (if obj.type = .kForm then obj.states.general_state.fill_alpha else 1) ≠ 1 ∨
  obj.states.general_state.blend_type ≠ .kNormal ∨
  textClipUnsupported st obj caps ∨
  (obj.type = .kForm ∧ (env.form obj.form).transparency.isolated = true) ∨
  st.initial_states_.general_state.fill_alpha ≠ 1

/-- The condition of claim C5 as amended: the inherited initial-state fill alpha counts for
form objects only. -/
def special (env : Env) (st : CPDF_RenderStatus) (obj : CPDF_PageObject)
    (caps : RenderCaps) : Prop :=
  softMaskApplies obj ∨
  (obj.type = .kForm ∧ obj.states.general_state.fill_alpha ≠ 1) ∨
  obj.states.general_state.blend_type ≠ .kNormal ∨
  textClipUnsupported st obj caps ∨
  (obj.type = .kForm ∧ (env.form obj.form).transparency.isolated = true) ∨
  (obj.type = .kForm ∧ st.initial_states_.general_state.fill_alpha ≠ 1)

/-- A status whose inherited initial states have the fill alpha 0. -/
def Demo.fadedStatus : CPDF_RenderStatus :=
  { Demo.status with
    initial_states_ := { CPDF_GraphicStates.empty with
      general_state := { CPDF_GraphicStates.empty.general_state with fill_alpha := 0 } } }

/-- The fill of a path object is requested and its fill colour is a pattern. -/
def fillConsumed (path_obj : CPDF_PageObject) : Prop :=
  path_obj.filltype ≠ .kNoFill ∧ path_obj.states.color_state.fill_color.is_pattern = true

/-- The stroke of a path object is requested and its stroke colour is a pattern. -/
def strokeConsumed (path_obj : CPDF_PageObject) : Prop :=
  path_obj.stroke = true ∧ path_obj.states.color_state.stroke_color.is_pattern = true

instance (path_obj : CPDF_PageObject) : Decidable (fillConsumed path_obj) := by
  unfold fillConsumed
  infer_instance

instance (path_obj : CPDF_PageObject) : Decidable (strokeConsumed path_obj) := by
  unfold strokeConsumed
  infer_instance

/-- The fill type after the patterns are consumed: cleared when the fill colour is a
pattern, kept otherwise. -/
def keptFill (path_obj : CPDF_PageObject) : FillType :=
  if fillConsumed path_obj then .kNoFill else path_obj.filltype

/-- The stroke flag after the patterns are consumed: cleared when the stroke colour is a
pattern, kept otherwise. -/
def keptStroke (path_obj : CPDF_PageObject) : Bool :=
  if strokeConsumed path_obj then false else path_obj.stroke

/-- The conversion of a fill to a stroke applies: forced colour mode, the option is on and a
fill is still requested. -/
def convertsFillToStroke (st : CPDF_RenderStatus) (fill_type : FillType) : Prop :=
  st.options_.color_mode = .kForcedColor ∧ st.options_.bConvertFillToStroke = true ∧
    fill_type ≠ .kNoFill

/-- A status in forced colour mode with the conversion of fills to strokes on. -/
def Demo.forcedStatus : CPDF_RenderStatus :=
  { Demo.status with
    options_ := { CPDF_RenderOptions.default with
      color_mode := .kForcedColor, bConvertFillToStroke := true } }

/-- The fill type and the stroke flag of each `DrawPath` call of an outcome. -/
def Demo.drawFlags {α : Type} (r : Res α) : List (FillType × Bool) :=
  (Demo.logOf r).filterMap fun e =>
    match e.call with
    | .DrawPath _ _ _ _ _ opts => some (opts.fill_type, opts.stroke)
    | _ => none

/-- The demo document on Windows, printed: the device 0 is a printer that cannot read back
its bits, every other device is a bitmap device. -/
def Demo.printer : Env :=
  { Demo.env with
    is_win := true,
    IsPrinter := fun _ device => decide (device = .given 0),
    GetRenderCaps := fun _ device => ⟨!decide (device = .given 0), true, false, false⟩ }

/-- The status of a render of the demo document that stops at the object `n`; `printed` is
the value `Initialize` has given to `print_`. -/
def Demo.stopAt (n : Nat) (printed : Bool) : CPDF_RenderStatus :=
  { Demo.status with stop_obj_ := some (.given n), print_ := printed }

/-- What a call of `GetFillArgbForType3` or `GetStrokeArgb` leaves behind besides the colour
it returns: the object, whose general state may have got a transfer function stored by
`SetTransferFunc`, and the `TR` objects `GetTransferFunc` was asked for. -/
structure ArgbRun where
  argb : Nat
  obj : CPDF_PageObject
  looked_up : List Nat
  deriving DecidableEq

/-- The block `if (pTR) { ... }` of `GetFillArgbForType3` and `GetStrokeArgb`: the colour
reference after the transfer function, the object after the block, and the lookups made. -/
def applyTransferFunc (env : Env) (pObj : CPDF_PageObject) (colorref : Nat) :
    Nat × CPDF_PageObject × List Nat :=
  match pObj.states.general_state.tr with
  | some tr =>
    let stored : CPDF_PageObject × List Nat :=
      match pObj.states.general_state.transfer_func with
      | some _ => (pObj, [])
      | none =>
        ({ pObj with states := { pObj.states with
            general_state := { pObj.states.general_state with
              transfer_func := env.GetTransferFunc tr } } }, [tr])
    match stored.1.states.general_state.transfer_func with
    | some f => (env.TransferTranslateColor f colorref, stored.1, stored.2)
    | none => (colorref, stored.1, stored.2)
  | none => (colorref, pObj, [])

/-- The method `GetFillArgbForType3` with what it does to the object. -/
def GetFillArgbForType3.run (env : Env) (st : CPDF_RenderStatus) (pObj : CPDF_PageObject) :
    ArgbRun :=
  let cs := if MissingFillColor pObj.states.color_state then st.initial_states_.color_state
    else pObj.states.color_state
  let colorref := cs.fill_colorref
  if colorref = 0xFFFFFFFF then ⟨0, pObj, []⟩
  else
    let alpha := truncToInt (pObj.states.general_state.fill_alpha * 255)
    let translated := applyTransferFunc env pObj colorref
    ⟨env.TranslateObjectFillColor st.options_ (env.AlphaAndColorRefToArgb alpha translated.1)
      pObj.type, translated.2.1, translated.2.2⟩

/-- The method `GetStrokeArgb` with what it does to the object. -/
def GetStrokeArgb.run (env : Env) (st : CPDF_RenderStatus) (pObj : CPDF_PageObject) :
    ArgbRun :=
  if Type3CharMissingStrokeColor env st.type3_char_ pObj.states.color_state then
    ⟨st.t3_fill_color_, pObj, []⟩
  else
    let cs := if MissingStrokeColor pObj.states.color_state then st.initial_states_.color_state
      else pObj.states.color_state
    let colorref := cs.stroke_colorref
    if colorref = 0xFFFFFFFF then ⟨0, pObj, []⟩
    else
      let alpha := truncToInt (pObj.states.general_state.stroke_alpha * 255)
      let translated := applyTransferFunc env pObj colorref
      ⟨env.TranslateObjectStrokeColor st.options_
        (env.AlphaAndColorRefToArgb alpha translated.1) pObj.type, translated.2.1,
        translated.2.2⟩

/-- The status is a Type-3 glyph sub-render whose glyph is uncolored. -/
def uncoloredGlyph (env : Env) (st : CPDF_RenderStatus) : Bool :=
  match st.type3_char_ with
  | some c => !(env.type3char c).colored
  | none => false

/-- The fill colour resolved from a colour state: the null colour `0xFFFFFFFF` gives 0, every
other colour reference goes through the transfer function of the object, gets the fill alpha
of the object and is translated by the render options. -/
def resolvedFill (env : Env) (st : CPDF_RenderStatus) (pObj : CPDF_PageObject)
    (cs : CPDF_ColorState) : Nat :=
  if cs.fill_colorref = 0xFFFFFFFF then 0
  else
    env.TranslateObjectFillColor st.options_
      (env.AlphaAndColorRefToArgb (truncToInt (pObj.states.general_state.fill_alpha * 255))
        (applyTransferFunc env pObj cs.fill_colorref).1) pObj.type

/-- The stroke colour resolved from a colour state, like `resolvedFill`. -/
def resolvedStroke (env : Env) (st : CPDF_RenderStatus) (pObj : CPDF_PageObject)
    (cs : CPDF_ColorState) : Nat :=
  if cs.stroke_colorref = 0xFFFFFFFF then 0
  else
    env.TranslateObjectStrokeColor st.options_
      (env.AlphaAndColorRefToArgb (truncToInt (pObj.states.general_state.stroke_alpha * 255))
        (applyTransferFunc env pObj cs.stroke_colorref).1) pObj.type

/-- The colour state the fill colour is resolved from: that of the object, or the inherited
initial one when the fill colour of the object is unset. -/
def fillSource (st : CPDF_RenderStatus) (pObj : CPDF_PageObject) : CPDF_ColorState :=
  if MissingFillColor pObj.states.color_state then st.initial_states_.color_state
  else pObj.states.color_state

/-- The colour state the stroke colour is resolved from. -/
def strokeSource (st : CPDF_RenderStatus) (pObj : CPDF_PageObject) : CPDF_ColorState :=
  if MissingStrokeColor pObj.states.color_state then st.initial_states_.color_state
  else pObj.states.color_state

/-- The result of `GetFillArgb` as claim C11 words it. -/
def claimedFillArgb (env : Env) (st : CPDF_RenderStatus) (pObj : CPDF_PageObject) : Nat :=
  if uncoloredGlyph env st then st.t3_fill_color_
  else resolvedFill env st pObj (fillSource st pObj)

/-- The result of `GetStrokeArgb` as claim C11 words it. -/
def claimedStrokeArgb (env : Env) (st : CPDF_RenderStatus) (pObj : CPDF_PageObject) : Nat :=
  if uncoloredGlyph env st then st.t3_fill_color_
  else resolvedStroke env st pObj (strokeSource st pObj)

/-- The status of the render of a glyph of the demo document whose caller paints with the
colour 7. -/
def Demo.glyphStatus : CPDF_RenderStatus :=
  { Demo.status with type3_char_ := some 0, t3_fill_color_ := 7 }

/-- A path of the demo document whose fill and stroke colours are the null colour, with a
`TR` entry and alphas of 0. -/
def Demo.nullColored : CPDF_PageObject :=
  { Demo.path 1 with
    states := { CPDF_GraphicStates.empty with
      color_state := ⟨true, ⟨false, false, none⟩, ⟨false, false, none⟩, 0xFFFFFFFF, 0xFFFFFFFF⟩,
      general_state := { CPDF_GraphicStates.empty.general_state with
        fill_alpha := 0, stroke_alpha := 0, tr := some 3 } } }

/-- A filled path of the demo document whose matrix maps everything to one point. -/
def Demo.collapsed : CPDF_PageObject :=
  { Demo.path 1 with matrix := ⟨0, 0, 0, 0, 0, 0⟩ }

/-- The shared state after the calls `es` have been made. -/
def said (g : G) (es : List Event) : G := { g with log := g.log ++ es }

/-- The shared state after one new object has been made and the calls `es`. -/
def grown (g : G) (es : List Event) : G := { g with fresh := g.fresh + 1, log := g.log ++ es }

/-- The calls the first part of `CompositeDIBitmap` makes for a bitmap that is not a mask
when it goes on to `SetDIBits`: none unless the blend mode is Normal, and `MultiplyAlpha`
before `SetDIBits` when the alpha is not 1. -/
def CompositeDIBitmap.tried (st : CPDF_RenderStatus) (bitmap : Ref) (left : Int) (top : Int)
    (alpha : ℚ) (blend_mode : BlendMode) : List Event :=
  if blend_mode = .kNormal then
    if alpha = 1 then [⟨st.device_, .SetDIBits bitmap left top⟩]
    else [⟨bitmap, .MultiplyAlpha alpha⟩, ⟨st.device_, .SetDIBits bitmap left top⟩]
  else []

/-- The capability condition `bGetBackGround` of `CompositeDIBitmap`, for the render
capabilities `caps`: the device has alpha output, or it has get-bits while not (the blend
mode is not Normal and the group is isolated and objects are not dropped). -/
def CompositeDIBitmap.readsBack (st : CPDF_RenderStatus) (blend_mode : BlendMode)
    (transparency : CPDF_Transparency) (caps : RenderCaps) : Prop :=
  caps.alpha_output = true ∨
    (caps.get_bits = true ∧
      ¬ (blend_mode ≠ .kNormal ∧ transparency.isolated = true ∧ st.drop_objects_ = false))

instance (st : CPDF_RenderStatus) (blend_mode : BlendMode) (transparency : CPDF_Transparency)
    (caps : RenderCaps) :
    Decidable (CompositeDIBitmap.readsBack st blend_mode transparency caps) := by
  unfold CompositeDIBitmap.readsBack
  infer_instance

/-- The rectangle of the bitmap at `(left, top)`, intersected with the clip box of the
device. -/
def CompositeDIBitmap.area (env : Env) (st : CPDF_RenderStatus) (bitmap : Ref) (left : Int)
    (top : Int) (log : List Event) : FX_RECT :=
  env.Intersect ⟨left, top, left + env.GetWidth log bitmap, top + env.GetHeight log bitmap⟩
    (env.GetClipBox log st.device_)

/-- Strategy (c) in full, from the state `g1`: the backdrop of the device is clipped to the
area into the new bitmap `pClone`, the bitmap of the device is composited onto it with the
blend mode Normal, then the bitmap with its blend mode, and the clone is set on the
device. -/
def CompositeDIBitmap.cloneCalls (env : Env) (st : CPDF_RenderStatus) (bitmap : Ref)
    (left : Int) (top : Int) (blend_mode : BlendMode) (backdrop : Ref) (device_bitmap : Ref)
    (g1 : G) : List Event :=
  let rect := CompositeDIBitmap.area env st bitmap left top g1.log
  let pClone := Ref.fresh g1.fresh
  let clip : Event := ⟨backdrop, .ClipTo pClone rect⟩
  let cw := env.GetWidth (g1.log ++ [clip]) pClone
  let ch := env.GetHeight (g1.log ++ [clip]) pClone
  [clip,
    ⟨pClone, .CompositeBitmap 0 0 cw ch device_bitmap rect.left rect.top .kNormal⟩,
    ⟨pClone, .CompositeBitmap 0 0 cw ch bitmap (min left 0) (min top 0) blend_mode⟩,
    ⟨st.device_, .SetDIBits pClone rect.left rect.top⟩]

/-- Strategy (d) after the backdrop `backdrop` has been fetched for the box `bbox`, from the
state `g2`: the bitmap is composited onto the backdrop with its blend mode, a new bitmap of
the size of the backdrop is created without alpha and cleared to opaque white, the backdrop
is composited onto it with the blend mode Normal, and it is set on the device. -/
def CompositeDIBitmap.flattenCalls (env : Env) (st : CPDF_RenderStatus) (bitmap : Ref)
    (left : Int) (top : Int) (blend_mode : BlendMode) (g1 : G) (bbox : FX_RECT)
    (backdrop : Ref) (g2 : G) : List Event :=
  let comp : Event := ⟨backdrop, .CompositeBitmap (left - bbox.left) (top - bbox.top)
    (env.GetWidth g1.log bitmap) (env.GetHeight g1.log bitmap) bitmap 0 0 blend_mode⟩
  let new_backdrop := Ref.fresh g2.fresh
  let create : Event := ⟨new_backdrop, .Create (env.GetWidth (g2.log ++ [comp]) backdrop)
    (env.GetHeight (g2.log ++ [comp]) backdrop) .kBgrx⟩
  let clear : Event := ⟨new_backdrop, .Clear 0xffffffff⟩
  let log3 := g2.log ++ [comp, create, clear]
  [comp, create, clear,
    ⟨new_backdrop, .CompositeBitmap 0 0 (env.GetWidth log3 new_backdrop)
      (env.GetHeight log3 new_backdrop) backdrop 0 0 .kNormal⟩,
    ⟨st.device_, .SetDIBits new_backdrop bbox.left bbox.top⟩]

/-- The demo document rendered by the Skia renderer. -/
def Demo.skia : Env := { Demo.env with use_skia := true }

/-- The two mask steps of `ProcessTransparency` after the render into the buffer: the soft
mask, when there is one and it loads, and the text mask, when there is one, are multiplied
into the alpha of the buffer. -/
def ProcessTransparency.masks (env : Env) (rso : Rso) (st : CPDF_RenderStatus)
    (pPageObj : CPDF_PageObject) (mtObj2Device : CFX_Matrix) (v : TransparencyLocals)
    (rect : FX_RECT) (bitmap_device : Ref) (text_mask_bitmap : Option Ref) : R Unit := do
  let _ ← (match v.pSMaskDict with
    | some d => do
      let smask_matrix := env.Concat pPageObj.states.general_state.smask_matrix mtObj2Device
      let smask_bitmap ← LoadSMask env rso st d rect smask_matrix
      match smask_bitmap with
      | some mask => call env bitmap_device (.MultiplyAlphaMask mask)
      | none => pure true
    | none => pure true)
  let _ ← (match text_mask_bitmap with
    | some mask => call env bitmap_device (.MultiplyAlphaMask mask)
    | none => pure true)
  pure ()

/-- The `MultiplyAlpha` calls of `ProcessTransparency` on the buffer: the group alpha when
the transparency descriptor is a group, then the initial alpha when it is not 1 and the
status is not in a group. -/
def ProcessTransparency.alphaCalls (st : CPDF_RenderStatus) (v : TransparencyLocals)
    (bitmap_device : Ref) : List Event :=
  (if v.transparency.group = true then [⟨bitmap_device, .MultiplyAlpha v.group_alpha⟩]
    else []) ++
  (if v.initial_alpha ≠ 1 ∧ st.in_group_ = false then
    [⟨bitmap_device, .MultiplyAlpha v.initial_alpha⟩] else [])

/-- The `MultiplyAlpha` calls as claim C16 words them: the inherited initial fill alpha is
that of the initial states of the status. -/
def ProcessTransparency.claimedAlphaCalls (st : CPDF_RenderStatus) (v : TransparencyLocals)
    (bitmap_device : Ref) : List Event :=
  (if v.transparency.group = true then [⟨bitmap_device, .MultiplyAlpha v.group_alpha⟩]
    else []) ++
  (if st.initial_states_.general_state.fill_alpha ≠ 1 ∧ st.in_group_ = false then
    [⟨bitmap_device, .MultiplyAlpha st.initial_states_.general_state.fill_alpha⟩] else [])

/-- The transparency descriptor `ProcessTransparency` composites with. -/
def ProcessTransparency.composited (st : CPDF_RenderStatus) (pPageObj : CPDF_PageObject) :
    CPDF_Transparency :=
  if pPageObj.type = .kForm then { st.transparency_ with group := true } else st.transparency_

/-- The `MultiplyAlpha` calls of an outcome. -/
def Demo.alphas {α : Type} (r : Res α) : List Event :=
  (Demo.logOf r).filter fun e =>
    match e.call with
    | .MultiplyAlpha _ => true
    | _ => false

/-- A path of the demo document with a blend mode other than `Normal`. -/
def Demo.blendedPath : CPDF_PageObject :=
  { Demo.path 1 with states := (Demo.blended 1 0).states }

/-- The clip calls for the sub-paths of a clip path, in index order: one `SetClip_PathFill`
for each sub-path that is not null, with the fill rule of the sub-path and the
object-to-device matrix, or, for a sub-path without points, with the rectangle (-1, -1, 0, 0),
the winding rule and no matrix. -/
def ProcessClipPath.pathCalls (device : Ref) (mtObj2Device : CFX_Matrix)
    (paths : List ClipSubPath) : List Event :=
  paths.filterMap fun sub =>
    match sub.path with
    | none => none
    | some pPath =>
      if sub.points_empty then
        some ⟨device, .SetClip_PathFill .emptyRect none CFX_FillRenderOptions.WindingOptions⟩
      else
        some ⟨device, .SetClip_PathFill (.doc pPath) (some mtObj2Device)
          (CFX_FillRenderOptions.ofType sub.clip_type)⟩

/-- A clip path of the demo document with three sub-paths, the second being null and the
third without points, and no text. -/
def Demo.clip : ClipPathData :=
  ⟨.given 50, [⟨some 1, false, .kEvenOdd⟩, ⟨none, false, .kWinding⟩,
    ⟨some 2, true, .kEvenOdd⟩], []⟩

/-- A text sequence split at its break markers: the runs of text objects that are closed by
a marker, in order (a run is empty where a marker follows a marker or starts the sequence),
and the run after the last marker. -/
def textRuns : List (Option Ref) → List (List Ref) × List Ref
  | [] => ([], [])
  | none :: rest => ([] :: (textRuns rest).1, (textRuns rest).2)
  | some t :: rest =>
    match (textRuns rest).1 with
    | [] => ([], t :: (textRuns rest).2)
    | c :: cs => ((t :: c) :: cs, (textRuns rest).2)

/-- The maximal runs of consecutive text objects of a text sequence, as claim C18 words
them: every run that is not empty, closed by a marker or not. -/
def maximalRuns (texts : List (Option Ref)) : List (List Ref) :=
  (textRuns texts).1.filter (· ≠ []) ++
    (if (textRuns texts).2 = [] then [] else [(textRuns texts).2])

/-- The texts of a run are handed to `ProcessText`, one after the other, with the path the
run is collected in. -/
def ProcessClipPath.accumulate (env : Env) (rso : Rso) (mtObj2Device : CFX_Matrix)
    (path : Ref) : List Ref → CPDF_RenderStatus → R CPDF_RenderStatus
  | [], st => pure st
  | pText :: rest, st => do
    let done ← ProcessText env rso st (env.deref pText) mtObj2Device (some path)
    ProcessClipPath.accumulate env rso mtObj2Device path rest done.2

/-- The clip call that applies the run collected in `path`: `SetClip_PathFill` with the
winding rule and no matrix. -/
def ProcessClipPath.textClip (st : CPDF_RenderStatus) (path : Ref) : Event :=
  ⟨st.device_, .SetClip_PathFill (.accum path) none
    (if st.options_.bNoTextSmooth then
      { CFX_FillRenderOptions.WindingOptions with aliased_path := true }
    else CFX_FillRenderOptions.WindingOptions)⟩

/-- A run that is closed by a marker: nothing for an empty run; otherwise a new path is made,
the texts of the run are collected in it, and it is applied by one clip call. -/
def ProcessClipPath.applyRun (env : Env) (rso : Rso) (mtObj2Device : CFX_Matrix)
    (run : List Ref) (st : CPDF_RenderStatus) : R CPDF_RenderStatus :=
  match run with
  | [] => pure st
  | _ :: _ => do
    let path ← alloc
    let st1 ← ProcessClipPath.accumulate env rso mtObj2Device path run st
    let _ ← call env (ProcessClipPath.textClip st1 path).target
      (ProcessClipPath.textClip st1 path).call
    pure st1

/-- The closed runs, one after the other. -/
def ProcessClipPath.applyRuns (env : Env) (rso : Rso) (mtObj2Device : CFX_Matrix) :
    List (List Ref) → CPDF_RenderStatus → R CPDF_RenderStatus
  | [], st => pure st
  | run :: rest, st => do
    let st1 ← ProcessClipPath.applyRun env rso mtObj2Device run st
    ProcessClipPath.applyRuns env rso mtObj2Device rest st1

/-- The run after the last marker: its texts are collected in a new path, which is not
applied. -/
def ProcessClipPath.openRun (env : Env) (rso : Rso) (mtObj2Device : CFX_Matrix)
    (run : List Ref) (st : CPDF_RenderStatus) : R CPDF_RenderStatus :=
  match run with
  | [] => pure st
  | _ :: _ => do
    let path ← alloc
    ProcessClipPath.accumulate env rso mtObj2Device path run st

/-- The rest of a run that has been started with the path `path`, then the later runs. -/
def ProcessClipPath.continueRun (env : Env) (rso : Rso) (mtObj2Device : CFX_Matrix)
    (path : Ref) (runs : List (List Ref) × List Ref) (st : CPDF_RenderStatus) :
    R CPDF_RenderStatus :=
  match runs.1 with
  | [] => ProcessClipPath.accumulate env rso mtObj2Device path runs.2 st
  | run :: rest => do
    let st1 ← ProcessClipPath.accumulate env rso mtObj2Device path run st
    let _ ← call env (ProcessClipPath.textClip st1 path).target
      (ProcessClipPath.textClip st1 path).call
    let st2 ← ProcessClipPath.applyRuns env rso mtObj2Device rest st1
    ProcessClipPath.openRun env rso mtObj2Device runs.2 st2

/-- The demo document with fonts that are not Type-3 fonts. -/
def Demo.plainFonts : Env := { Demo.env with font := fun _ => ⟨false, true, CFX_Matrix.identity⟩ }

/-- A clip path of the demo document without sub-paths, with the given text sequence. -/
def Demo.textClipPath (texts : List (Option Ref)) : ClipPathData := ⟨.given 51, [], texts⟩

/-- A clip path of the demo document with a text, a break marker and a second text. -/
def Demo.runsClip : ClipPathData :=
  Demo.textClipPath [some (.given 20), none, some (.given 22)]

/-- The clip calls of an outcome that apply a collected text path. -/
def Demo.textClips {α : Type} (r : Res α) : List Ref :=
  (Demo.logOf r).filterMap fun e =>
    match e.call with
    | .SetClip_PathFill (.accum path) _ _ => some path
    | _ => none

/-- The one call `ProcessText` makes for a text in a font that is not a Type-3 font when it
is given a clipping path: `DrawTextPath` with the fill colour 0, the stroke colour 0 and the
clipping path. -/
def ProcessText.accumulated (st : CPDF_RenderStatus) (textobj : CPDF_PageObject)
    (mtObj2Device : CFX_Matrix) (path : Ref) : Event :=
  ⟨st.device_, .DrawTextPath textobj.self textobj.states.text_state.font_size
    textobj.text_matrix (some mtObj2Device) 0 0 (some path)
    (GetFillOptionsForDrawTextPath st.options_ textobj false false)⟩

/-- The demo document with colours that are opaque: a colour reference becomes the ARGB
value with the alpha 255. -/
def Demo.blackInk : Env := { Demo.env with AlphaAndColorRefToArgb := fun _ c => 0xFF000000 + c }

/-- The paths an outcome has filled on the device 0, each with its fill colour. -/
def Demo.fills {α : Type} (r : Res α) : List (CFX_Path × Nat) :=
  (Demo.logOf r).filterMap fun e =>
    match e.call with
    | .DrawPath path _ _ fill_argb _ opts =>
      if e.target = .given 0 ∧ opts.fill_type ≠ .kNoFill then some (path, fill_argb) else none
    | _ => none

/-- What claim C20 says `ProcessText` paints in a text rendering mode, as the pair of fill
and stroke; nothing in the modes Invisible and Clip.  The value `MODE_UNKNOWN` is not one of
the modes the claim speaks of. -/
def claimedPaint (mode : TextRenderingMode) (has_face : Bool) : Option (Bool × Bool) :=
  match mode with
  | .MODE_FILL => some (true, false)
  | .MODE_FILL_CLIP => some (true, false)
  | .MODE_STROKE => some (if has_face then (false, true) else (true, false))
  | .MODE_STROKE_CLIP => some (if has_face then (false, true) else (true, false))
  | .MODE_FILL_STROKE => some (if has_face then (true, true) else (true, false))
  | .MODE_FILL_STROKE_CLIP => some (if has_face then (true, true) else (true, false))
  | .MODE_INVISIBLE => none
  | .MODE_CLIP => none
  | .MODE_UNKNOWN => none

/-- The one call that paints a text without pattern colours: fill alone is `DrawNormalText`
with the fill colour; stroke, alone or with fill, is `DrawTextPath` with the stroke colour
and, with fill, the fill colour (0 without), on the matrices adjusted by the CTM of the text
state when that is not the unit one. -/
def ProcessText.painted (env : Env) (st : CPDF_RenderStatus) (textobj : CPDF_PageObject)
    (mtObj2Device : CFX_Matrix) (fill : Bool) (stroke : Bool) : Event :=
  let ts := textobj.states.text_state
  let ctm : CFX_Matrix := ⟨ts.ctm0, ts.ctm1, ts.ctm2, ts.ctm3, 0, 0⟩
  if stroke then
    ⟨st.device_, .DrawTextPath textobj.self ts.font_size
      (if ts.ctm0 ≠ 1 ∨ ts.ctm3 ≠ 1 then env.Concat textobj.text_matrix (env.GetInverse ctm)
        else textobj.text_matrix)
      (some (if ts.ctm0 ≠ 1 ∨ ts.ctm3 ≠ 1 then env.Concat ctm mtObj2Device else mtObj2Device))
      (if fill then GetFillArgb env st textobj else 0) (GetStrokeArgb env st textobj) none
      (GetFillOptionsForDrawTextPath st.options_ textobj true fill)⟩
  else
    ⟨st.device_, .DrawNormalText textobj.self ts.font_size
      (env.Concat textobj.text_matrix mtObj2Device)
      (if fill then GetFillArgb env st textobj else 0) st.options_⟩

/-- One of the colours that are painted is a pattern. -/
def ProcessText.patterned (textobj : CPDF_PageObject) (fill : Bool) (stroke : Bool) : Bool :=
  (stroke && textobj.states.color_state.stroke_color.is_pattern) ||
    (fill && textobj.states.color_state.fill_color.is_pattern)

/-- A text of the demo document in the given text rendering mode. -/
def Demo.textIn (mode : TextRenderingMode) : CPDF_PageObject :=
  { Demo.text 20 0 with
    states := { CPDF_GraphicStates.empty with
      text_state := { CPDF_GraphicStates.empty.text_state with text_mode := mode } } }
/-- An environment with colours that are opaque: a colour reference becomes the ARGB value
with the alpha 255. -/
def Demo.recolored (env : Env) : Env :=
  { env with AlphaAndColorRefToArgb := fun _ c => 0xFF000000 + c }

/-- The text calls of an outcome: the fill colour and, for `DrawTextPath`, the stroke
colour of each. -/
def Demo.textColours {α : Type} (r : Res α) : List (Nat × Option Nat) :=
  (Demo.logOf r).filterMap fun e =>
    match e.call with
    | .DrawNormalText _ _ _ fill_argb _ => some (fill_argb, none)
    | .DrawTextPath _ _ _ _ fill_argb stroke_argb _ _ => some (fill_argb, some stroke_argb)
    | _ => none

/-- The call is `DrawPath`. -/
def Call.isDrawPath : Call → Bool
  | .DrawPath _ _ _ _ _ _ => true
  | _ => false

/-- The state `g1` has the log of `g` with calls added, none of them `DrawPath`. -/
def addedNoDrawPath (g g1 : G) : Prop :=
  ∃ es, g1.log = g.log ++ es ∧ ∀ e ∈ es, Call.isDrawPath e.call = false

/-- A computation that never calls `DrawPath`, however it ends. -/
def NoDrawPath {α : Type} (m : R α) : Prop :=
  ∀ g, match m g with
    | .ok _ g1 => addedNoDrawPath g g1
    | .aborted g1 => addedNoDrawPath g g1
    | .starved => True
/-- The demo document with the matrix product for `Concat` and colours that are opaque. -/
def Demo.affine : Env :=
  { Demo.env with
    Concat := fun m n =>
      ⟨m.a * n.a + m.b * n.c, m.a * n.b + m.b * n.d, m.c * n.a + m.d * n.c,
        m.c * n.b + m.d * n.d, m.e * n.a + m.f * n.c + n.e, m.e * n.b + m.f * n.d + n.f⟩
    AlphaAndColorRefToArgb := fun _ c => 0xFF000000 + c }

/-- A text of the demo document in the Type-3 font 1 with the text matrix (1 0 1 0 0 0),
which `IsAvailableMatrix` rejects. -/
def Demo.flatText : CPDF_PageObject :=
  { Demo.text 22 1 with text_matrix := ⟨1, 0, 1, 0, 0, 0⟩ }

/-- The paths an outcome has handed to `DrawPath` on the device 0, each with its matrix and
its fill colour. -/
def Demo.drawnWith {α : Type} (r : Res α) : List (CFX_Path × CFX_Matrix × Nat) :=
  (Demo.logOf r).filterMap fun e =>
    match e.call with
    | .DrawPath path mt _ fill_argb _ _ =>
      if e.target = .given 0 then some (path, mt, fill_argb) else none
    | _ => none

/-- The demo document with `HasFillColor` and `HasStrokeColor` that look at the colour: a
colour state has a colour when it has a reference and the colour is not null. -/
def Demo.colorAware : Env :=
  { Demo.env with
    HasFillColor := fun cs => cs.has_ref && !cs.fill_color.is_null,
    HasStrokeColor := fun cs => cs.has_ref && !cs.stroke_color.is_null }

/-- A parent status whose initial fill colour has the reference `0x0000FF` and whose initial
stroke colour has the reference `0x00FF00`. -/
def Demo.parentStatus : CPDF_RenderStatus :=
  { Demo.status with
    initial_states_ := { CPDF_GraphicStates.empty with
      color_state := ⟨true, ⟨false, false, none⟩, ⟨false, false, none⟩, 0x0000FF, 0x00FF00⟩ } }

/-- The forms of the demo document with the page 9, whose object list has a null entry
before a path. -/
def Demo.gappedForms (n : Nat) : CPDF_Form :=
  if n = 9 then ⟨[none, some (.given 1)], ⟨false, false⟩, none, none, ⟨0, 0, 10, 10⟩⟩
  else Demo.forms n

/-- The demo document with the page 9. -/
def Demo.gapped : Env := { Demo.env with form := Demo.gappedForms }

/-- The colour state of the given initial states after the first step of `Initialize` with a
parent: the fill colour and its reference are taken from the parent when the states have no
fill colour. -/
def Initialize.filled (env : Env) (parent : CPDF_RenderStatus) (states : CPDF_GraphicStates) :
    CPDF_ColorState :=
  if !env.HasFillColor states.color_state then
    { states.color_state with
      has_ref := true,
      fill_colorref := parent.initial_states_.color_state.fill_colorref,
      fill_color := parent.initial_states_.color_state.fill_color }
  else states.color_state

/-! ## The derivation of the soft mask in `LoadSMask`

The last part of `LoadSMask` computes the bytes of the result mask from the bytes of the
rendered bitmap.  Buffers are lists of bytes; a read or a write outside a buffer has no
result. -/

/-- The table `transfers` of `LoadSMask`.  A transfer function is given by `sample`: the
integer `FXSYS_roundf(results[0] * 255)` of the round `i` of the loop, computed after the
call of the function on the input `i / 255.0f`; the store into the `uint8_t` element keeps
it modulo 256.  Without a function `std::iota` fills in 0, 1, ..., 255. -/
def LoadSMask.transfers (pFunc : Option (Nat → Int)) : List Nat :=
  match pFunc with
  | some sample => (List.range 256).map fun i => (sample i % 256).toNat
  | none => List.range 256

/-- The inner loop of the luminosity branch of `LoadSMask` over the columns of a row: `n`
columns are left, `src_pos` and `dest_pos` are the positions of the two pointers in their
buffers.  The macro `FXRGB2GRAY` is declared outside the sources. -/
def LoadSMask.cols (FXRGB2GRAY : Nat → Nat → Nat → Nat) (transfers src_buf : List Nat)
    (bytes_per_pixel : Nat) : Nat → Nat → Nat → List Nat → Option (List Nat)
  | 0, _, _, dest_buf => some dest_buf
  | n + 1, src_pos, dest_pos, dest_buf => do
    let r ← src_buf[src_pos + 2]?
    let g ← src_buf[src_pos + 1]?
    let b ← src_buf[src_pos]?
    let t ← transfers[FXRGB2GRAY r g b]?
    if dest_pos < dest_buf.length then
      LoadSMask.cols FXRGB2GRAY transfers src_buf bytes_per_pixel n
        (src_pos + bytes_per_pixel) (dest_pos + 1) (dest_buf.set dest_pos t)
    else none

/-- The outer loop of the luminosity branch of `LoadSMask` over the rows: `n` rows are left
and `row` is the next one. -/
def LoadSMask.rows (FXRGB2GRAY : Nat → Nat → Nat → Nat) (transfers src_buf : List Nat)
    (bytes_per_pixel width dest_pitch src_pitch : Nat) :
    Nat → Nat → List Nat → Option (List Nat)
  | 0, _, dest_buf => some dest_buf
  | n + 1, row, dest_buf =>
    let dest_offset := row * dest_pitch
    let src_offset := row * src_pitch
    if dest_offset ≤ dest_buf.length ∧ src_offset ≤ src_buf.length then do
      let dest_buf ← LoadSMask.cols FXRGB2GRAY transfers src_buf bytes_per_pixel width
        src_offset dest_offset dest_buf
      LoadSMask.rows FXRGB2GRAY transfers src_buf bytes_per_pixel width dest_pitch src_pitch
        n (row + 1) dest_buf
    else none

/-- The loop of the alpha branch of `LoadSMask` with a transfer function: `n` bytes are
left and `i` is the next index. -/
def LoadSMask.lookup (transfers src_buf : List Nat) : Nat → Nat → List Nat → Option (List Nat)
  | 0, _, dest_buf => some dest_buf
  | n + 1, i, dest_buf => do
    let a ← src_buf[i]?
    let t ← transfers[a]?
    if i < dest_buf.length then
      LoadSMask.lookup transfers src_buf n (i + 1) (dest_buf.set i t)
    else none

/-- The call `src_buf.first(count)`: the first bytes of a buffer that has so many. -/
def LoadSMask.first (src_buf : List Nat) (count : Nat) : Option (List Nat) :=
  if count ≤ src_buf.length then some (src_buf.take count) else none

/-- The call `fxcrt::Copy(src, dest_buf)`: the bytes are copied to the start of a buffer
that holds them. -/
def LoadSMask.Copy (src dest_buf : List Nat) : Option (List Nat) :=
  if src.length ≤ dest_buf.length then some (src ++ dest_buf.drop src.length) else none

/-- The derivation of the result mask in `LoadSMask`, from the table `transfers` on: the
bytes of the result mask, from the bytes `src_buf` of the rendered bitmap with `bpp` bits
per pixel and the bytes `dest_buf` of the new mask. -/
def LoadSMask.derive (FXRGB2GRAY : Nat → Nat → Nat → Nat) (pFunc : Option (Nat → Int))
    (bLuminosity : Bool) (width height dest_pitch src_pitch bpp : Nat)
    (src_buf dest_buf : List Nat) : Option (List Nat) :=
  let transfers := LoadSMask.transfers pFunc
  if bLuminosity then
    let bytes_per_pixel := bpp / 8
    LoadSMask.rows FXRGB2GRAY transfers src_buf bytes_per_pixel width dest_pitch src_pitch
      height 0 dest_buf
  else if pFunc.isSome then
    let size := dest_pitch * height
    LoadSMask.lookup transfers src_buf size 0 dest_buf
  else do
    let head ← LoadSMask.first src_buf (dest_pitch * height)
    LoadSMask.Copy head dest_buf

/-- The table of claim C22: the identity without a transfer function, and with one the
entry `i` is the rounded value of the function, `round(255 * f(i/255))`. -/
def claimedTransfers (pFunc : Option (Nat → Int)) : List Int :=
  match pFunc with
  | some sample => (List.range 256).map sample
  | none => (List.range 256).map Int.ofNat

/-- The luma of the rendered pixel whose bytes start at `src_pos`: the grey value of its
red, green and blue bytes, which lie in this order at the offsets 2, 1 and 0. -/
def luma (FXRGB2GRAY : Nat → Nat → Nat → Nat) (src_buf : List Nat) (src_pos : Nat) : Nat :=
  FXRGB2GRAY (src_buf[src_pos + 2]?.getD 0) (src_buf[src_pos + 1]?.getD 0)
    (src_buf[src_pos]?.getD 0)

/-- The macro `FXRGB2GRAY` as the demo has it: weights 30, 59 and 11 of a hundred. -/
def Demo.gray (r g b : Nat) : Nat :=
  (b * 11 + g * 59 + r * 30) / 100

/-- A transfer function of the demo whose value is 2 everywhere: every rounded sample is
510. -/
def Demo.doubled : Nat → Int :=
  fun _ => 510

/-- The identity as a transfer function: the rounded sample at `i` is `i`. -/
def Demo.same : Nat → Int :=
  fun i => i

/-- The two dispatchers do the same on every status whose font list is `fonts`. -/
def agreeOn (fonts : List Nat) (rso rso1 : Rso) : Prop :=
  ∀ (s : CPDF_RenderStatus) (o : CPDF_PageObject) (m : CFX_Matrix),
    s.type3_font_cache_ = fonts → rso s o m = rso1 s o m

/-- The dispatcher returns a status with the font list of the status it was given. -/
def keepsFonts (rso : Rso) : Prop :=
  ∀ (s : CPDF_RenderStatus) (o : CPDF_PageObject) (m : CFX_Matrix) (g : G)
    (s1 : CPDF_RenderStatus) (g1 : G),
    rso s o m g = .ok s1 g1 → s1.type3_font_cache_ = s.type3_font_cache_

/-- A chain of Type-3 renders nested directly in one another, from the status `st` on.
Each link is a text object together with a status of the render nested in it: the text is
executed in the status before it (for some dispatcher, matrix and state `ProcessType3Text`
does not return true at once without a call), and the nested status carries the font list of
the status before it extended by the font of the text, as every status does in which
`ProcessType3Text` renders the glyphs of the text. -/
def type3Chain (env : Env) :
    CPDF_RenderStatus → List (CPDF_PageObject × CPDF_RenderStatus) → Prop
  | _, [] => True
  | st, link :: rest =>
    (∃ (rso : Rso) (mt : CFX_Matrix) (g : G),
      ProcessType3Text env rso st link.1 mt g ≠ .ok true g) ∧
    link.2.type3_font_cache_ = st.type3_font_cache_ ++ [link.1.states.text_state.font] ∧
    type3Chain env link.2 rest

/-- The outcome of `RenderSingleObject` when its body has ended as the argument says: the
`AutoRestorer` puts the counter back to `depth`. -/
def RenderSingleObject.leave (depth : Nat) : Res CPDF_RenderStatus → Res CPDF_RenderStatus
  | .ok s g => .ok s { g with depth := depth }
  | .aborted g => .aborted g
  | .starved => .starved

/-- The outcome of `ProcessForm` on the status `st`, seen from `ProcessObjectNoClip`, when
the render of the object list of the form has ended as the argument says: the
`StateRestorer` restores the device state and the status gets the stopped flag of the
status of the form. -/
def ProcessForm.unwind (st : CPDF_RenderStatus) : Res CPDF_RenderStatus → Res CPDF_RenderStatus
  | .ok s g => .ok { st with stopped_ := s.stopped_ } (said g [⟨st.device_, .RestoreState false⟩])
  | .aborted g => .aborted g
  | .starved => .starved

/-- The part of `ProcessTransparency` after the render into the bitmap device, which has
returned the status `bitmap_render`. -/
def ProcessTransparency.finish (env : Env) (rso : Rso) (st : CPDF_RenderStatus)
    (pPageObj : CPDF_PageObject) (mtObj2Device : CFX_Matrix) (v : TransparencyLocals)
    (rect : FX_RECT) (bitmap_device : Ref) (text_mask_bitmap : Option Ref)
    (bitmap_render : CPDF_RenderStatus) : R (Bool × CPDF_RenderStatus) := do
  let st := { st with stopped_ := bitmap_render.stopped_ }
  let _ ← (match v.pSMaskDict with
    | some d => do
      let smask_matrix := env.Concat pPageObj.states.general_state.smask_matrix mtObj2Device
      let smask_bitmap ← LoadSMask env rso st d rect smask_matrix
      match smask_bitmap with
      | some mask => call env bitmap_device (.MultiplyAlphaMask mask)
      | none => pure true
    | none => pure true)
  let _ ← (match text_mask_bitmap with
    | some mask => call env bitmap_device (.MultiplyAlphaMask mask)
    | none => pure true)
  let _ ← (if v.transparency.group then call env bitmap_device (.MultiplyAlpha v.group_alpha)
    else pure true)
  let _ ← (if v.initial_alpha ≠ 1 ∧ !st.in_group_ then
      call env bitmap_device (.MultiplyAlpha v.initial_alpha)
    else pure true)
  let transparency := if pPageObj.type = .kForm then { st.transparency_ with group := true }
    else st.transparency_
  CompositeDIBitmap env st bitmap_device rect.left rect.top 0 1 v.blend_type transparency
  pure (true, st)

/-- The outcome of `ProcessTransparency`, seen from `RenderSingleObject`, when the render
into the bitmap device has ended as the last argument says. -/
def ProcessTransparency.composite (env : Env) (rso : Rso) (st : CPDF_RenderStatus)
    (pPageObj : CPDF_PageObject) (mtObj2Device : CFX_Matrix) (v : TransparencyLocals)
    (rect : FX_RECT) (bitmap_device : Ref) (text_mask_bitmap : Option Ref) :
    Res CPDF_RenderStatus → Res CPDF_RenderStatus
  | .ok s g =>
    (ProcessTransparency.finish env rso st pPageObj mtObj2Device v rect bitmap_device
      text_mask_bitmap s >>= fun r => pure r.2) g
  | .aborted g => .aborted g
  | .starved => .starved

/-- The stop object is reached in the run of the loop of `RenderObjectList`, with
`RenderSingleObject env fuel` as the dispatcher, over an object list that starts with `pre`,
on the status `st` from the state `g`; the last entry of `pre` is the stop object of the
status, or an object inside whose render it is reached, through form invocations and
transparency buffers only.  The last index is the outcome of the loop.

* `here`: the entry is the stop object of the status.
* `skipped`: the entry is another one that the loop skips (null, inactive or outside the
  clip rectangle), and the stop object is reached in the rest.
* `passed`: the entry is another one whose render returns with the stopped flag clear, and
  the stop object is reached in the rest.
* `form`: the entry is a form object that passes the depth guard and the visibility test;
  `ProcessClipPath` returns, `ProcessTransparency` returns `false`, the form is not hidden,
  and the stop object is reached in the object list of the form, rendered by the status
  `ProcessForm` makes.
* `buffer`: the entry is a form object that passes the depth guard and the visibility test;
  `ProcessClipPath` returns, `ProcessTransparency` goes on as its render into the bitmap
  device, the form is not hidden, and the stop object is reached in the object list of the
  form, rendered by the status `ProcessForm` makes from the status of the bitmap device. -/
inductive Reached (env : Env) : Nat → CFX_Matrix → CFX_FloatRect → List (Option Ref) →
    CPDF_RenderStatus → G → Res CPDF_RenderStatus → Prop
  | here (fuel : Nat) (mt : CFX_Matrix) (clip : CFX_FloatRect) (p : Option Ref)
      (st : CPDF_RenderStatus) (g : G) :
      p = st.stop_obj_ →
      Reached env fuel mt clip [p] st g (.ok { st with stopped_ := true } g)
  | skipped (fuel : Nat) (mt : CFX_Matrix) (clip : CFX_FloatRect) (p : Option Ref)
      (pre : List (Option Ref)) (st : CPDF_RenderStatus) (g : G)
      (res : Res CPDF_RenderStatus) :
      p ≠ st.stop_obj_ →
      (∀ r, p = some r → ((env.deref r).active && !culled clip (env.deref r)) = false) →
      Reached env fuel mt clip pre st g res →
      Reached env fuel mt clip (p :: pre) st g res
  | passed (fuel : Nat) (mt : CFX_Matrix) (clip : CFX_FloatRect) (r : Ref)
      (pre : List (Option Ref)) (st st1 : CPDF_RenderStatus) (g g1 : G)
      (res : Res CPDF_RenderStatus) :
      some r ≠ st.stop_obj_ →
      (env.deref r).active = true → culled clip (env.deref r) = false →
      RenderSingleObject env fuel st (env.deref r) mt g = .ok st1 g1 →
      st1.stopped_ = false →
      Reached env fuel mt clip pre st1 g1 res →
      Reached env fuel mt clip (some r :: pre) st g res
  | form (fuel : Nat) (mt : CFX_Matrix) (clip : CFX_FloatRect) (r : Ref)
      (pre post : List (Option Ref)) (st st1 st2 status : CPDF_RenderStatus) (g g1 g2 : G)
      (res : Res CPDF_RenderStatus) :
      some r ≠ st.stop_obj_ →
      (env.deref r).active = true → culled clip (env.deref r) = false →
      g.depth < kRenderMaxRecursionDepth →
      env.CheckPageObjectVisible st.options_ (env.deref r) = true →
      ProcessClipPath env (RenderSingleObject env fuel)
        { st with cur_obj_ := some (env.deref r).self } (env.deref r).states.clip_path mt
        (RenderSingleObject.enter g) = .ok st1 g1 →
      ProcessTransparency env (RenderSingleObject env fuel) st1 (env.deref r) mt g1 =
        .ok (false, st2) g2 →
      (env.deref r).type = .kForm →
      ProcessForm.hidden env st2 (env.deref r) = false →
      Initialize env (ProcessForm.status env st2 (env.deref r)) (some st2)
        (some (env.deref r).states) g2 = .ok status g2 →
      (env.form (env.deref r).form).objects = pre ++ post →
      Reached env fuel (env.Concat (env.deref r).form_matrix mt)
        (entryClipRect env status (env.Concat (env.deref r).form_matrix mt)
          (said g2 [⟨st2.device_, .SaveState⟩]))
        pre status (said g2 [⟨st2.device_, .SaveState⟩]) res →
      Reached env (fuel + 1) mt clip [some r] st g
        (RenderSingleObject.leave g.depth (ProcessForm.unwind st2 res))
  | buffer (fuel : Nat) (mt : CFX_Matrix) (clip : CFX_FloatRect) (r : Ref)
      (pre post : List (Option Ref)) (st st1 bitmap_render status : CPDF_RenderStatus)
      (g g1 g2 : G) (v : TransparencyLocals) (rect : FX_RECT) (bitmap_device : Ref)
      (new_matrix : CFX_Matrix) (text_mask_bitmap : Option Ref)
      (res : Res CPDF_RenderStatus) :
      some r ≠ st.stop_obj_ →
      (env.deref r).active = true → culled clip (env.deref r) = false →
      g.depth < kRenderMaxRecursionDepth →
      env.CheckPageObjectVisible st.options_ (env.deref r) = true →
      ProcessClipPath env (RenderSingleObject env fuel)
        { st with cur_obj_ := some (env.deref r).self } (env.deref r).states.clip_path mt
        (RenderSingleObject.enter g) = .ok st1 g1 →
      ProcessTransparency env (RenderSingleObject env fuel) st1 (env.deref r) mt g1 =
        ProcessTransparency.render env (RenderSingleObject env fuel) st1 (env.deref r) mt v
          rect bitmap_device new_matrix text_mask_bitmap g2 →
      Initialize env (ProcessTransparency.status st1 v bitmap_device) none none g2 =
        .ok bitmap_render g2 →
      (env.deref r).type = .kForm →
      ProcessForm.hidden env bitmap_render (env.deref r) = false →
      Initialize env (ProcessForm.status env bitmap_render (env.deref r)) (some bitmap_render)
        (some (env.deref r).states) g2 = .ok status g2 →
      (env.form (env.deref r).form).objects = pre ++ post →
      Reached env fuel (env.Concat (env.deref r).form_matrix new_matrix)
        (entryClipRect env status (env.Concat (env.deref r).form_matrix new_matrix)
          (said g2 [⟨bitmap_render.device_, .SaveState⟩]))
        pre status (said g2 [⟨bitmap_render.device_, .SaveState⟩]) res →
      Reached env (fuel + 1) mt clip [some r] st g
        (RenderSingleObject.leave g.depth
          (ProcessTransparency.composite env (RenderSingleObject env fuel) st1 (env.deref r)
            mt v rect bitmap_device text_mask_bitmap (ProcessForm.unwind bitmap_render res)))

/-- The calls that continue an image renderer. -/
def isImageContinue : Call → Bool
  | .ImageContinue _ => true
  | _ => false

/-- The events of a call log that are no calls to continue an image renderer. -/
def notContinue (e : Event) : Bool := !isImageContinue e.call

/-- The collaborators answer by the kept part of the call log only.  The answers to the
calls that continue an image renderer are left open: how often a renderer has to be
continued is its own matter. -/
structure Blind (env : Env) (keep : Event → Bool) : Prop where
  result : ∀ (l l1 : List Event) (e : Event), l.filter keep = l1.filter keep →
    isImageContinue e.call = false → env.result l e = env.result l1 e
  GetClipBox : ∀ l l1 : List Event, l.filter keep = l1.filter keep →
    env.GetClipBox l = env.GetClipBox l1
  GetRenderCaps : ∀ l l1 : List Event, l.filter keep = l1.filter keep →
    env.GetRenderCaps l = env.GetRenderCaps l1
  IsPrinter : ∀ l l1 : List Event, l.filter keep = l1.filter keep →
    env.IsPrinter l = env.IsPrinter l1
  GetBackDrop : ∀ l l1 : List Event, l.filter keep = l1.filter keep →
    env.GetBackDrop l = env.GetBackDrop l1
  GetBitmap : ∀ l l1 : List Event, l.filter keep = l1.filter keep →
    env.GetBitmap l = env.GetBitmap l1
  IsMaskFormat : ∀ l l1 : List Event, l.filter keep = l1.filter keep →
    env.IsMaskFormat l = env.IsMaskFormat l1
  IsAlphaFormat : ∀ l l1 : List Event, l.filter keep = l1.filter keep →
    env.IsAlphaFormat l = env.IsAlphaFormat l1
  GetWidth : ∀ l l1 : List Event, l.filter keep = l1.filter keep →
    env.GetWidth l = env.GetWidth l1
  GetHeight : ∀ l l1 : List Event, l.filter keep = l1.filter keep →
    env.GetHeight l = env.GetHeight l1
  GetResult : ∀ l l1 : List Event, l.filter keep = l1.filter keep →
    env.GetResult l = env.GetResult l1
  ScaledBufferMatrix : ∀ l l1 : List Event, l.filter keep = l1.filter keep →
    env.ScaledBufferMatrix l = env.ScaledBufferMatrix l1

/-- The state `g1` is the state `g` one level deeper: the recursion counter is one higher,
the allocations are the same and the call logs have the same kept part (the recorded highest
value of the counter is left open). -/
def Deeper (keep : Event → Bool) (g g1 : G) : Prop :=
  g1.depth = g.depth + 1 ∧ g1.fresh = g.fresh ∧ g1.log.filter keep = g.log.filter keep

/-- The computation `m` from a state whose counter is `d` does what `m1` does one level
deeper, as long as the deeper run keeps the counter within the maximum depth.  Whatever the
deeper run does, it never lowers the recorded highest value of the counter, and it returns
with the counter it started from. -/
def Sim {α : Type} (keep : Event → Bool) (d : Nat) (m m1 : R α) : Prop :=
  ∀ g g1, g.depth = d → Deeper keep g g1 →
    match m1 g1 with
    | .ok a g2 =>
      g1.peak ≤ g2.peak ∧ g2.depth = g1.depth ∧
        (g2.peak ≤ kRenderMaxRecursionDepth → ∃ g3, m g = .ok a g3 ∧ Deeper keep g3 g2)
    | .aborted g2 =>
      g1.peak ≤ g2.peak ∧
        (g2.peak ≤ kRenderMaxRecursionDepth →
          ∃ g3, m g = .aborted g3 ∧ g3.fresh = g2.fresh ∧
            g3.log.filter keep = g2.log.filter keep)
    | .starved => True

/-- The dispatcher `rso` at the counter value `d` does what `rso1` does one level deeper. -/
def SimRso (keep : Event → Bool) (d : Nat) (rso rso1 : Rso) : Prop :=
  ∀ st obj mt, Sim keep d (rso st obj mt) (rso1 st obj mt)

/-- Two states that agree on the recursion counter, the allocations and the call log; only
the recorded highest value of the counter may differ. -/
def Alike (g g1 : G) : Prop := g1.depth = g.depth ∧ g1.fresh = g.fresh ∧ g1.log = g.log

/-- The method `ContinueSingleObject` driven to completion: it is called again, on the status
it has returned, while it returns `true`, at most `rounds` more times.  The result is the
status of the call that returned `false`, and `none` when the rounds are used up. -/
def ContinueSingleObject.complete (env : Env) (rso : Rso) (pObj : CPDF_PageObject)
    (mtObj2Device : CFX_Matrix) (pPause : Option Nat) :
    Nat → CPDF_RenderStatus → R (Option CPDF_RenderStatus)
  | 0, st => do
    let (more, st1) ← ContinueSingleObject env rso st pObj mtObj2Device pPause
    if more then pure none else pure (some st1)
  | rounds + 1, st => do
    let (more, st1) ← ContinueSingleObject env rso st pObj mtObj2Device pPause
    if more then ContinueSingleObject.complete env rso pObj mtObj2Device pPause rounds st1
    else pure (some st1)

/-- What `RenderSingleObject`, after its depth guard, and `ContinueSingleObject`, with no
image render in flight, do before they process the object: the current object is set, the
visibility is tested, the clip path is applied and `ProcessTransparency` is called.  The
result is `true` when the object is done with that. -/
def RenderSingleObject.prepare (env : Env) (rso : Rso) (st : CPDF_RenderStatus)
    (pObj : CPDF_PageObject) (mtObj2Device : CFX_Matrix) : R (Bool × CPDF_RenderStatus) :=
  let st := { st with cur_obj_ := some pObj.self }
  if !env.CheckPageObjectVisible st.options_ pObj then pure (true, st)
  else do
    let st ← ProcessClipPath env rso st pObj.states.clip_path mtObj2Device
    ProcessTransparency env rso st pObj mtObj2Device

/-- What `ContinueSingleObject` does with an image object after the renderer has been made
and stored in the status: the renderer is started, without the standard colour space; when
it has not started, its result decides whether the object is drawn with background, and the
renderer is dropped; when it has, `ContinueSingleObject` goes on as with an image render in
flight. -/
def ContinueSingleObject.start (env : Env) (rso : Rso) (st : CPDF_RenderStatus)
    (pObj : CPDF_PageObject) (mtObj2Device : CFX_Matrix) (pPause : Option Nat) :
    R (Bool × CPDF_RenderStatus) := do
  let renderer ← alloc
  let st := { st with image_renderer_ := some renderer }
  let started ← call env renderer (.ImageStart pObj.self mtObj2Device false)
  if !started then do
    let result ← ask (env.GetResult · renderer)
    if !result then do
      DrawObjWithBackground env rso st pObj mtObj2Device
      pure (false, { st with image_renderer_ := none })
    else pure (false, { st with image_renderer_ := none })
  else ContinueSingleObject.resume env rso st renderer pObj mtObj2Device pPause

/-- The end of an image render in `ContinueSingleObject`: the result of the renderer decides
whether the object is drawn with background, and the renderer is dropped. -/
def ContinueSingleObject.finish (env : Env) (rso : Rso) (st : CPDF_RenderStatus)
    (renderer : Ref) (pObj : CPDF_PageObject) (mtObj2Device : CFX_Matrix) :
    R (Bool × CPDF_RenderStatus) := do
  let result ← ask (env.GetResult · renderer)
  if !result then do
    DrawObjWithBackground env rso st pObj mtObj2Device
    pure (false, { st with image_renderer_ := none })
  else pure (false, { st with image_renderer_ := none })

/-- An image object of the demo document. -/
def Demo.picture : CPDF_PageObject := { Demo.path 40 with type := .kImage }

/-- The collaborators of the demo document with an image renderer that is done when it is
continued without a pause indicator. -/
def Demo.finishing : Env :=
  { Demo.env with result := fun _ e => decide (e.call ≠ .ImageContinue none) }

/-- The collaborators of the demo document with an image renderer that, continued with a
pause indicator, has more to do twice, and is done at once when it is continued without
one. -/
def Demo.pausing : Env :=
  { Demo.env with
    result := fun log e =>
      match e.call with
      | .ImageContinue (some _) =>
        decide ((log.filter fun x => isImageContinue x.call).length < 2)
      | .ImageContinue none => false
      | _ => true }

/-- A clip path of the demo document with a text, a break marker, a second text and the
break marker that closes it. -/
def Demo.closedClip : ClipPathData :=
  Demo.textClipPath [some (.given 20), none, some (.given 22), none]

/-- The elements of a list are processed one after the other. -/
def forEach {α : Type} (f : α → R Unit) : List α → R Unit
  | [] => pure ()
  | a :: rest => do
    f a
    forEach f rest

/-- The character positions that have a glyph path, each with its path and its matrix. -/
def glyphPaths (positions : List (Option Nat × CFX_Matrix)) : List (Nat × CFX_Matrix) :=
  positions.filterMap fun charpos => charpos.1.map fun pPath => (pPath, charpos.2)

/-- The path object that paints a text filled with a pattern and not stroked: a new path
object at the address `address` with the rectangle of the text, filled with the winding
rule, in the colours and the general state of the text, under the last applied clip path
with the text appended as a clip. -/
def ProcessText.patternRect (env : Env) (st : CPDF_RenderStatus) (textobj : CPDF_PageObject)
    (address clip_ref : Ref) : CPDF_PageObject :=
  { env.new_path_object with
    self := address, type := .kPath, filltype := .kWinding,
    states := { env.new_path_object.states with
      clip_path := some (match st.last_clip_path_ with
        | some last => ⟨clip_ref, last.paths, env.AppendTexts last.texts [textobj.self]⟩
        | none => ⟨clip_ref, [], env.AppendTexts [] [textobj.self]⟩),
      color_state := textobj.states.color_state,
      general_state := textobj.states.general_state },
    path := .floatRect textobj.rect, rect := textobj.rect }

/-- The path object that paints one glyph of a text stroked with a pattern colour or
stroked and filled with one: a new path object at the address `address` with the outline of
the glyph, stroked, and filled with the winding rule when the text is filled, in the
colours and the graph state of the text. -/
def ProcessText.patternGlyph (env : Env) (textobj : CPDF_PageObject)
    (mtTextMatrix : CFX_Matrix) (fill : Bool) (address : Ref) (glyph : Nat × CFX_Matrix) :
    CPDF_PageObject :=
  { env.new_path_object with
    self := address, type := .kPath,
    states := { env.new_path_object.states with
      graph_state := textobj.states.graph_state, color_state := textobj.states.color_state },
    stroke := true,
    filltype := if fill then FillType.kWinding else FillType.kNoFill,
    path := .glyph glyph.1 (env.Concat glyph.2 mtTextMatrix), matrix := CFX_Matrix.identity }

/-- What paints a text one of whose painted colours is a pattern.  A text that is not
stroked: its rectangle, as the path object `patternRect`, goes through `RenderSingleObject`,
and the current object of the status is put back.  A text that is stroked: each glyph that
has a path goes through `ProcessPath` as the path object `patternGlyph`. -/
def ProcessText.patternPaint (env : Env) (rso : Rso) (st : CPDF_RenderStatus)
    (textobj : CPDF_PageObject) (mtObj2Device : CFX_Matrix) (fill : Bool) (stroke : Bool) :
    R CPDF_RenderStatus :=
  if stroke then do
    forEach (fun glyph => do
      let address ← alloc
      let _ ← ProcessPath env st
        (ProcessText.patternGlyph env textobj textobj.text_matrix fill address glyph)
        mtObj2Device
      pure ()) (glyphPaths (env.GetCharPosList textobj))
    pure st
  else do
    let address ← alloc
    let clip_ref ← alloc
    let st1 ← rso st (ProcessText.patternRect env st textobj address clip_ref) mtObj2Device
    pure { st1 with cur_obj_ := st.cur_obj_ }

/-- A text of the demo document in the mode Fill, in the font 1, with the text matrix
(1 0 1 0 0 0), which `IsAvailableMatrix` rejects. -/
def Demo.flatFill : CPDF_PageObject :=
  { Demo.textIn .MODE_FILL with text_matrix := ⟨1, 0, 1, 0, 0, 0⟩ }

/-- A text of the demo document in the mode Stroke whose stroke colour is a shading
pattern. -/
def Demo.patternText : CPDF_PageObject :=
  { Demo.textIn .MODE_STROKE with
    states := { (Demo.textIn .MODE_STROKE).states with
      color_state := ⟨true, ⟨false, false, none⟩, ⟨false, true, some (7, .shading)⟩, 0, 0⟩ } }

/-- The demo document with fonts that are not Type-3 fonts, in which every text has two
character positions, the first with the glyph path 8 and the second without a path. -/
def Demo.glyphed : Env :=
  { Demo.plainFonts with
    GetCharPosList := fun _ => [(some 8, CFX_Matrix.identity), (none, CFX_Matrix.identity)] }

/-- An object that the matrix test drops without any call: a path whose combined matrix is
rejected and whose fill and stroke colours are no patterns, or a text in a font that is not
a Type-3 font whose text matrix is rejected (in one of the eight text rendering modes, or
without character codes). -/
def droppedByMatrix (env : Env) (obj : CPDF_PageObject) (mt : CFX_Matrix) : Prop :=
  (obj.type = .kPath ∧ IsAvailableMatrix (env.Concat obj.matrix mt) = false ∧
    obj.states.color_state.fill_color.is_pattern = false ∧
    obj.states.color_state.stroke_color.is_pattern = false) ∨
  (obj.type = .kText ∧ IsAvailableMatrix obj.text_matrix = false ∧
    (env.font obj.states.text_state.font).is_type3 = false ∧
    (obj.char_codes = [] ∨ obj.states.text_state.text_mode ≠ .MODE_UNKNOWN))

/-- An object without a clip path, without a soft mask and with the blend mode Normal. -/
def unclipped (obj : CPDF_PageObject) : Prop :=
  obj.states.clip_path = none ∧ obj.states.general_state.soft_mask = none ∧
    obj.states.general_state.blend_type = .kNormal

/-- A path of the demo document that is filled with a plain colour and stroked with a
shading pattern, and whose matrix maps everything to one point. -/
def Demo.collapsedPattern : CPDF_PageObject :=
  { Demo.path 30 with
    stroke := true, matrix := ⟨0, 0, 0, 0, 0, 0⟩,
    states := { CPDF_GraphicStates.empty with
      color_state := ⟨true, ⟨false, false, none⟩, ⟨false, true, some (7, .shading)⟩, 0, 0⟩ } }

/-- The objects of the demo document with the path 2 replaced by a path whose matrix maps
everything to one point. -/
def Demo.withCollapsed : Env :=
  { Demo.env with
    obj := fun r => if r = .given 2 then { Demo.path 2 with matrix := ⟨0, 0, 0, 0, 0, 0⟩ }
      else Demo.objects r }

/-- The calls of an outcome that are made for a shading: the patterns drawn. -/
def Demo.shadings {α : Type} (r : Res α) : List Nat :=
  (Demo.logOf r).filterMap fun e =>
    match e.call with
    | .ShadingDraw _ pattern _ _ _ _ => some pattern
    | _ => none

/-! # Theorems -/

theorem Ext_refl (g : G) : Ext g g := ⟨⟨le_max_left _ _, List.prefix_refl _⟩, rfl⟩

theorem Ext_transA {g g1 g2 : G} (h1 : Ext g g1) (h2 : ExtA g1 g2) : ExtA g g2 := by
  refine ⟨?_, h1.1.2.trans h2.2⟩
  have := h2.1
  rw [h1.2] at this
  exact this.trans (max_le h1.1.1 (le_max_right _ _))

theorem Ext_trans {g g1 g2 : G} (h1 : Ext g g1) (h2 : Ext g1 g2) : Ext g g2 :=
  ⟨Ext_transA h1 h2.1, h2.2.trans h1.2⟩

theorem Good_pure {α : Type} {d : Nat} {P : α → Prop} {a : α} (h : P a) :
    Good d P (Pure.pure a : R α) := fun g _ => ⟨Ext_refl g, h⟩

theorem Good_bind {α β : Type} {d : Nat} {P : α → Prop} {Q : β → Prop} {m : R α} {f : α → R β}
    (hm : Good d P m) (hf : ∀ a, P a → Good d Q (f a)) : Good d Q (m >>= f) := by
  intro g hg
  have h1 := hm g hg
  show Res.post g Q (R.bind m f g)
  unfold R.bind
  cases hres : m g with
  | ok a g1 =>
    rw [hres] at h1
    have h2 := hf a h1.2 g1 (h1.1.2.trans hg)
    simp only
    cases hres2 : f a g1 with
    | ok b g2 => rw [hres2] at h2; exact ⟨Ext_trans h1.1 h2.1, h2.2⟩
    | aborted g2 => rw [hres2] at h2; exact Ext_transA h1.1 h2
    | starved => rw [hres2] at h2; exact h2
  | aborted g1 => rw [hres] at h1; exact h1
  | starved => rw [hres] at h1; exact h1

theorem Good_weaken {α : Type} {d : Nat} {P Q : α → Prop} {m : R α}
    (hm : Good d P m) (h : ∀ a, P a → Q a) : Good d Q m := by
  intro g hg
  have h1 := hm g hg
  cases hres : m g with
  | ok a g1 => rw [hres] at h1; exact ⟨h1.1, h a h1.2⟩
  | aborted g1 => rw [hres] at h1; exact h1
  | starved => rw [hres] at h1; exact h1

theorem Good_call {d : Nat} (env : Env) (t : Ref) (c : Call) :
    Good d (fun _ => True) (call env t c) := by
  intro g _
  exact ⟨⟨⟨le_max_left _ _, List.prefix_append _ _⟩, rfl⟩, trivial⟩

theorem Good_ask {α : Type} {d : Nat} (q : List Event → α) : Good d (fun _ => True) (ask q) :=
  fun g _ => ⟨Ext_refl g, trivial⟩

theorem Good_alloc {d : Nat} : Good d (fun _ => True) alloc :=
  fun g _ => ⟨⟨⟨le_max_left _ _, List.prefix_refl _⟩, rfl⟩, trivial⟩

theorem Good_notreached {α : Type} {d : Nat} {P : α → Prop} : Good d P (NOTREACHED : R α) :=
  fun g _ => (Ext_refl g).1

theorem Frame_refl (st : CPDF_RenderStatus) : Frame st st := rfl

theorem Frame_trans {a b c : CPDF_RenderStatus} (h1 : Frame a b) (h2 : Frame b c) : Frame a c := by
  unfold Frame at *
  cases a; cases b; cases c
  simp only [CPDF_RenderStatus.mk.injEq] at *
  simp_all

section leaf
variable (env : Env) (d : Nat)

theorem GetObjectClippedRect_good (st : CPDF_RenderStatus) (o : CPDF_PageObject) (mt : CFX_Matrix) :
    Good d (fun _ => True) (GetObjectClippedRect env st o mt) := by
  unfold GetObjectClippedRect
  exact Good_bind (Good_ask _) (fun _ _ => Good_pure trivial)

theorem GetClippedBBox_good (st : CPDF_RenderStatus) (r : FX_RECT) :
    Good d (fun _ => True) (GetClippedBBox env st r) := by
  unfold GetClippedBBox
  exact Good_bind (Good_ask _) (fun _ _ => Good_pure trivial)

theorem GetCompatibleArgbFormat_good (st : CPDF_RenderStatus) :
    Good d (fun _ => True) (GetCompatibleArgbFormat env st) := by
  unfold GetCompatibleArgbFormat
  exact Good_bind (Good_ask _) (fun _ _ => Good_pure trivial)

theorem Initialize_good (st : CPDF_RenderStatus) (p : Option CPDF_RenderStatus)
    (s : Option CPDF_GraphicStates) :
    Good d (fun s1 => s1.stop_obj_ = st.stop_obj_) (Initialize env st p s) := by
  unfold Initialize
  exact Good_bind (Good_ask _) (fun _ _ => Good_pure rfl)

theorem GetBackdrop_good (st : CPDF_RenderStatus) (p : Option Ref) (b : FX_RECT) (a : Bool) :
    Good d (fun _ => True) (GetBackdrop env st p b a) := by
  unfold GetBackdrop
  repeat' (first
    | exact Good_pure trivial
    | exact Good_notreached
    | exact Good_call _ _ _
    | exact Good_ask _
    | exact Good_alloc
    | refine Good_bind (Q := fun _ => True) (P := fun _ => True) ?_ (fun _ _ => ?_)
    | split
    | (dsimp only))

theorem CompositeDIBitmap_normal_good (st : CPDF_RenderStatus) (b : Ref) (l t : Int) (m : Nat) (a : ℚ) :
    Good d (fun _ => True) (CompositeDIBitmap.normal env st b l t m a) := by
  unfold CompositeDIBitmap.normal
  repeat' (first
    | exact Good_pure trivial
    | exact Good_notreached
    | exact Good_call _ _ _
    | exact Good_ask _
    | exact Good_alloc
    | refine Good_bind (Q := fun _ => True) (P := fun _ => True) ?_ (fun _ _ => ?_)
    | split
    | (dsimp only))

theorem CompositeDIBitmap_group_good (st : CPDF_RenderStatus) (b : Ref) (l t : Int) (m : Nat) (bm : BlendMode) :
    Good d (fun _ => True) (CompositeDIBitmap.group env st b l t m bm) := by
  unfold CompositeDIBitmap.group
  repeat' (first
    | exact Good_pure trivial
    | exact Good_notreached
    | exact Good_call _ _ _
    | exact Good_ask _
    | exact Good_alloc
    | refine Good_bind (Q := fun _ => True) (P := fun _ => True) ?_ (fun _ _ => ?_)
    | split
    | (dsimp only))

theorem CompositeDIBitmap_fallback_good (st : CPDF_RenderStatus) (b : Ref) (l t : Int) (m : Nat) (bm : BlendMode) (iso : Bool) :
    Good d (fun _ => True) (CompositeDIBitmap.fallback env st b l t m bm iso) := by
  unfold CompositeDIBitmap.fallback
  repeat' (first
    | exact Good_pure trivial
    | exact Good_notreached
    | exact Good_call _ _ _
    | exact Good_ask _
    | exact Good_alloc
    | exact GetClippedBBox_good env d _ _
    | exact GetBackdrop_good env d _ _ _ _
    | refine Good_bind (Q := fun _ => True) (P := fun _ => True) ?_ (fun _ _ => ?_)
    | split
    | (dsimp only))

theorem CompositeDIBitmap_good (st : CPDF_RenderStatus) (b : Ref) (l t : Int) (m : Nat) (a : ℚ) (bm : BlendMode) (tr : CPDF_Transparency) :
    Good d (fun _ => True) (CompositeDIBitmap env st b l t m a bm tr) := by
  unfold CompositeDIBitmap
  repeat' (first
    | exact Good_pure trivial
    | exact Good_notreached
    | exact Good_call _ _ _
    | exact Good_ask _
    | exact Good_alloc
    | exact CompositeDIBitmap_normal_good env d _ _ _ _ _ _
    | exact CompositeDIBitmap_group_good env d _ _ _ _ _ _
    | exact CompositeDIBitmap_fallback_good env d _ _ _ _ _ _ _
    | refine Good_bind (Q := fun _ => True) (P := fun _ => True) ?_ (fun _ _ => ?_)
    | split
    | (dsimp only))

theorem SelectClipPath_good (st : CPDF_RenderStatus) (o : CPDF_PageObject) (mt : CFX_Matrix) (s : Bool) :
    Good d (fun _ => True) (SelectClipPath env st o mt s) := by
  unfold SelectClipPath
  repeat' (first
    | exact Good_pure trivial
    | exact Good_notreached
    | exact Good_call _ _ _
    | exact Good_ask _
    | exact Good_alloc
    | refine Good_bind (Q := fun _ => True) (P := fun _ => True) ?_ (fun _ _ => ?_)
    | split
    | (dsimp only))

theorem ClipPattern_good (st : CPDF_RenderStatus) (o : CPDF_PageObject) (mt : CFX_Matrix) (s : Bool) :
    Good d (fun _ => True) (ClipPattern env st o mt s) := by
  unfold ClipPattern
  repeat' (first
    | exact Good_pure trivial
    | exact Good_notreached
    | exact Good_call _ _ _
    | exact Good_ask _
    | exact Good_alloc
    | exact SelectClipPath_good env d _ _ _ _
    | refine Good_bind (Q := fun _ => True) (P := fun _ => True) ?_ (fun _ _ => ?_)
    | split
    | (dsimp only))

theorem DrawShadingPattern_good (st : CPDF_RenderStatus) (p : Nat) (o : CPDF_PageObject) (mt : CFX_Matrix) (s : Bool) :
    Good d (fun _ => True) (DrawShadingPattern env st p o mt s) := by
  unfold DrawShadingPattern
  repeat' (first
    | exact Good_pure trivial
    | exact Good_notreached
    | exact Good_call _ _ _
    | exact Good_ask _
    | exact Good_alloc
    | exact ClipPattern_good env d _ _ _ _
    | exact GetObjectClippedRect_good env d _ _ _
    | refine Good_bind (Q := fun _ => True) (P := fun _ => True) ?_ (fun _ _ => ?_)
    | split
    | (dsimp only))

theorem ProcessShading_good (st : CPDF_RenderStatus) (o : CPDF_PageObject) (mt : CFX_Matrix) :
    Good d (fun _ => True) (ProcessShading env st o mt) := by
  unfold ProcessShading
  repeat' (first
    | exact Good_pure trivial
    | exact Good_notreached
    | exact Good_call _ _ _
    | exact Good_ask _
    | exact Good_alloc
    | exact GetObjectClippedRect_good env d _ _ _
    | refine Good_bind (Q := fun _ => True) (P := fun _ => True) ?_ (fun _ _ => ?_)
    | split
    | (dsimp only))

theorem DrawTilingPattern_good (st : CPDF_RenderStatus) (p : Nat) (o : CPDF_PageObject) (mt : CFX_Matrix) (s : Bool) :
    Good d (fun _ => True) (DrawTilingPattern env st p o mt s) := by
  unfold DrawTilingPattern
  repeat' (first
    | exact Good_pure trivial
    | exact Good_notreached
    | exact Good_call _ _ _
    | exact Good_ask _
    | exact Good_alloc
    | exact ClipPattern_good env d _ _ _ _
    | exact CompositeDIBitmap_good env d _ _ _ _ _ _ _ _
    | refine Good_bind (Q := fun _ => True) (P := fun _ => True) ?_ (fun _ _ => ?_)
    | split
    | (dsimp only))

theorem DrawPathWithPattern_good (st : CPDF_RenderStatus) (o : CPDF_PageObject) (mt : CFX_Matrix) (c : CPDF_Color) (s : Bool) :
    Good d (fun _ => True) (DrawPathWithPattern env st o mt c s) := by
  unfold DrawPathWithPattern
  repeat' (first
    | exact Good_pure trivial
    | exact Good_notreached
    | exact Good_call _ _ _
    | exact Good_ask _
    | exact Good_alloc
    | exact DrawTilingPattern_good env d _ _ _ _ _
    | exact DrawShadingPattern_good env d _ _ _ _ _
    | refine Good_bind (Q := fun _ => True) (P := fun _ => True) ?_ (fun _ _ => ?_)
    | split
    | (dsimp only))

theorem ProcessPathPattern_good (st : CPDF_RenderStatus) (o : CPDF_PageObject) (mt : CFX_Matrix) (f : FillType) (s : Bool) :
    Good d (fun _ => True) (ProcessPathPattern env st o mt f s) := by
  unfold ProcessPathPattern
  repeat' (first
    | exact Good_pure trivial
    | exact Good_notreached
    | exact Good_call _ _ _
    | exact Good_ask _
    | exact Good_alloc
    | exact DrawPathWithPattern_good env d _ _ _ _ _
    | refine Good_bind (Q := fun _ => True) (P := fun _ => True) ?_ (fun _ _ => ?_)
    | split
    | (dsimp only))

theorem ProcessPath_good (st : CPDF_RenderStatus) (o : CPDF_PageObject) (mt : CFX_Matrix) :
    Good d (fun _ => True) (ProcessPath env st o mt) := by
  unfold ProcessPath
  repeat' (first
    | exact Good_pure trivial
    | exact Good_notreached
    | exact Good_call _ _ _
    | exact Good_ask _
    | exact Good_alloc
    | exact ProcessPathPattern_good env d _ _ _ _ _
    | refine Good_bind (Q := fun _ => True) (P := fun _ => True) ?_ (fun _ _ => ?_)
    | split
    | (dsimp only))

theorem ProcessImage_good (st : CPDF_RenderStatus) (o : CPDF_PageObject) (mt : CFX_Matrix) :
    Good d (fun _ => True) (ProcessImage env st o mt) := by
  unfold ProcessImage
  repeat' (first
    | exact Good_pure trivial
    | exact Good_notreached
    | exact Good_call _ _ _
    | exact Good_ask _
    | exact Good_alloc
    | refine Good_bind (Q := fun _ => True) (P := fun _ => True) ?_ (fun _ _ => ?_)
    | split
    | (dsimp only))

theorem ProcessType3Text_flush_good (st : CPDF_RenderStatus) (a : Nat) (l : List TextGlyphPos) :
    Good d (fun _ => True) (ProcessType3Text.flush env st a l) := by
  induction l with
  | nil => unfold ProcessType3Text.flush; exact Good_pure trivial
  | cons x rest ih =>
    unfold ProcessType3Text.flush
    repeat' (first
      | exact Good_pure trivial
      | exact Good_notreached
      | exact Good_call _ _ _
      | exact Good_ask _
      | exact Good_alloc
      | exact ih
      | refine Good_bind (Q := fun _ => True) (P := fun _ => True) ?_ (fun _ _ => ?_)
      | split
      | (dsimp only))

theorem ProcessType3Text_bitmap_good (st : CPDF_RenderStatus) (a f c cc : Nat) (m : CFX_Matrix) (i : Nat) (gl : List TextGlyphPos) :
    Good d (fun _ => True) (ProcessType3Text.bitmap env st a f c cc m i gl) := by
  unfold ProcessType3Text.bitmap
  repeat' (first
    | exact Good_pure trivial
    | exact Good_notreached
    | exact Good_call _ _ _
    | exact Good_ask _
    | exact Good_alloc
    | refine Good_bind (Q := fun _ => True) (P := fun _ => True) ?_ (fun _ _ => ?_)
    | split
    | (dsimp only))

theorem ProcessType3Text_compose_good (b : Ref) (r : FX_RECT) (a : Nat) (l : List TextGlyphPos) :
    Good d (fun _ => True) (ProcessType3Text.compose env b r a l) := by
  induction l with
  | nil => unfold ProcessType3Text.compose; exact Good_pure trivial
  | cons x rest ih =>
    unfold ProcessType3Text.compose
    repeat' (first
      | exact Good_pure trivial
      | exact Good_notreached
      | exact Good_call _ _ _
      | exact Good_ask _
      | exact Good_alloc
      | exact ih
      | refine Good_bind (Q := fun _ => True) (P := fun _ => True) ?_ (fun _ _ => ?_)
      | split
      | (dsimp only))

theorem DrawTextPathWithPattern_loop_good (st : CPDF_RenderStatus) (t : CPDF_PageObject) (mt tm : CFX_Matrix) (f s : Bool) (l : List (Option Nat × CFX_Matrix)) :
    Good d (fun _ => True) (DrawTextPathWithPattern.loop env st t mt tm f s l) := by
  induction l with
  | nil => unfold DrawTextPathWithPattern.loop; exact Good_pure trivial
  | cons x rest ih =>
    unfold DrawTextPathWithPattern.loop
    repeat' (first
      | exact Good_pure trivial
      | exact Good_notreached
      | exact Good_call _ _ _
      | exact Good_ask _
      | exact Good_alloc
      | exact ih
      | exact ProcessPath_good env d _ _ _
      | refine Good_bind (Q := fun _ => True) (P := fun _ => True) ?_ (fun _ _ => ?_)
      | split
      | (dsimp only))

theorem ProcessClipPath_paths_good (st : CPDF_RenderStatus) (mt : CFX_Matrix) (l : List ClipSubPath) :
    Good d (fun _ => True) (ProcessClipPath.paths env st mt l) := by
  induction l with
  | nil => unfold ProcessClipPath.paths; exact Good_pure trivial
  | cons x rest ih =>
    unfold ProcessClipPath.paths
    repeat' (first
      | exact Good_pure trivial
      | exact Good_notreached
      | exact Good_call _ _ _
      | exact Good_ask _
      | exact Good_alloc
      | exact ih
      | refine Good_bind (Q := fun _ => True) (P := fun _ => True) ?_ (fun _ _ => ?_)
      | split
      | (dsimp only))

theorem ProcessTransparency_textMask_good (t : Ref) (m : CFX_Matrix) (l : List (Option Ref)) :
    Good d (fun _ => True) (ProcessTransparency.textMask env t m l) := by
  induction l with
  | nil => unfold ProcessTransparency.textMask; exact Good_pure trivial
  | cons x rest ih =>
    unfold ProcessTransparency.textMask
    repeat' (first
      | exact Good_pure trivial
      | exact Good_notreached
      | exact Good_call _ _ _
      | exact Good_ask _
      | exact Good_alloc
      | exact ih
      | refine Good_bind (Q := fun _ => True) (P := fun _ => True) ?_ (fun _ _ => ?_)
      | split
      | (dsimp only))

end leaf

section knot
variable (env : Env) (rso : Rso) (d : Nat) (h : GoodRso d rso)
include h

theorem RenderObjectList_loop_good (mt : CFX_Matrix) (clip_rect : CFX_FloatRect)
    (objs : List (Option Ref)) :
    ∀ st, Good d (Frame st) (RenderObjectList.loop env rso mt clip_rect objs st) := by
  induction objs with
  | nil => intro st; exact Good_pure (Frame_refl st)
  | cons p rest ih =>
    intro st
    unfold RenderObjectList.loop
    split
    · exact Good_pure (by simp [Frame])
    · split
      · exact ih st
      · split
        · exact ih st
        · split
          · exact ih st
          · refine Good_bind (h st _ mt) (fun st1 h1 => ?_)
            split
            · exact Good_pure h1
            · exact Good_weaken (ih st1) (fun _ h2 => Frame_trans h1 h2)

theorem RenderObjectList_good (st : CPDF_RenderStatus) (holder : Nat) (mt : CFX_Matrix) :
    Good d (Frame st) (RenderObjectList env rso st holder mt) := by
  unfold RenderObjectList
  exact Good_bind (Good_ask _) (fun _ _ => RenderObjectList_loop_good env rso d h _ _ _ _)

theorem DrawObjWithBackgroundToDevice_good (st : CPDF_RenderStatus) (o : CPDF_PageObject)
    (mt : CFX_Matrix) (dev : Ref) (dm : CFX_Matrix) :
    Good d (fun _ => True) (DrawObjWithBackgroundToDevice env rso st o mt dev dm) := by
  unfold DrawObjWithBackgroundToDevice
  repeat' (first
    | exact Good_pure trivial
    | exact Good_notreached
    | exact Good_call _ _ _
    | exact Good_ask _
    | exact Good_alloc
    | exact Good_weaken (Initialize_good env d _ _ _) (fun _ _ => trivial)
    | exact GetObjectClippedRect_good env d _ _ _
    | exact Good_weaken (h _ _ _) (fun _ _ => trivial)
    | refine Good_bind (Q := fun _ => True) (P := fun _ => True) ?_ (fun _ _ => ?_)
    | split
    | (dsimp only))

theorem DrawObjWithBackground_good (st : CPDF_RenderStatus) (o : CPDF_PageObject)
    (mt : CFX_Matrix) : Good d (fun _ => True) (DrawObjWithBackground env rso st o mt) := by
  unfold DrawObjWithBackground
  repeat' (first
    | exact Good_pure trivial
    | exact Good_notreached
    | exact Good_call _ _ _
    | exact Good_ask _
    | exact Good_alloc
    | exact GetObjectClippedRect_good env d _ _ _
    | exact DrawObjWithBackgroundToDevice_good env rso d h _ _ _ _ _
    | refine Good_bind (Q := fun _ => True) (P := fun _ => True) ?_ (fun _ _ => ?_)
    | split
    | (dsimp only))

theorem ProcessForm_nested_good (st : CPDF_RenderStatus) (o : CPDF_PageObject)
    (mt : CFX_Matrix) :
    Good d (fun n => n.stop_obj_ = st.stop_obj_) (ProcessForm.nested env rso st o mt) := by
  unfold ProcessForm.nested
  refine Good_bind (Initialize_good env d _ _ _) (fun s hs => ?_)
  refine Good_bind (Good_call _ _ _) (fun _ _ => ?_)
  refine Good_weaken (RenderObjectList_good env rso d h _ _ _) (fun n hn => ?_)
  have h1 : n.stop_obj_ = s.stop_obj_ := by
    have := congrArg CPDF_RenderStatus.stop_obj_ hn
    exact this
  rw [h1, hs]
  rfl

theorem ProcessForm_good (st : CPDF_RenderStatus) (o : CPDF_PageObject) (mt : CFX_Matrix) :
    Good d (fun r => r.1 = true ∧ Frame st r.2) (ProcessForm env rso st o mt) := by
  unfold ProcessForm
  split
  · exact Good_pure ⟨rfl, Frame_refl st⟩
  · refine Good_bind (ProcessForm_nested_good env rso d h _ _ _) (fun _ _ => ?_)
    refine Good_bind (Good_call _ _ _) (fun _ _ => ?_)
    exact Good_pure ⟨rfl, by simp [Frame]⟩

theorem Type3Status_good (st : CPDF_RenderStatus) (dev : Ref) (o : CPDF_RenderOptions)
    (f c a t : Nat) (ps : Option CPDF_GraphicStates) :
    Good d (fun _ => True) (Type3Status env st dev o f c a t ps) := by
  unfold Type3Status
  repeat' (first
    | exact Good_pure trivial
    | exact Good_notreached
    | exact Good_call _ _ _
    | exact Good_ask _
    | exact Good_alloc
    | exact Good_weaken (Initialize_good env d _ _ _) (fun _ _ => trivial)
    | refine Good_bind (Q := fun _ => True) (P := fun _ => True) ?_ (fun _ _ => ?_)
    | split
    | (dsimp only))

theorem ProcessType3Text_content_good (st : CPDF_RenderStatus) (t : CPDF_PageObject)
    (a : Nat) (al : Int) (f c : Nat) (m : CFX_Matrix) (i : Nat) (gl : List TextGlyphPos) :
    Good d (fun _ => True) (ProcessType3Text.content env rso st t a al f c m i gl) := by
  unfold ProcessType3Text.content
  repeat' (first
    | exact Good_pure trivial
    | exact Good_notreached
    | exact Good_call _ _ _
    | exact Good_ask _
    | exact Good_alloc
    | exact Type3Status_good env d _ _ _ _ _ _ _ _
    | exact ProcessType3Text_flush_good env d _ _ _
    | exact Good_weaken (RenderObjectList_good env rso d h _ _ _) (fun _ _ => trivial)
    | refine Good_bind (Q := fun _ => True) (P := fun _ => True) ?_ (fun _ _ => ?_)
    | split
    | (dsimp only))

theorem ProcessType3Text_loop_good (st : CPDF_RenderStatus) (t : CPDF_PageObject)
    (mt : CFX_Matrix) (a : Nat) (al : Int) (f : Nat) (cm : CFX_Matrix) (codes : List Nat) :
    ∀ (i : Nat) (gl : List TextGlyphPos),
      Good d (fun _ => True) (ProcessType3Text.loop env rso st t mt a al f cm codes i gl) := by
  induction codes with
  | nil => intro i gl; unfold ProcessType3Text.loop; exact Good_pure trivial
  | cons x rest ih =>
    intro i gl
    unfold ProcessType3Text.loop
    repeat' (first
      | exact Good_pure trivial
      | exact Good_notreached
      | exact Good_call _ _ _
      | exact Good_ask _
      | exact Good_alloc
      | exact ih _ _
      | exact ProcessType3Text_content_good env rso d h _ _ _ _ _ _ _ _ _
      | exact ProcessType3Text_bitmap_good env d _ _ _ _ _ _ _ _
      | refine Good_bind (Q := fun _ => True) (P := fun _ => True) ?_ (fun _ _ => ?_)
      | split
      | (dsimp only))

theorem ProcessType3Text_good (st : CPDF_RenderStatus) (t : CPDF_PageObject) (mt : CFX_Matrix) :
    Good d (fun _ => True) (ProcessType3Text env rso st t mt) := by
  unfold ProcessType3Text
  repeat' (first
    | exact Good_pure trivial
    | exact Good_notreached
    | exact Good_call _ _ _
    | exact Good_ask _
    | exact Good_alloc
    | exact ProcessType3Text_loop_good env rso d h _ _ _ _ _ _ _ _ _ _
    | exact ProcessType3Text_compose_good env d _ _ _ _
    | refine Good_bind (Q := fun _ => True) (P := fun _ => True) ?_ (fun _ _ => ?_)
    | split
    | (dsimp only))

theorem DrawTextPathWithPattern_good (st : CPDF_RenderStatus) (t : CPDF_PageObject)
    (mt tm : CFX_Matrix) (f s : Bool) :
    Good d (Frame st) (DrawTextPathWithPattern env rso st t mt tm f s) := by
  unfold DrawTextPathWithPattern
  split
  · refine Good_bind Good_alloc (fun _ _ => ?_)
    refine Good_bind Good_alloc (fun _ _ => ?_)
    refine Good_bind (h _ _ _) (fun st1 h1 => ?_)
    refine Good_pure ?_
    unfold Frame at *
    rw [← h1]
  · refine Good_bind (DrawTextPathWithPattern_loop_good env d _ _ _ _ _ _ _) (fun _ _ => ?_)
    exact Good_pure (Frame_refl st)

theorem ProcessText_paint_good (st : CPDF_RenderStatus) (t : CPDF_PageObject) (mt : CFX_Matrix)
    (c : Option Ref) (f s cl : Bool) :
    Good d (fun r => Frame st r.2) (ProcessText.paint env rso st t mt c f s cl) := by
  unfold ProcessText.paint
  try dsimp only
  split
  · exact Good_pure (Frame_refl st)
  · split
    · exact Good_bind (DrawTextPathWithPattern_good env rso d h _ _ _ _ _ _)
        (fun _ h1 => Good_pure h1)
    · split
      · exact Good_bind (Good_call _ _ _) (fun _ _ => Good_pure (Frame_refl st))
      · exact Good_bind (Good_call _ _ _) (fun _ _ => Good_pure (Frame_refl st))

theorem ProcessText_good (st : CPDF_RenderStatus) (t : CPDF_PageObject) (mt : CFX_Matrix)
    (c : Option Ref) : Good d (fun r => Frame st r.2) (ProcessText env rso st t mt c) := by
  unfold ProcessText
  split
  · exact Good_pure (Frame_refl st)
  · split
    · exact Good_pure (Frame_refl st)
    · split
      · exact Good_bind (ProcessType3Text_good env rso d h _ _ _)
          (fun _ _ => Good_pure (Frame_refl st))
      · split
        · exact Good_pure (Frame_refl st)
        · exact Good_notreached
        · exact ProcessText_paint_good env rso d h _ _ _ _ _ _ _

theorem ProcessObjectNoClip_good (st : CPDF_RenderStatus) (o : CPDF_PageObject)
    (mt : CFX_Matrix) : Good d (Frame st) (ProcessObjectNoClip env rso st o mt) := by
  unfold ProcessObjectNoClip
  split
  · exact Good_bind (ProcessShading_good env d _ _ _) (fun _ _ => Good_pure (Frame_refl st))
  · refine Good_bind (ProcessText_good env rso d h _ _ _ _) (fun r h1 => ?_)
    try dsimp only
    split
    · exact Good_bind (DrawObjWithBackground_good env rso d h _ _ _) (fun _ _ => Good_pure h1)
    · exact Good_pure h1
  · refine Good_bind (ProcessPath_good env d _ _ _) (fun r _ => ?_)
    split
    · exact Good_bind (DrawObjWithBackground_good env rso d h _ _ _)
        (fun _ _ => Good_pure (Frame_refl st))
    · exact Good_pure (Frame_refl st)
  · refine Good_bind (ProcessImage_good env d _ _ _) (fun r _ => ?_)
    split
    · exact Good_bind (DrawObjWithBackground_good env rso d h _ _ _)
        (fun _ _ => Good_pure (Frame_refl st))
    · exact Good_pure (Frame_refl st)
  · refine Good_bind (ProcessForm_good env rso d h _ _ _) (fun r h1 => ?_)
    try dsimp only
    split
    · exact Good_bind (DrawObjWithBackground_good env rso d h _ _ _)
        (fun _ _ => Good_pure h1.2)
    · exact Good_pure h1.2

theorem ProcessClipPath_texts_good (mt : CFX_Matrix) (l : List (Option Ref)) :
    ∀ (c : Option Ref) (st : CPDF_RenderStatus),
      Good d (Frame st) (ProcessClipPath.texts env rso mt l c st) := by
  induction l with
  | nil => intro c st; unfold ProcessClipPath.texts; exact Good_pure (Frame_refl st)
  | cons x rest ih =>
    intro c st
    unfold ProcessClipPath.texts
    split
    · refine Good_bind (P := fun _ => True) ?_ (fun _ _ => ?_)
      · split
        · exact Good_pure trivial
        · exact Good_alloc
      · refine Good_bind (ProcessText_good env rso d h _ _ _ _) (fun r h1 => ?_)
        exact Good_weaken (ih _ _) (fun _ h2 => Frame_trans h1 h2)
    · split
      · exact ih _ _
      · exact Good_bind (Good_call _ _ _) (fun _ _ => ih _ _)

theorem ProcessClipPath_good (st : CPDF_RenderStatus) (c : CPDF_ClipPath) (mt : CFX_Matrix) :
    Good d (Frame st) (ProcessClipPath env rso st c mt) := by
  unfold ProcessClipPath
  split
  · split
    · exact Good_bind (Good_call _ _ _) (fun _ _ => Good_pure (by simp [Frame]))
    · exact Good_pure (Frame_refl st)
  · split
    · exact Good_pure (Frame_refl st)
    · refine Good_bind (Good_call _ _ _) (fun _ _ => ?_)
      refine Good_bind (ProcessClipPath_paths_good env d _ _ _) (fun _ _ => ?_)
      split
      · exact Good_pure (by simp [Frame])
      · refine Good_bind (Good_ask _) (fun _ _ => ?_)
        split
        · exact Good_pure (by simp [Frame])
        · exact Good_weaken (ProcessClipPath_texts_good env rso d h _ _ _ _)
            (fun _ h2 => Frame_trans (by simp [Frame]) h2)

theorem LoadSMask_good (st : CPDF_RenderStatus) (sd : Nat) (r : FX_RECT) (m : CFX_Matrix) :
    Good d (fun _ => True) (LoadSMask env rso st sd r m) := by
  unfold LoadSMask
  repeat' (first
    | exact Good_pure trivial
    | exact Good_notreached
    | exact Good_call _ _ _
    | exact Good_ask _
    | exact Good_alloc
    | exact Good_weaken (Initialize_good env d _ _ _) (fun _ _ => trivial)
    | exact Good_weaken (RenderObjectList_good env rso d h _ _ _) (fun _ _ => trivial)
    | refine Good_bind (Q := fun _ => True) (P := fun _ => True) ?_ (fun _ _ => ?_)
    | split
    | (dsimp only))

theorem ProcessTransparency_nested_good (st : CPDF_RenderStatus) (o : CPDF_PageObject)
    (v : TransparencyLocals) (b : Ref) (nm : CFX_Matrix) :
    Good d (fun n => n.stop_obj_ = st.stop_obj_)
      (ProcessTransparency.nested env rso st o v b nm) := by
  unfold ProcessTransparency.nested
  refine Good_bind (Initialize_good env d _ _ _) (fun s hs => ?_)
  refine Good_weaken (ProcessObjectNoClip_good env rso d h _ _ _) (fun n hn => ?_)
  have h1 : n.stop_obj_ = s.stop_obj_ := by
    have := congrArg CPDF_RenderStatus.stop_obj_ hn
    exact this
  rw [h1, hs]
  rfl

theorem ProcessTransparency_render_good (st : CPDF_RenderStatus) (o : CPDF_PageObject)
    (mt : CFX_Matrix) (v : TransparencyLocals) (r : FX_RECT) (b : Ref) (nm : CFX_Matrix)
    (tm : Option Ref) :
    Good d (fun x => x.1 = true ∧ Frame st x.2)
      (ProcessTransparency.render env rso st o mt v r b nm tm) := by
  unfold ProcessTransparency.render
  refine Good_bind (ProcessTransparency_nested_good env rso d h _ _ _ _ _) (fun _ _ => ?_)
  try dsimp only
  refine Good_bind (P := fun _ => True) ?_ (fun _ _ => ?_)
  · split
    · refine Good_bind (LoadSMask_good env rso d h _ _ _ _) (fun _ _ => ?_)
      split
      · exact Good_call _ _ _
      · exact Good_pure trivial
    · exact Good_pure trivial
  refine Good_bind (P := fun _ => True) ?_ (fun _ _ => ?_)
  · split
    · exact Good_call _ _ _
    · exact Good_pure trivial
  refine Good_bind (P := fun _ => True) ?_ (fun _ _ => ?_)
  · split
    · exact Good_call _ _ _
    · exact Good_pure trivial
  refine Good_bind (P := fun _ => True) ?_ (fun _ _ => ?_)
  · split
    · exact Good_call _ _ _
    · exact Good_pure trivial
  refine Good_bind (CompositeDIBitmap_good env d _ _ _ _ _ _ _ _) (fun _ _ => ?_)
  exact Good_pure ⟨rfl, by simp [Frame]⟩

theorem ProcessTransparency_buffer_good (st : CPDF_RenderStatus) (o : CPDF_PageObject)
    (mt : CFX_Matrix) (v : TransparencyLocals) :
    Good d (fun x => x.1 = true ∧ Frame st x.2) (ProcessTransparency.buffer env rso st o mt v) := by
  unfold ProcessTransparency.buffer
  refine Good_bind (Good_ask _) (fun _ _ => ?_)
  try dsimp only
  split
  · exact Good_pure ⟨rfl, Frame_refl st⟩
  · refine Good_bind (Good_ask _) (fun _ _ => ?_)
    refine Good_bind (P := fun _ => True) ?_ (fun _ _ => ?_)
    · split
      · refine Good_bind Good_alloc (fun _ _ => ?_)
        refine Good_bind (Good_call _ _ _) (fun _ _ => ?_)
        split
        · exact Good_pure trivial
        · exact Good_bind (Good_call _ _ _) (fun _ _ => Good_pure trivial)
      · exact Good_pure trivial
    · try dsimp only
      split
      · exact Good_pure ⟨rfl, Frame_refl st⟩
      · refine Good_bind Good_alloc (fun _ _ => ?_)
        refine Good_bind (GetCompatibleArgbFormat_good env d _) (fun _ _ => ?_)
        refine Good_bind (Good_call _ _ _) (fun _ _ => ?_)
        split
        · exact Good_pure ⟨rfl, Frame_refl st⟩
        · try dsimp only
          split
          · refine Good_bind Good_alloc (fun _ _ => ?_)
            refine Good_bind (Good_call _ _ _) (fun _ _ => ?_)
            split
            · exact Good_pure ⟨rfl, Frame_refl st⟩
            · refine Good_bind Good_alloc (fun _ _ => ?_)
              refine Good_bind (Good_call _ _ _) (fun _ _ => ?_)
              refine Good_bind (ProcessTransparency_textMask_good env d _ _ _) (fun _ _ => ?_)
              exact ProcessTransparency_render_good env rso d h _ _ _ _ _ _ _ _
          · exact ProcessTransparency_render_good env rso d h _ _ _ _ _ _ _ _

theorem ProcessTransparency_good (st : CPDF_RenderStatus) (o : CPDF_PageObject)
    (mt : CFX_Matrix) :
    Good d (fun x => Frame st x.2) (ProcessTransparency env rso st o mt) := by
  unfold ProcessTransparency
  refine Good_bind (Good_ask _) (fun _ _ => ?_)
  try dsimp only
  split
  · exact Good_pure (Frame_refl st)
  · split
    · exact Good_bind (DrawObjWithBackground_good env rso d h _ _ _)
        (fun _ _ => Good_pure (Frame_refl st))
    · exact Good_weaken (ProcessTransparency_buffer_good env rso d h _ _ _ _) (fun _ hx => hx.2)

theorem RenderSingleObject_body_good (st : CPDF_RenderStatus) (o : CPDF_PageObject)
    (mt : CFX_Matrix) : Good d (Frame st) (RenderSingleObject.body env rso st o mt) := by
  unfold RenderSingleObject.body
  try dsimp only
  split
  · exact Good_pure (by simp [Frame])
  · refine Good_bind (ProcessClipPath_good env rso d h _ _ _) (fun st1 h1 => ?_)
    refine Good_bind (ProcessTransparency_good env rso d h _ _ _) (fun r h2 => ?_)
    have h3 : Frame st r.2 := Frame_trans (Frame_trans (by simp [Frame]) h1) h2
    try dsimp only
    split
    · exact Good_pure h3
    · exact Good_weaken (ProcessObjectNoClip_good env rso d h _ _ _) (fun _ h4 => Frame_trans h3 h4)

theorem ContinueSingleObject_resume_good (st : CPDF_RenderStatus) (r : Ref)
    (o : CPDF_PageObject) (mt : CFX_Matrix) (p : Option Nat) :
    Good d (fun _ => True) (ContinueSingleObject.resume env rso st r o mt p) := by
  unfold ContinueSingleObject.resume
  repeat' (first
    | exact Good_pure trivial
    | exact Good_call _ _ _
    | exact Good_ask _
    | exact DrawObjWithBackground_good env rso d h _ _ _
    | refine Good_bind (Q := fun _ => True) (P := fun _ => True) ?_ (fun _ _ => ?_)
    | split
    | (dsimp only))

theorem ContinueSingleObject_good (st : CPDF_RenderStatus) (o : CPDF_PageObject)
    (mt : CFX_Matrix) (p : Option Nat) :
    Good d (fun _ => True) (ContinueSingleObject env rso st o mt p) := by
  unfold ContinueSingleObject
  repeat' (first
    | exact Good_pure trivial
    | exact Good_call _ _ _
    | exact Good_ask _
    | exact Good_alloc
    | exact DrawObjWithBackground_good env rso d h _ _ _
    | exact ContinueSingleObject_resume_good env rso d h _ _ _ _ _
    | exact Good_weaken (ProcessClipPath_good env rso d h _ _ _) (fun _ _ => trivial)
    | exact Good_weaken (ProcessTransparency_good env rso d h _ _ _) (fun _ _ => trivial)
    | exact Good_weaken (ProcessObjectNoClip_good env rso d h _ _ _) (fun _ _ => trivial)
    | refine Good_bind (Q := fun _ => True) (P := fun _ => True) ?_ (fun _ _ => ?_)
    | split
    | (dsimp only))

end knot

theorem RenderSingleObject_good (env : Env) :
    ∀ (fuel d : Nat), 0 < fuel → kRenderMaxRecursionDepth < fuel + d →
      GoodRso d (RenderSingleObject env fuel) := by
  intro fuel
  induction fuel with
  | zero => intro d h0; exact absurd h0 (Nat.lt_irrefl 0)
  | succ n ih =>
    intro d _ hd st o mt g hg
    unfold RenderSingleObject
    try dsimp only
    have hcap : (RenderSingleObject.enter g).peak ≤ max g.peak (peakCap g.depth) := by
      simp only [RenderSingleObject.enter, peakCap]
      omega
    split
    · exact ⟨⟨⟨hcap, List.prefix_refl _⟩, rfl⟩, Frame_refl st⟩
    · rename_i hle
      have hle2 : d + 1 ≤ kRenderMaxRecursionDepth := by
        have : (RenderSingleObject.enter g).depth = d + 1 := by simp [RenderSingleObject.enter, hg]
        rw [this] at hle
        exact Nat.le_of_not_lt hle
      have hn : 0 < n := by unfold kRenderMaxRecursionDepth at *; omega
      have hrec := ih (d + 1) hn (by omega)
      have hb := RenderSingleObject_body_good env (RenderSingleObject env n) (d + 1) hrec st o mt
        (RenderSingleObject.enter g) (by simp [RenderSingleObject.enter, hg])
      have hpk : ∀ g2 : G, g2.peak ≤ max (RenderSingleObject.enter g).peak
          (peakCap (RenderSingleObject.enter g).depth) → g2.peak ≤ max g.peak (peakCap g.depth) := by
        intro g2 h2
        refine h2.trans ?_
        simp only [RenderSingleObject.enter, hg, peakCap]
        unfold kRenderMaxRecursionDepth at *
        omega
      cases hres : RenderSingleObject.body env (RenderSingleObject env n) st o mt
          (RenderSingleObject.enter g) with
      | ok st1 g2 =>
        rw [hres] at hb
        exact ⟨⟨⟨hpk g2 hb.1.1.1, hb.1.1.2⟩, rfl⟩, hb.2⟩
      | aborted g2 =>
        rw [hres] at hb
        exact ⟨hpk g2 hb.1, hb.2⟩
      | starved => rw [hres] at hb; exact hb

/-- `RenderSingleObject` with fuel 65 is good at every depth. -/
theorem RenderSingleObject_total (env : Env) (d : Nat) :
    GoodRso d (RenderSingleObject env (kRenderMaxRecursionDepth + 1)) :=
  RenderSingleObject_good env _ d (Nat.succ_pos _) (by unfold kRenderMaxRecursionDepth; omega)

/-- The depth guard: entered with the counter at the maximum or above, `RenderSingleObject`
returns at once. -/
theorem RenderSingleObject_guard_rejects (env : Env) (fuel : Nat) (st : CPDF_RenderStatus)
    (pObj : CPDF_PageObject) (mt : CFX_Matrix) (g : G)
    (h : kRenderMaxRecursionDepth ≤ g.depth) :
    RenderSingleObject env (fuel + 1) st pObj mt g =
      .ok st { g with peak := max g.peak (g.depth + 1) } := by
  unfold RenderSingleObject
  have h1 : (RenderSingleObject.enter g).depth > kRenderMaxRecursionDepth := by
    simp only [RenderSingleObject.enter]
    omega
  simp only [h1, if_true]
  rfl

/-- C2. If the process-wide recursion counter is already at least 64
(`kRenderMaxRecursionDepth`) on entry, `RenderSingleObject` is a no-op for every object,
transform and status: it returns normally with the status it was given, and the shared state
keeps its call log, its counter and its allocations (only the recorded highest value of the
counter moves, to the value the counter held between the increment and the return). -/
theorem RenderSingleObject_noop_at_max_depth (env : Env) (fuel : Nat) (st : CPDF_RenderStatus)
    (pObj : CPDF_PageObject) (mt : CFX_Matrix) (g : G)
    (h : kRenderMaxRecursionDepth ≤ g.depth) :
    RenderSingleObject env (fuel + 1) st pObj mt g =
      .ok st { g with peak := max g.peak (g.depth + 1) } :=
  RenderSingleObject_guard_rejects env fuel st pObj mt g h

/-- Witness of C2: with the counter at 64 a path of the demo document is not rendered. -/
theorem RenderSingleObject_noop_at_max_depth_witness :
    RenderSingleObject Demo.env 65 Demo.status (Demo.env.deref (.given 1)) CFX_Matrix.identity
      Demo.deep = .ok Demo.status ⟨64, 65, 0, []⟩ :=
  RenderSingleObject_noop_at_max_depth Demo.env 64 Demo.status _ _ Demo.deep (by decide)

/-- C4. Every call of `RenderSingleObject` ends (with fuel 65 the model never runs out of
fuel), and whenever it returns, on whichever path, the process-wide recursion counter has
the value it had on entry. -/
theorem RenderSingleObject_restores_counter (env : Env) (st : CPDF_RenderStatus)
    (pObj : CPDF_PageObject) (mt : CFX_Matrix) (g : G) :
    match RenderSingleObject env (kRenderMaxRecursionDepth + 1) st pObj mt g with
    | .ok _ g1 => g1.depth = g.depth
    | .aborted _ => True
    | .starved => False := by
  have h := RenderSingleObject_total env g.depth st pObj mt g rfl
  cases hres : RenderSingleObject env (kRenderMaxRecursionDepth + 1) st pObj mt g with
  | ok st1 g1 => rw [hres] at h; exact h.1.2
  | aborted g1 => trivial
  | starved => rw [hres] at h; exact h

/-- C3, the claim fails as stated: on a form that invokes itself, rendered by a process whose
counter starts at 0, the recursion counter reaches 65, one more than the maximum depth. -/
theorem RenderSingleObject_counter_reaches_65 :
    Demo.peakOf (RenderSingleObject Demo.env 65 Demo.status (Demo.env.deref (.given 10))
      CFX_Matrix.identity Demo.start) = 65 := by
  decide!

/-- C3, amended. Rendering terminates for every input: with fuel 65, which is spent only
when `RenderSingleObject` is entered, the model never runs out of fuel, so every cycle of the
recursion passes through the depth guard of `RenderSingleObject` and at most 65 activations
of it are ever open.  When the counter is at most 64 and has never been above 65 before, it
stays at most 65 (= maximum depth + 1, the value it holds inside a call the guard rejects),
and it is back at its value when the call returns.  A call entered with the counter at 64 or
more paints nothing. -/
theorem RenderSingleObject_terminates (env : Env) (st : CPDF_RenderStatus)
    (pObj : CPDF_PageObject) (mt : CFX_Matrix) (g : G)
    (hd : g.depth ≤ kRenderMaxRecursionDepth) (hp : g.peak ≤ kRenderMaxRecursionDepth + 1) :
    (match RenderSingleObject env (kRenderMaxRecursionDepth + 1) st pObj mt g with
      | .ok _ g1 => g1.depth = g.depth ∧ g1.peak ≤ kRenderMaxRecursionDepth + 1
      | .aborted g1 => g1.peak ≤ kRenderMaxRecursionDepth + 1
      | .starved => False) ∧
    (g.depth = kRenderMaxRecursionDepth →
      ∃ g1, RenderSingleObject env (kRenderMaxRecursionDepth + 1) st pObj mt g = .ok st g1 ∧
        g1.log = g.log) := by
  have hcap : max g.peak (peakCap g.depth) ≤ kRenderMaxRecursionDepth + 1 := by
    unfold peakCap kRenderMaxRecursionDepth at *
    omega
  constructor
  · have h := RenderSingleObject_total env g.depth st pObj mt g rfl
    cases hres : RenderSingleObject env (kRenderMaxRecursionDepth + 1) st pObj mt g with
    | ok st1 g1 => rw [hres] at h; exact ⟨h.1.2, h.1.1.1.trans hcap⟩
    | aborted g1 => rw [hres] at h; exact h.1.trans hcap
    | starved => rw [hres] at h; exact h
  · intro h64
    exact ⟨_, RenderSingleObject_guard_rejects env _ st pObj mt g (le_of_eq h64.symm), rfl⟩

/-- Witness of the amended C3 on the form that invokes itself. -/
theorem RenderSingleObject_terminates_witness :
    (match RenderSingleObject Demo.env (kRenderMaxRecursionDepth + 1) Demo.status
        (Demo.env.deref (.given 10)) CFX_Matrix.identity Demo.start with
      | .ok _ g1 => g1.depth = Demo.start.depth ∧ g1.peak ≤ kRenderMaxRecursionDepth + 1
      | .aborted g1 => g1.peak ≤ kRenderMaxRecursionDepth + 1
      | .starved => False) ∧
    (Demo.start.depth = kRenderMaxRecursionDepth →
      ∃ g1, RenderSingleObject Demo.env (kRenderMaxRecursionDepth + 1) Demo.status
        (Demo.env.deref (.given 10)) CFX_Matrix.identity Demo.start = .ok Demo.status g1 ∧
        g1.log = Demo.start.log) :=
  RenderSingleObject_terminates Demo.env Demo.status (Demo.env.deref (.given 10))
    CFX_Matrix.identity Demo.start (by decide) (by decide)

theorem handedOver_skip (env : Env) (clip : CFX_FloatRect) (p : Option Ref)
    (rest : List (Option Ref))
    (h : ∀ r, p = some r → ((env.deref r).active && !culled clip (env.deref r)) = false) :
    handedOver env clip (p :: rest) = handedOver env clip rest := by
  unfold handedOver
  cases p with
  | none => rfl
  | some r =>
    rw [List.filterMap_cons]
    simp only [h r rfl, Bool.false_eq_true, if_false]

theorem handedOver_take (env : Env) (clip : CFX_FloatRect) (r : Ref)
    (rest : List (Option Ref))
    (h : ((env.deref r).active && !culled clip (env.deref r)) = true) :
    handedOver env clip (some r :: rest) = env.deref r :: handedOver env clip rest := by
  unfold handedOver
  rw [List.filterMap_cons]
  simp only [h, if_true]

theorem RenderObjectList_loop_stop (env : Env) (mt : CFX_Matrix) (clip : CFX_FloatRect)
    (post : List (Option Ref)) (stop : Option Ref) :
    ∀ (pre : List (Option Ref)) (st : CPDF_RenderStatus) (g : G),
      st.stop_obj_ = stop → stop ∉ pre →
      (∀ n, n < (handedOver env clip pre).length →
        notStopped (renderEach (RenderSingleObject env (kRenderMaxRecursionDepth + 1)) mt
          ((handedOver env clip pre).take (n + 1)) st g) = true) →
      RenderObjectList.loop env (RenderSingleObject env (kRenderMaxRecursionDepth + 1)) mt clip
          (pre ++ stop :: post) st g =
        (renderEach (RenderSingleObject env (kRenderMaxRecursionDepth + 1)) mt
          (handedOver env clip pre) st >>= fun s => pure { s with stopped_ := true }) g := by
  intro pre
  induction pre with
  | nil =>
    intro st g hs _ _
    subst hs
    simp only [List.nil_append, handedOver, List.filterMap_nil, renderEach]
    unfold RenderObjectList.loop
    simp only [if_true]
    rfl
  | cons p rest ih =>
    intro st g hs hfirst hquiet
    subst hs
    have hp : p ≠ st.stop_obj_ := fun h => hfirst (h ▸ List.mem_cons_self _ _)
    have hrest : st.stop_obj_ ∉ rest := fun h => hfirst (List.mem_cons_of_mem _ h)
    simp only [List.cons_append]
    unfold RenderObjectList.loop
    simp only [hp, if_false]
    cases p with
    | none =>
      simp only
      rw [handedOver_skip env clip none rest (by intro r hr; cases hr)] at hquiet ⊢
      exact ih st g rfl hrest hquiet
    | some r =>
      simp only
      by_cases hact : (env.deref r).active = true
      · by_cases hcull : culled clip (env.deref r) = true
        · simp only [hact, hcull, Bool.not_true, if_false, if_true]
          rw [handedOver_skip env clip (some r) rest
            (by intro r1 hr; cases hr; simp [hcull])] at hquiet ⊢
          simp only [Bool.false_eq_true, if_false]
          exact ih st g rfl hrest hquiet
        · have hh : handedOver env clip (some r :: rest) =
              env.deref r :: handedOver env clip rest :=
            handedOver_take env clip r rest (by simp [hact, hcull])
          rw [hh] at hquiet ⊢
          simp only [hact, hcull, Bool.not_true, if_false, Bool.false_eq_true]
          have hgood := RenderSingleObject_total env g.depth st (env.deref r) mt g rfl
          show R.bind _ _ g = R.bind (renderEach _ mt (env.deref r :: _) st) _ g
          unfold renderEach
          show R.bind _ _ g = R.bind (R.bind _ _) _ g
          unfold R.bind
          cases hres : RenderSingleObject env (kRenderMaxRecursionDepth + 1) st (env.deref r) mt g with
          | ok st1 g1 =>
            rw [hres] at hgood
            have h0 := hquiet 0 (by simp)
            simp only [List.take_succ_cons, List.take_zero, renderEach] at h0
            have h0' : notStopped (R.bind (RenderSingleObject env (kRenderMaxRecursionDepth + 1)
                st (env.deref r) mt) (fun st1 => pure st1) g) = true := h0
            unfold R.bind at h0'
            rw [hres] at h0'
            have hst1 : st1.stopped_ = false := by
              simpa [notStopped, pure] using h0'
            have hstop1 : st1.stop_obj_ = st.stop_obj_ := by
              have := congrArg CPDF_RenderStatus.stop_obj_ hgood.2
              exact this
            simp only [hst1, Bool.false_eq_true, if_false]
            have := ih st1 g1 hstop1 hrest (by
              intro n hn
              have hq := hquiet (n + 1) (by simpa using hn)
              simp only [List.take_succ_cons] at hq
              unfold renderEach at hq
              have hq' : notStopped (R.bind (RenderSingleObject env
                  (kRenderMaxRecursionDepth + 1) st (env.deref r) mt)
                  (fun st1 => renderEach (RenderSingleObject env (kRenderMaxRecursionDepth + 1))
                    mt (List.take (n + 1) (handedOver env clip rest)) st1) g) = true := hq
              unfold R.bind at hq'
              rw [hres] at hq'
              exact hq')
            rw [this]
            rfl
          | aborted g1 => rfl
          | starved => rfl
      · have hact' : (env.deref r).active = false := by simpa using hact
        simp only [hact', Bool.not_false, if_true]
        rw [handedOver_skip env clip (some r) rest
          (by intro r1 hr; cases hr; simp [hact'])] at hquiet ⊢
        exact ih st g rfl hrest hquiet

theorem ProcessTransparency_plain_iff (env : Env) (st : CPDF_RenderStatus)
    (obj : CPDF_PageObject) (caps : RenderCaps) :
    ProcessTransparency.plain (ProcessTransparency.locals env st obj caps) = true ↔
      ¬ special env st obj caps := by
  unfold ProcessTransparency.plain ProcessTransparency.locals special softMaskApplies
    textClipUnsupported
  cases hsm : obj.states.general_state.soft_mask <;>
  cases hclip : obj.states.clip_path <;>
  by_cases hform : obj.type = .kForm <;>
  by_cases himg : obj.type = .kImage <;>
  cases hsc : caps.soft_clip <;>
  cases hpr : st.print_ <;>
  cases hiso : (env.form obj.form).transparency.isolated <;>
  cases hds : obj.image_dict_has_smask <;>
  simp_all <;>
  tauto

theorem ProcessTransparency_special_true (env : Env) (rso : Rso) (d : Nat)
    (h : GoodRso d rso) (st : CPDF_RenderStatus) (obj : CPDF_PageObject) (mt : CFX_Matrix)
    (g : G) (hg : g.depth = d)
    (hs : special env st obj (env.GetRenderCaps g.log st.device_)) :
    Res.post g (fun r : Bool × CPDF_RenderStatus => r.1 = true)
      (ProcessTransparency env rso st obj mt g) := by
  have hplain : ProcessTransparency.plain
      (ProcessTransparency.locals env st obj (env.GetRenderCaps g.log st.device_)) = false := by
    cases hp : ProcessTransparency.plain
      (ProcessTransparency.locals env st obj (env.GetRenderCaps g.log st.device_))
    · rfl
    · exact absurd hs ((ProcessTransparency_plain_iff env st obj _).1 hp)
  unfold ProcessTransparency
  show Res.post g _ (R.bind (ask _) _ g)
  unfold R.bind ask
  simp only [hplain, Bool.false_eq_true, if_false]
  split
  · exact Good_bind (Q := fun r : Bool × CPDF_RenderStatus => r.1 = true)
      (DrawObjWithBackground_good env rso d h _ _ _) (fun _ _ => Good_pure rfl) g hg
  · exact Good_weaken (ProcessTransparency_buffer_good env rso d h _ _ _ _)
      (fun _ hx => hx.1) g hg

/-- C5, the claim fails as stated: for a plain path object rendered by a status whose
inherited initial-state fill alpha is 0, the sixth condition of the claim holds, and
`ProcessTransparency` still returns `false` and touches nothing. -/
theorem ProcessTransparency_ignores_initial_alpha_of_path :
    claimedSpecial Demo.env Demo.fadedStatus (Demo.path 1)
        (Demo.env.GetRenderCaps Demo.start.log Demo.fadedStatus.device_) ∧
      ProcessTransparency Demo.env (RenderSingleObject Demo.env (kRenderMaxRecursionDepth + 1))
        Demo.fadedStatus (Demo.path 1) CFX_Matrix.identity Demo.start =
        .ok (false, Demo.fadedStatus) Demo.start := by
  constructor
  · unfold claimedSpecial
    right; right; right; right; right
    decide
  · decide!

/-- C5, amended. `ProcessTransparency` handles an object specially if and only if at least
one of these holds: a soft-mask dictionary is present and the object is not an image whose
own dictionary has an `SMask` entry; the object is a form whose fill alpha is not 1; the
blend mode is not Normal; the clip path of the object carries text and the device lacks
soft-clip support while not printing; the object is a form whose transparency group is
isolated; the object is a form and the inherited initial-state fill alpha is not 1.  When
none holds it returns `false` with the status and the shared state (the call log included)
as they were; when one holds it ends, and returns `true` whenever it returns. -/
theorem ProcessTransparency_special_iff (env : Env) (st : CPDF_RenderStatus)
    (obj : CPDF_PageObject) (mt : CFX_Matrix) (g : G) :
    (¬ special env st obj (env.GetRenderCaps g.log st.device_) →
      ∀ rso, ProcessTransparency env rso st obj mt g = .ok (false, st) g) ∧
    (special env st obj (env.GetRenderCaps g.log st.device_) →
      match ProcessTransparency env (RenderSingleObject env (kRenderMaxRecursionDepth + 1))
          st obj mt g with
      | .ok r _ => r.1 = true
      | .aborted _ => True
      | .starved => False) := by
  constructor
  · intro hs rso
    have hplain := (ProcessTransparency_plain_iff env st obj _).2 hs
    unfold ProcessTransparency
    show R.bind (ask _) _ g = _
    unfold R.bind ask
    simp only [hplain, if_true]
    rfl
  · intro hs
    have h := ProcessTransparency_special_true env _ g.depth
      (RenderSingleObject_total env g.depth) st obj mt g rfl hs
    cases hres : ProcessTransparency env (RenderSingleObject env (kRenderMaxRecursionDepth + 1))
        st obj mt g with
    | ok r g1 => rw [hres] at h; exact h.2
    | aborted g1 => trivial
    | starved => rw [hres] at h; exact h

theorem CPDF_ClipPath_same_self (clip : ClipPathData) :
    CPDF_ClipPath.same (some clip) (some clip) = true := by
  simp [CPDF_ClipPath.same]

theorem ProcessText_clip_keeps_status (env : Env) (rso : Rso) (d : Nat) (h : GoodRso d rso)
    (st : CPDF_RenderStatus) (t : CPDF_PageObject) (mt : CFX_Matrix) (c : Ref) :
    Good d (fun r => r.2 = st) (ProcessText env rso st t mt (some c)) := by
  unfold ProcessText
  split
  · exact Good_pure rfl
  · split
    · exact Good_pure rfl
    · split
      · exact Good_bind (ProcessType3Text_good env rso d h _ _ _) (fun _ _ => Good_pure rfl)
      · have hp : textPaint (some c).isSome t.states.text_state.text_mode
            (env.font t.states.text_state.font).has_face = .flags false false true := by
          simp [textPaint]
        rw [hp]
        simp only
        unfold ProcessText.paint
        simp only [Bool.false_and, Bool.or_self, Bool.false_eq_true, if_false, or_false,
          if_true, false_and]
        split
        · exact Good_pure rfl
        · exact Good_bind (Good_call _ _ _) (fun _ _ => Good_pure rfl)

theorem ProcessClipPath_texts_keeps_status (env : Env) (rso : Rso) (d : Nat)
    (h : GoodRso d rso) (mt : CFX_Matrix) (l : List (Option Ref)) :
    ∀ (c : Option Ref) (st : CPDF_RenderStatus),
      Good d (fun s1 => s1 = st) (ProcessClipPath.texts env rso mt l c st) := by
  induction l with
  | nil => intro c st; unfold ProcessClipPath.texts; exact Good_pure rfl
  | cons x rest ih =>
    intro c st
    unfold ProcessClipPath.texts
    split
    · refine Good_bind (P := fun _ => True) ?_ (fun _ _ => ?_)
      · split
        · exact Good_pure trivial
        · exact Good_alloc
      · refine Good_bind (ProcessText_clip_keeps_status env rso d h _ _ _ _) (fun r h1 => ?_)
        rw [h1]
        exact ih _ _
    · split
      · exact ih _ _
      · exact Good_bind (Good_call _ _ _) (fun _ _ => ih _ _)

theorem ProcessClipPath_noop_of_same (env : Env) (rso : Rso) (st : CPDF_RenderStatus)
    (c : CPDF_ClipPath) (mt : CFX_Matrix)
    (h : CPDF_ClipPath.same st.last_clip_path_ c = true) (g : G) :
    ProcessClipPath env rso st c mt g = .ok st g := by
  unfold ProcessClipPath
  cases c with
  | none =>
    cases hl : st.last_clip_path_ with
    | none => rfl
    | some x => rw [hl] at h; simp [CPDF_ClipPath.same] at h
  | some clip =>
    simp only [h, if_true]
    rfl

theorem ProcessClipPath_sets_last (env : Env) (rso : Rso) (d : Nat) (h : GoodRso d rso)
    (st : CPDF_RenderStatus) (c : CPDF_ClipPath) (mt : CFX_Matrix) :
    Good d (fun s1 => CPDF_ClipPath.same s1.last_clip_path_ c = true)
      (ProcessClipPath env rso st c mt) := by
  unfold ProcessClipPath
  split
  · split
    · exact Good_bind (Good_call _ _ _) (fun _ _ => Good_pure rfl)
    · rename_i hn
      refine Good_pure ?_
      cases hl : st.last_clip_path_ with
      | none => rfl
      | some x => rw [hl] at hn; simp at hn
  · rename_i clip
    split
    · rename_i hsame
      exact Good_pure hsame
    · refine Good_bind (Good_call _ _ _) (fun _ _ => ?_)
      refine Good_bind (ProcessClipPath_paths_good env d _ _ _) (fun _ _ => ?_)
      split
      · exact Good_pure (CPDF_ClipPath_same_self clip)
      · refine Good_bind (Good_ask _) (fun _ _ => ?_)
        split
        · exact Good_pure (CPDF_ClipPath_same_self clip)
        · refine Good_weaken (ProcessClipPath_texts_keeps_status env rso d h _ _ _ _)
            (fun s1 h1 => ?_)
          rw [h1]
          exact CPDF_ClipPath_same_self clip

/-- C6. Clip idempotence: for every clip path `c`, with or without content, and every
transform, `ProcessClipPath` ends, and when it returns, a second call with the same `c`
returns the status and the shared state as they are: it makes no call on the device and
leaves the last applied clip path unchanged. -/
theorem ProcessClipPath_idempotent (env : Env) (st : CPDF_RenderStatus) (c : CPDF_ClipPath)
    (mt : CFX_Matrix) (g : G) :
    match ProcessClipPath env (RenderSingleObject env (kRenderMaxRecursionDepth + 1)) st c mt g
      with
    | .ok st1 g1 =>
      ProcessClipPath env (RenderSingleObject env (kRenderMaxRecursionDepth + 1)) st1 c mt g1 =
        .ok st1 g1
    | .aborted _ => True
    | .starved => False := by
  have h := ProcessClipPath_sets_last env _ g.depth (RenderSingleObject_total env g.depth)
    st c mt g rfl
  cases hres : ProcessClipPath env (RenderSingleObject env (kRenderMaxRecursionDepth + 1))
      st c mt g with
  | ok st1 g1 =>
    rw [hres] at h
    exact ProcessClipPath_noop_of_same env _ st1 c mt h.2 g1
  | aborted g1 => trivial
  | starved => rw [hres] at h; exact h

theorem R_bind_apply {α β : Type} (m : R α) (f : α → R β) (g : G) :
    (m >>= f) g =
      match m g with
      | .ok a g1 => f a g1
      | .aborted g1 => .aborted g1
      | .starved => .starved := rfl

theorem GetFillOptionsForDrawPathWithBlend_flags (options : CPDF_RenderOptions)
    (path_obj : CPDF_PageObject) (fill_type : FillType) (is_stroke : Bool) (t3 : Bool) :
    (GetFillOptionsForDrawPathWithBlend options path_obj fill_type is_stroke t3).fill_type =
        fill_type ∧
      (GetFillOptionsForDrawPathWithBlend options path_obj fill_type is_stroke t3).stroke =
        is_stroke := by
  unfold GetFillOptionsForDrawPathWithBlend CFX_FillRenderOptions.ofType
  cases is_stroke <;> cases t3 <;>
  cases options.bNoPathSmooth <;>
  cases path_obj.states.general_state.stroke_adjust <;>
  by_cases h : (fill_type ≠ FillType.kNoFill ∧ options.bRectAA = true) <;>
  simp [h]

theorem ProcessPathPattern_flags (env : Env) (d : Nat) (st : CPDF_RenderStatus)
    (path_obj : CPDF_PageObject) (mt : CFX_Matrix) :
    Good d (fun r => r = (keptFill path_obj, keptStroke path_obj))
      (ProcessPathPattern env st path_obj mt path_obj.filltype path_obj.stroke) := by
  unfold ProcessPathPattern
  refine Good_bind (P := fun ft => ft = keptFill path_obj) ?_ (fun ft hft => ?_)
  · unfold keptFill fillConsumed
    split
    · exact Good_bind (DrawPathWithPattern_good env d _ _ _ _ _) (fun _ _ => Good_pure rfl)
    · exact Good_pure rfl
  · refine Good_bind (P := fun s => s = keptStroke path_obj) ?_ (fun s hs => ?_)
    · unfold keptStroke strokeConsumed
      split
      · exact Good_bind (DrawPathWithPattern_good env d _ _ _ _ _) (fun _ _ => Good_pure rfl)
      · exact Good_pure rfl
    · exact Good_pure (by rw [hft, hs])

/-- C7, the claim fails as stated: in forced colour mode with the conversion of fills to
strokes on, a path with a plain fill colour and a pattern stroke colour, both requested, has
its stroke pattern consumed and is then handed to `DrawPath` with the stroke flag set and
the fill type `kNoFill`: the consumed stroke is painted flat, the fill has lost its flag. -/
theorem ProcessPath_strokes_after_stroke_pattern :
    strokeConsumed (Demo.env.deref (.given 30)) ∧
      ¬ fillConsumed (Demo.env.deref (.given 30)) ∧
      (Demo.env.deref (.given 30)).filltype = .kWinding ∧
      Demo.drawFlags (ProcessPath Demo.env Demo.forcedStatus (Demo.env.deref (.given 30))
        CFX_Matrix.identity Demo.start) = [(.kNoFill, true)] := by
  decide!

/-- C7, amended. For every path object and every setting of the render options,
`ProcessPath` first runs `ProcessPathPattern`, which ends and clears the flag of each
requested component whose colour is a pattern and keeps the flag of every other component.
When no flag is left (in particular when both requested components are patterns) or the
path matrix is not usable, `ProcessPath` returns `true` with no further call.  Otherwise
exactly one `DrawPath` call follows: a fill whose pattern was consumed is never painted by
it (fill type `kNoFill`, fill colour 0); when the conversion of fills to strokes applies
(forced colour mode, option on, a fill still requested) it is made with fill type `kNoFill`
and the stroke flag set; when it does not apply it is made with exactly the flags left, and
with stroke colour 0 for a stroke whose pattern was consumed. -/
theorem ProcessPath_pattern_flags (env : Env) (st : CPDF_RenderStatus)
    (path_obj : CPDF_PageObject) (mt : CFX_Matrix) (g : G) :
    match ProcessPathPattern env st path_obj mt path_obj.filltype path_obj.stroke g with
    | .ok r g1 =>
      r = (keptFill path_obj, keptStroke path_obj) ∧
      (if r.1 = .kNoFill ∧ r.2 = false then ProcessPath env st path_obj mt g = .ok true g1
       else if IsAvailableMatrix (env.Concat path_obj.matrix mt) = false then
         ProcessPath env st path_obj mt g = .ok true g1
       else ∃ fill_argb stroke_argb opts,
         ProcessPath env st path_obj mt g =
           call env st.device_ (.DrawPath path_obj.path (env.Concat path_obj.matrix mt)
             path_obj.states.graph_state fill_argb stroke_argb opts) g1 ∧
         (fillConsumed path_obj → opts.fill_type = .kNoFill ∧ fill_argb = 0) ∧
         (convertsFillToStroke st r.1 → opts.fill_type = .kNoFill ∧ opts.stroke = true) ∧
         (¬ convertsFillToStroke st r.1 → opts.fill_type = r.1 ∧ opts.stroke = r.2 ∧
           (strokeConsumed path_obj → stroke_argb = 0)))
    | .aborted g1 => ProcessPath env st path_obj mt g = .aborted g1
    | .starved => False := by
  have h := ProcessPathPattern_flags env g.depth st path_obj mt g rfl
  unfold ProcessPath
  rw [R_bind_apply]
  cases hres : ProcessPathPattern env st path_obj mt path_obj.filltype path_obj.stroke g with
  | starved => rw [hres] at h; exact h
  | aborted g1 => rfl
  | ok r g1 =>
    rw [hres] at h
    have hr := h.2
    simp only
    refine ⟨hr, ?_⟩
    obtain ⟨ft, s⟩ := r
    simp only
    by_cases hnone : ft = FillType.kNoFill ∧ s = false
    · rw [if_pos hnone]
      obtain ⟨h1, h2⟩ := hnone
      subst h1 h2
      rfl
    · rw [if_neg hnone]
      have hnone2 : ¬ (ft = FillType.kNoFill ∧ (!s) = true) := by
        intro hx
        apply hnone
        refine ⟨hx.1, ?_⟩
        simpa using hx.2
      rw [if_neg hnone2]
      by_cases hm : IsAvailableMatrix (env.Concat path_obj.matrix mt) = false
      · rw [if_pos hm]
        simp only [hm, Bool.not_false, if_true]
        rfl
      · rw [if_neg hm]
        have hm2 : IsAvailableMatrix (env.Concat path_obj.matrix mt) = true := by
          simpa using hm
        simp only [hm2, Bool.not_true, Bool.false_eq_true, if_false]
        refine ⟨_, _, _, rfl, ?_, ?_, ?_⟩
        · intro hf
          have hft : ft = FillType.kNoFill := by
            have := congrArg Prod.fst hr
            simp only [keptFill, hf, if_true] at this
            exact this
          subst hft
          have hopt := GetFillOptionsForDrawPathWithBlend_flags st.options_ path_obj
            (if (st.options_.color_mode = ColorMode.kForcedColor ∧
                st.options_.bConvertFillToStroke = true ∧
                FillType.kNoFill ≠ FillType.kNoFill) then FillType.kNoFill
              else FillType.kNoFill)
            (if (st.options_.color_mode = ColorMode.kForcedColor ∧
                st.options_.bConvertFillToStroke = true ∧
                FillType.kNoFill ≠ FillType.kNoFill) then true else s)
            st.type3_char_.isSome
          simp only [ne_eq, not_true_eq_false, and_false, if_false] at hopt ⊢
          exact ⟨hopt.1, trivial⟩
        · intro hc
          have hc' : st.options_.color_mode = ColorMode.kForcedColor ∧
              st.options_.bConvertFillToStroke = true ∧ ft ≠ FillType.kNoFill := hc
          simp only [if_pos hc']
          exact GetFillOptionsForDrawPathWithBlend_flags st.options_ path_obj
            FillType.kNoFill true st.type3_char_.isSome
        · intro hc
          have hc' : ¬ (st.options_.color_mode = ColorMode.kForcedColor ∧
              st.options_.bConvertFillToStroke = true ∧ ft ≠ FillType.kNoFill) := hc
          simp only [if_neg hc']
          have hopt := GetFillOptionsForDrawPathWithBlend_flags st.options_ path_obj
            ft s st.type3_char_.isSome
          refine ⟨hopt.1, hopt.2, ?_⟩
          intro hs
          have hs2 : s = false := by
            have := congrArg Prod.snd hr
            simp only [keptStroke, hs, if_true] at this
            exact this
          subst hs2
          simp

theorem ProcessType3Text_skips_cached_font (env : Env) (rso : Rso) (st : CPDF_RenderStatus)
    (textobj : CPDF_PageObject) (mt : CFX_Matrix) (g : G)
    (h : textobj.states.text_state.font ∈ st.type3_font_cache_) :
    ProcessType3Text env rso st textobj mt g = .ok true g := by
  unfold ProcessType3Text
  simp only [h, if_true]
  rfl

/-- C8, the claim fails as stated: the glyph of font 0 paints path 1 and invokes a form
that shows a text in font 0 again.  Rendering one character in font 0 paints path 1
thirty-two times: along this one chain of nested renders the font is executed thirty-two
times, because the status `ProcessForm` makes starts with an empty font list; only the depth
guard ends the chain. -/
theorem ProcessType3Text_font_runs_again_through_form :
    Demo.drawn (RenderSingleObject Demo.env (kRenderMaxRecursionDepth + 1) Demo.status
      (Demo.env.deref (.given 20)) CFX_Matrix.identity Demo.start) = List.replicate 32 1 := by
  decide!

theorem ContinueSingleObject_eq_body (env : Env) (rso : Rso) (st : CPDF_RenderStatus)
    (pObj : CPDF_PageObject) (mt : CFX_Matrix) (pPause : Option Nat) (g : G)
    (himage : pObj.type ≠ .kImage) (hflight : st.image_renderer_ = none) :
    ContinueSingleObject env rso st pObj mt pPause g =
      match RenderSingleObject.body env rso st pObj mt g with
      | .ok s g1 => .ok (false, s) g1
      | .aborted g1 => .aborted g1
      | .starved => .starved := by
  unfold ContinueSingleObject RenderSingleObject.body
  rw [hflight]
  simp only
  split
  · rfl
  · rw [R_bind_apply, R_bind_apply]
    cases hclip : ProcessClipPath env rso
        { st with cur_obj_ := some pObj.self, image_renderer_ := none }
        pObj.states.clip_path mt g with
    | starved => rfl
    | aborted g1 => rfl
    | ok st1 g1 =>
      simp only
      rw [R_bind_apply, R_bind_apply]
      cases htr : ProcessTransparency env rso st1 pObj mt g1 with
      | starved => rfl
      | aborted g2 => rfl
      | ok r g2 =>
        obtain ⟨handled, st2⟩ := r
        simp only
        cases handled with
        | true => rfl
        | false =>
          simp only [Bool.false_eq_true, if_false, himage, ne_eq, not_false_eq_true, if_true]
          rw [R_bind_apply]
          cases hobj : ProcessObjectNoClip env rso st2 pObj mt g2 with
          | starved => rfl
          | aborted g3 => rfl
          | ok s g3 => rfl

/-- C10, the claim fails as stated, for two of the four kinds of scope it names.  The stop
object is the path 3 of the demo document.  On page 4 it lies in the glyph of a Type-3 font:
the status of the glyph has no stop object, so the paths 3 and 4 of the glyph are painted,
then the path 5 of the page, and the page returns with the stopped flag clear.  On page 8,
printed on Windows, it lies in a form that is rendered by the background fallback: again the
paths 3, 4 and 5 are painted and the stopped flag stays clear. -/
theorem stop_object_missed_in_glyph_and_fallback :
    (Demo.drawn (RenderObjectList Demo.env
        (RenderSingleObject Demo.env (kRenderMaxRecursionDepth + 1)) (Demo.stopAt 3 false) 4
        CFX_Matrix.identity Demo.start) = [3, 4, 5] ∧
      Demo.stoppedOf (RenderObjectList Demo.env
        (RenderSingleObject Demo.env (kRenderMaxRecursionDepth + 1)) (Demo.stopAt 3 false) 4
        CFX_Matrix.identity Demo.start) = some false) ∧
    (Demo.drawn (RenderObjectList Demo.printer
        (RenderSingleObject Demo.printer (kRenderMaxRecursionDepth + 1)) (Demo.stopAt 3 true) 8
        CFX_Matrix.identity Demo.start) = [3, 4, 5] ∧
      Demo.stoppedOf (RenderObjectList Demo.printer
        (RenderSingleObject Demo.printer (kRenderMaxRecursionDepth + 1)) (Demo.stopAt 3 true) 8
        CFX_Matrix.identity Demo.start) = some false) := by
  decide!

/-- The stop object reached inside a form invocation (page 6) and inside a transparency
buffer (page 8) of the demo document: nothing is painted after it, neither the path 4 of
the form nor the path 5 of the page, and the page returns with the stopped flag set. -/
theorem stop_object_seen_in_form_and_buffer :
    (Demo.drawn (RenderObjectList Demo.env
        (RenderSingleObject Demo.env (kRenderMaxRecursionDepth + 1)) (Demo.stopAt 3 false) 6
        CFX_Matrix.identity Demo.start) = [] ∧
      Demo.stoppedOf (RenderObjectList Demo.env
        (RenderSingleObject Demo.env (kRenderMaxRecursionDepth + 1)) (Demo.stopAt 3 false) 6
        CFX_Matrix.identity Demo.start) = some true) ∧
    (Demo.drawn (RenderObjectList Demo.env
        (RenderSingleObject Demo.env (kRenderMaxRecursionDepth + 1)) (Demo.stopAt 3 false) 8
        CFX_Matrix.identity Demo.start) = [] ∧
      Demo.stoppedOf (RenderObjectList Demo.env
        (RenderSingleObject Demo.env (kRenderMaxRecursionDepth + 1)) (Demo.stopAt 3 false) 8
        CFX_Matrix.identity Demo.start) = some true) := by
  decide!

theorem R_bind_ok {α β : Type} {m : R α} {f : α → R β} {g g2 : G} {b : β}
    (h : (m >>= f) g = .ok b g2) : ∃ a g1, m g = .ok a g1 ∧ f a g1 = .ok b g2 := by
  rw [R_bind_apply] at h
  cases hm : m g with
  | ok a g1 => rw [hm] at h; exact ⟨a, g1, rfl, h⟩
  | aborted g1 => rw [hm] at h; cases h
  | starved => rw [hm] at h; cases h

theorem Initialize_stop_obj (env : Env) (st : CPDF_RenderStatus)
    (p : Option CPDF_RenderStatus) (i : Option CPDF_GraphicStates) (g : G) :
    ∃ s, Initialize env st p i g = .ok s g ∧ s.stop_obj_ = st.stop_obj_ ∧
      s.stopped_ = st.stopped_ :=
  ⟨_, rfl, rfl, rfl⟩

theorem applyTransferFunc_color (env : Env) (pObj : CPDF_PageObject) (colorref : Nat) :
    (applyTransferFunc env pObj colorref).1 =
      match pObj.states.general_state.tr with
      | some tr =>
        match objTransferFunc env pObj tr with
        | some f => env.TransferTranslateColor f colorref
        | none => colorref
      | none => colorref := by
  unfold applyTransferFunc objTransferFunc
  cases pObj.states.general_state.tr with
  | none => rfl
  | some tr =>
    cases h : pObj.states.general_state.transfer_func with
    | some f => simp only [h]
    | none =>
      simp only
      cases env.GetTransferFunc tr <;> rfl

theorem GetFillArgbForType3_eq_resolvedFill (env : Env) (st : CPDF_RenderStatus)
    (pObj : CPDF_PageObject) :
    GetFillArgbForType3 env st pObj = resolvedFill env st pObj (fillSource st pObj) := by
  unfold GetFillArgbForType3 resolvedFill fillSource
  simp only [applyTransferFunc_color]
  all_goals rfl

theorem GetStrokeArgb_eq_resolvedStroke (env : Env) (st : CPDF_RenderStatus)
    (pObj : CPDF_PageObject) :
    GetStrokeArgb env st pObj =
      if Type3CharMissingStrokeColor env st.type3_char_ pObj.states.color_state then
        st.t3_fill_color_
      else resolvedStroke env st pObj (strokeSource st pObj) := by
  unfold GetStrokeArgb resolvedStroke strokeSource
  simp only [applyTransferFunc_color]
  all_goals rfl

theorem GetFillArgbForType3_run_argb (env : Env) (st : CPDF_RenderStatus)
    (pObj : CPDF_PageObject) :
    (GetFillArgbForType3.run env st pObj).argb = GetFillArgbForType3 env st pObj := by
  unfold GetFillArgbForType3.run GetFillArgbForType3
  simp only [applyTransferFunc_color]
  by_cases h : (if MissingFillColor pObj.states.color_state then st.initial_states_.color_state
      else pObj.states.color_state).fill_colorref = 0xFFFFFFFF
  · rw [if_pos h, if_pos h]
  · rw [if_neg h, if_neg h]
    try rfl

theorem GetStrokeArgb_run_argb (env : Env) (st : CPDF_RenderStatus)
    (pObj : CPDF_PageObject) :
    (GetStrokeArgb.run env st pObj).argb = GetStrokeArgb env st pObj := by
  unfold GetStrokeArgb.run GetStrokeArgb
  simp only [applyTransferFunc_color]
  by_cases h3 : Type3CharMissingStrokeColor env st.type3_char_ pObj.states.color_state = true
  · rw [if_pos h3, if_pos h3]
  · rw [if_neg h3, if_neg h3]
    by_cases h : (if MissingStrokeColor pObj.states.color_state then
        st.initial_states_.color_state else pObj.states.color_state).stroke_colorref = 0xFFFFFFFF
    · rw [if_pos h, if_pos h]
    · rw [if_neg h, if_neg h]
      try rfl

/-- C11, the claim fails as stated: in the render of a coloured glyph (`colored()` holds), a
path whose own fill and stroke colours are unset gets the colour 7 the caller supplied, not
the colour 0 resolved from the inherited initial state. -/
theorem GetFillArgb_of_colored_glyph_without_color :
    uncoloredGlyph Demo.env Demo.glyphStatus = false ∧
      GetFillArgb Demo.env Demo.glyphStatus (Demo.path 1) = 7 ∧
      claimedFillArgb Demo.env Demo.glyphStatus (Demo.path 1) = 0 ∧
      GetStrokeArgb Demo.env Demo.glyphStatus (Demo.path 1) = 7 ∧
      claimedStrokeArgb Demo.env Demo.glyphStatus (Demo.path 1) = 0 := by
  decide!

/-- C11, amended. For every page object, if the status is a Type-3 glyph sub-render and the
glyph is uncolored or the fill colour of the object is unset, `GetFillArgb` returns the fill
colour the caller supplied; otherwise the colour is resolved from the colour state of the
object, or from the inherited initial state when the fill colour of the object is unset (which
then only happens outside a glyph).  `GetStrokeArgb` does the same with the stroke colour,
and also returns the caller's fill colour in the first case. -/
theorem GetFillArgb_resolution (env : Env) (st : CPDF_RenderStatus) (pObj : CPDF_PageObject) :
    GetFillArgb env st pObj =
        (if st.type3_char_.isSome ∧
            (uncoloredGlyph env st = true ∨ MissingFillColor pObj.states.color_state = true) then
          st.t3_fill_color_
        else resolvedFill env st pObj (fillSource st pObj)) ∧
      GetStrokeArgb env st pObj =
        (if st.type3_char_.isSome ∧
            (uncoloredGlyph env st = true ∨
              MissingStrokeColor pObj.states.color_state = true) then
          st.t3_fill_color_
        else resolvedStroke env st pObj (strokeSource st pObj)) := by
  constructor
  · unfold GetFillArgb
    rw [GetFillArgbForType3_eq_resolvedFill]
    unfold Type3CharMissingFillColor uncoloredGlyph
    cases st.type3_char_ with
    | none => simp
    | some c => simp
  · rw [GetStrokeArgb_eq_resolvedStroke]
    unfold Type3CharMissingStrokeColor uncoloredGlyph
    cases st.type3_char_ with
    | none => simp
    | some c => simp

/-- C12. Null colour: whenever the colour reference resolved by `GetFillArgbForType3` (from
the colour state of the object, or the inherited initial one) is `0xFFFFFFFF`, it returns 0,
whatever the alpha, the transfer function and the render options are, leaves the object as
it is and asks for no transfer function.  The same holds for `GetStrokeArgb` whenever it
resolves a colour reference (the Type-3 shortcut not taken) and that is `0xFFFFFFFF`. -/
theorem null_color_is_transparent (env : Env) (st : CPDF_RenderStatus)
    (pObj : CPDF_PageObject) :
    ((fillSource st pObj).fill_colorref = 0xFFFFFFFF →
      GetFillArgbForType3 env st pObj = 0 ∧
        GetFillArgbForType3.run env st pObj = ⟨0, pObj, []⟩) ∧
    (Type3CharMissingStrokeColor env st.type3_char_ pObj.states.color_state = false →
      (strokeSource st pObj).stroke_colorref = 0xFFFFFFFF →
      GetStrokeArgb env st pObj = 0 ∧ GetStrokeArgb.run env st pObj = ⟨0, pObj, []⟩) := by
  constructor
  · intro h
    have h1 : (if MissingFillColor pObj.states.color_state then st.initial_states_.color_state
        else pObj.states.color_state).fill_colorref = 0xFFFFFFFF := h
    constructor
    · unfold GetFillArgbForType3
      rw [if_pos h1]
    · unfold GetFillArgbForType3.run
      rw [if_pos h1]
  · intro h3 h
    have h1 : (if MissingStrokeColor pObj.states.color_state then
        st.initial_states_.color_state else pObj.states.color_state).stroke_colorref =
        0xFFFFFFFF := h
    constructor
    · unfold GetStrokeArgb
      simp only [h3, Bool.false_eq_true, if_false]
      rw [if_pos h1]
    · unfold GetStrokeArgb.run
      simp only [h3, Bool.false_eq_true, if_false]
      rw [if_pos h1]

/-- Witness of C12: a path with the null colour as fill and stroke colour, alphas of 0 and a
`TR` entry, in forced colour mode. -/
theorem null_color_is_transparent_witness :
    (GetFillArgbForType3 Demo.env Demo.forcedStatus Demo.nullColored = 0 ∧
      GetFillArgbForType3.run Demo.env Demo.forcedStatus Demo.nullColored =
        ⟨0, Demo.nullColored, []⟩) ∧
    (GetStrokeArgb Demo.env Demo.forcedStatus Demo.nullColored = 0 ∧
      GetStrokeArgb.run Demo.env Demo.forcedStatus Demo.nullColored =
        ⟨0, Demo.nullColored, []⟩) :=
  ⟨(null_color_is_transparent Demo.env Demo.forcedStatus Demo.nullColored).1 (by decide),
    (null_color_is_transparent Demo.env Demo.forcedStatus Demo.nullColored).2 (by decide)
      (by decide)⟩

/-- C13, the claim fails as stated: in forced colour mode with the conversion of fills to
strokes on, a filled path without pattern colours whose matrix is not usable
(`IsAvailableMatrix` fails) is not handed to `DrawPath` at all: `ProcessPath` returns `true`
with no call. -/
theorem ProcessPath_skips_unusable_matrix :
    convertsFillToStroke Demo.forcedStatus (keptFill Demo.collapsed) ∧
      ProcessPath Demo.env Demo.forcedStatus Demo.collapsed CFX_Matrix.identity Demo.start =
        .ok true Demo.start := by
  constructor
  · unfold convertsFillToStroke
    decide!
  · decide!

/-- C13, amended. For every path object: after the patterns are processed (`r` are the fill
type and the stroke flag left), when the colour mode is forced-colour, the
convert-fill-to-stroke option is on and a fill is still requested, `ProcessPath` calls
`DrawPath` with fill type `kNoFill`, the stroke flag set, fill colour 0 and the stroke colour
of `GetStrokeArgb`, and returns what `DrawPath` returns, provided the path matrix is usable;
with the option off, another colour mode or no fill left, and a flag still set, it calls
`DrawPath` with the fill type and the stroke flag unchanged (and the colours of the
components that are set), again provided the path matrix is usable.  With a matrix that is
not usable it returns `true` without a `DrawPath` call. -/
theorem ProcessPath_fill_to_stroke (env : Env) (st : CPDF_RenderStatus)
    (path_obj : CPDF_PageObject) (mt : CFX_Matrix) (g : G) :
    match ProcessPathPattern env st path_obj mt path_obj.filltype path_obj.stroke g with
    | .ok r g1 =>
      (convertsFillToStroke st r.1 →
        (IsAvailableMatrix (env.Concat path_obj.matrix mt) = true →
          ∃ opts, ProcessPath env st path_obj mt g =
              call env st.device_ (.DrawPath path_obj.path (env.Concat path_obj.matrix mt)
                path_obj.states.graph_state 0 (GetStrokeArgb env st path_obj) opts) g1 ∧
            opts.fill_type = .kNoFill ∧ opts.stroke = true) ∧
        (IsAvailableMatrix (env.Concat path_obj.matrix mt) = false →
          ProcessPath env st path_obj mt g = .ok true g1)) ∧
      (¬ convertsFillToStroke st r.1 → ¬ (r.1 = .kNoFill ∧ r.2 = false) →
        (IsAvailableMatrix (env.Concat path_obj.matrix mt) = true →
          ∃ opts, ProcessPath env st path_obj mt g =
              call env st.device_ (.DrawPath path_obj.path (env.Concat path_obj.matrix mt)
                path_obj.states.graph_state
                (if r.1 ≠ .kNoFill then GetFillArgb env st path_obj else 0)
                (if r.2 = true then GetStrokeArgb env st path_obj else 0) opts) g1 ∧
            opts.fill_type = r.1 ∧ opts.stroke = r.2) ∧
        (IsAvailableMatrix (env.Concat path_obj.matrix mt) = false →
          ProcessPath env st path_obj mt g = .ok true g1))
    | .aborted g1 => ProcessPath env st path_obj mt g = .aborted g1
    | .starved => False := by
  have h := ProcessPathPattern_good env g.depth st path_obj mt path_obj.filltype
    path_obj.stroke g rfl
  unfold ProcessPath
  rw [R_bind_apply]
  cases hres : ProcessPathPattern env st path_obj mt path_obj.filltype path_obj.stroke g with
  | starved => rw [hres] at h; exact h
  | aborted g1 => rfl
  | ok r g1 =>
    obtain ⟨ft, s⟩ := r
    simp only
    constructor
    · intro hc
      have hc' : st.options_.color_mode = ColorMode.kForcedColor ∧
          st.options_.bConvertFillToStroke = true ∧ ft ≠ FillType.kNoFill := hc
      have hnone : ¬ (ft = FillType.kNoFill ∧ (!s) = true) := fun hx => hc'.2.2 hx.1
      rw [if_neg hnone]
      simp only [if_pos hc']
      constructor
      · intro hm
        simp only [hm, Bool.not_true, Bool.false_eq_true, if_false, ne_eq, not_true_eq_false,
          if_true]
        exact ⟨_, rfl, GetFillOptionsForDrawPathWithBlend_flags st.options_ path_obj
          FillType.kNoFill true st.type3_char_.isSome⟩
      · intro hm
        simp only [hm, Bool.not_false, if_true]
        rfl
    · intro hc hleft
      have hc' : ¬ (st.options_.color_mode = ColorMode.kForcedColor ∧
          st.options_.bConvertFillToStroke = true ∧ ft ≠ FillType.kNoFill) := hc
      have hnone : ¬ (ft = FillType.kNoFill ∧ (!s) = true) := by
        intro hx
        apply hleft
        refine ⟨hx.1, ?_⟩
        simpa using hx.2
      rw [if_neg hnone]
      simp only [if_neg hc']
      constructor
      · intro hm
        simp only [hm, Bool.not_true, Bool.false_eq_true, if_false]
        exact ⟨_, rfl, GetFillOptionsForDrawPathWithBlend_flags st.options_ path_obj
          ft s st.type3_char_.isSome⟩
      · intro hm
        simp only [hm, Bool.not_false, if_true]
        rfl

/-- Witness of the amended C13: the first path of the demo document, filled with a plain
colour, in forced colour mode with the conversion on, is handed to `DrawPath` with fill type
`kNoFill` and the stroke flag set. -/
theorem ProcessPath_fill_to_stroke_witness :
    ∃ opts, ProcessPath Demo.env Demo.forcedStatus (Demo.path 1) CFX_Matrix.identity
          Demo.start =
        call Demo.env Demo.forcedStatus.device_
          (.DrawPath (Demo.path 1).path
            (Demo.env.Concat (Demo.path 1).matrix CFX_Matrix.identity)
            (Demo.path 1).states.graph_state 0
            (GetStrokeArgb Demo.env Demo.forcedStatus (Demo.path 1)) opts) Demo.start ∧
      opts.fill_type = .kNoFill ∧ opts.stroke = true := by
  have h := ProcessPath_fill_to_stroke Demo.env Demo.forcedStatus (Demo.path 1)
    CFX_Matrix.identity Demo.start
  have hp : ProcessPathPattern Demo.env Demo.forcedStatus (Demo.path 1) CFX_Matrix.identity
      (Demo.path 1).filltype (Demo.path 1).stroke Demo.start =
      .ok (.kWinding, false) Demo.start := by
    decide!
  rw [hp] at h
  exact (h.1 ⟨by decide, by decide, by decide⟩).1 (by decide!)

/-- C15, the claim fails as stated, in two places.  With the Skia renderer, the blend mode
Normal and an alpha of 0, a bitmap that is not a mask is handed to `StartDIBits` with its
alpha and the method returns: neither `MultiplyAlpha` nor `SetDIBits` is called.  And on a
device that has get-bits but no backdrop of its own, a non-isolated group with a blend mode
other than Normal is handed to `SetDIBitsWithBlend` at the clipped position: no backdrop is
fetched and `SetDIBits` is not called. -/
theorem CompositeDIBitmap_other_strategies :
    Demo.logOf (CompositeDIBitmap Demo.skia Demo.status (.given 9) 3 4 0 0 .kNormal
        ⟨false, false⟩ Demo.start) =
      [⟨.given 0, .StartDIBits (.given 9) 0 0 CFX_Matrix.identity⟩] ∧
    Demo.env.GetBackDrop Demo.start.log Demo.status.device_ = none ∧
      Demo.logOf (CompositeDIBitmap Demo.env Demo.status (.given 9) 3 4 0 1 (.kOther 1)
        ⟨false, true⟩ Demo.start) =
      [⟨.given 0, .SetDIBitsWithBlend (.given 9) 3 4 (.kOther 1)⟩] := by
  decide!

theorem CompositeDIBitmap_normal_of_bitmap (env : Env) (st : CPDF_RenderStatus) (bitmap : Ref)
    (left top : Int) (mask_argb : Nat) (alpha : ℚ) (g : G)
    (hmask : ∀ log, env.IsMaskFormat log bitmap = false) :
    CompositeDIBitmap.normal env st bitmap left top mask_argb alpha g =
      if alpha ≠ 1 then
        if env.use_skia = true then
          .ok true (said g [⟨st.device_, .StartDIBits bitmap alpha 0
            (env.GetFlipMatrix (env.GetWidth g.log bitmap) (env.GetHeight g.log bitmap) left
              top)⟩])
        else
          .ok (env.result (g.log ++ [⟨bitmap, .MultiplyAlpha alpha⟩])
              ⟨st.device_, .SetDIBits bitmap left top⟩)
            (said g [⟨bitmap, .MultiplyAlpha alpha⟩, ⟨st.device_, .SetDIBits bitmap left top⟩])
      else
        .ok (env.result g.log ⟨st.device_, .SetDIBits bitmap left top⟩)
          (said g [⟨st.device_, .SetDIBits bitmap left top⟩]) := by
  unfold CompositeDIBitmap.normal
  rw [R_bind_apply]
  simp only [ask, hmask, Bool.false_eq_true, if_false]
  by_cases ha : alpha = 1
  · simp only [ha, ne_eq, not_true_eq_false, if_false]
    rfl
  · simp only [ha, ne_eq, not_false_eq_true, if_true]
    by_cases hs : env.use_skia = true
    · simp only [hs, if_true]
      rfl
    · simp only [hs, if_false, Bool.false_eq_true]
      rw [R_bind_apply]
      simp only [call, said, List.append_assoc, List.singleton_append]

theorem CompositeDIBitmap_after_attempt (env : Env) (st : CPDF_RenderStatus) (bitmap : Ref)
    (left top : Int) (mask_argb : Nat) (blend_mode : BlendMode)
    (transparency : CPDF_Transparency) (g1 : G)
    (hmask : ∀ log, env.IsMaskFormat log bitmap = false) :
    (do
      let bIsolated := transparency.isolated
      let bBackAlphaRequired := blend_mode ≠ .kNormal ∧ bIsolated ∧ !st.drop_objects_
      let caps ← ask (env.GetRenderCaps · st.device_)
      let bGetBackGround := caps.alpha_output ∨
        (!caps.alpha_output ∧ caps.get_bits ∧ ¬ bBackAlphaRequired)
      if bGetBackGround then
        if bIsolated ∨ !transparency.group then do
          let is_mask ← ask (env.IsMaskFormat · bitmap)
          if !is_mask then do
            let _ ← call env st.device_ (.SetDIBitsWithBlend bitmap left top blend_mode)
            pure ()
          else pure ()
        else CompositeDIBitmap.group env st bitmap left top mask_argb blend_mode
      else CompositeDIBitmap.fallback env st bitmap left top mask_argb blend_mode bIsolated :
        R Unit) g1 =
      if CompositeDIBitmap.readsBack st blend_mode transparency
          (env.GetRenderCaps g1.log st.device_) then
        if transparency.isolated = true ∨ transparency.group = false then
          .ok () (said g1 [⟨st.device_, .SetDIBitsWithBlend bitmap left top blend_mode⟩])
        else CompositeDIBitmap.group env st bitmap left top mask_argb blend_mode g1
      else CompositeDIBitmap.fallback env st bitmap left top mask_argb blend_mode
        transparency.isolated g1 := by
  rw [R_bind_apply]
  simp only [ask]
  have hcond : ((env.GetRenderCaps g1.log st.device_).alpha_output = true ∨
      ((!(env.GetRenderCaps g1.log st.device_).alpha_output) = true ∧
        (env.GetRenderCaps g1.log st.device_).get_bits = true ∧
        ¬ (blend_mode ≠ BlendMode.kNormal ∧ transparency.isolated = true ∧
          (!st.drop_objects_) = true))) ↔
      CompositeDIBitmap.readsBack st blend_mode transparency
        (env.GetRenderCaps g1.log st.device_) := by
    unfold CompositeDIBitmap.readsBack
    cases (env.GetRenderCaps g1.log st.device_).alpha_output <;>
    cases st.drop_objects_ <;>
    simp
  have hgroup : (transparency.isolated = true ∨ (!transparency.group) = true) ↔
      (transparency.isolated = true ∨ transparency.group = false) := by
    cases transparency.group <;> simp
  simp only [hcond, hgroup]
  split
  · split
    · rw [R_bind_apply]
      simp only [ask, hmask, Bool.not_false, if_true]
      rfl
    · rfl
  · rfl

theorem CompositeDIBitmap_group_of_bitmap (env : Env) (st : CPDF_RenderStatus) (bitmap : Ref)
    (left top : Int) (mask_argb : Nat) (blend_mode : BlendMode) (g1 : G)
    (hmask : ∀ log, env.IsMaskFormat log bitmap = false) :
    CompositeDIBitmap.group env st bitmap left top mask_argb blend_mode g1 =
      match env.GetBackDrop g1.log st.device_, env.GetBitmap g1.log st.device_ with
      | some backdrop, some device_bitmap =>
        if env.result g1.log ⟨backdrop, .ClipTo (.fresh g1.fresh)
            (CompositeDIBitmap.area env st bitmap left top g1.log)⟩ = false then
          .ok () (grown g1 ((CompositeDIBitmap.cloneCalls env st bitmap left top blend_mode
            backdrop device_bitmap g1).take 1))
        else
          .ok () (grown g1 (CompositeDIBitmap.cloneCalls env st bitmap left top blend_mode
            backdrop device_bitmap g1))
      | some _, none =>
        .ok () (said g1 [⟨st.device_, .SetDIBits bitmap
          (CompositeDIBitmap.area env st bitmap left top g1.log).left
          (CompositeDIBitmap.area env st bitmap left top g1.log).top⟩])
      | none, _ =>
        .ok () (said g1 [⟨st.device_, .SetDIBitsWithBlend bitmap
          (CompositeDIBitmap.area env st bitmap left top g1.log).left
          (CompositeDIBitmap.area env st bitmap left top g1.log).top blend_mode⟩]) := by
  unfold CompositeDIBitmap.group CompositeDIBitmap.cloneCalls CompositeDIBitmap.area grown
  simp only [R_bind_apply, ask, hmask]
  cases hback : env.GetBackDrop g1.log st.device_ with
  | none =>
    cases hbits : env.GetBitmap g1.log st.device_ <;>
    simp only [Bool.not_false, if_true, R_bind_apply, call, said] <;> rfl
  | some backdrop =>
    cases hbits : env.GetBitmap g1.log st.device_ with
    | none => simp only [R_bind_apply, call, said]; rfl
    | some device_bitmap =>
      simp only [R_bind_apply, alloc, call]
      cases hclip : env.result g1.log ⟨backdrop, .ClipTo (.fresh g1.fresh)
          (env.Intersect ⟨left, top, left + env.GetWidth g1.log bitmap,
            top + env.GetHeight g1.log bitmap⟩ (env.GetClipBox g1.log st.device_))⟩ with
      | false => simp only [Bool.not_false, if_true]; rfl
      | true =>
        simp only [Bool.not_true, Bool.false_eq_true, if_false, R_bind_apply, ask, hmask, call,
          List.append_assoc, List.singleton_append, List.cons_append, List.nil_append]
        rfl

theorem CompositeDIBitmap_fallback_of_bitmap (env : Env) (st : CPDF_RenderStatus)
    (bitmap : Ref) (left top : Int) (mask_argb : Nat) (blend_mode : BlendMode)
    (bIsolated : Bool) (g1 : G) (hmask : ∀ log, env.IsMaskFormat log bitmap = false) :
    CompositeDIBitmap.fallback env st bitmap left top mask_argb blend_mode bIsolated g1 =
      match GetBackdrop env st st.cur_obj_ (CompositeDIBitmap.area env st bitmap left top g1.log)
          (blend_mode ≠ .kNormal ∧ bIsolated) g1 with
      | .ok none g2 => .ok () g2
      | .ok (some backdrop) g2 =>
        if env.result (g2.log ++ (CompositeDIBitmap.flattenCalls env st bitmap left top
              blend_mode g1 (CompositeDIBitmap.area env st bitmap left top g1.log) backdrop
              g2).take 1)
            ⟨.fresh g2.fresh, .Create
              (env.GetWidth (g2.log ++ (CompositeDIBitmap.flattenCalls env st bitmap left top
                blend_mode g1 (CompositeDIBitmap.area env st bitmap left top g1.log) backdrop
                g2).take 1) backdrop)
              (env.GetHeight (g2.log ++ (CompositeDIBitmap.flattenCalls env st bitmap left top
                blend_mode g1 (CompositeDIBitmap.area env st bitmap left top g1.log) backdrop
                g2).take 1) backdrop) .kBgrx⟩ = false then
          .aborted (grown g2 ((CompositeDIBitmap.flattenCalls env st bitmap left top blend_mode
            g1 (CompositeDIBitmap.area env st bitmap left top g1.log) backdrop g2).take 2))
        else
          .ok () (grown g2 (CompositeDIBitmap.flattenCalls env st bitmap left top blend_mode g1
            (CompositeDIBitmap.area env st bitmap left top g1.log) backdrop g2))
      | .aborted g2 => .aborted g2
      | .starved => .starved := by
  unfold CompositeDIBitmap.fallback CompositeDIBitmap.flattenCalls CompositeDIBitmap.area
    GetClippedBBox grown
  simp only [R_bind_apply, ask]
  cases hget : GetBackdrop env st st.cur_obj_
      (env.Intersect ⟨left, top, left + env.GetWidth g1.log bitmap,
        top + env.GetHeight g1.log bitmap⟩ (env.GetClipBox g1.log st.device_))
      (blend_mode ≠ .kNormal ∧ bIsolated) g1 with
  | starved => rfl
  | aborted g2 => rfl
  | ok got g2 =>
    cases got with
    | none => rfl
    | some backdrop =>
      simp only [R_bind_apply, ask, hmask, Bool.false_eq_true, if_false, call, alloc,
        List.take, List.append_assoc, List.singleton_append, List.cons_append, List.nil_append]
      cases hcreate : env.result (g2.log ++ [⟨backdrop, .CompositeBitmap
          (left - (env.Intersect ⟨left, top, left + env.GetWidth g1.log bitmap,
            top + env.GetHeight g1.log bitmap⟩ (env.GetClipBox g1.log st.device_)).left)
          (top - (env.Intersect ⟨left, top, left + env.GetWidth g1.log bitmap,
            top + env.GetHeight g1.log bitmap⟩ (env.GetClipBox g1.log st.device_)).top)
          (env.GetWidth g1.log bitmap) (env.GetHeight g1.log bitmap) bitmap 0 0 blend_mode⟩])
          ⟨.fresh g2.fresh, .Create
            (env.GetWidth (g2.log ++ [⟨backdrop, .CompositeBitmap
              (left - (env.Intersect ⟨left, top, left + env.GetWidth g1.log bitmap,
                top + env.GetHeight g1.log bitmap⟩ (env.GetClipBox g1.log st.device_)).left)
              (top - (env.Intersect ⟨left, top, left + env.GetWidth g1.log bitmap,
                top + env.GetHeight g1.log bitmap⟩ (env.GetClipBox g1.log st.device_)).top)
              (env.GetWidth g1.log bitmap) (env.GetHeight g1.log bitmap) bitmap 0 0
              blend_mode⟩]) backdrop)
            (env.GetHeight (g2.log ++ [⟨backdrop, .CompositeBitmap
              (left - (env.Intersect ⟨left, top, left + env.GetWidth g1.log bitmap,
                top + env.GetHeight g1.log bitmap⟩ (env.GetClipBox g1.log st.device_)).left)
              (top - (env.Intersect ⟨left, top, left + env.GetWidth g1.log bitmap,
                top + env.GetHeight g1.log bitmap⟩ (env.GetClipBox g1.log st.device_)).top)
              (env.GetWidth g1.log bitmap) (env.GetHeight g1.log bitmap) bitmap 0 0
              blend_mode⟩]) backdrop) .kBgrx⟩ with
      | false => simp only [Bool.not_false, if_true]; rfl
      | true =>
        simp only [Bool.not_true, Bool.false_eq_true, if_false, R_bind_apply, ask, call,
          List.append_assoc, List.singleton_append, List.cons_append, List.nil_append]
        rfl

theorem CompositeDIBitmap_cases (env : Env) (st : CPDF_RenderStatus) (bitmap : Ref)
    (left top : Int) (mask_argb : Nat) (alpha : ℚ) (blend_mode : BlendMode)
    (transparency : CPDF_Transparency) (g : G)
    (hmask : ∀ log, env.IsMaskFormat log bitmap = false) :
    CompositeDIBitmap env st bitmap left top mask_argb alpha blend_mode transparency g =
      match (if blend_mode = .kNormal then
          CompositeDIBitmap.normal env st bitmap left top mask_argb alpha g
        else .ok false g) with
      | .ok done g1 =>
        if done = true then .ok () g1
        else if CompositeDIBitmap.readsBack st blend_mode transparency
            (env.GetRenderCaps g1.log st.device_) then
          if transparency.isolated = true ∨ transparency.group = false then
            .ok () (said g1 [⟨st.device_, .SetDIBitsWithBlend bitmap left top blend_mode⟩])
          else CompositeDIBitmap.group env st bitmap left top mask_argb blend_mode g1
        else CompositeDIBitmap.fallback env st bitmap left top mask_argb blend_mode
          transparency.isolated g1
      | .aborted g1 => .aborted g1
      | .starved => .starved := by
  unfold CompositeDIBitmap
  rw [R_bind_apply]
  have hfirst : (if blend_mode = .kNormal then
        CompositeDIBitmap.normal env st bitmap left top mask_argb alpha
      else (pure false : R Bool)) g =
      (if blend_mode = .kNormal then
        CompositeDIBitmap.normal env st bitmap left top mask_argb alpha g
      else .ok false g) := by
    split <;> rfl
  rw [hfirst]
  cases (if blend_mode = .kNormal then
      CompositeDIBitmap.normal env st bitmap left top mask_argb alpha g
    else .ok false g) with
  | starved => rfl
  | aborted g1 => rfl
  | ok done g1 =>
    cases done with
    | true => rfl
    | false =>
      exact CompositeDIBitmap_after_attempt env st bitmap left top mask_argb blend_mode
        transparency g1 hmask

theorem said_nil (g : G) : said g [] = g := by
  simp [said]

/-- C15, amended. For a bitmap that is not a mask, `CompositeDIBitmap` selects one strategy
from the blend mode, the alpha, the renderer, the success of `SetDIBits`, the capabilities
of the device, the transparency descriptor and the backdrop of the device.
(a) With the blend mode Normal: with an alpha other than 1 and the Skia renderer it hands
the bitmap and the alpha to `StartDIBits` and returns; otherwise it calls `SetDIBits`, after
`MultiplyAlpha` on the bitmap when the alpha is not 1, and returns if that succeeds.
Otherwise, from the state after those calls: (b) when the device has alpha output, or has
get-bits while not (the blend mode is not Normal and the group is isolated and objects are
not dropped), and the group is isolated or not a group, it calls `SetDIBitsWithBlend`;
(c) under the same capability condition with a non-isolated group it runs
`CompositeDIBitmap.group`: with a backdrop and a bitmap of the device, the backdrop is
clipped to a clone, and device bitmap and bitmap are composited onto the clone, which is set
on the device (nothing more when the clipping fails); with a backdrop only, `SetDIBits` of
the bitmap itself; without a backdrop, `SetDIBitsWithBlend`; (d) when the capability
condition fails it runs `CompositeDIBitmap.fallback`: the backdrop is fetched; when there
is one, the bitmap is composited onto it, the result is flattened onto opaque white and set
on the device by one `SetDIBits`. -/
theorem CompositeDIBitmap_strategy (env : Env) (st : CPDF_RenderStatus) (bitmap : Ref)
    (left top : Int) (mask_argb : Nat) (alpha : ℚ) (blend_mode : BlendMode)
    (transparency : CPDF_Transparency) (g : G)
    (hmask : ∀ log, env.IsMaskFormat log bitmap = false) :
    (blend_mode = .kNormal → alpha ≠ 1 → env.use_skia = true →
      CompositeDIBitmap env st bitmap left top mask_argb alpha blend_mode transparency g =
        .ok () (said g [⟨st.device_, .StartDIBits bitmap alpha 0
          (env.GetFlipMatrix (env.GetWidth g.log bitmap) (env.GetHeight g.log bitmap) left
            top)⟩])) ∧
    (blend_mode = .kNormal → (alpha = 1 ∨ env.use_skia = false) →
      env.result (g.log ++ (CompositeDIBitmap.tried st bitmap left top alpha
        blend_mode).dropLast) ⟨st.device_, .SetDIBits bitmap left top⟩ = true →
      CompositeDIBitmap env st bitmap left top mask_argb alpha blend_mode transparency g =
        .ok () (said g (CompositeDIBitmap.tried st bitmap left top alpha blend_mode))) ∧
    ((blend_mode ≠ .kNormal ∨ ((alpha = 1 ∨ env.use_skia = false) ∧
        env.result (g.log ++ (CompositeDIBitmap.tried st bitmap left top alpha
          blend_mode).dropLast) ⟨st.device_, .SetDIBits bitmap left top⟩ = false)) →
      CompositeDIBitmap env st bitmap left top mask_argb alpha blend_mode transparency g =
        if CompositeDIBitmap.readsBack st blend_mode transparency
            (env.GetRenderCaps (said g (CompositeDIBitmap.tried st bitmap left top alpha
              blend_mode)).log st.device_) then
          if transparency.isolated = true ∨ transparency.group = false then
            .ok () (said (said g (CompositeDIBitmap.tried st bitmap left top alpha blend_mode))
              [⟨st.device_, .SetDIBitsWithBlend bitmap left top blend_mode⟩])
          else CompositeDIBitmap.group env st bitmap left top mask_argb blend_mode
            (said g (CompositeDIBitmap.tried st bitmap left top alpha blend_mode))
        else CompositeDIBitmap.fallback env st bitmap left top mask_argb blend_mode
          transparency.isolated
          (said g (CompositeDIBitmap.tried st bitmap left top alpha blend_mode))) ∧
    (∀ g1, CompositeDIBitmap.group env st bitmap left top mask_argb blend_mode g1 =
      match env.GetBackDrop g1.log st.device_, env.GetBitmap g1.log st.device_ with
      | some backdrop, some device_bitmap =>
        if env.result g1.log ⟨backdrop, .ClipTo (.fresh g1.fresh)
            (CompositeDIBitmap.area env st bitmap left top g1.log)⟩ = false then
          .ok () (grown g1 ((CompositeDIBitmap.cloneCalls env st bitmap left top blend_mode
            backdrop device_bitmap g1).take 1))
        else
          .ok () (grown g1 (CompositeDIBitmap.cloneCalls env st bitmap left top blend_mode
            backdrop device_bitmap g1))
      | some _, none =>
        .ok () (said g1 [⟨st.device_, .SetDIBits bitmap
          (CompositeDIBitmap.area env st bitmap left top g1.log).left
          (CompositeDIBitmap.area env st bitmap left top g1.log).top⟩])
      | none, _ =>
        .ok () (said g1 [⟨st.device_, .SetDIBitsWithBlend bitmap
          (CompositeDIBitmap.area env st bitmap left top g1.log).left
          (CompositeDIBitmap.area env st bitmap left top g1.log).top blend_mode⟩])) ∧
    (∀ g1, CompositeDIBitmap.fallback env st bitmap left top mask_argb blend_mode
        transparency.isolated g1 =
      match GetBackdrop env st st.cur_obj_ (CompositeDIBitmap.area env st bitmap left top g1.log)
          (blend_mode ≠ .kNormal ∧ transparency.isolated) g1 with
      | .ok none g2 => .ok () g2
      | .ok (some backdrop) g2 =>
        if env.result (g2.log ++ (CompositeDIBitmap.flattenCalls env st bitmap left top
              blend_mode g1 (CompositeDIBitmap.area env st bitmap left top g1.log) backdrop
              g2).take 1)
            ⟨.fresh g2.fresh, .Create
              (env.GetWidth (g2.log ++ (CompositeDIBitmap.flattenCalls env st bitmap left top
                blend_mode g1 (CompositeDIBitmap.area env st bitmap left top g1.log) backdrop
                g2).take 1) backdrop)
              (env.GetHeight (g2.log ++ (CompositeDIBitmap.flattenCalls env st bitmap left top
                blend_mode g1 (CompositeDIBitmap.area env st bitmap left top g1.log) backdrop
                g2).take 1) backdrop) .kBgrx⟩ = false then
          .aborted (grown g2 ((CompositeDIBitmap.flattenCalls env st bitmap left top blend_mode
            g1 (CompositeDIBitmap.area env st bitmap left top g1.log) backdrop g2).take 2))
        else
          .ok () (grown g2 (CompositeDIBitmap.flattenCalls env st bitmap left top blend_mode g1
            (CompositeDIBitmap.area env st bitmap left top g1.log) backdrop g2))
      | .aborted g2 => .aborted g2
      | .starved => .starved) := by
  refine ⟨?_, ?_, ?_,
    fun g1 => CompositeDIBitmap_group_of_bitmap env st bitmap left top mask_argb blend_mode g1
      hmask,
    fun g1 => CompositeDIBitmap_fallback_of_bitmap env st bitmap left top mask_argb blend_mode
      transparency.isolated g1 hmask⟩
  · intro hb ha hs
    rw [CompositeDIBitmap_cases env st bitmap left top mask_argb alpha blend_mode transparency g
      hmask, if_pos hb,
      CompositeDIBitmap_normal_of_bitmap env st bitmap left top mask_argb alpha g hmask,
      if_pos ha, if_pos hs]
    rfl
  · intro hb ha hres
    rw [CompositeDIBitmap_cases env st bitmap left top mask_argb alpha blend_mode transparency g
      hmask, if_pos hb,
      CompositeDIBitmap_normal_of_bitmap env st bitmap left top mask_argb alpha g hmask]
    unfold CompositeDIBitmap.tried at hres ⊢
    rw [if_pos hb] at hres ⊢
    by_cases h1 : alpha = 1
    · rw [if_pos h1] at hres ⊢
      rw [if_neg (not_not_intro h1)]
      simp only [List.dropLast_single, List.append_nil] at hres
      rw [hres]
      rfl
    · have hs : ¬ env.use_skia = true := by
        rcases ha with ha | ha
        · exact absurd ha h1
        · simp [ha]
      rw [if_neg h1] at hres ⊢
      rw [if_pos h1, if_neg hs]
      simp only [List.dropLast_cons₂, List.dropLast_single] at hres
      rw [hres]
      rfl
  · intro hcase
    rw [CompositeDIBitmap_cases env st bitmap left top mask_argb alpha blend_mode transparency g
      hmask]
    by_cases hb : blend_mode = .kNormal
    · have hrest : (alpha = 1 ∨ env.use_skia = false) ∧
          env.result (g.log ++ (CompositeDIBitmap.tried st bitmap left top alpha
            blend_mode).dropLast) ⟨st.device_, .SetDIBits bitmap left top⟩ = false := by
        rcases hcase with h | h
        · exact absurd hb h
        · exact h
      obtain ⟨ha, hres⟩ := hrest
      rw [if_pos hb,
        CompositeDIBitmap_normal_of_bitmap env st bitmap left top mask_argb alpha g hmask]
      unfold CompositeDIBitmap.tried at hres ⊢
      rw [if_pos hb] at hres
      simp only [if_pos hb]
      by_cases h1 : alpha = 1
      · rw [if_pos h1] at hres
        simp only [if_pos h1]
        rw [if_neg (not_not_intro h1)]
        simp only [List.dropLast_single, List.append_nil] at hres
        rw [hres]
        rfl
      · have hs : ¬ env.use_skia = true := by
          rcases ha with ha | ha
          · exact absurd ha h1
          · simp [ha]
        rw [if_neg h1] at hres
        simp only [if_neg h1]
        rw [if_pos h1, if_neg hs]
        simp only [List.dropLast_cons₂, List.dropLast_single] at hres
        rw [hres]
        rfl
    · rw [if_neg hb]
      have ht : CompositeDIBitmap.tried st bitmap left top alpha blend_mode = [] := by
        simp [CompositeDIBitmap.tried, hb]
      rw [ht, said_nil]
      rfl

/-- Witness of the amended C15 on the device of the demo document, which has get-bits and no
alpha output: a bitmap with the blend mode Normal and alpha 1 is set by `SetDIBits`, and a
bitmap with another blend mode that is not a group is set by `SetDIBitsWithBlend`. -/
theorem CompositeDIBitmap_strategy_witness :
    CompositeDIBitmap Demo.env Demo.status (.given 9) 3 4 0 1 .kNormal ⟨false, false⟩
        Demo.start =
      .ok () (said Demo.start (CompositeDIBitmap.tried Demo.status (.given 9) 3 4 1 .kNormal)) ∧
    CompositeDIBitmap Demo.env Demo.status (.given 9) 3 4 0 1 (.kOther 1) ⟨false, false⟩
        Demo.start =
      .ok () (said (said Demo.start (CompositeDIBitmap.tried Demo.status (.given 9) 3 4 1
          (.kOther 1)))
        [⟨Demo.status.device_, .SetDIBitsWithBlend (.given 9) 3 4 (.kOther 1)⟩]) := by
  constructor
  · exact (CompositeDIBitmap_strategy Demo.env Demo.status (.given 9) 3 4 0 1 .kNormal
      ⟨false, false⟩ Demo.start (fun _ => rfl)).2.1 rfl (Or.inl rfl) rfl
  · have h := (CompositeDIBitmap_strategy Demo.env Demo.status (.given 9) 3 4 0 1 (.kOther 1)
      ⟨false, false⟩ Demo.start (fun _ => rfl)).2.2.1 (Or.inl (by decide))
    rw [if_pos (by decide), if_pos (by decide)] at h
    exact h

/-- C16, the claim fails as stated: a path with a blend mode, rendered by a status that is
not in a group and whose inherited initial fill alpha is 0, reaches the compositing step
(its buffer is set on the device by `SetDIBitsWithBlend`), and the alpha of the buffer is
never multiplied: the inherited initial alpha is read for form objects only. -/
theorem ProcessTransparency_initial_alpha_skipped_for_path :
    Demo.fadedStatus.initial_states_.general_state.fill_alpha ≠ 1 ∧
      Demo.fadedStatus.in_group_ = false ∧
      (Demo.logOf (ProcessTransparency Demo.env
        (RenderSingleObject Demo.env (kRenderMaxRecursionDepth + 1)) Demo.fadedStatus
        Demo.blendedPath CFX_Matrix.identity Demo.start)).getLast? =
        some ⟨.given 0, .SetDIBitsWithBlend (.fresh 1) 0 0 (.kOther 1)⟩ ∧
      Demo.alphas (ProcessTransparency Demo.env
        (RenderSingleObject Demo.env (kRenderMaxRecursionDepth + 1)) Demo.fadedStatus
        Demo.blendedPath CFX_Matrix.identity Demo.start) = [] ∧
      ProcessTransparency.claimedAlphaCalls Demo.fadedStatus
        (ProcessTransparency.locals Demo.env Demo.fadedStatus Demo.blendedPath
          (Demo.env.GetRenderCaps [] (.given 0))) (.fresh 1) =
        [⟨.fresh 1, .MultiplyAlpha 0⟩] := by
  decide!

/-- The same status on the blended form object of the demo document: the alpha of the buffer
is multiplied once, by the inherited initial alpha. -/
theorem ProcessTransparency_initial_alpha_applied_for_form :
    Demo.alphas (ProcessTransparency Demo.env
      (RenderSingleObject Demo.env (kRenderMaxRecursionDepth + 1)) Demo.fadedStatus
      (Demo.env.deref (.given 24)) CFX_Matrix.identity Demo.start) =
      [⟨.fresh 1, .MultiplyAlpha 0⟩] := by
  decide!

theorem R_bind_assoc {α β γ : Type} (m : R α) (f : α → R β) (k : β → R γ) :
    (m >>= f) >>= k = m >>= fun a => f a >>= k := by
  funext g
  rw [R_bind_apply, R_bind_apply, R_bind_apply]
  cases m g <;> rfl

theorem R_pure_bind {α β : Type} (a : α) (k : α → R β) : (pure a : R α) >>= k = k a := rfl

theorem ProcessTransparency_render_masks (env : Env) (rso : Rso) (st : CPDF_RenderStatus)
    (pPageObj : CPDF_PageObject) (mtObj2Device : CFX_Matrix) (v : TransparencyLocals)
    (rect : FX_RECT) (bitmap_device : Ref) (new_matrix : CFX_Matrix)
    (text_mask_bitmap : Option Ref) :
    ProcessTransparency.render env rso st pPageObj mtObj2Device v rect bitmap_device new_matrix
        text_mask_bitmap =
      (ProcessTransparency.nested env rso st pPageObj v bitmap_device new_matrix >>=
        fun bitmap_render =>
          ProcessTransparency.masks env rso { st with stopped_ := bitmap_render.stopped_ }
            pPageObj mtObj2Device v rect bitmap_device text_mask_bitmap >>= fun _ =>
          (if v.transparency.group then call env bitmap_device (.MultiplyAlpha v.group_alpha)
            else pure true) >>= fun _ =>
          (if v.initial_alpha ≠ 1 ∧ !st.in_group_ then
            call env bitmap_device (.MultiplyAlpha v.initial_alpha)
            else pure true) >>= fun _ =>
          CompositeDIBitmap env { st with stopped_ := bitmap_render.stopped_ } bitmap_device
            rect.left rect.top 0 1 v.blend_type
            (if pPageObj.type = .kForm then { st.transparency_ with group := true }
              else st.transparency_) >>= fun _ =>
          pure (true, { st with stopped_ := bitmap_render.stopped_ })) := by
  unfold ProcessTransparency.render ProcessTransparency.masks
  simp only [R_bind_assoc, R_pure_bind]
  all_goals rfl

/-- C16, amended. In `ProcessTransparency`, for every object that reaches the compositing
step: after the render into the off-screen buffer and after the soft mask and the text-clip
mask, the alpha of the buffer is multiplied by the group fill alpha if and only if the
transparency descriptor of the object is a group, and then by the initial fill alpha if and
only if that alpha is not 1 and the status is not inside a group, each at most once and
with nothing between them and the compositing.  The group fill alpha is the fill alpha of a
form object and 1 for every other object; the initial fill alpha is the inherited one of
the status for a form object and 1 for every other object, which therefore never gets it
applied. -/
theorem ProcessTransparency_alpha_steps (env : Env) (rso : Rso) (st : CPDF_RenderStatus)
    (pPageObj : CPDF_PageObject) (mtObj2Device : CFX_Matrix) (v : TransparencyLocals)
    (rect : FX_RECT) (bitmap_device : Ref) (new_matrix : CFX_Matrix)
    (text_mask_bitmap : Option Ref) (g : G) :
    ProcessTransparency.render env rso st pPageObj mtObj2Device v rect bitmap_device new_matrix
        text_mask_bitmap g =
      (match ProcessTransparency.nested env rso st pPageObj v bitmap_device new_matrix g with
      | .ok bitmap_render g1 =>
        match ProcessTransparency.masks env rso { st with stopped_ := bitmap_render.stopped_ }
            pPageObj mtObj2Device v rect bitmap_device text_mask_bitmap g1 with
        | .ok _ g2 =>
          match CompositeDIBitmap env { st with stopped_ := bitmap_render.stopped_ }
              bitmap_device rect.left rect.top 0 1 v.blend_type
              (ProcessTransparency.composited st pPageObj)
              (said g2 (ProcessTransparency.alphaCalls st v bitmap_device)) with
          | .ok _ g3 => .ok (true, { st with stopped_ := bitmap_render.stopped_ }) g3
          | .aborted g3 => .aborted g3
          | .starved => .starved
        | .aborted g2 => .aborted g2
        | .starved => .starved
      | .aborted g1 => .aborted g1
      | .starved => .starved) ∧
    (∀ caps,
      (ProcessTransparency.locals env st pPageObj caps).group_alpha =
          (if pPageObj.type = .kForm then pPageObj.states.general_state.fill_alpha else 1) ∧
        (ProcessTransparency.locals env st pPageObj caps).initial_alpha =
          (if pPageObj.type = .kForm then st.initial_states_.general_state.fill_alpha
            else 1) ∧
        (ProcessTransparency.locals env st pPageObj caps).transparency =
          (if pPageObj.type = .kForm then (env.form pPageObj.form).transparency
            else st.transparency_) ∧
        (pPageObj.type ≠ .kForm →
          ProcessTransparency.alphaCalls st (ProcessTransparency.locals env st pPageObj caps)
              bitmap_device =
            if st.transparency_.group = true then [⟨bitmap_device, .MultiplyAlpha 1⟩]
            else [])) := by
  constructor
  · rw [ProcessTransparency_render_masks, R_bind_apply]
    cases ProcessTransparency.nested env rso st pPageObj v bitmap_device new_matrix g with
    | starved => rfl
    | aborted g1 => rfl
    | ok bitmap_render g1 =>
      simp only
      rw [R_bind_apply]
      cases ProcessTransparency.masks env rso { st with stopped_ := bitmap_render.stopped_ }
          pPageObj mtObj2Device v rect bitmap_device text_mask_bitmap g1 with
      | starved => rfl
      | aborted g2 => rfl
      | ok u g2 =>
        simp only
        unfold ProcessTransparency.alphaCalls ProcessTransparency.composited
        simp only [R_bind_apply]
        by_cases hi : v.initial_alpha ≠ 1 ∧ st.in_group_ = false
        · have hi2 : v.initial_alpha ≠ 1 ∧ (!st.in_group_) = true := by
            refine ⟨hi.1, ?_⟩
            simp [hi.2]
          rw [if_pos hi2, if_pos hi]
          cases v.transparency.group
          · simp only [Bool.false_eq_true, if_false, List.nil_append, call, said]
            first | rfl | (split <;> rename_i h <;> (rw [h]; try rfl))
          · simp only [if_true, call, said, List.append_assoc, List.singleton_append]
            first | rfl | (split <;> rename_i h <;> (rw [h]; try rfl))
        · have hi2 : ¬ (v.initial_alpha ≠ 1 ∧ (!st.in_group_) = true) := by
            intro hx
            apply hi
            refine ⟨hx.1, ?_⟩
            simpa using hx.2
          rw [if_neg hi2, if_neg hi]
          cases v.transparency.group
          · simp only [Bool.false_eq_true, if_false, List.append_nil, said_nil]
            first | rfl | (split <;> rename_i h <;> (rw [h]; try rfl))
          · simp only [if_true, List.append_nil, call, said]
            first | rfl | (split <;> rename_i h <;> (rw [h]; try rfl))
  · intro caps
    unfold ProcessTransparency.locals ProcessTransparency.alphaCalls
    by_cases hf : pPageObj.type = .kForm <;> simp [hf]

theorem ProcessClipPath_paths_calls (env : Env) (st : CPDF_RenderStatus) (mt : CFX_Matrix)
    (paths : List ClipSubPath) :
    ∀ g, ProcessClipPath.paths env st mt paths g =
      .ok () (said g (ProcessClipPath.pathCalls st.device_ mt paths)) := by
  induction paths with
  | nil =>
    intro g
    unfold ProcessClipPath.paths ProcessClipPath.pathCalls
    simp only [List.filterMap_nil, said_nil]
    rfl
  | cons sub rest ih =>
    intro g
    unfold ProcessClipPath.paths ProcessClipPath.pathCalls
    rw [List.filterMap_cons]
    cases hp : sub.path with
    | none =>
      simp only
      exact ih g
    | some pPath =>
      simp only
      rw [R_bind_apply]
      cases he : sub.points_empty
      · simp only [Bool.false_eq_true, if_false, call]
        rw [ih]
        simp only [said, ProcessClipPath.pathCalls, List.append_assoc, List.singleton_append]
      · simp only [if_true, call]
        rw [ih]
        simp only [said, ProcessClipPath.pathCalls, List.append_assoc, List.singleton_append]

theorem ProcessClipPath_text_part (env : Env) (rso : Rso) (st : CPDF_RenderStatus)
    (clip : ClipPathData) (mt : CFX_Matrix) (g : G)
    (hdiff : CPDF_ClipPath.same st.last_clip_path_ (some clip) = false) :
      ProcessClipPath env rso st (some clip) mt g =
        if clip.texts.length = 0 then
          .ok { st with last_clip_path_ := some clip }
            (said g (⟨st.device_, .RestoreState true⟩ ::
              ProcessClipPath.pathCalls st.device_ mt clip.paths))
        else if st.print_ = false ∧ (env.GetRenderCaps (said g (⟨st.device_, .RestoreState true⟩ ::
            ProcessClipPath.pathCalls st.device_ mt clip.paths)).log st.device_).soft_clip = false then
          .ok { st with last_clip_path_ := some clip }
            (said g (⟨st.device_, .RestoreState true⟩ ::
              ProcessClipPath.pathCalls st.device_ mt clip.paths))
        else
          ProcessClipPath.texts env rso mt clip.texts none
            { st with last_clip_path_ := some clip }
            (said g (⟨st.device_, .RestoreState true⟩ ::
              ProcessClipPath.pathCalls st.device_ mt clip.paths)) := by
  unfold ProcessClipPath
  simp only [hdiff, Bool.false_eq_true, if_false]
  rw [R_bind_apply]
  simp only [call]
  rw [R_bind_apply, ProcessClipPath_paths_calls]
  simp only [said, List.append_assoc, List.singleton_append]
  by_cases ht : clip.texts.length = 0
  · rw [if_pos ht, if_pos ht]
    rfl
  · rw [if_neg ht, if_neg ht, R_bind_apply]
    simp only [ask]
    cases st.print_ <;>
    cases (env.GetRenderCaps (g.log ++ { target := st.device_, call := Call.RestoreState true } ::
      ProcessClipPath.pathCalls st.device_ mt clip.paths) st.device_).soft_clip <;>
    (simp; all_goals rfl)

/-- C17. `ProcessClipPath`, for a clip path `c` with content that differs from the last
applied one: the device receives `RestoreState` (keeping the saved level) once, then for
each non-null sub-path in index order exactly one `SetClip_PathFill` with the fill rule of
the sub-path and the object-to-device matrix, a sub-path without points being replaced by
the rectangle (-1, -1, 0, 0) with the winding rule and no matrix; the last applied clip path
is then `c`, and what follows is the text part of the method, which keeps the status
(nothing follows when the clip path has no text).  For a clip path without content, when
the last applied one has content, the device receives exactly one `RestoreState` and the
last applied clip path becomes null. -/
theorem ProcessClipPath_applies_paths (env : Env) (st : CPDF_RenderStatus)
    (clip : ClipPathData) (mt : CFX_Matrix) (g : G) :
    (CPDF_ClipPath.same st.last_clip_path_ (some clip) = false →
      (∀ rso, ProcessClipPath env rso st (some clip) mt g =
        if clip.texts.length = 0 then
          .ok { st with last_clip_path_ := some clip }
            (said g (⟨st.device_, .RestoreState true⟩ ::
              ProcessClipPath.pathCalls st.device_ mt clip.paths))
        else if st.print_ = false ∧ (env.GetRenderCaps (said g (⟨st.device_, .RestoreState true⟩ ::
            ProcessClipPath.pathCalls st.device_ mt clip.paths)).log st.device_).soft_clip = false then
          .ok { st with last_clip_path_ := some clip }
            (said g (⟨st.device_, .RestoreState true⟩ ::
              ProcessClipPath.pathCalls st.device_ mt clip.paths))
        else
          ProcessClipPath.texts env rso mt clip.texts none
            { st with last_clip_path_ := some clip }
            (said g (⟨st.device_, .RestoreState true⟩ ::
              ProcessClipPath.pathCalls st.device_ mt clip.paths))) ∧
      (match ProcessClipPath env (RenderSingleObject env (kRenderMaxRecursionDepth + 1)) st
          (some clip) mt g with
        | .ok st1 g1 =>
          st1 = { st with last_clip_path_ := some clip } ∧
            (g.log ++ ⟨st.device_, .RestoreState true⟩ ::
              ProcessClipPath.pathCalls st.device_ mt clip.paths) <+: g1.log
        | .aborted g1 =>
          (g.log ++ ⟨st.device_, .RestoreState true⟩ ::
            ProcessClipPath.pathCalls st.device_ mt clip.paths) <+: g1.log
        | .starved => False)) ∧
    (st.last_clip_path_.isSome = true →
      ∀ rso, ProcessClipPath env rso st none mt g =
        .ok { st with last_clip_path_ := none } (said g [⟨st.device_, .RestoreState true⟩])) := by
  have heq := fun rso hdiff => ProcessClipPath_text_part env rso st clip mt g hdiff
  refine ⟨fun hdiff => ⟨fun rso => heq rso hdiff, ?_⟩, ?_⟩
  · rw [heq _ hdiff]
    by_cases ht : clip.texts.length = 0
    · rw [if_pos ht]
      exact ⟨rfl, List.prefix_refl _⟩
    · rw [if_neg ht]
      by_cases hs : st.print_ = false ∧ (env.GetRenderCaps (said g
          (⟨st.device_, .RestoreState true⟩ ::
            ProcessClipPath.pathCalls st.device_ mt clip.paths)).log st.device_).soft_clip = false
      · rw [if_pos hs]
        exact ⟨rfl, List.prefix_refl _⟩
      · rw [if_neg hs]
        have hkeep := ProcessClipPath_texts_keeps_status env _ g.depth
          (RenderSingleObject_total env g.depth) mt clip.texts none
          { st with last_clip_path_ := some clip }
          (said g (⟨st.device_, .RestoreState true⟩ ::
            ProcessClipPath.pathCalls st.device_ mt clip.paths)) rfl
        cases hres : ProcessClipPath.texts env
            (RenderSingleObject env (kRenderMaxRecursionDepth + 1)) mt clip.texts none
            { st with last_clip_path_ := some clip }
            (said g (⟨st.device_, .RestoreState true⟩ ::
              ProcessClipPath.pathCalls st.device_ mt clip.paths)) with
        | starved => rw [hres] at hkeep; exact hkeep
        | aborted g1 => rw [hres] at hkeep; exact hkeep.2
        | ok st1 g1 => rw [hres] at hkeep; exact ⟨hkeep.2, hkeep.1.1.2⟩
  · intro hsome rso
    unfold ProcessClipPath
    simp only [hsome, if_true]
    rfl

/-- Witness of C17: a clip path with three sub-paths, the second null and the third without
points, applied by a status that has applied no clip path yet. -/
theorem ProcessClipPath_applies_paths_witness :
    ProcessClipPath Demo.env (RenderSingleObject Demo.env (kRenderMaxRecursionDepth + 1))
        Demo.status (some Demo.clip) CFX_Matrix.identity Demo.start =
      .ok { Demo.status with last_clip_path_ := some Demo.clip }
        (said Demo.start [⟨.given 0, .RestoreState true⟩,
          ⟨.given 0, .SetClip_PathFill (.doc 1) (some CFX_Matrix.identity)
            (CFX_FillRenderOptions.ofType .kEvenOdd)⟩,
          ⟨.given 0, .SetClip_PathFill .emptyRect none CFX_FillRenderOptions.WindingOptions⟩]) :=
  ((ProcessClipPath_applies_paths Demo.env Demo.status Demo.clip CFX_Matrix.identity
    Demo.start).1 rfl).1 _

theorem R_bind_pure {α : Type} (m : R α) : m >>= pure = m := by
  funext g
  rw [R_bind_apply]
  cases m g <;> rfl

theorem ProcessClipPath_texts_runs (env : Env) (rso : Rso) (mt : CFX_Matrix) :
    ∀ (texts : List (Option Ref)) (st : CPDF_RenderStatus),
      ProcessClipPath.texts env rso mt texts none st =
          (ProcessClipPath.applyRuns env rso mt (textRuns texts).1 st >>=
            ProcessClipPath.openRun env rso mt (textRuns texts).2) ∧
        ∀ path, ProcessClipPath.texts env rso mt texts (some path) st =
          ProcessClipPath.continueRun env rso mt path (textRuns texts) st := by
  intro texts
  induction texts with
  | nil => intro st; exact ⟨rfl, fun _ => rfl⟩
  | cons entry rest ih =>
    intro st
    cases entry with
    | none =>
      refine ⟨?_, fun path => ?_⟩
      · show ProcessClipPath.texts env rso mt rest none st = _
        rw [(ih st).1]
        rfl
      · show (call env st.device_ _ >>= fun _ => ProcessClipPath.texts env rso mt rest none st) = _
        rw [(ih st).1]
        rfl
    | some t =>
      have hsome : ∀ path,
          ProcessClipPath.texts env rso mt (some t :: rest) (some path) st =
            ProcessClipPath.continueRun env rso mt path (textRuns (some t :: rest)) st := by
        intro path
        show (ProcessText env rso st (env.deref t) mt (some path) >>= fun done =>
          ProcessClipPath.texts env rso mt rest (some path) done.2) = _
        have h : ∀ done : Bool × CPDF_RenderStatus,
            ProcessClipPath.texts env rso mt rest (some path) done.2 =
              ProcessClipPath.continueRun env rso mt path (textRuns rest) done.2 :=
          fun done => (ih done.2).2 path
        simp only [h]
        unfold ProcessClipPath.continueRun
        cases hr : (textRuns rest).1 with
        | nil =>
          have : textRuns (some t :: rest) = ([], t :: (textRuns rest).2) := by
            simp only [textRuns, hr]
          rw [this]
          rfl
        | cons c cs =>
          have : textRuns (some t :: rest) = ((t :: c) :: cs, (textRuns rest).2) := by
            simp only [textRuns, hr]
          rw [this]
          show _ = (ProcessText env rso st (env.deref t) mt (some path) >>= fun done =>
            ProcessClipPath.accumulate env rso mt path c done.2) >>= _
          rw [R_bind_assoc]
      refine ⟨?_, hsome⟩
      show (alloc >>= fun path =>
        ProcessText env rso st (env.deref t) mt (some path) >>= fun done =>
          ProcessClipPath.texts env rso mt rest (some path) done.2) = _
      have h : ∀ path, (ProcessText env rso st (env.deref t) mt (some path) >>= fun done =>
          ProcessClipPath.texts env rso mt rest (some path) done.2) =
          ProcessClipPath.continueRun env rso mt path (textRuns (some t :: rest)) st := hsome
      simp only [h]
      unfold ProcessClipPath.continueRun
      cases hr : (textRuns rest).1 with
      | nil =>
        have : textRuns (some t :: rest) = ([], t :: (textRuns rest).2) := by
          simp only [textRuns, hr]
        rw [this]
        rfl
      | cons c cs =>
        have : textRuns (some t :: rest) = ((t :: c) :: cs, (textRuns rest).2) := by
          simp only [textRuns, hr]
        rw [this]
        show _ = (((alloc >>= fun path =>
          ProcessClipPath.accumulate env rso mt path (t :: c) st >>= fun st1 =>
            call env (ProcessClipPath.textClip st1 path).target
              (ProcessClipPath.textClip st1 path).call >>= fun _ => pure st1) >>=
          ProcessClipPath.applyRuns env rso mt cs) >>=
          ProcessClipPath.openRun env rso mt (textRuns rest).2)
        simp only [R_bind_assoc, R_pure_bind]

theorem textRuns_closed : ∀ texts : List (Option Ref), texts.getLast? = some none →
    (textRuns texts).1 ≠ [] ∧ (textRuns texts).2 = [] := by
  intro texts
  induction texts with
  | nil => intro h; simp at h
  | cons entry rest ih =>
    intro h
    cases rest with
    | nil =>
      simp only [List.getLast?_singleton, Option.some.injEq] at h
      subst h
      exact ⟨by simp [textRuns], rfl⟩
    | cons next more =>
      rw [List.getLast?_cons_cons] at h
      have ih2 := ih h
      cases entry with
      | none => exact ⟨by simp [textRuns], ih2.2⟩
      | some t =>
        cases hr : (textRuns (next :: more)).1 with
        | nil => exact absurd hr ih2.1
        | cons c cs =>
          have : textRuns (some t :: next :: more) = ((t :: c) :: cs, (textRuns (next :: more)).2) := by
            simp only [textRuns, hr]
          rw [this]
          exact ⟨by simp, ih2.2⟩

/-- C19, the claim fails as stated: a text in a Type-3 font, handed to `ProcessText` with a
clipping path, is rendered as without one: the two paths of its glyph are filled on the
device in opaque black, and `ProcessText` returns true.  The test for a Type-3 font precedes
the test for a clipping path. -/
theorem ProcessText_type3_paints_with_clipping_path :
    (Demo.blackInk.font (Demo.blackInk.deref (.given 22)).states.text_state.font).is_type3 = true ∧
      Demo.fills (ProcessText Demo.blackInk
        (RenderSingleObject Demo.blackInk (kRenderMaxRecursionDepth + 1)) Demo.status
        (Demo.blackInk.deref (.given 22)) CFX_Matrix.identity (some (.given 99)) Demo.start) =
        [(.doc 3, 0xFF000000), (.doc 4, 0xFF000000)] ∧
      ProcessText Demo.blackInk
        (RenderSingleObject Demo.blackInk (kRenderMaxRecursionDepth + 1)) Demo.status
        (Demo.blackInk.deref (.given 22)) CFX_Matrix.identity (some (.given 99)) Demo.start =
      ProcessText Demo.blackInk
        (RenderSingleObject Demo.blackInk (kRenderMaxRecursionDepth + 1)) Demo.status
        (Demo.blackInk.deref (.given 22)) CFX_Matrix.identity none Demo.start := by
  decide!

/-- C19, amended. For a text object whose font is not a Type-3 font, whatever its text
rendering mode, a `ProcessText` call made with a non-null clipping path makes no call at all
and returns true when the text has no character codes, when its mode is Invisible or when
its text matrix is not usable, and otherwise makes exactly one call: `DrawTextPath` on the
device with the fill colour 0, the stroke colour 0, the object-to-device matrix and the given
path, whose result it returns; the status is as before.  For a text object in a Type-3 font
the clipping path is not looked at: `ProcessText` does what it does without one. -/
theorem ProcessText_clip_accumulates (env : Env) (rso : Rso) (st : CPDF_RenderStatus)
    (textobj : CPDF_PageObject) (mt : CFX_Matrix) (path : Ref) (g : G) :
    ((env.font textobj.states.text_state.font).is_type3 = false →
      ProcessText env rso st textobj mt (some path) g =
        if textobj.char_codes = [] ∨ textobj.states.text_state.text_mode = .MODE_INVISIBLE ∨
            IsAvailableMatrix textobj.text_matrix = false then
          .ok (true, st) g
        else
          .ok (env.result g.log (ProcessText.accumulated st textobj mt path), st)
            (said g [ProcessText.accumulated st textobj mt path])) ∧
    ((env.font textobj.states.text_state.font).is_type3 = true →
      ProcessText env rso st textobj mt (some path) = ProcessText env rso st textobj mt none) := by
  constructor
  · intro hfont
    unfold ProcessText
    by_cases hc : textobj.char_codes = []
    · rw [if_pos hc, if_pos (Or.inl hc)]
      rfl
    · rw [if_neg hc]
      by_cases hm : textobj.states.text_state.text_mode = .MODE_INVISIBLE
      · rw [if_pos hm, if_pos (Or.inr (Or.inl hm))]
        rfl
      · rw [if_neg hm, hfont]
        have hp : textPaint (some path).isSome textobj.states.text_state.text_mode
            (env.font textobj.states.text_state.font).has_face = .flags false false true := by
          simp [textPaint]
        simp only [Bool.false_eq_true, if_false]
        rw [hp]
        simp only
        unfold ProcessText.paint
        simp only [Bool.false_and, Bool.or_self, Bool.false_eq_true, if_false, or_false,
          if_true, false_and]
        by_cases ha : IsAvailableMatrix textobj.text_matrix = true
        · have hn : ¬ (textobj.char_codes = [] ∨
              textobj.states.text_state.text_mode = .MODE_INVISIBLE ∨
              IsAvailableMatrix textobj.text_matrix = false) := by
            rintro (h | h | h)
            · exact hc h
            · exact hm h
            · rw [ha] at h
              exact Bool.noConfusion h
          rw [if_neg hn]
          simp only [ha, Bool.not_true, Bool.false_eq_true, if_false]
          rfl
        · have hf : IsAvailableMatrix textobj.text_matrix = false := by
            simpa using ha
          rw [if_pos (Or.inr (Or.inr hf))]
          simp only [hf, Bool.not_false, if_true]
          rfl
  · intro hfont
    unfold ProcessText
    simp only [hfont, if_true]

/-- Witness of the amended C19: a text of the demo document in a font that is not a Type-3
font, with a clipping path, makes the one `DrawTextPath` call. -/
theorem ProcessText_clip_accumulates_witness :
    ProcessText Demo.plainFonts
        (RenderSingleObject Demo.plainFonts (kRenderMaxRecursionDepth + 1)) Demo.status
        (Demo.plainFonts.deref (.given 22)) CFX_Matrix.identity (some (.given 99)) Demo.start =
      .ok (true, Demo.status)
        (said Demo.start [⟨.given 0, .DrawTextPath (.given 22) 0 CFX_Matrix.identity
          (some CFX_Matrix.identity) 0 0 (some (.given 99)) CFX_FillRenderOptions.default⟩]) := by
  rw [(ProcessText_clip_accumulates Demo.plainFonts _ Demo.status
    (Demo.plainFonts.deref (.given 22)) CFX_Matrix.identity (.given 99) Demo.start).1
    (by decide!)]
  decide!

theorem ProcessText_paint_cases (env : Env) (rso : Rso) (st : CPDF_RenderStatus)
    (textobj : CPDF_PageObject) (mt : CFX_Matrix) (fill stroke : Bool) (g : G) :
    ProcessText.paint env rso st textobj mt none fill stroke false g =
      if IsAvailableMatrix textobj.text_matrix = false then .ok (true, st) g
      else if ProcessText.patterned textobj fill stroke = true then
        (DrawTextPathWithPattern env rso st textobj mt textobj.text_matrix fill stroke >>=
          fun st1 => pure (true, st1)) g
      else
        .ok (env.result g.log (ProcessText.painted env st textobj mt fill stroke), st)
          (said g [ProcessText.painted env st textobj mt fill stroke]) := by
  unfold ProcessText.paint ProcessText.patterned ProcessText.painted
  cases ha : IsAvailableMatrix textobj.text_matrix
  · simp only [Bool.not_false, if_true]
    rfl
  · simp only [Bool.not_true, Bool.false_eq_true, if_false]
    cases fill <;> cases stroke <;>
      cases textobj.states.color_state.stroke_color.is_pattern <;>
      cases textobj.states.color_state.fill_color.is_pattern <;>
      simp <;> rfl
/-- The eight modes on the demo document, for a font with a face: the fill and the stroke
colour of the one call, with `DrawNormalText` shown as a call without stroke colour. -/
theorem ProcessText_modes_on_demo :
    [TextRenderingMode.MODE_FILL, .MODE_STROKE, .MODE_FILL_STROKE, .MODE_INVISIBLE,
      .MODE_FILL_CLIP, .MODE_STROKE_CLIP, .MODE_FILL_STROKE_CLIP, .MODE_CLIP].map (fun mode =>
        Demo.textColours (ProcessText (Demo.recolored Demo.plainFonts)
          (RenderSingleObject (Demo.recolored Demo.plainFonts) (kRenderMaxRecursionDepth + 1))
          Demo.status (Demo.textIn mode) CFX_Matrix.identity none Demo.start)) =
      [[(0xFF000000, none)], [(0, some 0xFF000000)], [(0xFF000000, some 0xFF000000)], [],
        [(0xFF000000, none)], [(0, some 0xFF000000)], [(0xFF000000, some 0xFF000000)], []] := by
  decide!

theorem addedNoDrawPath_refl (g : G) : addedNoDrawPath g g := ⟨[], by simp, by simp⟩

theorem addedNoDrawPath_trans {g g1 g2 : G} (h1 : addedNoDrawPath g g1)
    (h2 : addedNoDrawPath g1 g2) : addedNoDrawPath g g2 := by
  obtain ⟨es1, he1, hq1⟩ := h1
  obtain ⟨es2, he2, hq2⟩ := h2
  refine ⟨es1 ++ es2, by rw [he2, he1, List.append_assoc], ?_⟩
  intro e he
  rcases List.mem_append.mp he with h | h
  · exact hq1 e h
  · exact hq2 e h

theorem NoDrawPath_pure {α : Type} (a : α) : NoDrawPath (Pure.pure a : R α) :=
  fun g => addedNoDrawPath_refl g

theorem NoDrawPath_notreached {α : Type} : NoDrawPath (NOTREACHED : R α) :=
  fun g => addedNoDrawPath_refl g

theorem NoDrawPath_ask {α : Type} (q : List Event → α) : NoDrawPath (ask q) :=
  fun g => addedNoDrawPath_refl g

theorem NoDrawPath_alloc : NoDrawPath alloc :=
  fun g => ⟨[], by simp, by simp⟩

theorem NoDrawPath_call (env : Env) (t : Ref) (c : Call) (h : Call.isDrawPath c = false) :
    NoDrawPath (call env t c) := by
  intro g
  refine ⟨[⟨t, c⟩], rfl, ?_⟩
  intro e he
  rw [List.mem_singleton] at he
  rw [he]
  exact h

theorem NoDrawPath_bind {α β : Type} {m : R α} {f : α → R β} (hm : NoDrawPath m)
    (hf : ∀ a, NoDrawPath (f a)) : NoDrawPath (m >>= f) := by
  intro g
  have h1 := hm g
  rw [R_bind_apply]
  cases hmg : m g with
  | starved => trivial
  | aborted g1 =>
    rw [hmg] at h1
    exact h1
  | ok a g1 =>
    rw [hmg] at h1
    have h2 := hf a g1
    show match f a g1 with
      | .ok _ g2 => addedNoDrawPath g g2
      | .aborted g2 => addedNoDrawPath g g2
      | .starved => True
    cases hfg : f a g1 with
    | starved => trivial
    | aborted g2 =>
      rw [hfg] at h2
      exact addedNoDrawPath_trans h1 h2
    | ok b g2 =>
      rw [hfg] at h2
      exact addedNoDrawPath_trans h1 h2

theorem GetObjectClippedRect_noDrawPath (env : Env) (st : CPDF_RenderStatus) (o : CPDF_PageObject) (mt : CFX_Matrix) :
    NoDrawPath (GetObjectClippedRect env st o mt) := by
  unfold GetObjectClippedRect
  exact NoDrawPath_bind (NoDrawPath_ask _) (fun _ => NoDrawPath_pure _)

theorem GetClippedBBox_noDrawPath (env : Env) (st : CPDF_RenderStatus) (r : FX_RECT) :
    NoDrawPath (GetClippedBBox env st r) := by
  unfold GetClippedBBox
  exact NoDrawPath_bind (NoDrawPath_ask _) (fun _ => NoDrawPath_pure _)

theorem GetBackdrop_noDrawPath (env : Env) (st : CPDF_RenderStatus) (p : Option Ref) (b : FX_RECT) (a : Bool) :
    NoDrawPath (GetBackdrop env st p b a) := by
  unfold GetBackdrop
  repeat' (first
    | exact NoDrawPath_pure _
    | exact NoDrawPath_notreached
    | exact NoDrawPath_call _ _ _ rfl
    | exact NoDrawPath_ask _
    | exact NoDrawPath_alloc
    | refine NoDrawPath_bind ?_ (fun _ => ?_)
    | split
    | (dsimp only))

theorem CompositeDIBitmap_normal_noDrawPath (env : Env) (st : CPDF_RenderStatus) (b : Ref) (l t : Int) (m : Nat) (a : ℚ) :
    NoDrawPath (CompositeDIBitmap.normal env st b l t m a) := by
  unfold CompositeDIBitmap.normal
  repeat' (first
    | exact NoDrawPath_pure _
    | exact NoDrawPath_notreached
    | exact NoDrawPath_call _ _ _ rfl
    | exact NoDrawPath_ask _
    | exact NoDrawPath_alloc
    | refine NoDrawPath_bind ?_ (fun _ => ?_)
    | split
    | (dsimp only))

theorem CompositeDIBitmap_group_noDrawPath (env : Env) (st : CPDF_RenderStatus) (b : Ref) (l t : Int) (m : Nat) (bm : BlendMode) :
    NoDrawPath (CompositeDIBitmap.group env st b l t m bm) := by
  unfold CompositeDIBitmap.group
  repeat' (first
    | exact NoDrawPath_pure _
    | exact NoDrawPath_notreached
    | exact NoDrawPath_call _ _ _ rfl
    | exact NoDrawPath_ask _
    | exact NoDrawPath_alloc
    | refine NoDrawPath_bind ?_ (fun _ => ?_)
    | split
    | (dsimp only))

theorem CompositeDIBitmap_fallback_noDrawPath (env : Env) (st : CPDF_RenderStatus) (b : Ref) (l t : Int) (m : Nat) (bm : BlendMode) (iso : Bool) :
    NoDrawPath (CompositeDIBitmap.fallback env st b l t m bm iso) := by
  unfold CompositeDIBitmap.fallback
  repeat' (first
    | exact NoDrawPath_pure _
    | exact NoDrawPath_notreached
    | exact NoDrawPath_call _ _ _ rfl
    | exact NoDrawPath_ask _
    | exact NoDrawPath_alloc
    | exact GetClippedBBox_noDrawPath env _ _
    | exact GetBackdrop_noDrawPath env _ _ _ _
    | refine NoDrawPath_bind ?_ (fun _ => ?_)
    | split
    | (dsimp only))

theorem CompositeDIBitmap_noDrawPath (env : Env) (st : CPDF_RenderStatus) (b : Ref) (l t : Int) (m : Nat) (a : ℚ) (bm : BlendMode) (tr : CPDF_Transparency) :
    NoDrawPath (CompositeDIBitmap env st b l t m a bm tr) := by
  unfold CompositeDIBitmap
  repeat' (first
    | exact NoDrawPath_pure _
    | exact NoDrawPath_notreached
    | exact NoDrawPath_call _ _ _ rfl
    | exact NoDrawPath_ask _
    | exact NoDrawPath_alloc
    | exact CompositeDIBitmap_normal_noDrawPath env _ _ _ _ _ _
    | exact CompositeDIBitmap_group_noDrawPath env _ _ _ _ _ _
    | exact CompositeDIBitmap_fallback_noDrawPath env _ _ _ _ _ _ _
    | refine NoDrawPath_bind ?_ (fun _ => ?_)
    | split
    | (dsimp only))

theorem SelectClipPath_noDrawPath (env : Env) (st : CPDF_RenderStatus) (o : CPDF_PageObject) (mt : CFX_Matrix) (s : Bool) :
    NoDrawPath (SelectClipPath env st o mt s) := by
  unfold SelectClipPath
  repeat' (first
    | exact NoDrawPath_pure _
    | exact NoDrawPath_notreached
    | exact NoDrawPath_call _ _ _ rfl
    | exact NoDrawPath_ask _
    | exact NoDrawPath_alloc
    | refine NoDrawPath_bind ?_ (fun _ => ?_)
    | split
    | (dsimp only))

theorem ClipPattern_noDrawPath (env : Env) (st : CPDF_RenderStatus) (o : CPDF_PageObject) (mt : CFX_Matrix) (s : Bool) :
    NoDrawPath (ClipPattern env st o mt s) := by
  unfold ClipPattern
  repeat' (first
    | exact NoDrawPath_pure _
    | exact NoDrawPath_notreached
    | exact NoDrawPath_call _ _ _ rfl
    | exact NoDrawPath_ask _
    | exact NoDrawPath_alloc
    | exact SelectClipPath_noDrawPath env _ _ _ _
    | refine NoDrawPath_bind ?_ (fun _ => ?_)
    | split
    | (dsimp only))

theorem DrawShadingPattern_noDrawPath (env : Env) (st : CPDF_RenderStatus) (p : Nat) (o : CPDF_PageObject) (mt : CFX_Matrix) (s : Bool) :
    NoDrawPath (DrawShadingPattern env st p o mt s) := by
  unfold DrawShadingPattern
  repeat' (first
    | exact NoDrawPath_pure _
    | exact NoDrawPath_notreached
    | exact NoDrawPath_call _ _ _ rfl
    | exact NoDrawPath_ask _
    | exact NoDrawPath_alloc
    | exact ClipPattern_noDrawPath env _ _ _ _
    | exact GetObjectClippedRect_noDrawPath env _ _ _
    | refine NoDrawPath_bind ?_ (fun _ => ?_)
    | split
    | (dsimp only))

theorem DrawTilingPattern_noDrawPath (env : Env) (st : CPDF_RenderStatus) (p : Nat) (o : CPDF_PageObject) (mt : CFX_Matrix) (s : Bool) :
    NoDrawPath (DrawTilingPattern env st p o mt s) := by
  unfold DrawTilingPattern
  repeat' (first
    | exact NoDrawPath_pure _
    | exact NoDrawPath_notreached
    | exact NoDrawPath_call _ _ _ rfl
    | exact NoDrawPath_ask _
    | exact NoDrawPath_alloc
    | exact ClipPattern_noDrawPath env _ _ _ _
    | exact CompositeDIBitmap_noDrawPath env _ _ _ _ _ _ _ _
    | refine NoDrawPath_bind ?_ (fun _ => ?_)
    | split
    | (dsimp only))

theorem DrawPathWithPattern_noDrawPath (env : Env) (st : CPDF_RenderStatus) (o : CPDF_PageObject) (mt : CFX_Matrix) (c : CPDF_Color) (s : Bool) :
    NoDrawPath (DrawPathWithPattern env st o mt c s) := by
  unfold DrawPathWithPattern
  repeat' (first
    | exact NoDrawPath_pure _
    | exact NoDrawPath_notreached
    | exact NoDrawPath_call _ _ _ rfl
    | exact NoDrawPath_ask _
    | exact NoDrawPath_alloc
    | exact DrawTilingPattern_noDrawPath env _ _ _ _ _
    | exact DrawShadingPattern_noDrawPath env _ _ _ _ _
    | refine NoDrawPath_bind ?_ (fun _ => ?_)
    | split
    | (dsimp only))

theorem ProcessPathPattern_noDrawPath (env : Env) (st : CPDF_RenderStatus) (o : CPDF_PageObject) (mt : CFX_Matrix) (f : FillType) (s : Bool) :
    NoDrawPath (ProcessPathPattern env st o mt f s) := by
  unfold ProcessPathPattern
  repeat' (first
    | exact NoDrawPath_pure _
    | exact NoDrawPath_notreached
    | exact NoDrawPath_call _ _ _ rfl
    | exact NoDrawPath_ask _
    | exact NoDrawPath_alloc
    | exact DrawPathWithPattern_noDrawPath env _ _ _ _ _
    | refine NoDrawPath_bind ?_ (fun _ => ?_)
    | split
    | (dsimp only))
theorem IsAvailableMatrix_eq_false_iff (m : CFX_Matrix) :
    IsAvailableMatrix m = false ↔ (m.a = 0 ∨ m.d = 0) ∧ (m.b = 0 ∨ m.c = 0) := by
  unfold IsAvailableMatrix
  by_cases ha : m.a = 0 <;> by_cases hd : m.d = 0 <;> by_cases hb : m.b = 0 <;>
    by_cases hc : m.c = 0 <;> simp [ha, hd, hb, hc]

/-- C23. `Initialize` with a parent status and initial states, on a status that is not a
Type-3 glyph render, returns at once, without a call, and changes the status only; the
parent is a value that is read.  When the given initial states have no fill colour, the
resulting initial fill colour and fill colour reference are those of the parent; a fill
colour that is present is kept.  When the states (after that step) have no stroke colour,
the resulting initial stroke colour is the initial stroke colour of the parent, but the
resulting stroke colour reference is the initial fill colour reference of the parent, not
its stroke colour reference; a stroke colour that is present is kept. -/
theorem Initialize_inherits_colors (env : Env) (st parent : CPDF_RenderStatus)
    (states : CPDF_GraphicStates) (g : G) (htype3 : st.type3_char_ = none) :
    Initialize env st (some parent) (some states) g =
        .ok { st with
          print_ := if env.is_win then env.IsPrinter g.log st.device_ else st.print_,
          page_resource_ := env.page_resources,
          initial_states_ := Initialize.states env none (some parent) (some states) } g ∧
      (env.HasFillColor states.color_state = false →
        (Initialize.filled env parent states).fill_color =
            parent.initial_states_.color_state.fill_color ∧
          (Initialize.filled env parent states).fill_colorref =
            parent.initial_states_.color_state.fill_colorref) ∧
      (env.HasFillColor states.color_state = true →
        Initialize.filled env parent states = states.color_state) ∧
      (Initialize.states env none (some parent) (some states)).color_state.fill_color =
        (Initialize.filled env parent states).fill_color ∧
      (Initialize.states env none (some parent) (some states)).color_state.fill_colorref =
        (Initialize.filled env parent states).fill_colorref ∧
      (env.HasStrokeColor (Initialize.filled env parent states) = false →
        (Initialize.states env none (some parent) (some states)).color_state.stroke_color =
            parent.initial_states_.color_state.stroke_color ∧
          (Initialize.states env none (some parent) (some states)).color_state.stroke_colorref =
            parent.initial_states_.color_state.fill_colorref) ∧
      (env.HasStrokeColor (Initialize.filled env parent states) = true →
        (Initialize.states env none (some parent) (some states)).color_state =
          Initialize.filled env parent states) := by
  have hstates : Initialize.states env none (some parent) (some states) =
      { states with color_state :=
        if !env.HasStrokeColor (Initialize.filled env parent states) then
          { Initialize.filled env parent states with
            has_ref := true,
            stroke_colorref := parent.initial_states_.color_state.fill_colorref,
            stroke_color := parent.initial_states_.color_state.stroke_color }
        else Initialize.filled env parent states } := rfl
  refine ⟨?_, ?_, ?_, ?_, ?_, ?_, ?_⟩
  · unfold Initialize
    rw [htype3]
    rfl
  · intro hf
    unfold Initialize.filled
    rw [hf]
    exact ⟨rfl, rfl⟩
  · intro hf
    unfold Initialize.filled
    rw [hf]
    rfl
  · rw [hstates]
    cases env.HasStrokeColor (Initialize.filled env parent states) <;> rfl
  · rw [hstates]
    cases env.HasStrokeColor (Initialize.filled env parent states) <;> rfl
  · intro hs
    rw [hstates, hs]
    exact ⟨rfl, rfl⟩
  · intro hs
    rw [hstates, hs]
    rfl

/-- Witness of C23: initial states without colours, initialised from a parent whose initial
fill colour reference is `0x0000FF` and whose initial stroke colour reference is `0x00FF00`:
the resulting stroke colour reference is `0x0000FF`, that of the fill colour of the
parent. -/
theorem Initialize_inherits_colors_witness :
    (Initialize.states Demo.colorAware none (some Demo.parentStatus)
        (some CPDF_GraphicStates.empty)).color_state.stroke_colorref = 0x0000FF ∧
      Demo.parentStatus.initial_states_.color_state.stroke_colorref = 0x00FF00 ∧
      Initialize Demo.colorAware Demo.status (some Demo.parentStatus)
          (some CPDF_GraphicStates.empty) Demo.start =
        .ok { Demo.status with
          initial_states_ := { CPDF_GraphicStates.empty with
            color_state :=
              ⟨true, ⟨false, false, none⟩, ⟨false, false, none⟩, 0x0000FF, 0x0000FF⟩ } }
          Demo.start := by
  have h := Initialize_inherits_colors Demo.colorAware Demo.status Demo.parentStatus
    CPDF_GraphicStates.empty Demo.start rfl
  refine ⟨?_, by decide!, ?_⟩
  · rw [(h.2.2.2.2.2.1 (by decide!)).2]
    decide!
  · rw [h.1]
    decide!
/-- C24. With no stop object set, `RenderObjectList` on a list with a null entry (`pre` are
the entries before the first one, none of them null), when no render of an earlier object
returns with the stopped flag set: the null entry compares equal to the null stop-object
pointer, so the call hands the non-null, active, non-culled objects of `pre` to
`RenderSingleObject`, then sets the stopped flag and returns; no entry after the null one
is looked at. -/
theorem RenderObjectList_null_entry_stops (env : Env) (st : CPDF_RenderStatus)
    (holder : Nat) (mt : CFX_Matrix) (g : G) (pre post : List (Option Ref))
    (hstop : st.stop_obj_ = none)
    (hlist : (env.form holder).objects = pre ++ none :: post)
    (hfirst : none ∉ pre)
    (hquiet : ∀ n, n < (handedOver env (entryClipRect env st mt g) pre).length →
      notStopped (renderEach (RenderSingleObject env (kRenderMaxRecursionDepth + 1)) mt
        ((handedOver env (entryClipRect env st mt g) pre).take (n + 1)) st g) = true) :
    RenderObjectList env (RenderSingleObject env (kRenderMaxRecursionDepth + 1)) st holder mt g =
      (renderEach (RenderSingleObject env (kRenderMaxRecursionDepth + 1)) mt
        (handedOver env (entryClipRect env st mt g) pre) st >>=
          fun s => pure { s with stopped_ := true }) g := by
  unfold RenderObjectList
  rw [hlist]
  exact RenderObjectList_loop_stop env mt _ post none pre st g hstop hfirst hquiet

/-- Witness of C24: the page 9 of the demo document, a null entry followed by a path,
rendered by a status without a stop object: the stopped flag is set and the path is not
rendered; no call is made. -/
theorem RenderObjectList_null_entry_stops_witness :
    Demo.status.stop_obj_ = none ∧
      (Demo.gapped.form 9).objects = [none, some (.given 1)] ∧
      RenderObjectList Demo.gapped
          (RenderSingleObject Demo.gapped (kRenderMaxRecursionDepth + 1)) Demo.status 9
          CFX_Matrix.identity Demo.start =
        .ok { Demo.status with stopped_ := true } Demo.start :=
  ⟨rfl, rfl,
    (RenderObjectList_null_entry_stops Demo.gapped Demo.status 9 CFX_Matrix.identity Demo.start
      [] [some (.given 1)] rfl rfl (by decide) (by decide)).trans rfl⟩

theorem LoadSMask_transfers_length (pFunc : Option (Nat → Int)) :
    (LoadSMask.transfers pFunc).length = 256 := by
  cases pFunc <;> simp [LoadSMask.transfers]

theorem LoadSMask_transfers_none (i : Nat) (h : i < 256) :
    (LoadSMask.transfers none)[i]? = some i := by
  simp [LoadSMask.transfers, List.getElem?_range h]

theorem LoadSMask_transfers_some (sample : Nat → Int) (i : Nat) (h : i < 256) :
    (LoadSMask.transfers (some sample))[i]? = some (sample i % 256).toNat := by
  simp [LoadSMask.transfers, List.getElem?_map, List.getElem?_range h]

theorem LoadSMask_transfers_same (sample : Nat → Int) (h : ∀ i, i < 256 → sample i = i) :
    LoadSMask.transfers (some sample) = LoadSMask.transfers none := by
  apply List.ext_getElem?
  intro i
  by_cases hi : i < 256
  · rw [LoadSMask_transfers_some sample i hi, LoadSMask_transfers_none i hi, h i hi]
    congr 1
    omega
  · rw [List.getElem?_eq_none (by rw [LoadSMask_transfers_length]; omega),
      List.getElem?_eq_none (by rw [LoadSMask_transfers_length]; omega)]

theorem LoadSMask_cols_spec (G : Nat → Nat → Nat → Nat) (T src : List Nat) (bytes : Nat)
    (hT : T.length = 256)
    (hG : ∀ r g b, r < 256 → g < 256 → b < 256 → G r g b < 256)
    (hsrc : ∀ b ∈ src, b < 256) (hb : 3 ≤ bytes) :
    ∀ (n sp dp : Nat) (dest : List Nat), sp + n * bytes ≤ src.length → dp + n ≤ dest.length →
      ∃ mask, LoadSMask.cols G T src bytes n sp dp dest = some mask ∧
        mask.length = dest.length ∧
        (∀ k, k < n → mask[dp + k]? = T[luma G src (sp + k * bytes)]?) ∧
        (∀ j, j < dp ∨ dp + n ≤ j → mask[j]? = dest[j]?) := by
  intro n
  induction n with
  | zero =>
    intro sp dp dest _ _
    exact ⟨dest, rfl, rfl, fun k hk => absurd hk (Nat.not_lt_zero k), fun _ _ => rfl⟩
  | succ n ih =>
    intro sp dp dest hs hd
    have hmul : (n + 1) * bytes = n * bytes + bytes := Nat.succ_mul n bytes
    have h2 : sp + 2 < src.length := by omega
    have h1 : sp + 1 < src.length := by omega
    have h0 : sp < src.length := by omega
    have hr := hsrc _ (List.getElem_mem h2)
    have hg := hsrc _ (List.getElem_mem h1)
    have hbb := hsrc _ (List.getElem_mem h0)
    have hgray := hG _ _ _ hr hg hbb
    have hluma : luma G src sp = G src[sp + 2] src[sp + 1] src[sp] := by
      simp [luma, List.getElem?_eq_getElem h2, List.getElem?_eq_getElem h1,
        List.getElem?_eq_getElem h0]
    have hTin : G src[sp + 2] src[sp + 1] src[sp] < T.length := by rw [hT]; exact hgray
    obtain ⟨mask, hmask, hlen, hin, hout⟩ := ih (sp + bytes) (dp + 1)
      (dest.set dp (T[G src[sp + 2] src[sp + 1] src[sp]])) (by omega)
      (by rw [List.length_set]; omega)
    refine ⟨mask, ?_, ?_, ?_, ?_⟩
    · unfold LoadSMask.cols
      simp only [List.getElem?_eq_getElem h2, List.getElem?_eq_getElem h1,
        List.getElem?_eq_getElem h0, List.getElem?_eq_getElem hTin, Option.bind_eq_bind,
        Option.some_bind, show dp < dest.length by omega, if_true]
      exact hmask
    · rw [hlen, List.length_set]
    · intro k hk
      cases k with
      | zero =>
        rw [Nat.add_zero, hout dp (Or.inl (by omega)), List.getElem?_set_self (by omega)]
        simp only [Nat.zero_mul, Nat.add_zero]
        rw [hluma, List.getElem?_eq_getElem hTin]
      | succ k =>
        have := hin k (by omega)
        rw [show dp + (k + 1) = dp + 1 + k by omega,
          show sp + (k + 1) * bytes = sp + bytes + k * bytes by rw [Nat.succ_mul]; omega]
        exact this
    · intro j hj
      rw [hout j (by omega), List.getElem?_set_ne (by omega)]
theorem LoadSMask_rows_spec (G : Nat → Nat → Nat → Nat) (T src : List Nat)
    (bytes width dest_pitch src_pitch height : Nat) (hT : T.length = 256)
    (hG : ∀ r g b, r < 256 → g < 256 → b < 256 → G r g b < 256)
    (hsrc : ∀ b ∈ src, b < 256) (hb : 3 ≤ bytes) (hw : width ≤ dest_pitch)
    (hws : width * bytes ≤ src_pitch) (hs : height * src_pitch ≤ src.length) :
    ∀ (n row : Nat) (dest : List Nat), row + n = height → height * dest_pitch ≤ dest.length →
      ∃ mask, LoadSMask.rows G T src bytes width dest_pitch src_pitch n row dest = some mask ∧
        mask.length = dest.length ∧
        (∀ r k, row ≤ r → r < height → k < width →
          mask[r * dest_pitch + k]? = T[luma G src (r * src_pitch + k * bytes)]?) ∧
        (∀ j, j < row * dest_pitch → mask[j]? = dest[j]?) := by
  intro n
  induction n with
  | zero =>
    intro row dest hrow _
    exact ⟨dest, rfl, rfl, fun r k h1 h2 _ => absurd h2 (by omega), fun _ _ => rfl⟩
  | succ n ih =>
    intro row dest hrow hd
    have hd1 : (row + 1) * dest_pitch ≤ height * dest_pitch :=
      Nat.mul_le_mul_right _ (by omega)
    have hs1 : (row + 1) * src_pitch ≤ height * src_pitch :=
      Nat.mul_le_mul_right _ (by omega)
    rw [Nat.succ_mul] at hd1 hs1
    obtain ⟨dest1, hcols, hlen1, hin1, hout1⟩ := LoadSMask_cols_spec G T src bytes hT hG hsrc hb
      width (row * src_pitch) (row * dest_pitch) dest (by omega) (by omega)
    obtain ⟨mask, hrows, hlen, hin, hout⟩ := ih (row + 1) dest1 (by omega) (by omega)
    refine ⟨mask, ?_, ?_, ?_, ?_⟩
    · unfold LoadSMask.rows
      simp only [show row * dest_pitch ≤ dest.length by omega,
        show row * src_pitch ≤ src.length by omega, and_self, if_true, hcols,
        Option.bind_eq_bind, Option.some_bind]
      exact hrows
    · rw [hlen, hlen1]
    · intro r k hr1 hr2 hk
      by_cases hrr : r = row
      · subst hrr
        rw [hout (r * dest_pitch + k) (by rw [Nat.succ_mul]; omega)]
        exact hin1 k hk
      · exact hin r k (by omega) hr2 hk
    · intro j hj
      rw [hout j (by rw [Nat.succ_mul]; omega), hout1 j (Or.inl hj)]

theorem LoadSMask_lookup_spec (T src : List Nat) (hT : T.length = 256)
    (hsrc : ∀ b ∈ src, b < 256) :
    ∀ (n i : Nat) (dest : List Nat), i + n ≤ src.length → i + n ≤ dest.length →
      ∃ mask, LoadSMask.lookup T src n i dest = some mask ∧
        mask.length = dest.length ∧
        (∀ j, i ≤ j → j < i + n → mask[j]? = T[src[j]?.getD 0]?) ∧
        (∀ j, j < i ∨ i + n ≤ j → mask[j]? = dest[j]?) := by
  intro n
  induction n with
  | zero =>
    intro i dest _ _
    exact ⟨dest, rfl, rfl, fun j h1 h2 => absurd h2 (by omega), fun _ _ => rfl⟩
  | succ n ih =>
    intro i dest hs hd
    have h0 : i < src.length := by omega
    have hTin : src[i] < T.length := by rw [hT]; exact hsrc _ (List.getElem_mem h0)
    obtain ⟨mask, hmask, hlen, hin, hout⟩ := ih (i + 1) (dest.set i (T[src[i]])) (by omega)
      (by rw [List.length_set]; omega)
    refine ⟨mask, ?_, ?_, ?_, ?_⟩
    · unfold LoadSMask.lookup
      simp only [List.getElem?_eq_getElem h0, List.getElem?_eq_getElem hTin,
        Option.bind_eq_bind, Option.some_bind, show i < dest.length by omega, if_true]
      exact hmask
    · rw [hlen, List.length_set]
    · intro j hj1 hj2
      by_cases hji : j = i
      · subst hji
        rw [hout j (Or.inl (by omega)), List.getElem?_set_self (by omega),
          List.getElem?_eq_getElem h0, Option.getD_some, List.getElem?_eq_getElem hTin]
      · exact hin j (by omega) (by omega)
    · intro j hj
      rw [hout j (by omega), List.getElem?_set_ne (by omega)]

theorem LoadSMask_copy_eq_lookup (src dest : List Nat) (size : Nat)
    (hsrc : ∀ b ∈ src, b < 256) (hs : size ≤ src.length) (hd : size ≤ dest.length) :
    (LoadSMask.first src size).bind (fun head => LoadSMask.Copy head dest) =
      LoadSMask.lookup (LoadSMask.transfers none) src size 0 dest := by
  obtain ⟨mask, hmask, hlen, hin, hout⟩ := LoadSMask_lookup_spec (LoadSMask.transfers none) src
    (LoadSMask_transfers_length none) hsrc size 0 dest (by omega) (by omega)
  rw [hmask]
  unfold LoadSMask.first LoadSMask.Copy
  simp only [hs, if_true, Option.some_bind, List.length_take, Nat.min_eq_left hs, hd]
  congr 1
  apply List.ext_getElem?
  intro j
  by_cases hj : j < size
  · rw [hin j (Nat.zero_le j) (by omega), List.getElem?_append_left (by
      rw [List.length_take]; omega), List.getElem?_take_of_lt hj]
    have hjs : j < src.length := by omega
    rw [List.getElem?_eq_getElem hjs, Option.getD_some,
      LoadSMask_transfers_none _ (hsrc _ (List.getElem_mem hjs))]
  · rw [hout j (Or.inr (by omega)), List.getElem?_append_right (by
      rw [List.length_take]; omega), List.length_take, Nat.min_eq_left hs,
      List.getElem?_drop]
    congr 1
    omega
theorem LoadSMask_lookup_short (T src : List Nat) (hT : T.length = 256)
    (hsrc : ∀ b ∈ src, b < 256) :
    ∀ (n i : Nat) (dest : List Nat), i ≤ src.length → i ≤ dest.length →
      src.length < i + n ∨ dest.length < i + n → LoadSMask.lookup T src n i dest = none := by
  intro n
  induction n with
  | zero =>
    intro i dest h1 h2 h
    omega
  | succ n ih =>
    intro i dest h1 h2 h
    unfold LoadSMask.lookup
    by_cases h0 : i < src.length
    · have hTin : src[i] < T.length := by rw [hT]; exact hsrc _ (List.getElem_mem h0)
      simp only [List.getElem?_eq_getElem h0, List.getElem?_eq_getElem hTin,
        Option.bind_eq_bind, Option.some_bind]
      by_cases hd : i < dest.length
      · rw [if_pos hd]
        exact ih (i + 1) _ (by omega) (by rw [List.length_set]; omega)
          (by rw [List.length_set]; omega)
      · rw [if_neg hd]
    · rw [List.getElem?_eq_none (by omega)]
      rfl

theorem luma_lt (G : Nat → Nat → Nat → Nat) (src : List Nat)
    (hG : ∀ r g b, r < 256 → g < 256 → b < 256 → G r g b < 256)
    (hsrc : ∀ b ∈ src, b < 256) (p : Nat) : luma G src p < 256 := by
  have hget : ∀ q : Nat, src[q]?.getD 0 < 256 := by
    intro q
    by_cases hq : q < src.length
    · rw [List.getElem?_eq_getElem hq, Option.getD_some]
      exact hsrc _ (List.getElem_mem hq)
    · rw [List.getElem?_eq_none (by omega), Option.getD_none]
      omega
  exact hG _ _ _ (hget _) (hget _) (hget _)
theorem LoadSMask_derive_copy (G : Nat → Nat → Nat → Nat)
    (width height dest_pitch src_pitch bpp : Nat) (src dest : List Nat)
    (hsrc : ∀ b ∈ src, b < 256) :
    LoadSMask.derive G none false width height dest_pitch src_pitch bpp src dest =
      LoadSMask.lookup (LoadSMask.transfers none) src (dest_pitch * height) 0 dest := by
  have hderive : LoadSMask.derive G none false width height dest_pitch src_pitch bpp src dest =
      (LoadSMask.first src (dest_pitch * height)).bind
        (fun head => LoadSMask.Copy head dest) := rfl
  rw [hderive]
  by_cases hs : dest_pitch * height ≤ src.length
  · by_cases hd : dest_pitch * height ≤ dest.length
    · exact LoadSMask_copy_eq_lookup src dest _ hsrc hs hd
    · rw [LoadSMask_lookup_short _ src (LoadSMask_transfers_length none) hsrc _ 0 dest
        (Nat.zero_le _) (Nat.zero_le _) (Or.inr (by omega))]
      unfold LoadSMask.first LoadSMask.Copy
      simp only [hs, if_true, Option.some_bind, List.length_take, Nat.min_eq_left hs, hd,
        if_false]
  · rw [LoadSMask_lookup_short _ src (LoadSMask_transfers_length none) hsrc _ 0 dest
      (Nat.zero_le _) (Nat.zero_le _) (Or.inl (by omega))]
    unfold LoadSMask.first
    simp only [hs, if_false, Option.none_bind]

/-- Counterexample to C22 as stated: for a transfer function whose value is 2 everywhere the
rounded value `round(255 * f(i/255))` is 510 at every `i`, and this is the entry of the
table of the claim, but the entry of the table of the code is 254, the value modulo 256; an
alpha mask of one pixel with the rendered alpha byte 255 gets the byte 254. -/
theorem LoadSMask_table_entry_wraps :
    (claimedTransfers (some Demo.doubled))[255]? = some 510 ∧
      ((LoadSMask.transfers (some Demo.doubled))[255]?).map Int.ofNat = some 254 ∧
      LoadSMask.derive Demo.gray (some Demo.doubled) false 1 1 1 1 8 [255] [0] =
        some [254] := by
  have htable : (LoadSMask.transfers (some Demo.doubled))[255]? = some 254 :=
    LoadSMask_transfers_some Demo.doubled 255 (by omega)
  refine ⟨?_, ?_, ?_⟩
  · simp [claimedTransfers, List.getElem?_map, List.getElem?_range, Demo.doubled]
  · rw [htable]
    rfl
  · have hderive : LoadSMask.derive Demo.gray (some Demo.doubled) false 1 1 1 1 8 [255] [0] =
        LoadSMask.lookup (LoadSMask.transfers (some Demo.doubled)) [255] 1 0 [0] := rfl
    rw [hderive]
    unfold LoadSMask.lookup
    simp only [List.getElem?_cons_zero, Option.bind_eq_bind, Option.some_bind, htable,
      List.length_singleton, Nat.lt_one_iff, if_true, List.set_cons_zero]
    rfl

/-- C22 (amended). Soft-mask derivation in `LoadSMask`, for a grey function with byte
values and a rendered bitmap of bytes.  Without a transfer function the table is the
identity.  With a transfer function whose rounded value at `i` is `sample i`, the entry `i`
is `sample i` modulo 256, which is `sample i` itself, the entry of the claim, when that
lies in 0..255.  For a luminosity mask (at least three bytes per pixel, buffers that hold
the rows) the derivation gives a mask whose byte at every pixel is the table entry of the
luma of the rendered pixel, the luma itself without a transfer function.  For an alpha mask
(buffers that hold the bytes) it gives a mask whose every byte is the table entry of the
rendered alpha byte, and the direct copy gives what looking every byte up in the identity
table gives.  A transfer function whose rounded value at every `i` is `i` gives the same
mask as no transfer function. -/
theorem LoadSMask_derives_mask (G : Nat → Nat → Nat → Nat) (pFunc : Option (Nat → Int))
    (width height dest_pitch src_pitch bpp : Nat) (src dest : List Nat)
    (hG : ∀ r g b, r < 256 → g < 256 → b < 256 → G r g b < 256)
    (hsrc : ∀ b ∈ src, b < 256) :
    (∀ i, i < 256 → (LoadSMask.transfers none)[i]? = some i) ∧
    (∀ (sample : Nat → Int) (i : Nat), i < 256 →
      ((LoadSMask.transfers (some sample))[i]?).map Int.ofNat = some (sample i % 256)) ∧
    (∀ (sample : Nat → Int) (i : Nat), i < 256 → 0 ≤ sample i → sample i < 256 →
      ((LoadSMask.transfers (some sample))[i]?).map Int.ofNat =
        (claimedTransfers (some sample))[i]?) ∧
    (3 ≤ bpp / 8 → width ≤ dest_pitch → width * (bpp / 8) ≤ src_pitch →
      height * src_pitch ≤ src.length → height * dest_pitch ≤ dest.length →
      ∃ mask,
        LoadSMask.derive G pFunc true width height dest_pitch src_pitch bpp src dest =
          some mask ∧
        ∀ row col, row < height → col < width →
          mask[row * dest_pitch + col]? =
            (LoadSMask.transfers pFunc)[luma G src (row * src_pitch + col * (bpp / 8))]? ∧
          (pFunc = none →
            mask[row * dest_pitch + col]? =
              some (luma G src (row * src_pitch + col * (bpp / 8))))) ∧
    (dest_pitch * height ≤ src.length → dest_pitch * height ≤ dest.length →
      ∃ mask,
        LoadSMask.derive G pFunc false width height dest_pitch src_pitch bpp src dest =
          some mask ∧
        ∀ j, j < dest_pitch * height →
          mask[j]? = (LoadSMask.transfers pFunc)[src[j]?.getD 0]?) ∧
    LoadSMask.derive G none false width height dest_pitch src_pitch bpp src dest =
      LoadSMask.lookup (LoadSMask.transfers none) src (dest_pitch * height) 0 dest ∧
    (∀ sample : Nat → Int, (∀ i : Nat, i < 256 → sample i = i) → ∀ bLuminosity,
      LoadSMask.derive G (some sample) bLuminosity width height dest_pitch src_pitch bpp
          src dest =
        LoadSMask.derive G none bLuminosity width height dest_pitch src_pitch bpp
          src dest) := by
  refine ⟨LoadSMask_transfers_none, ?_, ?_, ?_, ?_,
    LoadSMask_derive_copy G width height dest_pitch src_pitch bpp src dest hsrc, ?_⟩
  · intro sample i hi
    rw [LoadSMask_transfers_some sample i hi, Option.map_some']
    congr 1
    exact Int.toNat_of_nonneg (Int.emod_nonneg _ (by omega))
  · intro sample i hi h0 h1
    rw [LoadSMask_transfers_some sample i hi, Option.map_some']
    simp only [claimedTransfers, List.getElem?_map, List.getElem?_range hi, Option.map_some']
    congr 1
    rw [Int.emod_eq_of_lt h0 h1]
    exact Int.toNat_of_nonneg h0
  · intro hb hw hws hs hd
    obtain ⟨mask, hmask, _, hin, _⟩ := LoadSMask_rows_spec G (LoadSMask.transfers pFunc) src
      (bpp / 8) width dest_pitch src_pitch height (LoadSMask_transfers_length pFunc) hG hsrc hb
      hw hws hs height 0 dest (by omega) hd
    refine ⟨mask, hmask, fun row col hrow hcol => ⟨hin row col (Nat.zero_le _) hrow hcol, ?_⟩⟩
    intro hnone
    rw [hin row col (Nat.zero_le _) hrow hcol, hnone]
    exact LoadSMask_transfers_none _ (luma_lt G src hG hsrc _)
  · intro hs hd
    cases pFunc with
    | none =>
      obtain ⟨mask, hmask, _, hin, _⟩ := LoadSMask_lookup_spec (LoadSMask.transfers none) src
        (LoadSMask_transfers_length none) hsrc (dest_pitch * height) 0 dest (by omega)
        (by omega)
      refine ⟨mask, ?_, fun j hj => hin j (Nat.zero_le _) (by omega)⟩
      rw [LoadSMask_derive_copy G width height dest_pitch src_pitch bpp src dest hsrc]
      exact hmask
    | some sample =>
      obtain ⟨mask, hmask, _, hin, _⟩ := LoadSMask_lookup_spec
        (LoadSMask.transfers (some sample)) src (LoadSMask_transfers_length _) hsrc
        (dest_pitch * height) 0 dest (by omega) (by omega)
      exact ⟨mask, hmask, fun j hj => hin j (Nat.zero_le _) (by omega)⟩
  · intro sample hsame bLuminosity
    cases bLuminosity with
    | true =>
      show LoadSMask.rows G (LoadSMask.transfers (some sample)) src (bpp / 8) width dest_pitch
          src_pitch height 0 dest =
        LoadSMask.rows G (LoadSMask.transfers none) src (bpp / 8) width dest_pitch
          src_pitch height 0 dest
      rw [LoadSMask_transfers_same sample hsame]
    | false =>
      rw [LoadSMask_derive_copy G width height dest_pitch src_pitch bpp src dest hsrc,
        ← LoadSMask_transfers_same sample hsame]
      rfl

theorem Demo_gray_lt (r g b : Nat) (hr : r < 256) (hg : g < 256) (hb : b < 256) :
    Demo.gray r g b < 256 := by
  unfold Demo.gray
  omega

/-- Witness of C22: a luminosity mask of one pixel with the blue, green and red bytes 10,
20 and 30, three bytes per pixel and rows of four bytes, derived with the identity as a
transfer function: the derivation gives a mask, the byte of the pixel is the table entry of
its luma, and the mask is the one that no transfer function gives. -/
theorem LoadSMask_derives_mask_witness :
    (∃ mask,
      LoadSMask.derive Demo.gray (some Demo.same) true 1 1 4 4 24 [10, 20, 30, 0]
          [0, 0, 0, 0] = some mask ∧
        mask[0]? = (LoadSMask.transfers (some Demo.same))[luma Demo.gray [10, 20, 30, 0] 0]?) ∧
      LoadSMask.derive Demo.gray (some Demo.same) true 1 1 4 4 24 [10, 20, 30, 0]
          [0, 0, 0, 0] =
        LoadSMask.derive Demo.gray none true 1 1 4 4 24 [10, 20, 30, 0] [0, 0, 0, 0] ∧
      luma Demo.gray [10, 20, 30, 0] 0 = 21 := by
  have h := LoadSMask_derives_mask Demo.gray (some Demo.same) 1 1 4 4 24 [10, 20, 30, 0]
    [0, 0, 0, 0] Demo_gray_lt (by decide)
  obtain ⟨mask, hmask, hin⟩ := h.2.2.2.1 (by decide) (by decide) (by decide) (by decide)
    (by decide)
  exact ⟨⟨mask, hmask, (hin 0 0 (by decide) (by decide)).1⟩,
    h.2.2.2.2.2.2 Demo.same (fun i _ => rfl) true, by decide⟩

/-! ## C8: the font list of nested Type-3 renders -/

theorem R_bind_congr {α β : Type} {m : R α} {f f1 : α → R β} (P : α → Prop)
    (hm : ∀ g a g1, m g = .ok a g1 → P a) (hf : ∀ a, P a → f a = f1 a) :
    m >>= f = m >>= f1 := by
  funext g
  rw [R_bind_apply, R_bind_apply]
  cases hres : m g with
  | ok a g1 => simp only; rw [hf a (hm g a g1 hres)]
  | aborted g1 => rfl
  | starved => rfl

theorem RenderObjectList_loop_agree (env : Env) (fonts : List Nat) (rso rso1 : Rso)
    (hagree : agreeOn fonts rso rso1) (hkeep : keepsFonts rso) (mt : CFX_Matrix)
    (clip : CFX_FloatRect) :
    ∀ (objs : List (Option Ref)) (st : CPDF_RenderStatus),
      st.type3_font_cache_ = fonts →
      RenderObjectList.loop env rso mt clip objs st =
        RenderObjectList.loop env rso1 mt clip objs st := by
  intro objs
  induction objs with
  | nil => intro st _; rfl
  | cons p rest ih =>
    intro st hst
    unfold RenderObjectList.loop
    split
    · rfl
    · split
      · exact ih st hst
      · split
        · exact ih st hst
        · split
          · exact ih st hst
          · rw [← hagree st _ mt hst]
            refine R_bind_congr (fun s1 => s1.type3_font_cache_ = fonts)
              (fun g a g1 h => (hkeep _ _ _ _ _ _ h).trans hst) (fun st1 h1 => ?_)
            rw [ih st1 h1]

theorem RenderObjectList_agree (env : Env) (fonts : List Nat) (rso rso1 : Rso)
    (hagree : agreeOn fonts rso rso1) (hkeep : keepsFonts rso) (st : CPDF_RenderStatus)
    (holder : Nat) (mt : CFX_Matrix) (hst : st.type3_font_cache_ = fonts) :
    RenderObjectList env rso st holder mt = RenderObjectList env rso1 st holder mt := by
  unfold RenderObjectList
  refine R_bind_congr (fun _ => True) (fun _ _ _ _ => trivial) (fun box _ => ?_)
  exact RenderObjectList_loop_agree env fonts rso rso1 hagree hkeep mt _ _ st hst

theorem Initialize_keeps_fonts (env : Env) (st : CPDF_RenderStatus)
    (p : Option CPDF_RenderStatus) (i : Option CPDF_GraphicStates) (g : G)
    (s : CPDF_RenderStatus) (g1 : G) (h : Initialize env st p i g = .ok s g1) :
    s.type3_font_cache_ = st.type3_font_cache_ := by
  unfold Initialize at h
  rw [R_bind_apply] at h
  simp only [ask] at h
  cases h
  rfl

theorem Type3Status_fonts (env : Env) (st : CPDF_RenderStatus) (device : Ref)
    (options : CPDF_RenderOptions) (pForm pType3Char fill_argb pType3Font : Nat)
    (pStates : Option CPDF_GraphicStates) (g : G) (s : CPDF_RenderStatus) (g1 : G)
    (h : Type3Status env st device options pForm pType3Char fill_argb pType3Font pStates g =
      .ok s g1) :
    s.type3_font_cache_ = st.type3_font_cache_ ++ [pType3Font] := by
  unfold Type3Status at h
  obtain ⟨s0, g0, _, h2⟩ := R_bind_ok h
  cases h2
  rfl
theorem ProcessType3Text_content_agree (env : Env) (rso rso1 : Rso) (st : CPDF_RenderStatus)
    (font : Nat) (hagree : agreeOn (st.type3_font_cache_ ++ [font]) rso rso1)
    (hkeep : keepsFonts rso) (textobj : CPDF_PageObject) (fill_argb : Nat) (fill_alpha : Int)
    (pType3Char : Nat) (matrix : CFX_Matrix) (iChar : Nat) (glyphs : List TextGlyphPos) :
    ProcessType3Text.content env rso st textobj fill_argb fill_alpha font pType3Char matrix
        iChar glyphs =
      ProcessType3Text.content env rso1 st textobj fill_argb fill_alpha font pType3Char matrix
        iChar glyphs := by
  unfold ProcessType3Text.content
  refine R_bind_congr (fun _ => True) (fun _ _ _ _ => trivial) (fun glyphs1 _ => ?_)
  dsimp only
  split
  · refine R_bind_congr (fun s => s.type3_font_cache_ = st.type3_font_cache_ ++ [font])
      (Type3Status_fonts env st _ _ _ _ _ _ _) (fun status hs => ?_)
    refine R_bind_congr (fun _ => True) (fun _ _ _ _ => trivial) (fun _ _ => ?_)
    rw [RenderObjectList_agree env _ rso rso1 hagree hkeep status _ _ hs]
  · split
    · rfl
    · refine R_bind_congr (fun _ => True) (fun _ _ _ _ => trivial) (fun bitmap_device _ => ?_)
      refine R_bind_congr (fun _ => True) (fun _ _ _ _ => trivial) (fun created _ => ?_)
      split
      · rfl
      · refine R_bind_congr (fun s => s.type3_font_cache_ = st.type3_font_cache_ ++ [font])
          (Type3Status_fonts env st _ _ _ _ _ _ _) (fun status hs => ?_)
        dsimp only
        rw [RenderObjectList_agree env _ rso rso1 hagree hkeep status _ _ hs]

theorem ProcessType3Text_loop_agree (env : Env) (rso rso1 : Rso) (st : CPDF_RenderStatus)
    (font : Nat) (hagree : agreeOn (st.type3_font_cache_ ++ [font]) rso rso1)
    (hkeep : keepsFonts rso) (textobj : CPDF_PageObject) (mt : CFX_Matrix) (fill_argb : Nat)
    (fill_alpha : Int) (char_matrix : CFX_Matrix) :
    ∀ (codes : List Nat) (iChar : Nat) (glyphs : List TextGlyphPos),
      ProcessType3Text.loop env rso st textobj mt fill_argb fill_alpha font char_matrix codes
          iChar glyphs =
        ProcessType3Text.loop env rso1 st textobj mt fill_argb fill_alpha font char_matrix codes
          iChar glyphs := by
  intro codes
  induction codes with
  | nil => intro iChar glyphs; rfl
  | cons charcode rest ih =>
    intro iChar glyphs
    unfold ProcessType3Text.loop
    split
    · exact ih _ _
    · split
      · exact ih _ _
      · dsimp only
        rw [ProcessType3Text_content_agree env rso rso1 st font hagree hkeep]
        refine R_bind_congr (fun _ => True) (fun _ _ _ _ => trivial) (fun r _ => ?_)
        split
        · rfl
        · exact ih _ _

theorem ProcessType3Text_agree (env : Env) (rso rso1 : Rso) (st : CPDF_RenderStatus)
    (textobj : CPDF_PageObject) (mt : CFX_Matrix)
    (hagree : agreeOn (st.type3_font_cache_ ++ [textobj.states.text_state.font]) rso rso1)
    (hkeep : keepsFonts rso) :
    ProcessType3Text env rso st textobj mt = ProcessType3Text env rso1 st textobj mt := by
  unfold ProcessType3Text
  dsimp only
  split
  · rfl
  · split
    · rfl
    · rw [ProcessType3Text_loop_agree env rso rso1 st _ hagree hkeep]
theorem type3Chain_fonts (env : Env) :
    ∀ (chain : List (CPDF_PageObject × CPDF_RenderStatus)) (st : CPDF_RenderStatus),
      type3Chain env st chain →
      (chain.map fun link => link.1.states.text_state.font).Nodup ∧
        ∀ link ∈ chain, link.1.states.text_state.font ∉ st.type3_font_cache_ := by
  intro chain
  induction chain with
  | nil => intro st _; exact ⟨List.nodup_nil, fun _ h => absurd h (List.not_mem_nil _)⟩
  | cons link rest ih =>
    intro st h
    obtain ⟨⟨rso, mt, g, hrun⟩, hlist, hrest⟩ := h
    have hnot : link.1.states.text_state.font ∉ st.type3_font_cache_ :=
      fun hin => hrun (ProcessType3Text_skips_cached_font env rso st link.1 mt g hin)
    obtain ⟨hnodup, hout⟩ := ih link.2 hrest
    have hlater : ∀ l ∈ rest, l.1.states.text_state.font ∉ st.type3_font_cache_ ∧
        l.1.states.text_state.font ≠ link.1.states.text_state.font := by
      intro l hl
      have := hout l hl
      rw [hlist, List.mem_append, List.mem_singleton, not_or] at this
      exact this
    refine ⟨?_, ?_⟩
    · rw [List.map_cons, List.nodup_cons]
      refine ⟨?_, hnodup⟩
      intro hin
      obtain ⟨l, hl, heq⟩ := List.mem_map.mp hin
      exact (hlater l hl).2 heq
    · intro l hl
      rcases List.mem_cons.mp hl with h1 | h1
      · rw [h1]
        exact hnot
      · exact (hlater l h1).1

theorem RenderSingleObject_keepsFonts (env : Env) :
    keepsFonts (RenderSingleObject env (kRenderMaxRecursionDepth + 1)) := by
  intro s o m g s1 g1 h
  have hgood := RenderSingleObject_total env g.depth s o m g rfl
  rw [h] at hgood
  have := congrArg CPDF_RenderStatus.type3_font_cache_ hgood.2
  exact this

theorem ProcessForm_nested_agree (env : Env) (rso rso1 : Rso) (hagree : agreeOn [] rso rso1)
    (hkeep : keepsFonts rso) (st : CPDF_RenderStatus) (obj : CPDF_PageObject)
    (mt : CFX_Matrix) :
    ProcessForm.nested env rso st obj mt = ProcessForm.nested env rso1 st obj mt := by
  unfold ProcessForm.nested
  refine R_bind_congr (fun s => s.type3_font_cache_ = [])
    (fun g a g1 h => Initialize_keeps_fonts env _ _ _ g a g1 h) (fun status hs => ?_)
  refine R_bind_congr (fun _ => True) (fun _ _ _ _ => trivial) (fun _ _ => ?_)
  exact RenderObjectList_agree env [] rso rso1 hagree hkeep status _ _ hs

theorem DrawObjWithBackgroundToDevice_agree (env : Env) (rso rso1 : Rso)
    (hagree : agreeOn [] rso rso1) (st : CPDF_RenderStatus) (obj : CPDF_PageObject)
    (mt : CFX_Matrix) (device : Ref) (device_matrix : CFX_Matrix) :
    DrawObjWithBackgroundToDevice env rso st obj mt device device_matrix =
      DrawObjWithBackgroundToDevice env rso1 st obj mt device device_matrix := by
  unfold DrawObjWithBackgroundToDevice
  dsimp only
  refine R_bind_congr (fun s => s.type3_font_cache_ = [])
    (fun g a g1 h => Initialize_keeps_fonts env _ _ _ g a g1 h) (fun status hs => ?_)
  rw [hagree status _ _ hs]

theorem LoadSMask_agree (env : Env) (rso rso1 : Rso) (hagree : agreeOn [] rso rso1)
    (hkeep : keepsFonts rso) (st : CPDF_RenderStatus) (smask_dict : Nat) (rect : FX_RECT)
    (m : CFX_Matrix) :
    LoadSMask env rso st smask_dict rect m = LoadSMask env rso1 st smask_dict rect m := by
  unfold LoadSMask
  dsimp only
  split
  · rfl
  · refine R_bind_congr (fun _ => True) (fun _ _ _ _ => trivial) (fun bitmap_device _ => ?_)
    refine R_bind_congr (fun _ => True) (fun _ _ _ _ => trivial) (fun created _ => ?_)
    split
    · rfl
    · refine R_bind_congr (fun _ => True) (fun _ _ _ _ => trivial) (fun _ _ => ?_)
      refine R_bind_congr (fun s => s.type3_font_cache_ = [])
        (fun g a g1 h => Initialize_keeps_fonts env _ _ _ g a g1 h) (fun status hs => ?_)
      rw [RenderObjectList_agree env [] rso rso1 hagree hkeep status _ _ hs]

theorem ProcessTransparency_nested_fonts (env : Env) (rso : Rso) (st : CPDF_RenderStatus)
    (obj : CPDF_PageObject) (v : TransparencyLocals) (device : Ref) (m : CFX_Matrix) (g : G) :
    ∃ s, s.type3_font_cache_ = [] ∧
      ProcessTransparency.nested env rso st obj v device m g =
        ProcessObjectNoClip env rso s obj m g := by
  unfold ProcessTransparency.nested
  rw [R_bind_apply]
  unfold Initialize
  rw [R_bind_apply]
  simp only [ask]
  exact ⟨_, rfl, rfl⟩
/-- C8, amended. For every text object whose Type-3 font is already in the font list of the
status, `ProcessType3Text` returns `true` at once, with no call on a collaborator and no
nested render.  Every status in which `ProcessType3Text` renders the content stream of a
glyph carries the list of the parent extended by the font: what `ProcessType3Text` does
depends on the dispatcher only at statuses with that list (a dispatcher that is changed at
every other status gives the same run), where the dispatcher hands back the status with the
list it was given, as `RenderSingleObject` does; in a status with that list each font of the
parent list and the font itself are skipped.  So along every chain of Type-3 renders nested
directly in one another the executed fonts are pairwise different, and none is in the list
of the first status.  A form invocation, a background render and a soft mask render their
objects on statuses with an empty list only, and a transparency buffer processes its object
on a status with an empty list. -/
theorem ProcessType3Text_guard (env : Env) (rso : Rso) (st : CPDF_RenderStatus)
    (textobj : CPDF_PageObject) (mt : CFX_Matrix) (g : G) :
    (textobj.states.text_state.font ∈ st.type3_font_cache_ →
      ProcessType3Text env rso st textobj mt g = .ok true g) ∧
    (∀ rso1 : Rso, keepsFonts rso →
      agreeOn (st.type3_font_cache_ ++ [textobj.states.text_state.font]) rso rso1 →
      ProcessType3Text env rso st textobj mt = ProcessType3Text env rso1 st textobj mt) ∧
    keepsFonts (RenderSingleObject env (kRenderMaxRecursionDepth + 1)) ∧
    (∀ device options pForm pType3Char fill_argb pStates,
      ∃ status, Type3Status env st device options pForm pType3Char fill_argb
          textobj.states.text_state.font pStates g = .ok status g ∧
        status.type3_font_cache_ =
          st.type3_font_cache_ ++ [textobj.states.text_state.font] ∧
        (st.type3_font_cache_.Nodup →
          textobj.states.text_state.font ∉ st.type3_font_cache_ →
          status.type3_font_cache_.Nodup) ∧
        ∀ (status1 : CPDF_RenderStatus) (inner : CPDF_PageObject) (mt1 : CFX_Matrix) (g1 : G),
          status1.type3_font_cache_ = status.type3_font_cache_ →
          (inner.states.text_state.font ∈ st.type3_font_cache_ ∨
            inner.states.text_state.font = textobj.states.text_state.font) →
          ProcessType3Text env rso status1 inner mt1 g1 = .ok true g1) ∧
    (∀ chain : List (CPDF_PageObject × CPDF_RenderStatus), type3Chain env st chain →
      (chain.map fun link => link.1.states.text_state.font).Nodup ∧
        ∀ link ∈ chain, link.1.states.text_state.font ∉ st.type3_font_cache_) ∧
    (∀ rso1 : Rso, keepsFonts rso → agreeOn [] rso rso1 →
      ∀ (obj : CPDF_PageObject) (device : Ref) (device_matrix : CFX_Matrix) (smask_dict : Nat)
        (rect : FX_RECT),
        ProcessForm.nested env rso st obj mt = ProcessForm.nested env rso1 st obj mt ∧
        DrawObjWithBackgroundToDevice env rso st obj mt device device_matrix =
          DrawObjWithBackgroundToDevice env rso1 st obj mt device device_matrix ∧
        LoadSMask env rso st smask_dict rect mt = LoadSMask env rso1 st smask_dict rect mt) ∧
    (∀ (obj : CPDF_PageObject) (v : TransparencyLocals) (device : Ref),
      ∃ s, s.type3_font_cache_ = [] ∧
        ProcessTransparency.nested env rso st obj v device mt g =
          ProcessObjectNoClip env rso s obj mt g) := by
  refine ⟨ProcessType3Text_skips_cached_font env rso st textobj mt g, ?_,
    RenderSingleObject_keepsFonts env, ?_, fun chain => type3Chain_fonts env chain st, ?_, ?_⟩
  · intro rso1 hkeep hagree
    exact ProcessType3Text_agree env rso rso1 st textobj mt hagree hkeep
  · intro device options pForm pType3Char fill_argb pStates
    refine ⟨_, rfl, rfl, ?_, ?_⟩
    · intro hnd hnot
      show (st.type3_font_cache_ ++ [textobj.states.text_state.font]).Nodup
      rw [List.nodup_append]
      refine ⟨hnd, List.nodup_singleton _, ?_⟩
      intro a ha hb
      rw [List.mem_singleton] at hb
      subst hb
      exact hnot ha
    · intro status1 inner mt1 g1 hc hin
      apply ProcessType3Text_skips_cached_font
      rw [hc]
      show inner.states.text_state.font ∈
        st.type3_font_cache_ ++ [textobj.states.text_state.font]
      rw [List.mem_append, List.mem_singleton]
      exact hin
  · intro rso1 hkeep hagree obj device device_matrix smask_dict rect
    exact ⟨ProcessForm_nested_agree env rso rso1 hagree hkeep st obj mt,
      DrawObjWithBackgroundToDevice_agree env rso rso1 hagree st obj mt device device_matrix,
      LoadSMask_agree env rso rso1 hagree hkeep st smask_dict rect mt⟩
  · intro obj v device
    exact ProcessTransparency_nested_fonts env rso st obj v device mt g

theorem Demo_text_executed :
    Demo.logOf (ProcessType3Text Demo.env
      (RenderSingleObject Demo.env (kRenderMaxRecursionDepth + 1)) Demo.status
      (Demo.text 22 1) CFX_Matrix.identity Demo.start) ≠
    Demo.logOf (Res.ok true Demo.start) := by
  decide!

/-- C8, on the demo document: rendering the text in font 1 on the page status is a chain of
one link (the text is executed, its glyphs are rendered on a status with the list `[1]`),
and a text in font 1 on that nested status is skipped. -/
theorem ProcessType3Text_guard_witness :
    type3Chain Demo.env Demo.status
      [(Demo.text 22 1, { Demo.status with type3_font_cache_ := [1] })] ∧
    ([(Demo.text 22 1, { Demo.status with type3_font_cache_ := [1] })].map
      fun link => link.1.states.text_state.font).Nodup ∧
    ProcessType3Text Demo.env (RenderSingleObject Demo.env (kRenderMaxRecursionDepth + 1))
      { Demo.status with type3_font_cache_ := [1] } (Demo.text 22 1) CFX_Matrix.identity
      Demo.start = .ok true Demo.start :=
  have hchain : type3Chain Demo.env Demo.status
      [(Demo.text 22 1, { Demo.status with type3_font_cache_ := [1] })] :=
    ⟨⟨RenderSingleObject Demo.env (kRenderMaxRecursionDepth + 1), CFX_Matrix.identity,
      Demo.start, fun h => Demo_text_executed (congrArg Demo.logOf h)⟩, rfl, trivial⟩
  ⟨hchain,
    ((ProcessType3Text_guard Demo.env
      (RenderSingleObject Demo.env (kRenderMaxRecursionDepth + 1)) Demo.status
      (Demo.text 22 1) CFX_Matrix.identity Demo.start).2.2.2.2.1 _ hchain).1,
    (ProcessType3Text_guard Demo.env
      (RenderSingleObject Demo.env (kRenderMaxRecursionDepth + 1))
      { Demo.status with type3_font_cache_ := [1] }
      (Demo.text 22 1) CFX_Matrix.identity Demo.start).1 (by decide)⟩

/-! ## C10: the stop object reached in nested scopes -/

theorem ProcessTransparency_render_finish (env : Env) (rso : Rso) (st : CPDF_RenderStatus)
    (pPageObj : CPDF_PageObject) (mtObj2Device : CFX_Matrix) (v : TransparencyLocals)
    (rect : FX_RECT) (bitmap_device : Ref) (new_matrix : CFX_Matrix)
    (text_mask_bitmap : Option Ref) :
    ProcessTransparency.render env rso st pPageObj mtObj2Device v rect bitmap_device new_matrix
        text_mask_bitmap =
      (ProcessTransparency.nested env rso st pPageObj v bitmap_device new_matrix >>=
        ProcessTransparency.finish env rso st pPageObj mtObj2Device v rect bitmap_device
          text_mask_bitmap) := rfl

theorem ProcessForm_nested_list (env : Env) (rso : Rso) (st status : CPDF_RenderStatus)
    (obj : CPDF_PageObject) (mt : CFX_Matrix) (g : G)
    (hinit : Initialize env (ProcessForm.status env st obj) (some st) (some obj.states) g =
      .ok status g) :
    ProcessForm.nested env rso st obj mt g =
      RenderObjectList.loop env rso (env.Concat obj.form_matrix mt)
        (entryClipRect env status (env.Concat obj.form_matrix mt)
          (said g [⟨st.device_, .SaveState⟩]))
        (env.form obj.form).objects status (said g [⟨st.device_, .SaveState⟩]) := by
  unfold ProcessForm.nested
  rw [R_bind_apply, hinit]
  rfl

theorem ProcessObjectNoClip_form (env : Env) (rso : Rso) (st : CPDF_RenderStatus)
    (obj : CPDF_PageObject) (mt : CFX_Matrix) (g : G) (hform : obj.type = .kForm)
    (hhidden : ProcessForm.hidden env st obj = false) :
    ProcessObjectNoClip env rso st obj mt g =
      ProcessForm.unwind st (ProcessForm.nested env rso st obj mt g) := by
  unfold ProcessObjectNoClip
  rw [hform]
  simp only
  unfold ProcessForm
  simp only [hhidden, Bool.false_eq_true, if_false]
  rw [R_bind_apply, R_bind_apply]
  cases ProcessForm.nested env rso st obj mt g <;> rfl
theorem RenderSingleObject_enters (env : Env) (fuel : Nat) (st : CPDF_RenderStatus)
    (obj : CPDF_PageObject) (mt : CFX_Matrix) (g : G)
    (hdepth : g.depth < kRenderMaxRecursionDepth) :
    RenderSingleObject env (fuel + 1) st obj mt g =
      RenderSingleObject.leave g.depth
        (RenderSingleObject.body env (RenderSingleObject env fuel) st obj mt
          (RenderSingleObject.enter g)) := by
  conv_lhs => unfold RenderSingleObject
  have hguard : ¬ ((RenderSingleObject.enter g).depth > kRenderMaxRecursionDepth) := by
    simp only [RenderSingleObject.enter]
    omega
  simp only [hguard, if_false]
  cases RenderSingleObject.body env (RenderSingleObject env fuel) st obj mt
    (RenderSingleObject.enter g) <;> rfl

theorem RenderObjectList_loop_handed (env : Env) (rso : Rso) (mt : CFX_Matrix)
    (clip : CFX_FloatRect) (r : Ref) (rest : List (Option Ref)) (st : CPDF_RenderStatus) (g : G)
    (hstop : some r ≠ st.stop_obj_) (hactive : (env.deref r).active = true)
    (hculled : culled clip (env.deref r) = false) :
    RenderObjectList.loop env rso mt clip (some r :: rest) st g =
      match rso st (env.deref r) mt g with
      | .ok st1 g1 =>
        if st1.stopped_ then .ok st1 g1 else RenderObjectList.loop env rso mt clip rest st1 g1
      | .aborted g1 => .aborted g1
      | .starved => .starved := by
  conv_lhs => unfold RenderObjectList.loop
  simp only [hstop, if_false, hactive, hculled, Bool.not_true, Bool.false_eq_true]
  rw [R_bind_apply]
  cases rso st (env.deref r) mt g with
  | ok st1 g1 =>
    simp only
    cases st1.stopped_ <;> rfl
  | aborted g1 => rfl
  | starved => rfl

theorem RenderObjectList_loop_skips (env : Env) (rso : Rso) (mt : CFX_Matrix)
    (clip : CFX_FloatRect) (p : Option Ref) (rest : List (Option Ref))
    (st : CPDF_RenderStatus) (hstop : p ≠ st.stop_obj_)
    (hskip : ∀ r, p = some r →
      ((env.deref r).active && !culled clip (env.deref r)) = false) :
    RenderObjectList.loop env rso mt clip (p :: rest) st =
      RenderObjectList.loop env rso mt clip rest st := by
  conv_lhs => unfold RenderObjectList.loop
  simp only [hstop, if_false]
  cases p with
  | none => rfl
  | some r =>
    simp only
    have h := hskip r rfl
    cases hact : (env.deref r).active
    · simp
    · rw [hact] at h
      simp only [Bool.true_and, Bool.not_eq_false'] at h
      simp [h]

theorem RenderSingleObject_body_form (env : Env) (rso : Rso) (st st1 st2 : CPDF_RenderStatus)
    (obj : CPDF_PageObject) (mt : CFX_Matrix) (g g1 g2 : G)
    (hvisible : env.CheckPageObjectVisible st.options_ obj = true)
    (hclip : ProcessClipPath env rso { st with cur_obj_ := some obj.self }
      obj.states.clip_path mt g = .ok st1 g1)
    (htransparency : ProcessTransparency env rso st1 obj mt g1 = .ok (false, st2) g2) :
    RenderSingleObject.body env rso st obj mt g = ProcessObjectNoClip env rso st2 obj mt g2 := by
  unfold RenderSingleObject.body
  simp only [hvisible, Bool.not_true, Bool.false_eq_true, if_false]
  rw [R_bind_apply, hclip]
  simp only
  rw [R_bind_apply, htransparency]
  rfl

theorem RenderSingleObject_body_buffer (env : Env) (rso : Rso) (st st1 : CPDF_RenderStatus)
    (obj : CPDF_PageObject) (mt : CFX_Matrix) (g g1 g2 : G) (v : TransparencyLocals)
    (rect : FX_RECT) (bitmap_device : Ref) (new_matrix : CFX_Matrix)
    (text_mask_bitmap : Option Ref)
    (hvisible : env.CheckPageObjectVisible st.options_ obj = true)
    (hclip : ProcessClipPath env rso { st with cur_obj_ := some obj.self }
      obj.states.clip_path mt g = .ok st1 g1)
    (htransparency : ProcessTransparency env rso st1 obj mt g1 =
      ProcessTransparency.render env rso st1 obj mt v rect bitmap_device new_matrix
        text_mask_bitmap g2) :
    RenderSingleObject.body env rso st obj mt g =
      ProcessTransparency.composite env rso st1 obj mt v rect bitmap_device text_mask_bitmap
        (ProcessTransparency.nested env rso st1 obj v bitmap_device new_matrix g2) := by
  unfold RenderSingleObject.body
  simp only [hvisible, Bool.not_true, Bool.false_eq_true, if_false]
  rw [R_bind_apply, hclip]
  simp only
  rw [R_bind_apply, htransparency, ProcessTransparency_render_finish, R_bind_apply]
  cases hnested : ProcessTransparency.nested env rso st1 obj v bitmap_device new_matrix g2 with
  | ok s g3 =>
    simp only [ProcessTransparency.composite]
    rw [R_bind_apply]
    cases hfinish : ProcessTransparency.finish env rso st1 obj mt v rect bitmap_device
        text_mask_bitmap s g3 with
    | ok r g4 =>
      have hr : r.1 = true := by
        unfold ProcessTransparency.finish at hfinish
        obtain ⟨_, _, _, hfinish⟩ := R_bind_ok hfinish
        obtain ⟨_, _, _, hfinish⟩ := R_bind_ok hfinish
        obtain ⟨_, _, _, hfinish⟩ := R_bind_ok hfinish
        obtain ⟨_, _, _, hfinish⟩ := R_bind_ok hfinish
        obtain ⟨_, _, _, hfinish⟩ := R_bind_ok hfinish
        cases hfinish
        rfl
      obtain ⟨handled, s1⟩ := r
      simp only at hr
      subst hr
      rfl
    | aborted g4 => rfl
    | starved => rfl
  | aborted g3 => rfl
  | starved => rfl

theorem ProcessTransparency_finish_flag (env : Env) (rso : Rso) (st : CPDF_RenderStatus)
    (obj : CPDF_PageObject) (mt : CFX_Matrix) (v : TransparencyLocals) (rect : FX_RECT)
    (bitmap_device : Ref) (text_mask_bitmap : Option Ref) (s : CPDF_RenderStatus) (g : G)
    (r : Bool × CPDF_RenderStatus) (g1 : G)
    (h : ProcessTransparency.finish env rso st obj mt v rect bitmap_device text_mask_bitmap s
      g = .ok r g1) :
    r = (true, { st with stopped_ := s.stopped_ }) := by
  unfold ProcessTransparency.finish at h
  obtain ⟨_, _, _, h⟩ := R_bind_ok h
  obtain ⟨_, _, _, h⟩ := R_bind_ok h
  obtain ⟨_, _, _, h⟩ := R_bind_ok h
  obtain ⟨_, _, _, h⟩ := R_bind_ok h
  obtain ⟨_, _, _, h⟩ := R_bind_ok h
  cases h
  rfl

theorem ProcessTransparency_nested_form (env : Env) (rso : Rso)
    (st bitmap_render : CPDF_RenderStatus) (obj : CPDF_PageObject) (v : TransparencyLocals)
    (bitmap_device : Ref) (new_matrix : CFX_Matrix) (g : G)
    (hinit : Initialize env (ProcessTransparency.status st v bitmap_device) none none g =
      .ok bitmap_render g)
    (hform : obj.type = .kForm)
    (hhidden : ProcessForm.hidden env bitmap_render obj = false) :
    ProcessTransparency.nested env rso st obj v bitmap_device new_matrix g =
      ProcessForm.unwind bitmap_render
        (ProcessForm.nested env rso bitmap_render obj new_matrix g) := by
  unfold ProcessTransparency.nested
  rw [R_bind_apply, hinit]
  exact ProcessObjectNoClip_form env rso bitmap_render obj new_matrix g hform hhidden

theorem Reached_loop (env : Env) (fuel : Nat) (mt : CFX_Matrix) (clip : CFX_FloatRect)
    (pre : List (Option Ref)) (st : CPDF_RenderStatus) (g : G) (res : Res CPDF_RenderStatus)
    (h : Reached env fuel mt clip pre st g res) :
    (∀ post, RenderObjectList.loop env (RenderSingleObject env fuel) mt clip (pre ++ post) st
      g = res) ∧
    (∀ s g1, res = .ok s g1 → s.stopped_ = true) := by
  induction h with
  | here fuel mt clip p st g hp =>
    refine ⟨fun post => ?_, ?_⟩
    · simp only [List.singleton_append]
      unfold RenderObjectList.loop
      simp only [hp, if_true]
      rfl
    · intro s g1 hres
      cases hres
      rfl
  | skipped fuel mt clip p pre st g res hp hskip _ ih =>
    refine ⟨fun post => ?_, ih.2⟩
    rw [List.cons_append, RenderObjectList_loop_skips env _ mt clip p _ st hp hskip]
    exact ih.1 post
  | passed fuel mt clip r pre st st1 g g1 res hstop hactive hculled hrun hflag _ ih =>
    refine ⟨fun post => ?_, ih.2⟩
    rw [List.cons_append,
      RenderObjectList_loop_handed env _ mt clip r _ st g hstop hactive hculled, hrun]
    simp only [hflag, Bool.false_eq_true, if_false]
    exact ih.1 post
  | form fuel mt clip r pre post st st1 st2 status g g1 g2 res hstop hactive hculled hdepth
      hvisible hclip htransparency hform hhidden hinit hlist _ ih =>
    have hnested : ProcessForm.nested env (RenderSingleObject env fuel) st2 (env.deref r) mt
        g2 = res := by
      rw [ProcessForm_nested_list env _ st2 status (env.deref r) mt g2 hinit, hlist]
      exact ih.1 post
    have hrun : RenderSingleObject env (fuel + 1) st (env.deref r) mt g =
        RenderSingleObject.leave g.depth (ProcessForm.unwind st2 res) := by
      rw [RenderSingleObject_enters env fuel st (env.deref r) mt g hdepth,
        RenderSingleObject_body_form env _ st st1 st2 (env.deref r) mt _ g1 g2 hvisible hclip
          htransparency,
        ProcessObjectNoClip_form env _ st2 (env.deref r) mt g2 hform hhidden, hnested]
    have hflag : ∀ s g3, RenderSingleObject.leave g.depth (ProcessForm.unwind st2 res) =
        .ok s g3 → s.stopped_ = true := by
      intro s g3 hres
      cases res with
      | ok s1 g4 =>
        simp only [ProcessForm.unwind, RenderSingleObject.leave] at hres
        cases hres
        exact ih.2 s1 g4 rfl
      | aborted g4 => cases hres
      | starved => cases hres
    refine ⟨fun post1 => ?_, hflag⟩
    rw [List.singleton_append,
      RenderObjectList_loop_handed env _ mt clip r _ st g hstop hactive hculled, hrun]
    cases hres : RenderSingleObject.leave g.depth (ProcessForm.unwind st2 res) with
    | ok s g3 =>
      simp only [hflag s g3 hres, if_true]
    | aborted g3 => rfl
    | starved => rfl
  | buffer fuel mt clip r pre post st st1 bitmap_render status g g1 g2 v rect bitmap_device
      new_matrix text_mask_bitmap res hstop hactive hculled hdepth hvisible hclip
      htransparency hbitmap hform hhidden hinit hlist _ ih =>
    have hnested : ProcessForm.nested env (RenderSingleObject env fuel) bitmap_render
        (env.deref r) new_matrix g2 = res := by
      rw [ProcessForm_nested_list env _ bitmap_render status (env.deref r) new_matrix g2 hinit,
        hlist]
      exact ih.1 post
    have hrun : RenderSingleObject env (fuel + 1) st (env.deref r) mt g =
        RenderSingleObject.leave g.depth
          (ProcessTransparency.composite env (RenderSingleObject env fuel) st1 (env.deref r)
            mt v rect bitmap_device text_mask_bitmap (ProcessForm.unwind bitmap_render res)) := by
      rw [RenderSingleObject_enters env fuel st (env.deref r) mt g hdepth,
        RenderSingleObject_body_buffer env _ st st1 (env.deref r) mt _ g1 g2 v rect
          bitmap_device new_matrix text_mask_bitmap hvisible hclip htransparency,
        ProcessTransparency_nested_form env _ st1 bitmap_render (env.deref r) v bitmap_device
          new_matrix g2 hbitmap hform hhidden, hnested]
    have hflag : ∀ s g3, RenderSingleObject.leave g.depth
          (ProcessTransparency.composite env (RenderSingleObject env fuel) st1 (env.deref r)
            mt v rect bitmap_device text_mask_bitmap (ProcessForm.unwind bitmap_render res)) =
        .ok s g3 → s.stopped_ = true := by
      intro s g3 hres
      cases res with
      | ok s1 g4 =>
        simp only [ProcessForm.unwind, ProcessTransparency.composite] at hres
        rw [R_bind_apply] at hres
        cases hfinish : ProcessTransparency.finish env (RenderSingleObject env fuel) st1
            (env.deref r) mt v rect bitmap_device text_mask_bitmap
            { bitmap_render with stopped_ := s1.stopped_ }
            (said g4 [⟨bitmap_render.device_, .RestoreState false⟩]) with
        | ok r1 g5 =>
          rw [hfinish] at hres
          have hr := ProcessTransparency_finish_flag env _ st1 (env.deref r) mt v rect
            bitmap_device text_mask_bitmap _ _ r1 g5 hfinish
          subst hr
          simp only [RenderSingleObject.leave] at hres
          cases hres
          exact ih.2 s1 g4 rfl
        | aborted g5 =>
          rw [hfinish] at hres
          cases hres
        | starved =>
          rw [hfinish] at hres
          cases hres
      | aborted g4 => cases hres
      | starved => cases hres
    refine ⟨fun post1 => ?_, hflag⟩
    rw [List.singleton_append,
      RenderObjectList_loop_handed env _ mt clip r _ st g hstop hactive hculled, hrun]
    cases hres : RenderSingleObject.leave g.depth
        (ProcessTransparency.composite env (RenderSingleObject env fuel) st1 (env.deref r)
          mt v rect bitmap_device text_mask_bitmap (ProcessForm.unwind bitmap_render res)) with
    | ok s g3 =>
      simp only [hflag s g3 hres, if_true]
    | aborted g3 => rfl
    | starved => rfl
theorem Reached_good (env : Env) (fuel : Nat) (mt : CFX_Matrix) (clip : CFX_FloatRect)
    (pre : List (Option Ref)) (st : CPDF_RenderStatus) (g : G) (res : Res CPDF_RenderStatus)
    (h : Reached env fuel mt clip pre st g res) (hfuel : 0 < fuel)
    (hdepth : kRenderMaxRecursionDepth < fuel + g.depth) :
    Res.post g (Frame st) res := by
  have hloop := (Reached_loop env fuel mt clip pre st g res h).1 []
  rw [← hloop]
  exact RenderObjectList_loop_good env _ g.depth
    (RenderSingleObject_good env fuel g.depth hfuel hdepth) mt clip _ st g rfl

theorem Demo_reached_in_form :
    ∃ res, Reached Demo.env 65 CFX_Matrix.identity
        (entryClipRect Demo.env (Demo.stopAt 3 false) CFX_Matrix.identity Demo.start)
        [some (.given 23)] (Demo.stopAt 3 false) Demo.start res ∧
      Demo.stoppedOf res = some true ∧
      Demo.logOf res = [⟨.given 0, .SaveState⟩, ⟨.given 0, .RestoreState false⟩] :=
  ⟨_, Reached.form 64 _ _ (.given 23) [some (.given 3)] [some (.given 4)] _ _ _ _ _ _ _ _
      (by decide) rfl rfl (by decide) rfl rfl rfl rfl rfl rfl rfl
      (Reached.here 64 _ _ _ _ _ rfl), rfl, rfl⟩
theorem Demo_reached_in_buffer :
    ∃ res, Reached Demo.env 65 CFX_Matrix.identity
        (entryClipRect Demo.env (Demo.stopAt 3 false) CFX_Matrix.identity Demo.start)
        [some (.given 24)] (Demo.stopAt 3 false) Demo.start res ∧
      Demo.stoppedOf res = some true ∧ Demo.drawn res = [] :=
  ⟨_, Reached.buffer 64 _ _ (.given 24) [some (.given 3)] [some (.given 4)] _
      { Demo.stopAt 3 false with cur_obj_ := some (.given 24) } _ _ _ _
      ⟨1, 1, 2, [⟨.given 0, .CreateCompatibleBitmap (.fresh 0) 10 10⟩,
        ⟨.given 0, .GetDIBits (.fresh 0) 0 0⟩,
        ⟨.fresh 1, .CreateWithBackdrop 10 10 .kBgra (some (.fresh 0))⟩]⟩
      (ProcessTransparency.locals Demo.env
        { Demo.stopAt 3 false with cur_obj_ := some (.given 24) } (Demo.env.deref (.given 24))
        ⟨true, true, false, false⟩)
      ⟨0, 0, 10, 10⟩ (.fresh 1) CFX_Matrix.identity none _
      (by decide) rfl rfl (by decide) rfl rfl (by decide!) rfl rfl rfl rfl rfl
      (Reached.here 64 _ _ _ _ _ rfl), by decide!, by decide!⟩
/-- C10, amended: the stop object reached inside nested scopes made by form invocations and
transparency buffers, at any nesting depth.  `Reached` says that the run of the loop of an
object list gets to the stop object of its status, at an entry of the list itself or inside
the render of an entry, through form invocations and transparency buffers only; every nested
scope on the way is an instance of `Reached` again, so what follows holds for every
enclosing scope.
* The loop returns what `Reached` gives as its outcome whatever entries follow in the list:
  no further object of the list is looked at; the same holds for `RenderObjectList` on an
  object holder whose list starts with these entries.
* When control returns, the stopped flag of the status is set.
* With fuel that covers the depth that is left, the run does not run out of fuel; when it
  returns, the status is otherwise the one the loop was given, the counter is restored and
  the log has only grown.
* The statuses a form invocation and a transparency buffer make are given the stop object
  of the enclosing status. -/
theorem stop_propagates_through_form_and_buffer (env : Env) (fuel : Nat) (mt : CFX_Matrix)
    (clip : CFX_FloatRect) (pre : List (Option Ref)) (st : CPDF_RenderStatus) (g : G)
    (res : Res CPDF_RenderStatus) (h : Reached env fuel mt clip pre st g res) :
    (∀ post, RenderObjectList.loop env (RenderSingleObject env fuel) mt clip (pre ++ post) st
      g = res) ∧
    (∀ holder post, (env.form holder).objects = pre ++ post →
      clip = entryClipRect env st mt g →
      RenderObjectList env (RenderSingleObject env fuel) st holder mt g = res) ∧
    (∀ s g1, res = .ok s g1 → s.stopped_ = true) ∧
    (0 < fuel → kRenderMaxRecursionDepth < fuel + g.depth →
      res ≠ .starved ∧
      ∀ s g1, res = .ok s g1 → Frame st s ∧ g1.depth = g.depth ∧ g.log <+: g1.log) ∧
    (∀ (obj : CPDF_PageObject) (v : TransparencyLocals) (bitmap_device : Ref),
      (ProcessForm.status env st obj).stop_obj_ = st.stop_obj_ ∧
      (ProcessTransparency.status st v bitmap_device).stop_obj_ = st.stop_obj_) := by
  have hloop := Reached_loop env fuel mt clip pre st g res h
  refine ⟨hloop.1, ?_, hloop.2, ?_, fun _ _ _ => ⟨rfl, rfl⟩⟩
  · intro holder post hlist hclip
    unfold RenderObjectList
    rw [R_bind_apply]
    simp only [ask]
    rw [hlist, ← hloop.1 post, hclip]
    rfl
  · intro hfuel hdepth
    have hgood := Reached_good env fuel mt clip pre st g res h hfuel hdepth
    refine ⟨?_, ?_⟩
    · intro hres
      rw [hres] at hgood
      exact hgood
    · intro s g1 hres
      rw [hres] at hgood
      exact ⟨hgood.2, hgood.1.2, hgood.1.1.2⟩

/-- Witness of the amended C10 on the demo document, with the path 3 as the stop object.  On
page 6 the path is the first object of a form, on page 8 of a form that is rendered into a
transparency buffer: the page returns with the stopped flag set and nothing is painted,
neither the path 4 of the form nor the path 5 of the page. -/
theorem stop_propagates_through_form_and_buffer_witness :
    (Demo.stoppedOf (RenderObjectList Demo.env
        (RenderSingleObject Demo.env (kRenderMaxRecursionDepth + 1)) (Demo.stopAt 3 false) 6
        CFX_Matrix.identity Demo.start) = some true ∧
      Demo.logOf (RenderObjectList Demo.env
        (RenderSingleObject Demo.env (kRenderMaxRecursionDepth + 1)) (Demo.stopAt 3 false) 6
        CFX_Matrix.identity Demo.start) =
        [⟨.given 0, .SaveState⟩, ⟨.given 0, .RestoreState false⟩]) ∧
    (Demo.stoppedOf (RenderObjectList Demo.env
        (RenderSingleObject Demo.env (kRenderMaxRecursionDepth + 1)) (Demo.stopAt 3 false) 8
        CFX_Matrix.identity Demo.start) = some true ∧
      Demo.drawn (RenderObjectList Demo.env
        (RenderSingleObject Demo.env (kRenderMaxRecursionDepth + 1)) (Demo.stopAt 3 false) 8
        CFX_Matrix.identity Demo.start) = []) := by
  obtain ⟨res6, hreached6, hflag6, hlog6⟩ := Demo_reached_in_form
  obtain ⟨res8, hreached8, hflag8, hdrawn8⟩ := Demo_reached_in_buffer
  have e6 : RenderObjectList Demo.env
      (RenderSingleObject Demo.env (kRenderMaxRecursionDepth + 1)) (Demo.stopAt 3 false) 6
      CFX_Matrix.identity Demo.start = res6 :=
    (stop_propagates_through_form_and_buffer Demo.env 65 _ _ _ _ _ res6 hreached6).2.1 6
      [some (.given 5)] rfl rfl
  have e8 : RenderObjectList Demo.env
      (RenderSingleObject Demo.env (kRenderMaxRecursionDepth + 1)) (Demo.stopAt 3 false) 8
      CFX_Matrix.identity Demo.start = res8 :=
    (stop_propagates_through_form_and_buffer Demo.env 65 _ _ _ _ _ res8 hreached8).2.1 8
      [some (.given 5)] rfl rfl
  rw [e6, e8]
  exact ⟨⟨hflag6, hlog6⟩, hflag8, hdrawn8⟩

/-! ## C9: `ContinueSingleObject` and `RenderSingleObject` one level apart -/

theorem Blind_all (env : Env) : Blind env (fun _ => true) := by
  have h : ∀ l l1 : List Event, l.filter (fun _ => true) = l1.filter (fun _ => true) →
      l = l1 := by
    intro l l1 hl
    simpa using hl
  exact ⟨fun l l1 e hl _ => by rw [h l l1 hl], fun l l1 hl => by rw [h l l1 hl],
    fun l l1 hl => by rw [h l l1 hl], fun l l1 hl => by rw [h l l1 hl],
    fun l l1 hl => by rw [h l l1 hl], fun l l1 hl => by rw [h l l1 hl],
    fun l l1 hl => by rw [h l l1 hl], fun l l1 hl => by rw [h l l1 hl],
    fun l l1 hl => by rw [h l l1 hl], fun l l1 hl => by rw [h l l1 hl],
    fun l l1 hl => by rw [h l l1 hl], fun l l1 hl => by rw [h l l1 hl]⟩

theorem Deeper_said {keep : Event → Bool} {g g1 : G} (h : Deeper keep g g1) (e : Event) :
    Deeper keep { g with log := g.log ++ [e] } { g1 with log := g1.log ++ [e] } := by
  refine ⟨h.1, h.2.1, ?_⟩
  show (g1.log ++ [e]).filter keep = (g.log ++ [e]).filter keep
  rw [List.filter_append, List.filter_append, h.2.2]

theorem Sim_pure {α : Type} {keep : Event → Bool} {d : Nat} (a : α) :
    Sim keep d (pure a : R α) (pure a) :=
  fun g g1 _ h => ⟨le_refl _, rfl, fun _ => ⟨g, rfl, h⟩⟩

theorem Sim_notreached {α : Type} {keep : Event → Bool} {d : Nat} :
    Sim keep d (NOTREACHED : R α) NOTREACHED :=
  fun g g1 _ h => ⟨le_refl _, fun _ => ⟨g, rfl, h.2.1.symm, h.2.2.symm⟩⟩

theorem Sim_call {keep : Event → Bool} {d : Nat} (env : Env) (hE : Blind env keep) (t : Ref)
    (c : Call) (hc : isImageContinue c = false) : Sim keep d (call env t c) (call env t c) := by
  intro g g1 _ h
  refine ⟨le_refl _, rfl, fun _ => ⟨{ g with log := g.log ++ [⟨t, c⟩] }, ?_, Deeper_said h _⟩⟩
  show Res.ok (env.result g.log ⟨t, c⟩) _ = Res.ok (env.result g1.log ⟨t, c⟩) _
  rw [hE.result g.log g1.log ⟨t, c⟩ h.2.2.symm hc]

theorem Sim_ask {α : Type} {keep : Event → Bool} {d : Nat} (q : List Event → α)
    (hq : ∀ l l1 : List Event, l.filter keep = l1.filter keep → q l = q l1) :
    Sim keep d (ask q) (ask q) := by
  intro g g1 _ h
  refine ⟨le_refl _, rfl, fun _ => ⟨g, ?_, h⟩⟩
  show Res.ok (q g.log) g = Res.ok (q g1.log) g
  rw [hq g.log g1.log h.2.2.symm]

theorem Sim_alloc {keep : Event → Bool} {d : Nat} : Sim keep d alloc alloc := by
  intro g g1 _ h
  refine ⟨le_refl _, rfl, fun _ => ⟨{ g with fresh := g.fresh + 1 }, ?_, ?_⟩⟩
  · show Res.ok (Ref.fresh g.fresh) _ = Res.ok (Ref.fresh g1.fresh) _
    rw [h.2.1]
  · exact ⟨h.1, by show g1.fresh + 1 = g.fresh + 1; rw [h.2.1], h.2.2⟩

theorem Sim_bind {α β : Type} {keep : Event → Bool} {d : Nat} {m m1 : R α} {f f1 : α → R β}
    (hm : Sim keep d m m1) (hf : ∀ a, Sim keep d (f a) (f1 a)) :
    Sim keep d (m >>= f) (m1 >>= f1) := by
  intro g g1 hg h
  have h1 := hm g g1 hg h
  rw [R_bind_apply m1 f1 g1]
  cases hres : m1 g1 with
  | ok a g2 =>
    rw [hres] at h1
    obtain ⟨hpeak, hdepth, hsame⟩ := h1
    simp only
    have hdeep : Deeper keep { g2 with depth := d } g2 := by
      refine ⟨?_, rfl, rfl⟩
      show g2.depth = d + 1
      rw [hdepth, h.1, hg]
    have h2 := hf a { g2 with depth := d } g2 rfl hdeep
    cases hres2 : f1 a g2 with
    | ok b g4 =>
      rw [hres2] at h2
      refine ⟨hpeak.trans h2.1, h2.2.1.trans hdepth, fun hle => ?_⟩
      obtain ⟨g3, hrun, hdeep3⟩ := hsame (h2.1.trans hle)
      have hg3 : g3.depth = d := by
        have := hdeep3.1
        rw [hdepth, h.1, hg] at this
        omega
      have h3 := hf a g3 g2 hg3 hdeep3
      rw [hres2] at h3
      obtain ⟨g5, hrun5, hdeep5⟩ := h3.2.2 hle
      refine ⟨g5, ?_, hdeep5⟩
      rw [R_bind_apply, hrun]
      exact hrun5
    | aborted g4 =>
      rw [hres2] at h2
      refine ⟨hpeak.trans h2.1, fun hle => ?_⟩
      obtain ⟨g3, hrun, hdeep3⟩ := hsame (h2.1.trans hle)
      have hg3 : g3.depth = d := by
        have := hdeep3.1
        rw [hdepth, h.1, hg] at this
        omega
      have h3 := hf a g3 g2 hg3 hdeep3
      rw [hres2] at h3
      obtain ⟨g5, hrun5, hsame5⟩ := h3.2 hle
      refine ⟨g5, ?_, hsame5⟩
      rw [R_bind_apply, hrun]
      exact hrun5
    | starved => trivial
  | aborted g2 =>
    rw [hres] at h1
    refine ⟨h1.1, fun hle => ?_⟩
    obtain ⟨g3, hrun, hsame⟩ := h1.2 hle
    refine ⟨g3, ?_, hsame⟩
    rw [R_bind_apply, hrun]
  | starved => trivial

theorem Sim_continue_ignored {β : Type} {keep : Event → Bool} {d : Nat} (env : Env) (t : Ref)
    (pPause : Option Nat) (started : Bool) {f f1 : R β} (hf : Sim keep d f f1) :
    Sim keep d
      ((if started then call env t (.ImageContinue pPause) else pure true) >>= fun _ => f)
      ((if started then call env t (.ImageContinue pPause) else pure true) >>= fun _ => f1) := by
  cases started with
  | false => exact hf
  | true =>
    intro g g1 hg h
    have h1 := hf { g with log := g.log ++ [⟨t, .ImageContinue pPause⟩] }
      { g1 with log := g1.log ++ [⟨t, .ImageContinue pPause⟩] } hg (Deeper_said h _)
    simp only [if_true, R_bind_apply, call]
    cases hres : f1 { g1 with log := g1.log ++ [⟨t, .ImageContinue pPause⟩] } with
    | ok b g2 =>
      rw [hres] at h1
      exact ⟨h1.1, h1.2.1, fun hle => h1.2.2 hle⟩
    | aborted g2 =>
      rw [hres] at h1
      exact ⟨h1.1, fun hle => h1.2 hle⟩
    | starved => trivial

section leafSim
variable (env : Env) (keep : Event → Bool) (hE : Blind env keep) (d : Nat)
include hE

theorem GetObjectClippedRect_sim (st : CPDF_RenderStatus) (o : CPDF_PageObject) (mt : CFX_Matrix) :
    Sim keep d (GetObjectClippedRect env st o mt)
      (GetObjectClippedRect env st o mt) := by
  unfold GetObjectClippedRect
  repeat' (first
    | exact Sim_pure _
    | exact Sim_notreached
    | exact Sim_call env hE _ _ rfl
    | exact Sim_ask _ (fun l l1 hl => congrFun (hE.GetClipBox l l1 hl) _)
    | exact Sim_alloc
    | refine Sim_bind ?_ (fun _ => ?_)
    | split
    | (dsimp only))

theorem GetClippedBBox_sim (st : CPDF_RenderStatus) (r : FX_RECT) :
    Sim keep d (GetClippedBBox env st r)
      (GetClippedBBox env st r) := by
  unfold GetClippedBBox
  repeat' (first
    | exact Sim_pure _
    | exact Sim_notreached
    | exact Sim_call env hE _ _ rfl
    | exact Sim_ask _ (fun l l1 hl => congrFun (hE.GetClipBox l l1 hl) _)
    | exact Sim_alloc
    | refine Sim_bind ?_ (fun _ => ?_)
    | split
    | (dsimp only))

theorem GetCompatibleArgbFormat_sim (st : CPDF_RenderStatus) :
    Sim keep d (GetCompatibleArgbFormat env st)
      (GetCompatibleArgbFormat env st) := by
  unfold GetCompatibleArgbFormat
  repeat' (first
    | exact Sim_pure _
    | exact Sim_notreached
    | exact Sim_call env hE _ _ rfl
    | exact Sim_ask _ (fun l l1 hl => congrFun (hE.GetRenderCaps l l1 hl) _)
    | exact Sim_alloc
    | refine Sim_bind ?_ (fun _ => ?_)
    | split
    | (dsimp only))

theorem Initialize_sim (st : CPDF_RenderStatus) (p : Option CPDF_RenderStatus)
    (s : Option CPDF_GraphicStates) :
    Sim keep d (Initialize env st p s)
      (Initialize env st p s) := by
  unfold Initialize
  repeat' (first
    | exact Sim_pure _
    | exact Sim_notreached
    | exact Sim_call env hE _ _ rfl
    | exact Sim_ask _ (fun l l1 hl => congrFun (hE.IsPrinter l l1 hl) _)
    | exact Sim_alloc
    | refine Sim_bind ?_ (fun _ => ?_)
    | split
    | (dsimp only))

theorem GetBackdrop_sim (st : CPDF_RenderStatus) (p : Option Ref) (b : FX_RECT) (a : Bool) :
    Sim keep d (GetBackdrop env st p b a)
      (GetBackdrop env st p b a) := by
  unfold GetBackdrop
  repeat' (first
    | exact Sim_pure _
    | exact Sim_notreached
    | exact Sim_call env hE _ _ rfl
    | exact Sim_ask _ (fun l l1 hl => congrFun (hE.GetRenderCaps l l1 hl) _)
    | exact Sim_ask _ (fun l l1 hl => congrFun (hE.IsAlphaFormat l l1 hl) _)
    | exact Sim_alloc
    | refine Sim_bind ?_ (fun _ => ?_)
    | split
    | (dsimp only))

theorem CompositeDIBitmap_normal_sim (st : CPDF_RenderStatus) (b : Ref) (l t : Int) (m : Nat) (a : ℚ) :
    Sim keep d (CompositeDIBitmap.normal env st b l t m a)
      (CompositeDIBitmap.normal env st b l t m a) := by
  unfold CompositeDIBitmap.normal
  repeat' (first
    | exact Sim_pure _
    | exact Sim_notreached
    | exact Sim_call env hE _ _ rfl
    | exact Sim_ask _ (fun l l1 hl => congrFun (hE.IsMaskFormat l l1 hl) _)
    | exact Sim_ask _ (fun l l1 hl => congrFun (hE.GetWidth l l1 hl) _)
    | exact Sim_ask _ (fun l l1 hl => congrFun (hE.GetHeight l l1 hl) _)
    | exact Sim_alloc
    | refine Sim_bind ?_ (fun _ => ?_)
    | split
    | (dsimp only))

theorem CompositeDIBitmap_group_sim (st : CPDF_RenderStatus) (b : Ref) (l t : Int) (m : Nat) (bm : BlendMode) :
    Sim keep d (CompositeDIBitmap.group env st b l t m bm)
      (CompositeDIBitmap.group env st b l t m bm) := by
  unfold CompositeDIBitmap.group
  repeat' (first
    | exact Sim_pure _
    | exact Sim_notreached
    | exact Sim_call env hE _ _ rfl
    | exact Sim_ask _ (fun l l1 hl => congrFun (hE.GetClipBox l l1 hl) _)
    | exact Sim_ask _ (fun l l1 hl => congrFun (hE.GetBackDrop l l1 hl) _)
    | exact Sim_ask _ (fun l l1 hl => congrFun (hE.GetBitmap l l1 hl) _)
    | exact Sim_ask _ (fun l l1 hl => congrFun (hE.IsMaskFormat l l1 hl) _)
    | exact Sim_ask _ (fun l l1 hl => congrFun (hE.GetWidth l l1 hl) _)
    | exact Sim_ask _ (fun l l1 hl => congrFun (hE.GetHeight l l1 hl) _)
    | exact Sim_alloc
    | refine Sim_bind ?_ (fun _ => ?_)
    | split
    | (dsimp only))

theorem CompositeDIBitmap_fallback_sim (st : CPDF_RenderStatus) (b : Ref) (l t : Int) (m : Nat) (bm : BlendMode) (iso : Bool) :
    Sim keep d (CompositeDIBitmap.fallback env st b l t m bm iso)
      (CompositeDIBitmap.fallback env st b l t m bm iso) := by
  unfold CompositeDIBitmap.fallback
  repeat' (first
    | exact Sim_pure _
    | exact Sim_notreached
    | exact Sim_call env hE _ _ rfl
    | exact Sim_ask _ (fun l l1 hl => congrFun (hE.IsMaskFormat l l1 hl) _)
    | exact Sim_ask _ (fun l l1 hl => congrFun (hE.GetWidth l l1 hl) _)
    | exact Sim_ask _ (fun l l1 hl => congrFun (hE.GetHeight l l1 hl) _)
    | exact Sim_alloc
    | exact GetBackdrop_sim env keep hE d _ _ _ _
    | exact GetClippedBBox_sim env keep hE d _ _
    | refine Sim_bind ?_ (fun _ => ?_)
    | split
    | (dsimp only))

theorem CompositeDIBitmap_sim (st : CPDF_RenderStatus) (b : Ref) (l t : Int) (m : Nat) (a : ℚ) (bm : BlendMode) (tr : CPDF_Transparency) :
    Sim keep d (CompositeDIBitmap env st b l t m a bm tr)
      (CompositeDIBitmap env st b l t m a bm tr) := by
  unfold CompositeDIBitmap
  repeat' (first
    | exact Sim_pure _
    | exact Sim_notreached
    | exact Sim_call env hE _ _ rfl
    | exact Sim_ask _ (fun l l1 hl => congrFun (hE.GetRenderCaps l l1 hl) _)
    | exact Sim_ask _ (fun l l1 hl => congrFun (hE.IsMaskFormat l l1 hl) _)
    | exact Sim_alloc
    | exact CompositeDIBitmap_fallback_sim env keep hE d _ _ _ _ _ _ _
    | exact CompositeDIBitmap_group_sim env keep hE d _ _ _ _ _ _
    | exact CompositeDIBitmap_normal_sim env keep hE d _ _ _ _ _ _
    | refine Sim_bind ?_ (fun _ => ?_)
    | split
    | (dsimp only))

theorem SelectClipPath_sim (st : CPDF_RenderStatus) (o : CPDF_PageObject) (mt : CFX_Matrix) (s : Bool) :
    Sim keep d (SelectClipPath env st o mt s)
      (SelectClipPath env st o mt s) := by
  unfold SelectClipPath
  repeat' (first
    | exact Sim_pure _
    | exact Sim_notreached
    | exact Sim_call env hE _ _ rfl
    | exact Sim_alloc
    | refine Sim_bind ?_ (fun _ => ?_)
    | split
    | (dsimp only))

theorem ClipPattern_sim (st : CPDF_RenderStatus) (o : CPDF_PageObject) (mt : CFX_Matrix) (s : Bool) :
    Sim keep d (ClipPattern env st o mt s)
      (ClipPattern env st o mt s) := by
  unfold ClipPattern
  repeat' (first
    | exact Sim_pure _
    | exact Sim_notreached
    | exact Sim_call env hE _ _ rfl
    | exact Sim_alloc
    | exact SelectClipPath_sim env keep hE d _ _ _ _
    | refine Sim_bind ?_ (fun _ => ?_)
    | split
    | (dsimp only))

theorem DrawShadingPattern_sim (st : CPDF_RenderStatus) (p : Nat) (o : CPDF_PageObject) (mt : CFX_Matrix) (s : Bool) :
    Sim keep d (DrawShadingPattern env st p o mt s)
      (DrawShadingPattern env st p o mt s) := by
  unfold DrawShadingPattern
  repeat' (first
    | exact Sim_pure _
    | exact Sim_notreached
    | exact Sim_call env hE _ _ rfl
    | exact Sim_alloc
    | exact ClipPattern_sim env keep hE d _ _ _ _
    | exact GetObjectClippedRect_sim env keep hE d _ _ _
    | refine Sim_bind ?_ (fun _ => ?_)
    | split
    | (dsimp only))

theorem ProcessShading_sim (st : CPDF_RenderStatus) (o : CPDF_PageObject) (mt : CFX_Matrix) :
    Sim keep d (ProcessShading env st o mt)
      (ProcessShading env st o mt) := by
  unfold ProcessShading
  repeat' (first
    | exact Sim_pure _
    | exact Sim_notreached
    | exact Sim_call env hE _ _ rfl
    | exact Sim_alloc
    | exact GetObjectClippedRect_sim env keep hE d _ _ _
    | refine Sim_bind ?_ (fun _ => ?_)
    | split
    | (dsimp only))

theorem DrawTilingPattern_sim (st : CPDF_RenderStatus) (p : Nat) (o : CPDF_PageObject) (mt : CFX_Matrix) (s : Bool) :
    Sim keep d (DrawTilingPattern env st p o mt s)
      (DrawTilingPattern env st p o mt s) := by
  unfold DrawTilingPattern
  repeat' (first
    | exact Sim_pure _
    | exact Sim_notreached
    | exact Sim_call env hE _ _ rfl
    | exact Sim_ask _ (fun l l1 hl => congrFun (hE.GetClipBox l l1 hl) _)
    | exact Sim_alloc
    | exact ClipPattern_sim env keep hE d _ _ _ _
    | exact CompositeDIBitmap_sim env keep hE d _ _ _ _ _ _ _ _
    | refine Sim_bind ?_ (fun _ => ?_)
    | split
    | (dsimp only))

theorem DrawPathWithPattern_sim (st : CPDF_RenderStatus) (o : CPDF_PageObject) (mt : CFX_Matrix) (c : CPDF_Color) (s : Bool) :
    Sim keep d (DrawPathWithPattern env st o mt c s)
      (DrawPathWithPattern env st o mt c s) := by
  unfold DrawPathWithPattern
  repeat' (first
    | exact Sim_pure _
    | exact Sim_notreached
    | exact Sim_call env hE _ _ rfl
    | exact Sim_alloc
    | exact DrawTilingPattern_sim env keep hE d _ _ _ _ _
    | exact DrawShadingPattern_sim env keep hE d _ _ _ _ _
    | refine Sim_bind ?_ (fun _ => ?_)
    | split
    | (dsimp only))

theorem ProcessPathPattern_sim (st : CPDF_RenderStatus) (o : CPDF_PageObject) (mt : CFX_Matrix) (f : FillType) (s : Bool) :
    Sim keep d (ProcessPathPattern env st o mt f s)
      (ProcessPathPattern env st o mt f s) := by
  unfold ProcessPathPattern
  repeat' (first
    | exact Sim_pure _
    | exact Sim_notreached
    | exact Sim_call env hE _ _ rfl
    | exact Sim_alloc
    | exact DrawPathWithPattern_sim env keep hE d _ _ _ _ _
    | refine Sim_bind ?_ (fun _ => ?_)
    | split
    | (dsimp only))

theorem ProcessPath_sim (st : CPDF_RenderStatus) (o : CPDF_PageObject) (mt : CFX_Matrix) :
    Sim keep d (ProcessPath env st o mt)
      (ProcessPath env st o mt) := by
  unfold ProcessPath
  repeat' (first
    | exact Sim_pure _
    | exact Sim_notreached
    | exact Sim_call env hE _ _ rfl
    | exact Sim_alloc
    | exact ProcessPathPattern_sim env keep hE d _ _ _ _ _
    | refine Sim_bind ?_ (fun _ => ?_)
    | split
    | (dsimp only))

theorem ProcessImage_sim (st : CPDF_RenderStatus) (o : CPDF_PageObject) (mt : CFX_Matrix) :
    Sim keep d (ProcessImage env st o mt)
      (ProcessImage env st o mt) := by
  unfold ProcessImage
  repeat' (first
    | exact Sim_pure _
    | exact Sim_notreached
    | exact Sim_call env hE _ _ rfl
    | refine Sim_continue_ignored env _ _ _ ?_
    | exact Sim_ask _ (fun l l1 hl => congrFun (hE.GetResult l l1 hl) _)
    | exact Sim_alloc
    | refine Sim_bind ?_ (fun _ => ?_)
    | split
    | (dsimp only))

theorem ProcessType3Text_flush_sim (st : CPDF_RenderStatus) (a : Nat) (l : List TextGlyphPos) :
    Sim keep d (ProcessType3Text.flush env st a l)
      (ProcessType3Text.flush env st a l) := by
  induction l with
  | nil => unfold ProcessType3Text.flush; exact Sim_pure _
  | cons x rest ih =>
    unfold ProcessType3Text.flush
    repeat' (first
      | exact Sim_pure _
      | exact Sim_notreached
      | exact Sim_call env hE _ _ rfl
      | exact Sim_alloc
      | exact ih
      | refine Sim_bind ?_ (fun _ => ?_)
      | split
      | (dsimp only))

theorem ProcessType3Text_bitmap_sim (st : CPDF_RenderStatus) (a f c cc : Nat) (m : CFX_Matrix) (i : Nat) (gl : List TextGlyphPos) :
    Sim keep d (ProcessType3Text.bitmap env st a f c cc m i gl)
      (ProcessType3Text.bitmap env st a f c cc m i gl) := by
  unfold ProcessType3Text.bitmap
  repeat' (first
    | exact Sim_pure _
    | exact Sim_notreached
    | exact Sim_call env hE _ _ rfl
    | refine Sim_continue_ignored env _ _ _ ?_
    | exact Sim_ask _ (fun l l1 hl => congrFun (hE.GetResult l l1 hl) _)
    | exact Sim_alloc
    | refine Sim_bind ?_ (fun _ => ?_)
    | split
    | (dsimp only))

theorem ProcessType3Text_compose_sim (b : Ref) (r : FX_RECT) (a : Nat) (l : List TextGlyphPos) :
    Sim keep d (ProcessType3Text.compose env b r a l)
      (ProcessType3Text.compose env b r a l) := by
  induction l with
  | nil => unfold ProcessType3Text.compose; exact Sim_pure _
  | cons x rest ih =>
    unfold ProcessType3Text.compose
    repeat' (first
      | exact Sim_pure _
      | exact Sim_notreached
      | exact Sim_call env hE _ _ rfl
      | exact Sim_alloc
      | exact ih
      | refine Sim_bind ?_ (fun _ => ?_)
      | split
      | (dsimp only))

theorem DrawTextPathWithPattern_loop_sim (st : CPDF_RenderStatus) (t : CPDF_PageObject) (mt tm : CFX_Matrix) (f s : Bool) (l : List (Option Nat × CFX_Matrix)) :
    Sim keep d (DrawTextPathWithPattern.loop env st t mt tm f s l)
      (DrawTextPathWithPattern.loop env st t mt tm f s l) := by
  induction l with
  | nil => unfold DrawTextPathWithPattern.loop; exact Sim_pure _
  | cons x rest ih =>
    unfold DrawTextPathWithPattern.loop
    repeat' (first
      | exact Sim_pure _
      | exact Sim_notreached
      | exact Sim_call env hE _ _ rfl
      | exact Sim_alloc
      | exact ih
      | exact ProcessPath_sim env keep hE d _ _ _
      | refine Sim_bind ?_ (fun _ => ?_)
      | split
      | (dsimp only))

theorem ProcessClipPath_paths_sim (st : CPDF_RenderStatus) (mt : CFX_Matrix) (l : List ClipSubPath) :
    Sim keep d (ProcessClipPath.paths env st mt l)
      (ProcessClipPath.paths env st mt l) := by
  induction l with
  | nil => unfold ProcessClipPath.paths; exact Sim_pure _
  | cons x rest ih =>
    unfold ProcessClipPath.paths
    repeat' (first
      | exact Sim_pure _
      | exact Sim_notreached
      | exact Sim_call env hE _ _ rfl
      | exact Sim_alloc
      | exact ih
      | refine Sim_bind ?_ (fun _ => ?_)
      | split
      | (dsimp only))

theorem ProcessTransparency_textMask_sim (t : Ref) (m : CFX_Matrix) (l : List (Option Ref)) :
    Sim keep d (ProcessTransparency.textMask env t m l)
      (ProcessTransparency.textMask env t m l) := by
  induction l with
  | nil => unfold ProcessTransparency.textMask; exact Sim_pure _
  | cons x rest ih =>
    unfold ProcessTransparency.textMask
    repeat' (first
      | exact Sim_pure _
      | exact Sim_notreached
      | exact Sim_call env hE _ _ rfl
      | exact Sim_alloc
      | exact ih
      | refine Sim_bind ?_ (fun _ => ?_)
      | split
      | (dsimp only))

end leafSim

section knotSim
variable (env : Env) (keep : Event → Bool) (hE : Blind env keep) (rso rso1 : Rso) (d : Nat)
  (h : SimRso keep d rso rso1)
include hE h

theorem RenderObjectList_loop_sim (mt : CFX_Matrix) (clip_rect : CFX_FloatRect)
    (objs : List (Option Ref)) :
    ∀ st, Sim keep d (RenderObjectList.loop env rso mt clip_rect objs st)
      (RenderObjectList.loop env rso1 mt clip_rect objs st) := by
  induction objs with
  | nil => intro st; unfold RenderObjectList.loop; exact Sim_pure _
  | cons x rest ih =>
    intro st
    unfold RenderObjectList.loop
    repeat' (first
      | exact Sim_pure _
      | exact Sim_notreached
      | exact Sim_call env hE _ _ rfl
      | exact Sim_alloc
      | exact h _ _ _
      | exact ih _
      | refine Sim_bind ?_ (fun _ => ?_)
      | split
      | (dsimp only))

theorem RenderObjectList_sim (st : CPDF_RenderStatus) (holder : Nat) (mt : CFX_Matrix) :
    Sim keep d (RenderObjectList env rso st holder mt)
      (RenderObjectList env rso1 st holder mt) := by
  unfold RenderObjectList
  repeat' (first
    | exact Sim_pure _
    | exact Sim_notreached
    | exact Sim_call env hE _ _ rfl
    | exact Sim_ask _ (fun l l1 hl => congrFun (hE.GetClipBox l l1 hl) _)
    | exact Sim_alloc
    | exact h _ _ _
    | exact RenderObjectList_loop_sim env keep hE rso rso1 d h _ _ _ _
    | refine Sim_bind ?_ (fun _ => ?_)
    | split
    | (dsimp only))

theorem DrawObjWithBackgroundToDevice_sim (st : CPDF_RenderStatus) (o : CPDF_PageObject)
    (mt : CFX_Matrix) (dev : Ref) (dm : CFX_Matrix) :
    Sim keep d (DrawObjWithBackgroundToDevice env rso st o mt dev dm)
      (DrawObjWithBackgroundToDevice env rso1 st o mt dev dm) := by
  unfold DrawObjWithBackgroundToDevice
  repeat' (first
    | exact Sim_pure _
    | exact Sim_notreached
    | exact Sim_call env hE _ _ rfl
    | exact Sim_alloc
    | exact h _ _ _
    | exact Initialize_sim env keep hE d _ _ _
    | refine Sim_bind ?_ (fun _ => ?_)
    | split
    | (dsimp only))

theorem DrawObjWithBackground_sim (st : CPDF_RenderStatus) (o : CPDF_PageObject)
    (mt : CFX_Matrix) : Sim keep d (DrawObjWithBackground env rso st o mt)
      (DrawObjWithBackground env rso1 st o mt) := by
  unfold DrawObjWithBackground
  repeat' (first
    | exact Sim_pure _
    | exact Sim_notreached
    | exact Sim_call env hE _ _ rfl
    | exact Sim_ask _ (fun l l1 hl => congrFun (hE.GetRenderCaps l l1 hl) _)
    | exact Sim_ask _ (fun l l1 hl => congrFun (hE.ScaledBufferMatrix l l1 hl) _)
    | exact Sim_alloc
    | exact h _ _ _
    | exact DrawObjWithBackgroundToDevice_sim env keep hE rso rso1 d h _ _ _ _ _
    | exact GetObjectClippedRect_sim env keep hE d _ _ _
    | refine Sim_bind ?_ (fun _ => ?_)
    | split
    | (dsimp only))

theorem ProcessForm_nested_sim (st : CPDF_RenderStatus) (o : CPDF_PageObject)
    (mt : CFX_Matrix) :
    Sim keep d (ProcessForm.nested env rso st o mt)
      (ProcessForm.nested env rso1 st o mt) := by
  unfold ProcessForm.nested
  repeat' (first
    | exact Sim_pure _
    | exact Sim_notreached
    | exact Sim_call env hE _ _ rfl
    | exact Sim_alloc
    | exact h _ _ _
    | exact RenderObjectList_sim env keep hE rso rso1 d h _ _ _
    | exact Initialize_sim env keep hE d _ _ _
    | refine Sim_bind ?_ (fun _ => ?_)
    | split
    | (dsimp only))

theorem ProcessForm_sim (st : CPDF_RenderStatus) (o : CPDF_PageObject) (mt : CFX_Matrix) :
    Sim keep d (ProcessForm env rso st o mt)
      (ProcessForm env rso1 st o mt) := by
  unfold ProcessForm
  repeat' (first
    | exact Sim_pure _
    | exact Sim_notreached
    | exact Sim_call env hE _ _ rfl
    | exact Sim_alloc
    | exact h _ _ _
    | exact ProcessForm_nested_sim env keep hE rso rso1 d h _ _ _
    | refine Sim_bind ?_ (fun _ => ?_)
    | split
    | (dsimp only))

theorem Type3Status_sim (st : CPDF_RenderStatus) (dev : Ref) (o : CPDF_RenderOptions)
    (f c a t : Nat) (ps : Option CPDF_GraphicStates) :
    Sim keep d (Type3Status env st dev o f c a t ps)
      (Type3Status env st dev o f c a t ps) := by
  unfold Type3Status
  repeat' (first
    | exact Sim_pure _
    | exact Sim_notreached
    | exact Sim_call env hE _ _ rfl
    | exact Sim_alloc
    | exact h _ _ _
    | exact Initialize_sim env keep hE d _ _ _
    | refine Sim_bind ?_ (fun _ => ?_)
    | split
    | (dsimp only))

theorem ProcessType3Text_content_sim (st : CPDF_RenderStatus) (t : CPDF_PageObject)
    (a : Nat) (al : Int) (f c : Nat) (m : CFX_Matrix) (i : Nat) (gl : List TextGlyphPos) :
    Sim keep d (ProcessType3Text.content env rso st t a al f c m i gl)
      (ProcessType3Text.content env rso1 st t a al f c m i gl) := by
  unfold ProcessType3Text.content
  repeat' (first
    | exact Sim_pure _
    | exact Sim_notreached
    | exact Sim_call env hE _ _ rfl
    | exact Sim_alloc
    | exact h _ _ _
    | exact Type3Status_sim env keep hE rso rso1 d h _ _ _ _ _ _ _ _
    | exact RenderObjectList_sim env keep hE rso rso1 d h _ _ _
    | exact ProcessType3Text_flush_sim env keep hE d _ _ _
    | refine Sim_bind ?_ (fun _ => ?_)
    | split
    | (dsimp only))

theorem ProcessType3Text_loop_sim (st : CPDF_RenderStatus) (t : CPDF_PageObject)
    (mt : CFX_Matrix) (a : Nat) (al : Int) (f : Nat) (cm : CFX_Matrix) (codes : List Nat) :
    ∀ (i : Nat) (gl : List TextGlyphPos),
      Sim keep d (ProcessType3Text.loop env rso st t mt a al f cm codes i gl)
      (ProcessType3Text.loop env rso1 st t mt a al f cm codes i gl) := by
  induction codes with
  | nil => intro i gl; unfold ProcessType3Text.loop; exact Sim_pure _
  | cons x rest ih =>
    intro i gl
    unfold ProcessType3Text.loop
    repeat' (first
      | exact Sim_pure _
      | exact Sim_notreached
      | exact Sim_call env hE _ _ rfl
      | exact Sim_alloc
      | exact h _ _ _
      | exact ih _ _
      | exact ProcessType3Text_content_sim env keep hE rso rso1 d h _ _ _ _ _ _ _ _ _
      | exact ProcessType3Text_bitmap_sim env keep hE d _ _ _ _ _ _ _ _
      | refine Sim_bind ?_ (fun _ => ?_)
      | split
      | (dsimp only))

theorem ProcessType3Text_sim (st : CPDF_RenderStatus) (t : CPDF_PageObject) (mt : CFX_Matrix) :
    Sim keep d (ProcessType3Text env rso st t mt)
      (ProcessType3Text env rso1 st t mt) := by
  unfold ProcessType3Text
  repeat' (first
    | exact Sim_pure _
    | exact Sim_notreached
    | exact Sim_call env hE _ _ rfl
    | exact Sim_alloc
    | exact h _ _ _
    | exact ProcessType3Text_loop_sim env keep hE rso rso1 d h _ _ _ _ _ _ _ _ _ _
    | exact ProcessType3Text_compose_sim env keep hE d _ _ _ _
    | refine Sim_bind ?_ (fun _ => ?_)
    | split
    | (dsimp only))

theorem DrawTextPathWithPattern_sim (st : CPDF_RenderStatus) (t : CPDF_PageObject)
    (mt tm : CFX_Matrix) (f s : Bool) :
    Sim keep d (DrawTextPathWithPattern env rso st t mt tm f s)
      (DrawTextPathWithPattern env rso1 st t mt tm f s) := by
  unfold DrawTextPathWithPattern
  repeat' (first
    | exact Sim_pure _
    | exact Sim_notreached
    | exact Sim_call env hE _ _ rfl
    | exact Sim_alloc
    | exact h _ _ _
    | exact DrawTextPathWithPattern_loop_sim env keep hE d _ _ _ _ _ _ _
    | refine Sim_bind ?_ (fun _ => ?_)
    | split
    | (dsimp only))

theorem ProcessText_paint_sim (st : CPDF_RenderStatus) (t : CPDF_PageObject) (mt : CFX_Matrix)
    (c : Option Ref) (f s cl : Bool) :
    Sim keep d (ProcessText.paint env rso st t mt c f s cl)
      (ProcessText.paint env rso1 st t mt c f s cl) := by
  unfold ProcessText.paint
  repeat' (first
    | exact Sim_pure _
    | exact Sim_notreached
    | exact Sim_call env hE _ _ rfl
    | exact Sim_alloc
    | exact h _ _ _
    | exact DrawTextPathWithPattern_sim env keep hE rso rso1 d h _ _ _ _ _ _
    | refine Sim_bind ?_ (fun _ => ?_)
    | split
    | (dsimp only))

theorem ProcessText_sim (st : CPDF_RenderStatus) (t : CPDF_PageObject) (mt : CFX_Matrix)
    (c : Option Ref) : Sim keep d (ProcessText env rso st t mt c)
      (ProcessText env rso1 st t mt c) := by
  unfold ProcessText
  repeat' (first
    | exact Sim_pure _
    | exact Sim_notreached
    | exact Sim_call env hE _ _ rfl
    | exact Sim_alloc
    | exact h _ _ _
    | exact ProcessText_paint_sim env keep hE rso rso1 d h _ _ _ _ _ _ _
    | exact ProcessType3Text_sim env keep hE rso rso1 d h _ _ _
    | refine Sim_bind ?_ (fun _ => ?_)
    | split
    | (dsimp only))

theorem ProcessObjectNoClip_sim (st : CPDF_RenderStatus) (o : CPDF_PageObject)
    (mt : CFX_Matrix) : Sim keep d (ProcessObjectNoClip env rso st o mt)
      (ProcessObjectNoClip env rso1 st o mt) := by
  unfold ProcessObjectNoClip
  repeat' (first
    | exact Sim_pure _
    | exact Sim_notreached
    | exact Sim_call env hE _ _ rfl
    | exact Sim_alloc
    | exact h _ _ _
    | exact ProcessText_sim env keep hE rso rso1 d h _ _ _ _
    | exact ProcessForm_sim env keep hE rso rso1 d h _ _ _
    | exact DrawObjWithBackground_sim env keep hE rso rso1 d h _ _ _
    | exact ProcessImage_sim env keep hE d _ _ _
    | exact ProcessPath_sim env keep hE d _ _ _
    | exact ProcessShading_sim env keep hE d _ _ _
    | refine Sim_bind ?_ (fun _ => ?_)
    | split
    | (dsimp only))

theorem ProcessClipPath_texts_sim (mt : CFX_Matrix) (l : List (Option Ref)) :
    ∀ (c : Option Ref) (st : CPDF_RenderStatus),
      Sim keep d (ProcessClipPath.texts env rso mt l c st)
      (ProcessClipPath.texts env rso1 mt l c st) := by
  induction l with
  | nil => intro c st; unfold ProcessClipPath.texts; exact Sim_pure _
  | cons x rest ih =>
    intro c st
    unfold ProcessClipPath.texts
    repeat' (first
      | exact Sim_pure _
      | exact Sim_notreached
      | exact Sim_call env hE _ _ rfl
      | exact Sim_alloc
      | exact h _ _ _
      | exact ih _ _
      | exact ProcessText_sim env keep hE rso rso1 d h _ _ _ _
      | refine Sim_bind ?_ (fun _ => ?_)
      | split
      | (dsimp only))

theorem ProcessClipPath_sim (st : CPDF_RenderStatus) (c : CPDF_ClipPath) (mt : CFX_Matrix) :
    Sim keep d (ProcessClipPath env rso st c mt)
      (ProcessClipPath env rso1 st c mt) := by
  unfold ProcessClipPath
  repeat' (first
    | exact Sim_pure _
    | exact Sim_notreached
    | exact Sim_call env hE _ _ rfl
    | exact Sim_ask _ (fun l l1 hl => congrFun (hE.GetRenderCaps l l1 hl) _)
    | exact Sim_alloc
    | exact h _ _ _
    | exact ProcessClipPath_texts_sim env keep hE rso rso1 d h _ _ _ _
    | exact ProcessClipPath_paths_sim env keep hE d _ _ _
    | refine Sim_bind ?_ (fun _ => ?_)
    | split
    | (dsimp only))

theorem LoadSMask_sim (st : CPDF_RenderStatus) (sd : Nat) (r : FX_RECT) (m : CFX_Matrix) :
    Sim keep d (LoadSMask env rso st sd r m)
      (LoadSMask env rso1 st sd r m) := by
  unfold LoadSMask
  repeat' (first
    | exact Sim_pure _
    | exact Sim_notreached
    | exact Sim_call env hE _ _ rfl
    | exact Sim_alloc
    | exact h _ _ _
    | exact RenderObjectList_sim env keep hE rso rso1 d h _ _ _
    | exact Initialize_sim env keep hE d _ _ _
    | refine Sim_bind ?_ (fun _ => ?_)
    | split
    | (dsimp only))

theorem ProcessTransparency_nested_sim (st : CPDF_RenderStatus) (o : CPDF_PageObject)
    (v : TransparencyLocals) (b : Ref) (nm : CFX_Matrix) :
    Sim keep d (ProcessTransparency.nested env rso st o v b nm)
      (ProcessTransparency.nested env rso1 st o v b nm) := by
  unfold ProcessTransparency.nested
  repeat' (first
    | exact Sim_pure _
    | exact Sim_notreached
    | exact Sim_call env hE _ _ rfl
    | exact Sim_alloc
    | exact h _ _ _
    | exact ProcessObjectNoClip_sim env keep hE rso rso1 d h _ _ _
    | exact Initialize_sim env keep hE d _ _ _
    | refine Sim_bind ?_ (fun _ => ?_)
    | split
    | (dsimp only))

theorem ProcessTransparency_render_sim (st : CPDF_RenderStatus) (o : CPDF_PageObject)
    (mt : CFX_Matrix) (v : TransparencyLocals) (r : FX_RECT) (b : Ref) (nm : CFX_Matrix)
    (tm : Option Ref) :
    Sim keep d (ProcessTransparency.render env rso st o mt v r b nm tm)
      (ProcessTransparency.render env rso1 st o mt v r b nm tm) := by
  unfold ProcessTransparency.render
  repeat' (first
    | exact Sim_pure _
    | exact Sim_notreached
    | exact Sim_call env hE _ _ rfl
    | exact Sim_alloc
    | exact h _ _ _
    | exact ProcessTransparency_nested_sim env keep hE rso rso1 d h _ _ _ _ _
    | exact LoadSMask_sim env keep hE rso rso1 d h _ _ _ _
    | exact CompositeDIBitmap_sim env keep hE d _ _ _ _ _ _ _ _
    | refine Sim_bind ?_ (fun _ => ?_)
    | split
    | (dsimp only))

theorem ProcessTransparency_buffer_sim (st : CPDF_RenderStatus) (o : CPDF_PageObject)
    (mt : CFX_Matrix) (v : TransparencyLocals) :
    Sim keep d (ProcessTransparency.buffer env rso st o mt v)
      (ProcessTransparency.buffer env rso1 st o mt v) := by
  unfold ProcessTransparency.buffer
  repeat' (first
    | exact Sim_pure _
    | exact Sim_notreached
    | exact Sim_call env hE _ _ rfl
    | exact Sim_ask _ (fun l l1 hl => congrFun (hE.GetClipBox l l1 hl) _)
    | exact Sim_ask _ (fun l l1 hl => congrFun (hE.GetRenderCaps l l1 hl) _)
    | exact Sim_alloc
    | exact h _ _ _
    | exact ProcessTransparency_render_sim env keep hE rso rso1 d h _ _ _ _ _ _ _ _
    | exact ProcessTransparency_textMask_sim env keep hE d _ _ _
    | exact GetCompatibleArgbFormat_sim env keep hE d _
    | refine Sim_bind ?_ (fun _ => ?_)
    | split
    | (dsimp only))

theorem ProcessTransparency_sim (st : CPDF_RenderStatus) (o : CPDF_PageObject)
    (mt : CFX_Matrix) :
    Sim keep d (ProcessTransparency env rso st o mt)
      (ProcessTransparency env rso1 st o mt) := by
  unfold ProcessTransparency
  repeat' (first
    | exact Sim_pure _
    | exact Sim_notreached
    | exact Sim_call env hE _ _ rfl
    | exact Sim_ask _ (fun l l1 hl => congrFun (hE.GetRenderCaps l l1 hl) _)
    | exact Sim_alloc
    | exact h _ _ _
    | exact ProcessTransparency_buffer_sim env keep hE rso rso1 d h _ _ _ _
    | exact DrawObjWithBackground_sim env keep hE rso rso1 d h _ _ _
    | refine Sim_bind ?_ (fun _ => ?_)
    | split
    | (dsimp only))

theorem RenderSingleObject_body_sim (st : CPDF_RenderStatus) (o : CPDF_PageObject)
    (mt : CFX_Matrix) : Sim keep d (RenderSingleObject.body env rso st o mt)
      (RenderSingleObject.body env rso1 st o mt) := by
  unfold RenderSingleObject.body
  repeat' (first
    | exact Sim_pure _
    | exact Sim_notreached
    | exact Sim_call env hE _ _ rfl
    | exact Sim_alloc
    | exact h _ _ _
    | exact ProcessTransparency_sim env keep hE rso rso1 d h _ _ _
    | exact ProcessClipPath_sim env keep hE rso rso1 d h _ _ _
    | exact ProcessObjectNoClip_sim env keep hE rso rso1 d h _ _ _
    | refine Sim_bind ?_ (fun _ => ?_)
    | split
    | (dsimp only))

end knotSim

theorem RenderSingleObject_unfold (env : Env) (fuel : Nat) (st : CPDF_RenderStatus)
    (obj : CPDF_PageObject) (mt : CFX_Matrix) (g : G) :
    RenderSingleObject env (fuel + 1) st obj mt g =
      if (RenderSingleObject.enter g).depth > kRenderMaxRecursionDepth then
        .ok st { RenderSingleObject.enter g with depth := g.depth }
      else
        RenderSingleObject.leave g.depth
          (RenderSingleObject.body env (RenderSingleObject env fuel) st obj mt
            (RenderSingleObject.enter g)) := by
  conv_lhs => unfold RenderSingleObject
  simp only
  split
  · rfl
  · cases RenderSingleObject.body env (RenderSingleObject env fuel) st obj mt
      (RenderSingleObject.enter g) <;> rfl

theorem RenderSingleObject_sim (env : Env) (keep : Event → Bool) (hE : Blind env keep) :
    ∀ (deep fuel d : Nat), kRenderMaxRecursionDepth < fuel + d →
      SimRso keep d (RenderSingleObject env fuel) (RenderSingleObject env deep) := by
  intro deep
  induction deep with
  | zero =>
    intro fuel d _ st obj mt g g1 _ _
    trivial
  | succ m ih =>
    intro fuel d hfuel st obj mt g g1 hg hdeep
    have hpeak1 : g1.peak ≤ (RenderSingleObject.enter g1).peak := by
      simp only [RenderSingleObject.enter]
      exact le_max_left _ _
    have hcounter : g1.depth + 1 ≤ (RenderSingleObject.enter g1).peak := by
      simp only [RenderSingleObject.enter]
      exact le_max_right _ _
    rw [RenderSingleObject_unfold env m st obj mt g1]
    by_cases hguard : (RenderSingleObject.enter g1).depth > kRenderMaxRecursionDepth
    · simp only [hguard, if_true]
      refine ⟨hpeak1, trivial, fun hle => ?_⟩
      exfalso
      have h1 : (RenderSingleObject.enter g1).depth = g1.depth + 1 := rfl
      have h2 : ({ RenderSingleObject.enter g1 with depth := g1.depth } : G).peak =
          (RenderSingleObject.enter g1).peak := rfl
      rw [h2] at hle
      omega
    · simp only [hguard, if_false]
      have hd1 : g1.depth = d + 1 := by rw [hdeep.1, hg]
      have hle1 : d + 2 ≤ kRenderMaxRecursionDepth := by
        have h1 : (RenderSingleObject.enter g1).depth = g1.depth + 1 := rfl
        omega
      obtain ⟨n, rfl⟩ : ∃ n, fuel = n + 1 := by
        refine ⟨fuel - 1, ?_⟩
        unfold kRenderMaxRecursionDepth at *
        omega
      have hrec := ih n (d + 1) (by omega)
      have hbody := RenderSingleObject_body_sim env keep hE (RenderSingleObject env n)
        (RenderSingleObject env m) (d + 1) hrec st obj mt (RenderSingleObject.enter g)
        (RenderSingleObject.enter g1) (by simp [RenderSingleObject.enter, hg])
        ⟨by simp [RenderSingleObject.enter, hdeep.1], hdeep.2.1, hdeep.2.2⟩
      have hshallow : RenderSingleObject env (n + 1) st obj mt g =
          RenderSingleObject.leave g.depth
            (RenderSingleObject.body env (RenderSingleObject env n) st obj mt
              (RenderSingleObject.enter g)) :=
        RenderSingleObject_enters env n st obj mt g (by omega)
      cases hres : RenderSingleObject.body env (RenderSingleObject env m) st obj mt
          (RenderSingleObject.enter g1) with
      | ok st1 g2 =>
        rw [hres] at hbody
        simp only [RenderSingleObject.leave]
        refine ⟨hpeak1.trans hbody.1, trivial, fun hle => ?_⟩
        obtain ⟨g3, hrun, hdeep3⟩ := hbody.2.2 hle
        refine ⟨{ g3 with depth := g.depth }, ?_, ⟨hdeep.1, hdeep3.2.1, hdeep3.2.2⟩⟩
        rw [hshallow, hrun]
        rfl
      | aborted g2 =>
        rw [hres] at hbody
        simp only [RenderSingleObject.leave]
        refine ⟨hpeak1.trans hbody.1, fun hle => ?_⟩
        obtain ⟨g3, hrun, hsame⟩ := hbody.2 hle
        refine ⟨g3, ?_, hsame⟩
        rw [hshallow, hrun]
        rfl
      | starved => trivial

theorem RenderSingleObject_body_prepare (env : Env) (rso : Rso) (st : CPDF_RenderStatus)
    (obj : CPDF_PageObject) (mt : CFX_Matrix) :
    RenderSingleObject.body env rso st obj mt =
      (RenderSingleObject.prepare env rso st obj mt >>= fun r =>
        if r.1 then pure r.2 else ProcessObjectNoClip env rso r.2 obj mt) := by
  unfold RenderSingleObject.body RenderSingleObject.prepare
  simp only
  split
  · rfl
  · simp only [R_bind_assoc]

theorem ContinueSingleObject_prepare (env : Env) (rso : Rso) (st : CPDF_RenderStatus)
    (obj : CPDF_PageObject) (mt : CFX_Matrix) (pPause : Option Nat)
    (himage : obj.type = .kImage) (hflight : st.image_renderer_ = none) :
    ContinueSingleObject env rso st obj mt pPause =
      (RenderSingleObject.prepare env rso st obj mt >>= fun r =>
        if r.1 then pure (false, r.2)
        else ContinueSingleObject.start env rso r.2 obj mt pPause) := by
  unfold ContinueSingleObject RenderSingleObject.prepare ContinueSingleObject.start
  rw [hflight]
  simp only
  split
  · rfl
  · simp only [R_bind_assoc, himage, ne_eq, not_true_eq_false, if_false]

theorem ContinueSingleObject_in_flight (env : Env) (rso : Rso) (st : CPDF_RenderStatus)
    (renderer : Ref) (obj : CPDF_PageObject) (mt : CFX_Matrix) (pPause : Option Nat) :
    ContinueSingleObject env rso { st with image_renderer_ := some renderer } obj mt pPause =
      ContinueSingleObject.resume env rso { st with image_renderer_ := some renderer } renderer
        obj mt pPause := rfl

theorem DrawObjWithBackground_renderer (env : Env) (rso : Rso) (st : CPDF_RenderStatus)
    (obj : CPDF_PageObject) (mt : CFX_Matrix) (renderer : Option Ref) :
    DrawObjWithBackground env rso { st with image_renderer_ := renderer } obj mt =
      DrawObjWithBackground env rso st obj mt := rfl

theorem ContinueSingleObject_resume_finish (env : Env) (rso : Rso) (st : CPDF_RenderStatus)
    (renderer : Ref) (obj : CPDF_PageObject) (mt : CFX_Matrix) (pPause : Option Nat) :
    ContinueSingleObject.resume env rso st renderer obj mt pPause =
      (call env renderer (.ImageContinue pPause) >>= fun more =>
        if more then pure (true, st)
        else ContinueSingleObject.finish env rso st renderer obj mt) := rfl

theorem ContinueSingleObject_start_finish (env : Env) (rso : Rso) (st : CPDF_RenderStatus)
    (obj : CPDF_PageObject) (mt : CFX_Matrix) (pPause : Option Nat) :
    ContinueSingleObject.start env rso st obj mt pPause =
      (alloc >>= fun renderer =>
        call env renderer (.ImageStart obj.self mt false) >>= fun started =>
          if !started then
            ContinueSingleObject.finish env rso { st with image_renderer_ := some renderer }
              renderer obj mt
          else
            ContinueSingleObject.resume env rso { st with image_renderer_ := some renderer }
              renderer obj mt pPause) := rfl

theorem ProcessObjectNoClip_image (env : Env) (rso : Rso) (st : CPDF_RenderStatus)
    (obj : CPDF_PageObject) (mt : CFX_Matrix) (himage : obj.type = .kImage)
    (hflight : st.image_renderer_ = none) (hstd : st.std_cs_ = false) :
    ProcessObjectNoClip env rso st obj mt =
      (alloc >>= fun renderer =>
        call env renderer (.ImageStart obj.self mt false) >>= fun started =>
          (if started then call env renderer (.ImageContinue none) else pure true) >>= fun _ =>
            ContinueSingleObject.finish env rso { st with image_renderer_ := some renderer }
              renderer obj mt >>= fun r => pure r.2) := by
  unfold ProcessObjectNoClip ProcessImage ContinueSingleObject.finish
  rw [himage]
  simp only [DrawObjWithBackground_renderer, R_bind_assoc]
  cases st
  simp only at hflight hstd
  subst hflight hstd
  funext g
  simp only [R_bind_apply, alloc, call, ask]
  cases env.result g.log ⟨.fresh g.fresh, .ImageStart obj.self mt false⟩ <;>
    simp only [if_true, Bool.false_eq_true, if_false, call] <;>
    generalize env.GetResult _ (Ref.fresh g.fresh) = result <;>
    cases result <;>
    simp only [Bool.not_false, Bool.not_true, if_true, Bool.false_eq_true, if_false,
      R_bind_apply] <;>
    first
      | rfl
      | (generalize DrawObjWithBackground env rso _ obj mt _ = drawn
         cases drawn <;> rfl)

theorem ContinueSingleObject_finish_result (env : Env) (rso : Rso) (st : CPDF_RenderStatus)
    (renderer : Ref) (obj : CPDF_PageObject) (mt : CFX_Matrix) (g : G) :
    match ContinueSingleObject.finish env rso st renderer obj mt g with
    | .ok a _ => a = (false, { st with image_renderer_ := none })
    | .aborted _ => True
    | .starved => True := by
  unfold ContinueSingleObject.finish
  simp only [R_bind_apply, ask]
  cases env.GetResult g.log renderer <;>
    simp only [Bool.not_false, Bool.not_true, if_true, Bool.false_eq_true, if_false,
      R_bind_apply]
  cases DrawObjWithBackground env rso st obj mt g
  · exact rfl
  · trivial
  · trivial

theorem ContinueSingleObject_complete_first (env : Env) (rso : Rso) (obj : CPDF_PageObject)
    (mt : CFX_Matrix) (pPause : Option Nat) (rounds : Nat) (st s : CPDF_RenderStatus)
    (g g1 : G) (h : ContinueSingleObject env rso st obj mt pPause g = .ok (false, s) g1) :
    ContinueSingleObject.complete env rso obj mt pPause rounds st g = .ok (some s) g1 := by
  cases rounds <;>
    (unfold ContinueSingleObject.complete
     rw [R_bind_apply, h]
     rfl)

theorem ContinueSingleObject_complete_aborted (env : Env) (rso : Rso) (obj : CPDF_PageObject)
    (mt : CFX_Matrix) (pPause : Option Nat) (rounds : Nat) (st : CPDF_RenderStatus)
    (g g1 : G) (h : ContinueSingleObject env rso st obj mt pPause g = .aborted g1) :
    ContinueSingleObject.complete env rso obj mt pPause rounds st g = .aborted g1 := by
  cases rounds <;>
    (unfold ContinueSingleObject.complete
     rw [R_bind_apply, h])

theorem ContinueSingleObject_in_flight_call (env : Env) (rso : Rso) (st : CPDF_RenderStatus)
    (renderer : Ref) (obj : CPDF_PageObject) (mt : CFX_Matrix) (pPause : Option Nat) (g : G) :
    ContinueSingleObject env rso { st with image_renderer_ := some renderer } obj mt pPause g =
      if env.result g.log ⟨renderer, .ImageContinue pPause⟩ then
        .ok (true, { st with image_renderer_ := some renderer })
          (said g [⟨renderer, .ImageContinue pPause⟩])
      else
        ContinueSingleObject.finish env rso { st with image_renderer_ := some renderer }
          renderer obj mt (said g [⟨renderer, .ImageContinue pPause⟩]) := by
  rw [ContinueSingleObject_in_flight, ContinueSingleObject_resume_finish]
  simp only [R_bind_apply, call, said]
  split <;> rfl

theorem Deeper_continued {g g1 : G} (h : Deeper notContinue g g1) (renderer : Ref)
    (pPause : Option Nat) :
    Deeper notContinue (said g [⟨renderer, .ImageContinue pPause⟩]) g1 := by
  refine ⟨h.1, h.2.1, ?_⟩
  show g1.log.filter notContinue =
    (g.log ++ [(⟨renderer, .ImageContinue pPause⟩ : Event)]).filter notContinue
  rw [List.filter_append, h.2.2]
  simp [notContinue, isImageContinue]

theorem Deeper_continued_deep {g g1 : G} (h : Deeper notContinue g g1) (renderer : Ref)
    (pPause : Option Nat) :
    Deeper notContinue g (said g1 [⟨renderer, .ImageContinue pPause⟩]) := by
  refine ⟨h.1, h.2.1, ?_⟩
  show (g1.log ++ [(⟨renderer, .ImageContinue pPause⟩ : Event)]).filter notContinue =
    g.log.filter notContinue
  rw [List.filter_append, h.2.2]
  simp [notContinue, isImageContinue]

section pausedSim
variable (env : Env) (keep : Event → Bool) (hE : Blind env keep) (rso rso1 : Rso) (d : Nat)
variable (h : SimRso keep d rso rso1)
include hE h

theorem RenderSingleObject_prepare_sim (st : CPDF_RenderStatus) (obj : CPDF_PageObject)
    (mt : CFX_Matrix) :
    Sim keep d (RenderSingleObject.prepare env rso st obj mt)
      (RenderSingleObject.prepare env rso1 st obj mt) := by
  unfold RenderSingleObject.prepare
  simp only
  split
  · exact Sim_pure _
  · exact Sim_bind (ProcessClipPath_sim env keep hE rso rso1 d h _ _ _)
      (fun _ => ProcessTransparency_sim env keep hE rso rso1 d h _ _ _)

theorem ContinueSingleObject_finish_sim (st : CPDF_RenderStatus) (renderer : Ref)
    (obj : CPDF_PageObject) (mt : CFX_Matrix) :
    Sim keep d (ContinueSingleObject.finish env rso st renderer obj mt)
      (ContinueSingleObject.finish env rso1 st renderer obj mt) := by
  unfold ContinueSingleObject.finish
  refine Sim_bind (Sim_ask _ (fun l l1 hl => congrFun (hE.GetResult l l1 hl) _))
    (fun result => ?_)
  split
  · exact Sim_bind (DrawObjWithBackground_sim env keep hE rso rso1 d h _ _ _)
      (fun _ => Sim_pure _)
  · exact Sim_pure _

end pausedSim

theorem RenderSingleObject_prepare_good (env : Env) (rso : Rso) (d : Nat) (h : GoodRso d rso)
    (st : CPDF_RenderStatus) (obj : CPDF_PageObject) (mt : CFX_Matrix) :
    Good d (fun r => r.2.image_renderer_ = st.image_renderer_ ∧ r.2.std_cs_ = st.std_cs_)
      (RenderSingleObject.prepare env rso st obj mt) := by
  unfold RenderSingleObject.prepare
  simp only
  split
  · exact Good_pure ⟨rfl, rfl⟩
  · refine Good_bind (ProcessClipPath_good env rso d h _ _ _) (fun st1 h1 => ?_)
    intro g hg
    have h2 := ProcessTransparency_good env rso d h st1 obj mt g hg
    cases hres : ProcessTransparency env rso st1 obj mt g with
    | ok r g1 =>
      rw [hres] at h2
      have hframe : Frame { st with cur_obj_ := some obj.self } r.2 := Frame_trans h1 h2.2
      have hflight := congrArg CPDF_RenderStatus.image_renderer_ hframe
      have hstd := congrArg CPDF_RenderStatus.std_cs_ hframe
      exact ⟨h2.1, hflight, hstd⟩
    | aborted g1 =>
      rw [hres] at h2
      exact h2
    | starved =>
      rw [hres] at h2
      exact h2

/-- While an image render is in flight: the rounds of `ContinueSingleObject` against the end
of the image render one level deeper. -/
theorem ContinueSingleObject_complete_in_flight (env : Env) (hE : Blind env notContinue)
    (rso rso1 : Rso) (d : Nat) (h : SimRso notContinue d rso rso1) (st : CPDF_RenderStatus)
    (renderer : Ref) (obj : CPDF_PageObject) (mt : CFX_Matrix) (pPause : Option Nat) :
    ∀ (rounds : Nat) (g gd : G), g.depth = d → Deeper notContinue g gd →
      match ContinueSingleObject.finish env rso1 { st with image_renderer_ := some renderer }
          renderer obj mt gd with
      | .ok a g2 =>
        g2.peak ≤ kRenderMaxRecursionDepth →
          match ContinueSingleObject.complete env rso obj mt pPause rounds
              { st with image_renderer_ := some renderer } g with
          | .ok (some s) g3 => s = a.2 ∧ Deeper notContinue g3 g2
          | .ok none _ => True
          | .aborted _ => False
          | .starved => False
      | .aborted g2 =>
        g2.peak ≤ kRenderMaxRecursionDepth →
          match ContinueSingleObject.complete env rso obj mt pPause rounds
              { st with image_renderer_ := some renderer } g with
          | .ok (some _) _ => False
          | .ok none _ => True
          | .aborted g3 =>
            g3.fresh = g2.fresh ∧ g3.log.filter notContinue = g2.log.filter notContinue
          | .starved => False
      | .starved => True := by
  have hdone : ∀ (rounds : Nat) (g gd : G), g.depth = d → Deeper notContinue g gd →
      env.result g.log ⟨renderer, .ImageContinue pPause⟩ = false →
      match ContinueSingleObject.finish env rso1 { st with image_renderer_ := some renderer }
          renderer obj mt gd with
      | .ok a g2 =>
        g2.peak ≤ kRenderMaxRecursionDepth →
          match ContinueSingleObject.complete env rso obj mt pPause rounds
              { st with image_renderer_ := some renderer } g with
          | .ok (some s) g3 => s = a.2 ∧ Deeper notContinue g3 g2
          | .ok none _ => True
          | .aborted _ => False
          | .starved => False
      | .aborted g2 =>
        g2.peak ≤ kRenderMaxRecursionDepth →
          match ContinueSingleObject.complete env rso obj mt pPause rounds
              { st with image_renderer_ := some renderer } g with
          | .ok (some _) _ => False
          | .ok none _ => True
          | .aborted g3 =>
            g3.fresh = g2.fresh ∧ g3.log.filter notContinue = g2.log.filter notContinue
          | .starved => False
      | .starved => True := by
    intro rounds g gd hg hdeep hmore
    have hcall := ContinueSingleObject_in_flight_call env rso st renderer obj mt pPause g
    rw [hmore] at hcall
    simp only [Bool.false_eq_true, if_false] at hcall
    have hfin := ContinueSingleObject_finish_sim env notContinue hE rso rso1 d h
      { st with image_renderer_ := some renderer } renderer obj mt
      (said g [⟨renderer, .ImageContinue pPause⟩]) gd hg
      (Deeper_continued hdeep renderer pPause)
    have hres := ContinueSingleObject_finish_result env rso
      { st with image_renderer_ := some renderer } renderer obj mt
      (said g [⟨renderer, .ImageContinue pPause⟩])
    cases hdeepres : ContinueSingleObject.finish env rso1
        { st with image_renderer_ := some renderer } renderer obj mt gd with
    | ok a g2 =>
      rw [hdeepres] at hfin
      intro hle
      obtain ⟨g3, hrun, hd3⟩ := hfin.2.2 hle
      rw [hrun] at hres hcall
      rw [hres] at hcall
      rw [ContinueSingleObject_complete_first env rso obj mt pPause rounds _ _ g g3 hcall]
      rw [hres]
      exact ⟨rfl, hd3⟩
    | aborted g2 =>
      rw [hdeepres] at hfin
      intro hle
      obtain ⟨g3, hrun, hsame⟩ := hfin.2 hle
      rw [hrun] at hcall
      rw [ContinueSingleObject_complete_aborted env rso obj mt pPause rounds _ g g3 hcall]
      exact hsame
    | starved => trivial
  intro rounds
  induction rounds with
  | zero =>
    intro g gd hg hdeep
    cases hmore : env.result g.log ⟨renderer, .ImageContinue pPause⟩ with
    | false => exact hdone 0 g gd hg hdeep hmore
    | true =>
      have hcall := ContinueSingleObject_in_flight_call env rso st renderer obj mt pPause g
      rw [hmore] at hcall
      simp only [if_true] at hcall
      have hc : ContinueSingleObject.complete env rso obj mt pPause 0
          { st with image_renderer_ := some renderer } g =
          .ok none (said g [⟨renderer, .ImageContinue pPause⟩]) := by
        unfold ContinueSingleObject.complete
        rw [R_bind_apply, hcall]
        rfl
      rw [hc]
      cases ContinueSingleObject.finish env rso1
        { st with image_renderer_ := some renderer } renderer obj mt gd <;> simp
  | succ n ih =>
    intro g gd hg hdeep
    cases hmore : env.result g.log ⟨renderer, .ImageContinue pPause⟩ with
    | false => exact hdone (n + 1) g gd hg hdeep hmore
    | true =>
      have hcall := ContinueSingleObject_in_flight_call env rso st renderer obj mt pPause g
      rw [hmore] at hcall
      simp only [if_true] at hcall
      have hc : ContinueSingleObject.complete env rso obj mt pPause (n + 1)
          { st with image_renderer_ := some renderer } g =
          ContinueSingleObject.complete env rso obj mt pPause n
            { st with image_renderer_ := some renderer }
            (said g [⟨renderer, .ImageContinue pPause⟩]) := by
        conv_lhs => unfold ContinueSingleObject.complete
        rw [R_bind_apply, hcall]
        rfl
      rw [hc]
      exact ih (said g [⟨renderer, .ImageContinue pPause⟩]) gd hg
        (Deeper_continued hdeep renderer pPause)

theorem ContinueSingleObject_complete_image (env : Env) (rso : Rso) (st : CPDF_RenderStatus)
    (obj : CPDF_PageObject) (mt : CFX_Matrix) (pPause : Option Nat) (rounds : Nat)
    (himage : obj.type = .kImage) (hflight : st.image_renderer_ = none) :
    ContinueSingleObject.complete env rso obj mt pPause rounds st =
      (RenderSingleObject.prepare env rso st obj mt >>= fun r =>
        if r.1 then pure (some r.2)
        else
          alloc >>= fun renderer =>
            call env renderer (.ImageStart obj.self mt false) >>= fun started =>
              if !started then
                ContinueSingleObject.finish env rso
                  { r.2 with image_renderer_ := some renderer } renderer obj mt >>= fun a =>
                  pure (some a.2)
              else
                ContinueSingleObject.complete env rso obj mt pPause rounds
                  { r.2 with image_renderer_ := some renderer }) := by
  have hfinish : ∀ (k : Bool × CPDF_RenderStatus → R (Option CPDF_RenderStatus))
      (st2 : CPDF_RenderStatus) (renderer : Ref),
      (∀ s, k (false, s) = pure (some s)) →
      (ContinueSingleObject.finish env rso st2 renderer obj mt >>= k) =
        (ContinueSingleObject.finish env rso st2 renderer obj mt >>= fun a =>
          pure (some a.2)) := by
    intro k st2 renderer hk
    funext g
    rw [R_bind_apply, R_bind_apply]
    have hres := ContinueSingleObject_finish_result env rso st2 renderer obj mt g
    cases hrun : ContinueSingleObject.finish env rso st2 renderer obj mt g with
    | ok a g1 =>
      rw [hrun] at hres
      subst hres
      simp only
      rw [hk]
    | aborted g1 => rfl
    | starved => rfl
  cases rounds with
  | zero =>
    conv_lhs => unfold ContinueSingleObject.complete
    rw [ContinueSingleObject_prepare env rso st obj mt pPause himage hflight]
    simp only [R_bind_assoc]
    congr 1
    funext r
    obtain ⟨done, st2⟩ := r
    cases done with
    | true => rfl
    | false =>
      simp only [Bool.false_eq_true, if_false]
      rw [ContinueSingleObject_start_finish]
      simp only [R_bind_assoc]
      congr 1
      funext renderer
      congr 1
      funext started
      cases started with
      | false =>
        simp only [Bool.not_false, if_true]
        exact hfinish _ _ _ (fun s => rfl)
      | true => rfl
  | succ n =>
    conv_lhs => unfold ContinueSingleObject.complete
    rw [ContinueSingleObject_prepare env rso st obj mt pPause himage hflight]
    simp only [R_bind_assoc]
    congr 1
    funext r
    obtain ⟨done, st2⟩ := r
    cases done with
    | true => rfl
    | false =>
      simp only [Bool.false_eq_true, if_false]
      rw [ContinueSingleObject_start_finish]
      simp only [R_bind_assoc]
      congr 1
      funext renderer
      congr 1
      funext started
      cases started with
      | false =>
        simp only [Bool.not_false, if_true]
        exact hfinish _ _ _ (fun s => rfl)
      | true => rfl

theorem R_alloc_bind_apply {β : Type} (f : Ref → R β) (g : G) :
    (alloc >>= f) g = f (.fresh g.fresh) { g with fresh := g.fresh + 1 } := rfl

theorem R_call_bind_apply {β : Type} (env : Env) (t : Ref) (c : Call) (f : Bool → R β) (g : G) :
    (call env t c >>= f) g = f (env.result g.log ⟨t, c⟩) (said g [⟨t, c⟩]) := rfl

/-- An image object whose render is not yet started: the rounds of `ContinueSingleObject`
against `ProcessObjectNoClip` one level deeper. -/
theorem ContinueSingleObject_complete_started (env : Env) (hE : Blind env notContinue)
    (rso rso1 : Rso) (d : Nat) (h : SimRso notContinue d rso rso1) (st : CPDF_RenderStatus)
    (obj : CPDF_PageObject) (mt : CFX_Matrix) (pPause : Option Nat) (rounds : Nat)
    (himage : obj.type = .kImage) (hflight : st.image_renderer_ = none)
    (hstd : st.std_cs_ = false) (g gd : G) (hg : g.depth = d)
    (hdeep : Deeper notContinue g gd) :
    match ProcessObjectNoClip env rso1 st obj mt gd with
    | .ok s g2 =>
      g2.peak ≤ kRenderMaxRecursionDepth →
        match (alloc >>= fun renderer =>
            call env renderer (.ImageStart obj.self mt false) >>= fun started =>
              if !started then
                ContinueSingleObject.finish env rso
                  { st with image_renderer_ := some renderer } renderer obj mt >>= fun a =>
                  pure (some a.2)
              else
                ContinueSingleObject.complete env rso obj mt pPause rounds
                  { st with image_renderer_ := some renderer }) g with
        | .ok (some s1) g3 => s1 = s ∧ Deeper notContinue g3 g2
        | .ok none _ => True
        | .aborted _ => False
        | .starved => False
    | .aborted g2 =>
      g2.peak ≤ kRenderMaxRecursionDepth →
        match (alloc >>= fun renderer =>
            call env renderer (.ImageStart obj.self mt false) >>= fun started =>
              if !started then
                ContinueSingleObject.finish env rso
                  { st with image_renderer_ := some renderer } renderer obj mt >>= fun a =>
                  pure (some a.2)
              else
                ContinueSingleObject.complete env rso obj mt pPause rounds
                  { st with image_renderer_ := some renderer }) g with
        | .ok (some _) _ => False
        | .ok none _ => True
        | .aborted g3 =>
          g3.fresh = g2.fresh ∧ g3.log.filter notContinue = g2.log.filter notContinue
        | .starved => False
    | .starved => True := by
  rw [ProcessObjectNoClip_image env rso1 st obj mt himage hflight hstd]
  rw [R_alloc_bind_apply, R_alloc_bind_apply, R_call_bind_apply, R_call_bind_apply]
  have hda := Deeper_said
    (show Deeper notContinue { g with fresh := g.fresh + 1 } { gd with fresh := gd.fresh + 1 }
      from ⟨hdeep.1, by show gd.fresh + 1 = g.fresh + 1; rw [hdeep.2.1], hdeep.2.2⟩)
    ⟨.fresh g.fresh, .ImageStart obj.self mt false⟩
  have hanswer := hE.result g.log gd.log ⟨.fresh g.fresh, .ImageStart obj.self mt false⟩
    hdeep.2.2.symm rfl
  obtain ⟨hd1, hfresh, hlog⟩ := hdeep
  simp only [said]
  simp only [hfresh] at hda ⊢
  rw [← hanswer]
  have hga : (G.mk g.depth g.peak (g.fresh + 1)
      (g.log ++ [⟨.fresh g.fresh, .ImageStart obj.self mt false⟩])).depth = d := hg
  generalize G.mk g.depth g.peak (g.fresh + 1)
    (g.log ++ [⟨.fresh g.fresh, .ImageStart obj.self mt false⟩]) = ga at hda hga ⊢
  generalize G.mk gd.depth gd.peak (g.fresh + 1)
    (gd.log ++ [⟨.fresh g.fresh, .ImageStart obj.self mt false⟩]) = gda at hda ⊢
  cases hstarted : env.result g.log ⟨.fresh g.fresh, .ImageStart obj.self mt false⟩ with
  | false =>
    simp only [Bool.not_false, if_true, Bool.false_eq_true, if_false, R_pure_bind]
    have hfin := ContinueSingleObject_finish_sim env notContinue hE rso rso1 d h
      { st with image_renderer_ := some (.fresh g.fresh) } (.fresh g.fresh) obj mt ga gda
      hga hda
    rw [R_bind_apply, R_bind_apply]
    cases hdr : ContinueSingleObject.finish env rso1
        { st with image_renderer_ := some (.fresh g.fresh) } (.fresh g.fresh) obj mt gda with
    | ok a g2 =>
      rw [hdr] at hfin
      intro hle
      obtain ⟨g3, hrun, hd3⟩ := hfin.2.2 hle
      rw [hrun]
      exact ⟨rfl, hd3⟩
    | aborted g2 =>
      rw [hdr] at hfin
      intro hle
      obtain ⟨g3, hrun, hsame⟩ := hfin.2 hle
      rw [hrun]
      exact hsame
    | starved => trivial
  | true =>
    simp only [Bool.not_true, if_true, Bool.false_eq_true, if_false]
    rw [R_call_bind_apply, R_bind_apply]
    have hrounds := ContinueSingleObject_complete_in_flight env hE rso rso1 d h st
      (.fresh g.fresh) obj mt pPause rounds ga
      (said gda [⟨.fresh g.fresh, .ImageContinue none⟩]) hga
      (Deeper_continued_deep hda (.fresh g.fresh) none)
    cases hdr : ContinueSingleObject.finish env rso1
        { st with image_renderer_ := some (.fresh g.fresh) } (.fresh g.fresh) obj mt
        (said gda [⟨.fresh g.fresh, .ImageContinue none⟩]) with
    | ok a g2 =>
      rw [hdr] at hrounds
      exact hrounds
    | aborted g2 =>
      rw [hdr] at hrounds
      exact hrounds
    | starved => trivial

/-- An image object with no render in flight: `ContinueSingleObject` driven to completion
against the body of `RenderSingleObject` one level deeper. -/
theorem ContinueSingleObject_complete_sim (env : Env) (hE : Blind env notContinue)
    (rso rso1 : Rso) (d : Nat) (h : SimRso notContinue d rso rso1) (hgood : GoodRso d rso)
    (st : CPDF_RenderStatus) (obj : CPDF_PageObject) (mt : CFX_Matrix) (pPause : Option Nat)
    (rounds : Nat) (himage : obj.type = .kImage) (hflight : st.image_renderer_ = none)
    (hstd : st.std_cs_ = false) (g gd : G) (hg : g.depth = d)
    (hdeep : Deeper notContinue g gd) :
    match RenderSingleObject.body env rso1 st obj mt gd with
    | .ok s g2 =>
      g2.peak ≤ kRenderMaxRecursionDepth →
        match ContinueSingleObject.complete env rso obj mt pPause rounds st g with
        | .ok (some s1) g3 => s1 = s ∧ Deeper notContinue g3 g2
        | .ok none _ => True
        | .aborted _ => False
        | .starved => False
    | .aborted g2 =>
      g2.peak ≤ kRenderMaxRecursionDepth →
        match ContinueSingleObject.complete env rso obj mt pPause rounds st g with
        | .ok (some _) _ => False
        | .ok none _ => True
        | .aborted g3 =>
          g3.fresh = g2.fresh ∧ g3.log.filter notContinue = g2.log.filter notContinue
        | .starved => False
    | .starved => True := by
  rw [RenderSingleObject_body_prepare,
    ContinueSingleObject_complete_image env rso st obj mt pPause rounds himage hflight,
    R_bind_apply, R_bind_apply]
  have hprep := RenderSingleObject_prepare_sim env notContinue hE rso rso1 d h st obj mt g gd
    hg hdeep
  have hframe := RenderSingleObject_prepare_good env rso d hgood st obj mt g hg
  cases hp : RenderSingleObject.prepare env rso1 st obj mt gd with
  | ok r gb1 =>
    rw [hp] at hprep
    obtain ⟨hpeak, hdepth, hsame⟩ := hprep
    obtain ⟨done, st2⟩ := r
    simp only
    cases done with
    | true =>
      simp only [if_true]
      intro hle
      obtain ⟨gb, hrun, hdb⟩ := hsame hle
      rw [hrun]
      exact ⟨rfl, hdb⟩
    | false =>
      simp only [Bool.false_eq_true, if_false]
      have hmono := ProcessObjectNoClip_sim env notContinue hE rso rso1 d h st2 obj mt
        { gb1 with depth := d } gb1 rfl
        ⟨by show gb1.depth = d + 1; rw [hdepth, hdeep.1, hg], rfl, rfl⟩
      have hstart : ∀ gb, RenderSingleObject.prepare env rso st obj mt g = .ok (false, st2) gb →
          Deeper notContinue gb gb1 → _ := fun gb hrun hdb =>
        ContinueSingleObject_complete_started env hE rso rso1 d h st2 obj mt pPause rounds
          himage
          (by
            rw [hrun] at hframe
            exact hframe.2.1.trans hflight)
          (by
            rw [hrun] at hframe
            exact hframe.2.2.trans hstd)
          gb gb1
          (by
            have h1 := hdb.1
            have h2 := hdeep.1
            omega)
          hdb
      cases hd : ProcessObjectNoClip env rso1 st2 obj mt gb1 with
      | ok s g2 =>
        rw [hd] at hmono
        intro hle
        obtain ⟨gb, hrun, hdb⟩ := hsame (hmono.1.trans hle)
        have hthis := hstart gb hrun hdb
        rw [hd] at hthis
        rw [hrun]
        exact hthis hle
      | aborted g2 =>
        rw [hd] at hmono
        intro hle
        obtain ⟨gb, hrun, hdb⟩ := hsame (hmono.1.trans hle)
        have hthis := hstart gb hrun hdb
        rw [hd] at hthis
        rw [hrun]
        exact hthis hle
      | starved => trivial
  | aborted gb1 =>
    rw [hp] at hprep
    intro hle
    obtain ⟨g3, hrun, hsame⟩ := hprep.2 hle
    rw [hrun]
    exact hsame
  | starved => trivial

/-- An image object with no render in flight, on a status that does not ask for the standard
colour space: `ContinueSingleObject` driven to completion against `RenderSingleObject`, up to
the calls that continue the renderer. -/
theorem ContinueSingleObject_complete_below_limit (env : Env) (hE : Blind env notContinue)
    (st : CPDF_RenderStatus) (obj : CPDF_PageObject) (mt : CFX_Matrix) (pPause : Option Nat)
    (rounds : Nat) (himage : obj.type = .kImage) (hflight : st.image_renderer_ = none)
    (hstd : st.std_cs_ = false) (g g0 : G) (halike : Alike g g0) :
    match RenderSingleObject env (kRenderMaxRecursionDepth + 1) st obj mt g0 with
    | .ok s g1 =>
      g1.peak ≤ kRenderMaxRecursionDepth →
        match ContinueSingleObject.complete env
            (RenderSingleObject env (kRenderMaxRecursionDepth + 1)) obj mt pPause rounds st
            g with
        | .ok (some s1) g2 =>
          s1 = s ∧ g2.depth = g1.depth ∧ g2.fresh = g1.fresh ∧
            g2.log.filter notContinue = g1.log.filter notContinue
        | .ok none _ => True
        | .aborted _ => False
        | .starved => False
    | .aborted g1 =>
      g1.peak ≤ kRenderMaxRecursionDepth →
        match ContinueSingleObject.complete env
            (RenderSingleObject env (kRenderMaxRecursionDepth + 1)) obj mt pPause rounds st
            g with
        | .ok (some _) _ => False
        | .ok none _ => True
        | .aborted g2 =>
          g2.fresh = g1.fresh ∧ g2.log.filter notContinue = g1.log.filter notContinue
        | .starved => False
    | .starved => False := by
  have hgood := RenderSingleObject_total env g0.depth st obj mt g0 rfl
  have hsim := ContinueSingleObject_complete_sim env hE
    (RenderSingleObject env (kRenderMaxRecursionDepth + 1))
    (RenderSingleObject env kRenderMaxRecursionDepth) g.depth
    (RenderSingleObject_sim env notContinue hE kRenderMaxRecursionDepth
      (kRenderMaxRecursionDepth + 1) g.depth (by omega))
    (RenderSingleObject_total env g.depth) st obj mt pPause rounds himage hflight hstd g
    (RenderSingleObject.enter g0) rfl
    ⟨by simp [RenderSingleObject.enter, halike.1], halike.2.1, by
      show g0.log.filter notContinue = g.log.filter notContinue
      rw [halike.2.2]⟩
  rw [RenderSingleObject_unfold env kRenderMaxRecursionDepth st obj mt g0] at hgood ⊢
  by_cases hguard : (RenderSingleObject.enter g0).depth > kRenderMaxRecursionDepth
  · simp only [hguard, if_true]
    intro hle
    exfalso
    have h1 : (RenderSingleObject.enter g0).depth = g0.depth + 1 := rfl
    have h2 : g0.depth + 1 ≤ (RenderSingleObject.enter g0).peak := by
      simp only [RenderSingleObject.enter]
      exact le_max_right _ _
    have h3 : ({ RenderSingleObject.enter g0 with depth := g0.depth } : G).peak =
        (RenderSingleObject.enter g0).peak := rfl
    rw [h3] at hle
    omega
  · simp only [hguard, if_false] at hgood ⊢
    cases hres : RenderSingleObject.body env (RenderSingleObject env kRenderMaxRecursionDepth)
        st obj mt (RenderSingleObject.enter g0) with
    | ok s g2 =>
      rw [hres] at hsim
      simp only [RenderSingleObject.leave]
      intro hle
      have hthis := hsim hle
      have hdeep2 : g2.depth = g0.depth + 1 := by
        have hb := RenderSingleObject_body_sim env notContinue hE
          (RenderSingleObject env (kRenderMaxRecursionDepth + 1))
          (RenderSingleObject env kRenderMaxRecursionDepth) g.depth
          (RenderSingleObject_sim env notContinue hE kRenderMaxRecursionDepth
            (kRenderMaxRecursionDepth + 1) g.depth (by omega)) st obj mt g
          (RenderSingleObject.enter g0) rfl
          ⟨by simp [RenderSingleObject.enter, halike.1], halike.2.1, by
            show g0.log.filter notContinue = g.log.filter notContinue
            rw [halike.2.2]⟩
        rw [hres] at hb
        exact hb.2.1
      cases hc : ContinueSingleObject.complete env
          (RenderSingleObject env (kRenderMaxRecursionDepth + 1)) obj mt pPause rounds st
          g with
      | ok r g3 =>
        rw [hc] at hthis
        cases r with
        | none => trivial
        | some s1 =>
          obtain ⟨hs, hd3⟩ := hthis
          refine ⟨hs, ?_, hd3.2.1.symm, hd3.2.2.symm⟩
          have h1 := hd3.1
          show g3.depth = g0.depth
          omega
      | aborted g3 =>
        rw [hc] at hthis
        exact hthis
      | starved =>
        rw [hc] at hthis
        exact hthis
    | aborted g2 =>
      rw [hres] at hsim
      simp only [RenderSingleObject.leave]
      intro hle
      have hthis := hsim hle
      cases hc : ContinueSingleObject.complete env
          (RenderSingleObject env (kRenderMaxRecursionDepth + 1)) obj mt pPause rounds st
          g with
      | ok r g3 =>
        rw [hc] at hthis
        cases r with
        | none => trivial
        | some s1 => exact hthis
      | aborted g3 =>
        rw [hc] at hthis
        exact hthis
      | starved =>
        rw [hc] at hthis
        exact hthis
    | starved =>
      rw [hres] at hgood
      exact hgood

theorem ContinueSingleObject_image_eq_body (env : Env) (rso : Rso) (st : CPDF_RenderStatus)
    (pObj : CPDF_PageObject) (mt : CFX_Matrix) (g : G) (hgood : GoodRso g.depth rso)
    (himage : pObj.type = .kImage) (hflight : st.image_renderer_ = none)
    (hstd : st.std_cs_ = false)
    (hdone : ∀ log renderer, env.result log ⟨renderer, .ImageContinue none⟩ = false) :
    ContinueSingleObject env rso st pObj mt none g =
      match RenderSingleObject.body env rso st pObj mt g with
      | .ok s g1 => .ok (false, s) g1
      | .aborted g1 => .aborted g1
      | .starved => .starved := by
  unfold ContinueSingleObject RenderSingleObject.body
  rw [hflight]
  simp only
  split
  · rfl
  · rw [R_bind_apply, R_bind_apply]
    have hclipgood := ProcessClipPath_good env rso g.depth hgood
      { st with cur_obj_ := some pObj.self, image_renderer_ := none } pObj.states.clip_path mt
      g rfl
    cases hclip : ProcessClipPath env rso
        { st with cur_obj_ := some pObj.self, image_renderer_ := none }
        pObj.states.clip_path mt g with
    | starved => rfl
    | aborted g1 => rfl
    | ok st1 g1 =>
      rw [hclip] at hclipgood
      simp only
      rw [R_bind_apply, R_bind_apply]
      have htrgood := ProcessTransparency_good env rso g.depth hgood st1 pObj mt g1
        hclipgood.1.2
      cases htr : ProcessTransparency env rso st1 pObj mt g1 with
      | starved => rfl
      | aborted g2 => rfl
      | ok r g2 =>
        rw [htr] at htrgood
        obtain ⟨handled, st2⟩ := r
        simp only
        cases handled with
        | true => rfl
        | false =>
          have hframe : Frame { st with cur_obj_ := some pObj.self, image_renderer_ := none }
              st2 := Frame_trans hclipgood.2 htrgood.2
          have hstd2 : st2.std_cs_ = false := by
            have := congrArg CPDF_RenderStatus.std_cs_ hframe
            exact this.trans hstd
          have hflight2 : st2.image_renderer_ = none := by
            have := congrArg CPDF_RenderStatus.image_renderer_ hframe
            exact this
          simp only [Bool.false_eq_true, if_false, himage, ne_eq, not_true_eq_false]
          unfold ProcessObjectNoClip ProcessImage ContinueSingleObject.resume
          rw [himage]
          simp only [DrawObjWithBackground_renderer]
          cases st2
          simp only at hflight2 hstd2
          subst hflight2 hstd2
          simp only [R_bind_apply, alloc, call, ask, hdone, Bool.false_eq_true, if_false]
          cases hstarted : env.result g2.log
              ⟨.fresh g2.fresh, .ImageStart pObj.self mt false⟩ <;>
            simp only [Bool.not_false, Bool.not_true, if_true, Bool.false_eq_true, if_false,
              R_bind_apply, ask, call, hdone] <;>
            generalize env.GetResult _ (Ref.fresh g2.fresh) = result <;>
            cases result <;>
            simp only [Bool.not_false, Bool.not_true, if_true, Bool.false_eq_true, if_false,
              R_bind_apply] <;>
            first
              | rfl
              | (generalize DrawObjWithBackground env rso _ pObj mt _ = drawn
                 cases drawn <;> rfl)

theorem RenderSingleObject_body_below_limit (env : Env) (st : CPDF_RenderStatus)
    (obj : CPDF_PageObject) (mt : CFX_Matrix) (g g0 : G) (halike : Alike g g0) :
    match RenderSingleObject env (kRenderMaxRecursionDepth + 1) st obj mt g0 with
    | .ok s g1 =>
      g1.peak ≤ kRenderMaxRecursionDepth →
        ∃ g2, RenderSingleObject.body env
            (RenderSingleObject env (kRenderMaxRecursionDepth + 1)) st obj mt g = .ok s g2 ∧
          Alike g2 g1
    | .aborted g1 =>
      g1.peak ≤ kRenderMaxRecursionDepth →
        ∃ g2, RenderSingleObject.body env
            (RenderSingleObject env (kRenderMaxRecursionDepth + 1)) st obj mt g = .aborted g2 ∧
          g2.fresh = g1.fresh ∧ g2.log = g1.log
    | .starved => False := by
  have hgood := RenderSingleObject_total env g0.depth st obj mt g0 rfl
  have hsim := RenderSingleObject_body_sim env (fun _ => true) (Blind_all env)
    (RenderSingleObject env (kRenderMaxRecursionDepth + 1))
    (RenderSingleObject env kRenderMaxRecursionDepth) g.depth
    (RenderSingleObject_sim env (fun _ => true) (Blind_all env) kRenderMaxRecursionDepth
      (kRenderMaxRecursionDepth + 1) g.depth (by omega)) st obj mt g
    (RenderSingleObject.enter g0) rfl
    ⟨by simp [RenderSingleObject.enter, halike.1], halike.2.1, by
      show g0.log.filter (fun _ => true) = g.log.filter (fun _ => true)
      rw [halike.2.2]⟩
  rw [RenderSingleObject_unfold env kRenderMaxRecursionDepth st obj mt g0] at hgood ⊢
  by_cases hguard : (RenderSingleObject.enter g0).depth > kRenderMaxRecursionDepth
  · simp only [hguard, if_true]
    intro hle
    exfalso
    have h1 : (RenderSingleObject.enter g0).depth = g0.depth + 1 := rfl
    have h2 : g0.depth + 1 ≤ (RenderSingleObject.enter g0).peak := by
      simp only [RenderSingleObject.enter]
      exact le_max_right _ _
    have h3 : ({ RenderSingleObject.enter g0 with depth := g0.depth } : G).peak =
        (RenderSingleObject.enter g0).peak := rfl
    rw [h3] at hle
    omega
  · simp only [hguard, if_false] at hgood ⊢
    cases hres : RenderSingleObject.body env (RenderSingleObject env kRenderMaxRecursionDepth)
        st obj mt (RenderSingleObject.enter g0) with
    | ok s g2 =>
      rw [hres] at hsim
      simp only [RenderSingleObject.leave]
      intro hle
      obtain ⟨g3, hrun, hdeep⟩ := hsim.2.2 hle
      refine ⟨g3, hrun, ?_, hdeep.2.1, by simpa using hdeep.2.2⟩
      have h1 := hdeep.1
      have h2 := hsim.2.1
      have h3 : (RenderSingleObject.enter g0).depth = g0.depth + 1 := rfl
      show g0.depth = g3.depth
      omega
    | aborted g2 =>
      rw [hres] at hsim
      simp only [RenderSingleObject.leave]
      intro hle
      obtain ⟨g3, hrun, hfresh, hlog⟩ := hsim.2 hle
      exact ⟨g3, hrun, hfresh, by simpa using hlog⟩
    | starved =>
      rw [hres] at hgood
      exact hgood

theorem ContinueSingleObject_resume_retains (env : Env) (rso : Rso) (d : Nat)
    (h : GoodRso d rso) (st : CPDF_RenderStatus) (renderer : Ref) (obj : CPDF_PageObject)
    (mt : CFX_Matrix) (pPause : Option Nat) :
    Good d (fun r => r.1 = false → r.2.image_renderer_ = none)
      (ContinueSingleObject.resume env rso st renderer obj mt pPause) := by
  unfold ContinueSingleObject.resume
  refine Good_bind (Good_call _ _ _) (fun more _ => ?_)
  split
  · exact Good_pure (fun hfalse => absurd hfalse (by simp))
  · refine Good_bind (Good_ask _) (fun result _ => ?_)
    split
    · exact Good_bind (DrawObjWithBackground_good env rso d h _ _ _)
        (fun _ _ => Good_pure (fun _ => rfl))
    · exact Good_pure (fun _ => rfl)

theorem ContinueSingleObject_retains (env : Env) (rso : Rso) (d : Nat) (h : GoodRso d rso)
    (st : CPDF_RenderStatus) (obj : CPDF_PageObject) (mt : CFX_Matrix) (pPause : Option Nat) :
    Good d (fun r => r.1 = false → r.2.image_renderer_ = none)
      (ContinueSingleObject env rso st obj mt pPause) := by
  unfold ContinueSingleObject
  cases hflight : st.image_renderer_ with
  | some renderer => exact ContinueSingleObject_resume_retains env rso d h st renderer obj mt _
  | none =>
    simp only
    split
    · exact Good_pure (fun _ => rfl)
    · refine Good_bind (ProcessClipPath_good env rso d h _ _ _) (fun st1 h1 => ?_)
      refine Good_bind (ProcessTransparency_good env rso d h _ _ _) (fun r h2 => ?_)
      have hframe : Frame { st with cur_obj_ := some obj.self, image_renderer_ := none } r.2 :=
        Frame_trans h1 h2
      have hnone : r.2.image_renderer_ = none := by
        have := congrArg CPDF_RenderStatus.image_renderer_ hframe
        exact this
      obtain ⟨handled, st2⟩ := r
      simp only at hnone ⊢
      split
      · exact Good_pure (fun _ => hnone)
      · split
        · refine Good_bind (ProcessObjectNoClip_good env rso d h _ _ _) (fun st3 h3 => ?_)
          refine Good_pure (fun _ => ?_)
          have := congrArg CPDF_RenderStatus.image_renderer_ h3
          exact this.trans hnone
        · refine Good_bind Good_alloc (fun renderer _ => ?_)
          refine Good_bind (Good_call _ _ _) (fun started _ => ?_)
          split
          · refine Good_bind (Good_ask _) (fun result _ => ?_)
            split
            · exact Good_bind (DrawObjWithBackground_good env rso d h _ _ _)
                (fun _ _ => Good_pure (fun _ => rfl))
            · exact Good_pure (fun _ => rfl)
          · exact ContinueSingleObject_resume_retains env rso d h _ _ _ _ _

theorem ContinueSingleObject_complete_retains (env : Env) (rso : Rso) (d : Nat)
    (h : GoodRso d rso) (obj : CPDF_PageObject) (mt : CFX_Matrix) (pPause : Option Nat) :
    ∀ (rounds : Nat) (st : CPDF_RenderStatus),
      Good d (fun r => ∀ s, r = some s → s.image_renderer_ = none)
        (ContinueSingleObject.complete env rso obj mt pPause rounds st) := by
  intro rounds
  induction rounds with
  | zero =>
    intro st
    unfold ContinueSingleObject.complete
    refine Good_bind (ContinueSingleObject_retains env rso d h st obj mt pPause)
      (fun r hr => ?_)
    obtain ⟨more, st1⟩ := r
    simp only at hr ⊢
    cases more with
    | true => exact Good_pure (fun s hs => by cases hs)
    | false =>
      refine Good_pure (fun s hs => ?_)
      simp only [Bool.false_eq_true, if_false, Option.some.injEq] at hs
      subst hs
      exact hr rfl
  | succ n ih =>
    intro st
    unfold ContinueSingleObject.complete
    refine Good_bind (ContinueSingleObject_retains env rso d h st obj mt pPause)
      (fun r hr => ?_)
    obtain ⟨more, st1⟩ := r
    simp only at hr ⊢
    cases more with
    | true => exact ih st1
    | false =>
      refine Good_pure (fun s hs => ?_)
      simp only [Bool.false_eq_true, if_false, Option.some.injEq] at hs
      subst hs
      exact hr rfl

/-- C9, the claim fails as stated, in three ways.  With the recursion counter at 64 and no
image render in flight, `RenderSingleObject` on a path of the demo document paints nothing,
while `ContinueSingleObject`, which has no depth guard, hands the path to `DrawPath` (and
returns `false` with no image renderer retained).  With the counter at 0, on the form that
invokes itself, `ContinueSingleObject` goes one level deeper than `RenderSingleObject`: it
does not count as a level itself.  On a status that asks for the standard colour space,
`RenderSingleObject` starts the image renderer with that flag and `ContinueSingleObject`
without it. -/
theorem ContinueSingleObject_renders_at_max_depth :
    (Demo.status.image_renderer_ = none ∧
      Demo.drawn (RenderSingleObject Demo.env (kRenderMaxRecursionDepth + 1) Demo.status
        (Demo.env.deref (.given 1)) CFX_Matrix.identity Demo.deep) = [] ∧
      Demo.drawn (ContinueSingleObject Demo.env
        (RenderSingleObject Demo.env (kRenderMaxRecursionDepth + 1)) Demo.status
        (Demo.env.deref (.given 1)) CFX_Matrix.identity none Demo.deep) = [1]) ∧
    ((Demo.logOf (RenderSingleObject Demo.env (kRenderMaxRecursionDepth + 1) Demo.status
        (Demo.env.deref (.given 10)) CFX_Matrix.identity Demo.start)).length = 128 ∧
      (Demo.logOf (ContinueSingleObject Demo.env
        (RenderSingleObject Demo.env (kRenderMaxRecursionDepth + 1)) Demo.status
        (Demo.env.deref (.given 10)) CFX_Matrix.identity none Demo.start)).length = 130) ∧
    (Demo.logOf (RenderSingleObject Demo.finishing (kRenderMaxRecursionDepth + 1)
        { Demo.status with std_cs_ := true } Demo.picture CFX_Matrix.identity Demo.start) =
        [⟨.fresh 0, .ImageStart (.given 40) CFX_Matrix.identity true⟩,
          ⟨.fresh 0, .ImageContinue none⟩] ∧
      Demo.logOf (ContinueSingleObject Demo.finishing
        (RenderSingleObject Demo.finishing (kRenderMaxRecursionDepth + 1))
        { Demo.status with std_cs_ := true } Demo.picture CFX_Matrix.identity none
        Demo.start) =
        [⟨.fresh 0, .ImageStart (.given 40) CFX_Matrix.identity false⟩,
          ⟨.fresh 0, .ImageContinue none⟩]) := by
  decide!

/-- C9, amended. For every page object, every status with no image render in flight and
every state (`g0` is the state `g` up to the recorded highest value of the counter), on the
condition that the `RenderSingleObject` call does not come up to the depth limit (after it
the counter has never been above 64):
* for an object that is not an image, one call of `ContinueSingleObject`, whatever the pause
  indicator, returns `false` and the status `RenderSingleObject` returns, with no image
  renderer retained, and leaves the counter, the allocations and the call log as
  `RenderSingleObject` leaves them; when `RenderSingleObject` ends in `NOTREACHED`, so does
  `ContinueSingleObject`, with the same log;
* the same holds for an image object on a status that does not ask for the standard colour
  space, when there is no pause indicator and the image renderer is done when it is
  continued without one;
* for an image object on such a status, whatever the pause indicator and however often the
  renderer has more to do: when no answer of a collaborator other than the "more to do" of
  the renderer depends on the calls that continue a renderer, `ContinueSingleObject` driven
  to completion, whenever it returns a status, returns the status `RenderSingleObject`
  returns and leaves the counter, the allocations and, apart from the calls that continue the
  renderer, the call log as `RenderSingleObject` leaves them; it ends in `NOTREACHED` only
  when `RenderSingleObject` does.
Without any condition on the depth:
* `ContinueSingleObject` driven to completion is its first call when that returns `false`
  or ends in `NOTREACHED`; for an object that is not an image the pause indicator is not
  looked at;
* while an image render is in flight, a call only continues the renderer, with the pause
  indicator, and leaves the status as it is when the renderer is not done;
* whenever `ContinueSingleObject` driven to completion returns a status, no image renderer
  is retained, and it never runs out of fuel. -/
theorem ContinueSingleObject_matches_RenderSingleObject (env : Env) (st : CPDF_RenderStatus)
    (pObj : CPDF_PageObject) (mt : CFX_Matrix) (g g0 : G)
    (hflight : st.image_renderer_ = none) (halike : Alike g g0) :
    (∀ pPause : Option Nat,
      pObj.type ≠ .kImage ∨
        (pPause = none ∧ st.std_cs_ = false ∧
          ∀ log renderer, env.result log ⟨renderer, .ImageContinue none⟩ = false) →
      match RenderSingleObject env (kRenderMaxRecursionDepth + 1) st pObj mt g0 with
      | .ok s g1 =>
        g1.peak ≤ kRenderMaxRecursionDepth →
          ∃ g2, ContinueSingleObject env
              (RenderSingleObject env (kRenderMaxRecursionDepth + 1)) st pObj mt pPause g =
              .ok (false, s) g2 ∧
            Alike g2 g1 ∧ s.image_renderer_ = none ∧
            ∀ rounds, ContinueSingleObject.complete env
              (RenderSingleObject env (kRenderMaxRecursionDepth + 1)) pObj mt pPause rounds st
              g = .ok (some s) g2
      | .aborted g1 =>
        g1.peak ≤ kRenderMaxRecursionDepth →
          ∃ g2, ContinueSingleObject env
              (RenderSingleObject env (kRenderMaxRecursionDepth + 1)) st pObj mt pPause g =
              .aborted g2 ∧
            g2.fresh = g1.fresh ∧ g2.log = g1.log ∧
            ∀ rounds, ContinueSingleObject.complete env
              (RenderSingleObject env (kRenderMaxRecursionDepth + 1)) pObj mt pPause rounds st
              g = .aborted g2
      | .starved => False) ∧
    (∀ (rso : Rso) (pPause : Option Nat) (rounds : Nat),
      (∀ s g1, ContinueSingleObject env rso st pObj mt pPause g = .ok (false, s) g1 →
        ContinueSingleObject.complete env rso pObj mt pPause rounds st g = .ok (some s) g1) ∧
      (∀ g1, ContinueSingleObject env rso st pObj mt pPause g = .aborted g1 →
        ContinueSingleObject.complete env rso pObj mt pPause rounds st g = .aborted g1)) ∧
    (pObj.type ≠ .kImage → ∀ (rso : Rso) (pPause other : Option Nat),
      ContinueSingleObject env rso st pObj mt pPause g =
        ContinueSingleObject env rso st pObj mt other g) ∧
    (∀ (rso : Rso) (pPause : Option Nat) (renderer : Ref),
      ContinueSingleObject env rso { st with image_renderer_ := some renderer } pObj mt pPause
          g =
        if env.result g.log ⟨renderer, .ImageContinue pPause⟩ then
          .ok (true, { st with image_renderer_ := some renderer })
            (said g [⟨renderer, .ImageContinue pPause⟩])
        else if env.GetResult (g.log ++ [⟨renderer, .ImageContinue pPause⟩]) renderer then
          .ok (false, st) (said g [⟨renderer, .ImageContinue pPause⟩])
        else
          (DrawObjWithBackground env rso st pObj mt >>= fun _ => pure (false, st))
            (said g [⟨renderer, .ImageContinue pPause⟩])) ∧
    (∀ (pPause : Option Nat) (rounds : Nat) (start : CPDF_RenderStatus),
      match ContinueSingleObject.complete env
          (RenderSingleObject env (kRenderMaxRecursionDepth + 1)) pObj mt pPause rounds start
          g with
      | .ok (some s) _ => s.image_renderer_ = none
      | .ok none _ => True
      | .aborted _ => True
      | .starved => False) ∧
    (pObj.type = .kImage → st.std_cs_ = false → Blind env notContinue →
      ∀ (pPause : Option Nat) (rounds : Nat),
        match RenderSingleObject env (kRenderMaxRecursionDepth + 1) st pObj mt g0 with
        | .ok s g1 =>
          g1.peak ≤ kRenderMaxRecursionDepth →
            match ContinueSingleObject.complete env
                (RenderSingleObject env (kRenderMaxRecursionDepth + 1)) pObj mt pPause rounds
                st g with
            | .ok (some s1) g2 =>
              s1 = s ∧ g2.depth = g1.depth ∧ g2.fresh = g1.fresh ∧
                g2.log.filter notContinue = g1.log.filter notContinue
            | .ok none _ => True
            | .aborted _ => False
            | .starved => False
        | .aborted g1 =>
          g1.peak ≤ kRenderMaxRecursionDepth →
            match ContinueSingleObject.complete env
                (RenderSingleObject env (kRenderMaxRecursionDepth + 1)) pObj mt pPause rounds
                st g with
            | .ok (some _) _ => False
            | .ok none _ => True
            | .aborted g2 =>
              g2.fresh = g1.fresh ∧ g2.log.filter notContinue = g1.log.filter notContinue
            | .starved => False
        | .starved => False) := by
  refine ⟨?_, ?_, ?_, ?_, ?_, ?_⟩
  · intro pPause hcase
    have hbody : ContinueSingleObject env
        (RenderSingleObject env (kRenderMaxRecursionDepth + 1)) st pObj mt pPause g =
        match RenderSingleObject.body env
            (RenderSingleObject env (kRenderMaxRecursionDepth + 1)) st pObj mt g with
        | .ok s g1 => .ok (false, s) g1
        | .aborted g1 => .aborted g1
        | .starved => .starved := by
      rcases hcase with himage | ⟨hpause, hstd, hdone⟩
      · exact ContinueSingleObject_eq_body env _ st pObj mt pPause g himage hflight
      · by_cases himage : pObj.type = .kImage
        · subst hpause
          exact ContinueSingleObject_image_eq_body env _ st pObj mt g
            (RenderSingleObject_total env g.depth) himage hflight hstd hdone
        · exact ContinueSingleObject_eq_body env _ st pObj mt pPause g himage hflight
    have hlimit := RenderSingleObject_body_below_limit env st pObj mt g g0 halike
    have hgood := RenderSingleObject_total env g0.depth st pObj mt g0 rfl
    cases hres : RenderSingleObject env (kRenderMaxRecursionDepth + 1) st pObj mt g0 with
    | ok s g1 =>
      rw [hres] at hlimit hgood
      intro hle
      obtain ⟨g2, hrun, hsame⟩ := hlimit hle
      have hcall : ContinueSingleObject env
          (RenderSingleObject env (kRenderMaxRecursionDepth + 1)) st pObj mt pPause g =
          .ok (false, s) g2 := by
        rw [hbody, hrun]
      refine ⟨g2, hcall, hsame, ?_, fun rounds =>
        ContinueSingleObject_complete_first env _ pObj mt pPause rounds st s g g2 hcall⟩
      have := congrArg CPDF_RenderStatus.image_renderer_ hgood.2
      exact this.trans hflight
    | aborted g1 =>
      rw [hres] at hlimit
      intro hle
      obtain ⟨g2, hrun, hfresh, hlog⟩ := hlimit hle
      have hcall : ContinueSingleObject env
          (RenderSingleObject env (kRenderMaxRecursionDepth + 1)) st pObj mt pPause g =
          .aborted g2 := by
        rw [hbody, hrun]
      exact ⟨g2, hcall, hfresh, hlog, fun rounds =>
        ContinueSingleObject_complete_aborted env _ pObj mt pPause rounds st g g2 hcall⟩
    | starved =>
      rw [hres] at hgood
      exact hgood
  · intro rso pPause rounds
    exact ⟨fun s g1 h => ContinueSingleObject_complete_first env rso pObj mt pPause rounds st s
        g g1 h,
      fun g1 h => ContinueSingleObject_complete_aborted env rso pObj mt pPause rounds st g g1 h⟩
  · intro himage rso pPause other
    rw [ContinueSingleObject_eq_body env rso st pObj mt pPause g himage hflight,
      ContinueSingleObject_eq_body env rso st pObj mt other g himage hflight]
  · intro rso pPause renderer
    unfold ContinueSingleObject ContinueSingleObject.resume
    simp only [R_bind_apply, call, ask, said, DrawObjWithBackground_renderer]
    cases st
    simp only at hflight
    subst hflight
    cases env.result g.log ⟨renderer, .ImageContinue pPause⟩
    · simp only [Bool.false_eq_true, if_false, R_bind_apply, ask]
      cases env.GetResult (g.log ++ [⟨renderer, .ImageContinue pPause⟩]) renderer
      · simp only [Bool.not_false, if_true, Bool.false_eq_true, if_false, R_bind_apply]
      · simp only [Bool.not_true, Bool.false_eq_true, if_false, if_true]
        rfl
    · simp only [if_true]
      rfl
  · intro pPause rounds start
    have hgood := ContinueSingleObject_complete_retains env _ g.depth
      (RenderSingleObject_total env g.depth) pObj mt pPause rounds start g rfl
    cases hres : ContinueSingleObject.complete env
        (RenderSingleObject env (kRenderMaxRecursionDepth + 1)) pObj mt pPause rounds start
        g with
    | ok r g1 =>
      rw [hres] at hgood
      cases r with
      | none => trivial
      | some s => exact hgood.2 s rfl
    | aborted g1 => trivial
    | starved =>
      rw [hres] at hgood
      exact hgood
  · intro himage hstd hE pPause rounds
    exact ContinueSingleObject_complete_below_limit env hE st pObj mt pPause rounds himage
      hflight hstd g g0 halike

theorem Demo_pausing_blind : Blind Demo.pausing notContinue := by
  constructor
  case result =>
    intro l l1 e _ hc
    obtain ⟨target, c⟩ := e
    cases c <;> first | rfl | (simp [isImageContinue] at hc)
  all_goals exact fun _ _ _ => rfl

/-- Witness of the amended C9 on the demo document, with the counter at 0: a path, with a
pause indicator, and an image whose renderer is done when it is continued without a pause
indicator.  `RenderSingleObject` returns, and `ContinueSingleObject` returns `false` and
the same status, with the same counter, allocations and log.  And an image whose renderer,
continued with a pause indicator, has more to do twice: `ContinueSingleObject` driven to
completion continues it three times and returns the status `RenderSingleObject` returns,
with the same counter and allocations and, apart from the calls that continue the renderer,
the same log. -/
theorem ContinueSingleObject_matches_RenderSingleObject_witness :
    (∃ s g1 g2,
      RenderSingleObject Demo.env (kRenderMaxRecursionDepth + 1) Demo.status
        (Demo.env.deref (.given 1)) CFX_Matrix.identity Demo.start = .ok s g1 ∧
      ContinueSingleObject Demo.env (RenderSingleObject Demo.env (kRenderMaxRecursionDepth + 1))
        Demo.status (Demo.env.deref (.given 1)) CFX_Matrix.identity (some 7) Demo.start =
        .ok (false, s) g2 ∧
      Alike g2 g1 ∧ Demo.drawn (Res.ok s g1) = [1]) ∧
    (∃ s g1 g2,
      RenderSingleObject Demo.finishing (kRenderMaxRecursionDepth + 1) Demo.status
        Demo.picture CFX_Matrix.identity Demo.start = .ok s g1 ∧
      ContinueSingleObject Demo.finishing
        (RenderSingleObject Demo.finishing (kRenderMaxRecursionDepth + 1))
        Demo.status Demo.picture CFX_Matrix.identity none Demo.start = .ok (false, s) g2 ∧
      Alike g2 g1 ∧
      Demo.logOf (Res.ok s g1) =
        [⟨.fresh 0, .ImageStart (.given 40) CFX_Matrix.identity false⟩,
          ⟨.fresh 0, .ImageContinue none⟩]) ∧
    (∃ s g1 g2,
      RenderSingleObject Demo.pausing (kRenderMaxRecursionDepth + 1) Demo.status
        Demo.picture CFX_Matrix.identity Demo.start = .ok s g1 ∧
      ContinueSingleObject.complete Demo.pausing
        (RenderSingleObject Demo.pausing (kRenderMaxRecursionDepth + 1)) Demo.picture
        CFX_Matrix.identity (some 7) 5 Demo.status Demo.start = .ok (some s) g2 ∧
      g2.depth = g1.depth ∧ g2.fresh = g1.fresh ∧
      g2.log.filter notContinue = g1.log.filter notContinue ∧
      g1.log =
        [⟨.fresh 0, .ImageStart (.given 40) CFX_Matrix.identity false⟩,
          ⟨.fresh 0, .ImageContinue none⟩] ∧
      g2.log =
        [⟨.fresh 0, .ImageStart (.given 40) CFX_Matrix.identity false⟩,
          ⟨.fresh 0, .ImageContinue (some 7)⟩, ⟨.fresh 0, .ImageContinue (some 7)⟩,
          ⟨.fresh 0, .ImageContinue (some 7)⟩]) := by
  have hpaused := (ContinueSingleObject_matches_RenderSingleObject Demo.pausing Demo.status
    Demo.picture CFX_Matrix.identity Demo.start Demo.start rfl
    ⟨rfl, rfl, rfl⟩).2.2.2.2.2 rfl rfl Demo_pausing_blind (some 7) 5
  have hpeak3 : Demo.peakOf (RenderSingleObject Demo.pausing (kRenderMaxRecursionDepth + 1)
      Demo.status Demo.picture CFX_Matrix.identity Demo.start) = 1 := by
    decide!
  have hret3 : Demo.stoppedOf (RenderSingleObject Demo.pausing
      (kRenderMaxRecursionDepth + 1) Demo.status Demo.picture CFX_Matrix.identity
      Demo.start) = some false := by
    decide!
  have hlog3 : Demo.logOf (RenderSingleObject Demo.pausing (kRenderMaxRecursionDepth + 1)
      Demo.status Demo.picture CFX_Matrix.identity Demo.start) =
      [⟨.fresh 0, .ImageStart (.given 40) CFX_Matrix.identity false⟩,
        ⟨.fresh 0, .ImageContinue none⟩] := by
    decide!
  have hlog4 : Demo.logOf (ContinueSingleObject.complete Demo.pausing
      (RenderSingleObject Demo.pausing (kRenderMaxRecursionDepth + 1)) Demo.picture
      CFX_Matrix.identity (some 7) 5 Demo.status Demo.start) =
      [⟨.fresh 0, .ImageStart (.given 40) CFX_Matrix.identity false⟩,
        ⟨.fresh 0, .ImageContinue (some 7)⟩, ⟨.fresh 0, .ImageContinue (some 7)⟩,
        ⟨.fresh 0, .ImageContinue (some 7)⟩] := by
    decide!
  have hsome : (match ContinueSingleObject.complete Demo.pausing
      (RenderSingleObject Demo.pausing (kRenderMaxRecursionDepth + 1)) Demo.picture
      CFX_Matrix.identity (some 7) 5 Demo.status Demo.start with
      | .ok (some _) _ => true
      | _ => false) = true := by
    decide!
  have hpath := (ContinueSingleObject_matches_RenderSingleObject Demo.env Demo.status
    (Demo.env.deref (.given 1)) CFX_Matrix.identity Demo.start Demo.start rfl
    ⟨rfl, rfl, rfl⟩).1 (some 7) (Or.inl (by decide))
  have himage := (ContinueSingleObject_matches_RenderSingleObject Demo.finishing Demo.status
    Demo.picture CFX_Matrix.identity Demo.start Demo.start rfl
    ⟨rfl, rfl, rfl⟩).1 none (Or.inr ⟨rfl, rfl, fun _ _ => rfl⟩)
  have hpeak1 : Demo.peakOf (RenderSingleObject Demo.env (kRenderMaxRecursionDepth + 1)
      Demo.status (Demo.env.deref (.given 1)) CFX_Matrix.identity Demo.start) = 1 := by
    decide!
  have hret1 : Demo.stoppedOf (RenderSingleObject Demo.env (kRenderMaxRecursionDepth + 1)
      Demo.status (Demo.env.deref (.given 1)) CFX_Matrix.identity Demo.start) = some false := by
    decide!
  have hdrawn1 : Demo.drawn (RenderSingleObject Demo.env (kRenderMaxRecursionDepth + 1)
      Demo.status (Demo.env.deref (.given 1)) CFX_Matrix.identity Demo.start) = [1] := by
    decide!
  have hpeak2 : Demo.peakOf (RenderSingleObject Demo.finishing (kRenderMaxRecursionDepth + 1)
      Demo.status Demo.picture CFX_Matrix.identity Demo.start) = 1 := by
    decide!
  have hret2 : Demo.stoppedOf (RenderSingleObject Demo.finishing
      (kRenderMaxRecursionDepth + 1) Demo.status Demo.picture CFX_Matrix.identity
      Demo.start) = some false := by
    decide!
  have hlog2 : Demo.logOf (RenderSingleObject Demo.finishing (kRenderMaxRecursionDepth + 1)
      Demo.status Demo.picture CFX_Matrix.identity Demo.start) =
      [⟨.fresh 0, .ImageStart (.given 40) CFX_Matrix.identity false⟩,
        ⟨.fresh 0, .ImageContinue none⟩] := by
    decide!
  refine ⟨?_, ?_, ?_⟩
  · cases hres : RenderSingleObject Demo.env (kRenderMaxRecursionDepth + 1) Demo.status
        (Demo.env.deref (.given 1)) CFX_Matrix.identity Demo.start with
    | ok s g1 =>
      rw [hres] at hpath hpeak1 hdrawn1
      have hle : g1.peak ≤ kRenderMaxRecursionDepth := by
        have : g1.peak = 1 := hpeak1
        rw [this]
        decide
      obtain ⟨g2, hcall, halike, _, _⟩ := hpath hle
      exact ⟨s, g1, g2, rfl, hcall, halike, hdrawn1⟩
    | aborted g1 =>
      rw [hres] at hret1
      cases hret1
    | starved =>
      rw [hres] at hret1
      cases hret1
  · cases hres : RenderSingleObject Demo.finishing (kRenderMaxRecursionDepth + 1) Demo.status
        Demo.picture CFX_Matrix.identity Demo.start with
    | ok s g1 =>
      rw [hres] at himage hpeak2 hlog2
      have hle : g1.peak ≤ kRenderMaxRecursionDepth := by
        have : g1.peak = 1 := hpeak2
        rw [this]
        decide
      obtain ⟨g2, hcall, halike, _, _⟩ := himage hle
      exact ⟨s, g1, g2, rfl, hcall, halike, hlog2⟩
    | aborted g1 =>
      rw [hres] at hret2
      cases hret2
    | starved =>
      rw [hres] at hret2
      cases hret2
  · cases hres : RenderSingleObject Demo.pausing (kRenderMaxRecursionDepth + 1) Demo.status
        Demo.picture CFX_Matrix.identity Demo.start with
    | ok s g1 =>
      rw [hres] at hpaused hpeak3 hlog3
      have hle : g1.peak ≤ kRenderMaxRecursionDepth := by
        have : g1.peak = 1 := hpeak3
        rw [this]
        decide
      have hthis := hpaused hle
      cases hc : ContinueSingleObject.complete Demo.pausing
          (RenderSingleObject Demo.pausing (kRenderMaxRecursionDepth + 1)) Demo.picture
          CFX_Matrix.identity (some 7) 5 Demo.status Demo.start with
      | ok r g2 =>
        rw [hc] at hthis hlog4 hsome
        cases r with
        | none => cases hsome
        | some s1 =>
          obtain ⟨hs, hd, hf, hl⟩ := hthis
          subst hs
          exact ⟨s1, g1, g2, rfl, rfl, hd, hf, hl, hlog3, hlog4⟩
      | aborted g2 =>
        rw [hc] at hsome
        cases hsome
      | starved =>
        rw [hc] at hsome
        cases hsome
    | aborted g1 =>
      rw [hres] at hret3
      cases hret3
    | starved =>
      rw [hres] at hret3
      cases hret3

/-! ## C18: the text runs of a clip path -/

theorem ProcessClipPath_applyRuns_filter (env : Env) (rso : Rso) (mt : CFX_Matrix) :
    ∀ (runs : List (List Ref)) (st : CPDF_RenderStatus),
      ProcessClipPath.applyRuns env rso mt runs st =
        ProcessClipPath.applyRuns env rso mt (runs.filter (· ≠ [])) st := by
  intro runs
  induction runs with
  | nil => intro st; rfl
  | cons run rest ih =>
    intro st
    cases run with
    | nil =>
      have hf : (([] : List Ref) :: rest).filter (· ≠ []) = rest.filter (· ≠ []) := by
        simp
      rw [hf, ← ih st]
      rfl
    | cons t ts =>
      have hf : ((t :: ts) :: rest).filter (· ≠ []) = (t :: ts) :: rest.filter (· ≠ []) := by
        simp
      rw [hf]
      show (ProcessClipPath.applyRun env rso mt (t :: ts) st >>= fun st1 =>
        ProcessClipPath.applyRuns env rso mt rest st1) = _
      simp only [ih]
      rfl

theorem textRuns_texts : ∀ texts : List (Option Ref),
    (textRuns texts).1.flatten ++ (textRuns texts).2 = texts.filterMap id := by
  intro texts
  induction texts with
  | nil => rfl
  | cons entry rest ih =>
    cases entry with
    | none =>
      simp only [textRuns, List.flatten_cons, List.nil_append, List.filterMap_cons, id]
      exact ih
    | some t =>
      cases hr : (textRuns rest).1 with
      | nil =>
        have : textRuns (some t :: rest) = ([], t :: (textRuns rest).2) := by
          simp only [textRuns, hr]
        rw [this]
        rw [hr] at ih
        simp only [List.flatten_nil, List.nil_append, List.filterMap_cons, id] at ih ⊢
        rw [ih]
      | cons c cs =>
        have : textRuns (some t :: rest) = ((t :: c) :: cs, (textRuns rest).2) := by
          simp only [textRuns, hr]
        rw [this]
        rw [hr] at ih
        simp only [List.flatten_cons, List.cons_append, List.filterMap_cons, id,
          List.append_assoc] at ih ⊢
        rw [ih]
theorem maximalRuns_closed (texts : List (Option Ref)) (hlast : texts.getLast? = some none) :
    maximalRuns texts = (textRuns texts).1.filter (· ≠ []) ∧
      (maximalRuns texts).flatten = texts.filterMap id := by
  have hclosed := (textRuns_closed texts hlast).2
  have hm : maximalRuns texts = (textRuns texts).1.filter (· ≠ []) := by
    unfold maximalRuns
    rw [if_pos hclosed, List.append_nil]
  refine ⟨hm, ?_⟩
  rw [hm, ← textRuns_texts texts, hclosed, List.append_nil]
  generalize (textRuns texts).1 = runs
  induction runs with
  | nil => rfl
  | cons run rest ih =>
    cases run with
    | nil =>
      have hf : (([] : List Ref) :: rest).filter (· ≠ []) = rest.filter (· ≠ []) := by
        simp
      rw [hf, ih]
      rfl
    | cons t ts =>
      have hf : ((t :: ts) :: rest).filter (· ≠ []) = (t :: ts) :: rest.filter (· ≠ []) := by
        simp
      rw [hf, List.flatten_cons, List.flatten_cons, ih]

/-- C18. For a clip path with content that differs from the last applied one and whose text
sequence ends with a break marker, as every text sequence that `AppendTexts` builds does
(so it is not empty): the maximal runs of consecutive text objects hold every text object of
the sequence, in order, and none of them is empty.  After the sub-paths have been applied,
when the render is in print mode or the device supports soft clipping, `ProcessClipPath`
goes through the maximal runs in order and does for each run this and nothing else: it
makes one new path, hands the texts of the run to `ProcessText` with that path, and applies
the path by exactly one `SetClip_PathFill` with the winding rule and no matrix.  When the
device lacks soft clipping and the render is not in print mode, the method ends after the
sub-paths: no text object is processed and no text clip is applied.  With the dispatcher of
the renderer the method returns or ends the process. -/
theorem ProcessClipPath_text_runs (env : Env) (rso : Rso) (st : CPDF_RenderStatus)
    (clip : ClipPathData) (mt : CFX_Matrix) (g : G)
    (hdiff : CPDF_ClipPath.same st.last_clip_path_ (some clip) = false)
    (hlast : clip.texts.getLast? = some none) :
    clip.texts ≠ [] ∧
    (maximalRuns clip.texts).flatten = clip.texts.filterMap id ∧
    (∀ run ∈ maximalRuns clip.texts, run ≠ []) ∧
    ((st.print_ = true ∨ (env.GetRenderCaps (said g (⟨st.device_, .RestoreState true⟩ ::
          ProcessClipPath.pathCalls st.device_ mt clip.paths)).log st.device_).soft_clip = true) →
      ProcessClipPath env rso st (some clip) mt g =
        ProcessClipPath.applyRuns env rso mt (maximalRuns clip.texts)
          { st with last_clip_path_ := some clip }
          (said g (⟨st.device_, .RestoreState true⟩ ::
            ProcessClipPath.pathCalls st.device_ mt clip.paths))) ∧
    (∀ (run : List Ref) (s : CPDF_RenderStatus), run ≠ [] →
      ProcessClipPath.applyRun env rso mt run s =
        (alloc >>= fun path =>
          ProcessClipPath.accumulate env rso mt path run s >>= fun s1 =>
            call env s1.device_ (.SetClip_PathFill (.accum path) none
              (if s1.options_.bNoTextSmooth then
                { CFX_FillRenderOptions.WindingOptions with aliased_path := true }
              else CFX_FillRenderOptions.WindingOptions)) >>= fun _ => pure s1) ∧
        CFX_FillRenderOptions.WindingOptions.fill_type = .kWinding) ∧
    ((st.print_ = false ∧ (env.GetRenderCaps (said g (⟨st.device_, .RestoreState true⟩ ::
          ProcessClipPath.pathCalls st.device_ mt clip.paths)).log st.device_).soft_clip = false) →
      ProcessClipPath env rso st (some clip) mt g =
        .ok { st with last_clip_path_ := some clip }
          (said g (⟨st.device_, .RestoreState true⟩ ::
            ProcessClipPath.pathCalls st.device_ mt clip.paths))) ∧
    ProcessClipPath env (RenderSingleObject env (kRenderMaxRecursionDepth + 1)) st (some clip)
      mt g ≠ .starved := by
  have htexts : clip.texts ≠ [] := by
    intro h
    rw [h] at hlast
    cases hlast
  have hlen : ¬ clip.texts.length = 0 := by
    intro h
    exact htexts (List.length_eq_zero.mp h)
  have hm := maximalRuns_closed clip.texts hlast
  refine ⟨htexts, hm.2, ?_, fun hs => ?_, fun run s hrun => ⟨?_, rfl⟩, fun hs => ?_, ?_⟩
  · intro run hin
    rw [hm.1] at hin
    have := (List.mem_filter.mp hin).2
    simpa using this
  · rw [ProcessClipPath_text_part env rso st clip mt g hdiff, if_neg hlen, if_neg,
      (ProcessClipPath_texts_runs env rso mt clip.texts _).1, (textRuns_closed clip.texts hlast).2,
      hm.1, ← ProcessClipPath_applyRuns_filter]
    · show (ProcessClipPath.applyRuns env rso mt (textRuns clip.texts).1 _ >>= pure) _ = _
      rw [R_bind_pure]
    · intro hno
      rcases hs with hp | hc
      · rw [hp] at hno
        exact Bool.noConfusion hno.1
      · rw [hc] at hno
        exact Bool.noConfusion hno.2
  · cases run with
    | nil => exact absurd rfl hrun
    | cons t ts => rfl
  · rw [ProcessClipPath_text_part env rso st clip mt g hdiff, if_neg hlen, if_pos hs]
  · rw [ProcessClipPath_text_part env _ st clip mt g hdiff, if_neg hlen]
    by_cases hs : st.print_ = false ∧ (env.GetRenderCaps (said g
        (⟨st.device_, .RestoreState true⟩ ::
          ProcessClipPath.pathCalls st.device_ mt clip.paths)).log st.device_).soft_clip = false
    · rw [if_pos hs]
      intro h
      cases h
    · rw [if_neg hs]
      have hkeep := ProcessClipPath_texts_keeps_status env _ g.depth
        (RenderSingleObject_total env g.depth) mt clip.texts none
        { st with last_clip_path_ := some clip }
        (said g (⟨st.device_, .RestoreState true⟩ ::
          ProcessClipPath.pathCalls st.device_ mt clip.paths)) rfl
      intro hres
      rw [hres] at hkeep
      exact hkeep

/-- Witness of C18: a text, a break marker, a second text and its break marker, on the demo
device, which supports soft clipping: each of the two runs is applied. -/
theorem ProcessClipPath_text_runs_witness :
    ProcessClipPath Demo.plainFonts
        (RenderSingleObject Demo.plainFonts (kRenderMaxRecursionDepth + 1)) Demo.status
        (some Demo.closedClip) CFX_Matrix.identity Demo.start =
      ProcessClipPath.applyRuns Demo.plainFonts
          (RenderSingleObject Demo.plainFonts (kRenderMaxRecursionDepth + 1))
          CFX_Matrix.identity [[.given 20], [.given 22]]
          { Demo.status with last_clip_path_ := some Demo.closedClip }
        (said Demo.start [⟨.given 0, .RestoreState true⟩]) ∧
      Demo.textClips (ProcessClipPath Demo.plainFonts
        (RenderSingleObject Demo.plainFonts (kRenderMaxRecursionDepth + 1)) Demo.status
        (some Demo.closedClip) CFX_Matrix.identity Demo.start) = [.fresh 0, .fresh 1] :=
  ⟨(ProcessClipPath_text_runs Demo.plainFonts _ Demo.status Demo.closedClip CFX_Matrix.identity
    Demo.start (by decide!) (by decide!)).2.2.2.1 (Or.inr (by decide!)), by decide!⟩

/-! ## C20: the text rendering modes -/

theorem DrawTextPathWithPattern_loop_eq (env : Env) (st : CPDF_RenderStatus)
    (textobj : CPDF_PageObject) (mt tm : CFX_Matrix) (fill : Bool) :
    ∀ positions : List (Option Nat × CFX_Matrix),
      DrawTextPathWithPattern.loop env st textobj mt tm fill true positions =
        forEach (fun glyph => do
          let address ← alloc
          let _ ← ProcessPath env st (ProcessText.patternGlyph env textobj tm fill address glyph)
            mt
          pure ()) (glyphPaths positions) := by
  intro positions
  induction positions with
  | nil => rfl
  | cons charpos rest ih =>
    obtain ⟨pPath, m⟩ := charpos
    cases pPath with
    | none =>
      show DrawTextPathWithPattern.loop env st textobj mt tm fill true rest = _
      rw [ih]
      rfl
    | some p =>
      show (alloc >>= fun address => ProcessPath env st _ mt >>= fun _ =>
        DrawTextPathWithPattern.loop env st textobj mt tm fill true rest) = _
      simp only [ih]
      show _ = ((alloc >>= fun address => ProcessPath env st _ mt >>= fun _ => pure ()) >>=
        fun _ => forEach _ (glyphPaths rest))
      simp only [R_bind_assoc, R_pure_bind]
      rfl

theorem DrawTextPathWithPattern_eq (env : Env) (rso : Rso) (st : CPDF_RenderStatus)
    (textobj : CPDF_PageObject) (mt : CFX_Matrix) (fill stroke : Bool) :
    DrawTextPathWithPattern env rso st textobj mt textobj.text_matrix fill stroke =
      ProcessText.patternPaint env rso st textobj mt fill stroke := by
  unfold DrawTextPathWithPattern ProcessText.patternPaint
  cases stroke with
  | true =>
    simp only [Bool.not_true, Bool.false_eq_true, if_false, if_true]
    rw [DrawTextPathWithPattern_loop_eq]
  | false =>
    simp only [Bool.not_false, if_true, Bool.false_eq_true, if_false]
    rfl
/-- C20, the claim fails as stated: a text of one character in the mode Fill, in a font
that is not a Type-3 font, rendered without a clipping path, whose text matrix (1 0 1 0 0 0)
is rejected by `IsAvailableMatrix`: the claim has fill painted, but `ProcessText` returns
true without any call.  The matrix test stands before every painting branch. -/
theorem ProcessText_unusable_matrix_paints_nothing :
    (Demo.plainFonts.font Demo.flatFill.states.text_state.font).is_type3 = false ∧
      Demo.flatFill.char_codes = [65] ∧
      claimedPaint Demo.flatFill.states.text_state.text_mode
        (Demo.plainFonts.font Demo.flatFill.states.text_state.font).has_face =
        some (true, false) ∧
      IsAvailableMatrix Demo.flatFill.text_matrix = false ∧
      ProcessText Demo.plainFonts
        (RenderSingleObject Demo.plainFonts (kRenderMaxRecursionDepth + 1)) Demo.status
        Demo.flatFill CFX_Matrix.identity none Demo.start = .ok (true, Demo.status) Demo.start := by
  decide!

/-- C20, amended. For a text object in a font that is not a Type-3 font, with at least one
character code, rendered without a clipping path, in one of the eight text rendering modes:
in the modes Invisible and Clip `ProcessText` returns true without any device call; in the
other modes, when `IsAvailableMatrix` rejects the text matrix, it returns true without any
device call too; and when the text matrix is accepted, it paints fill only in the modes Fill
and FillClip; stroke only in the modes Stroke and StrokeClip, and fill only when the font
has no face; fill and stroke in the modes FillStroke and FillStrokeClip, and fill only when
the font has no face.  What paints is decided by the pair of fill and stroke.  Without a
pattern among the painted colours it is exactly one call: `DrawNormalText` with the fill
colour for fill only, and `DrawTextPath` with the stroke colour and the fill colour, which is
0 for stroke only.  With a pattern among them, a text that is not stroked is painted as its
rectangle, a new path object that is filled with the winding rule (and stroked only if a
new path object is) in the colours of the text under the text as a clip, which goes through
`RenderSingleObject`; a text that is stroked is painted glyph by glyph, every glyph that
has a path going through `ProcessPath` as a path object that is stroked, and filled with the
winding rule exactly when the text is filled, in the colours of the text; the result is
true.  A text object with no character codes returns true without any device call in every
mode, whatever its font and with or without a clipping path. -/
theorem ProcessText_mode_mapping (env : Env) (rso : Rso) (st : CPDF_RenderStatus)
    (textobj : CPDF_PageObject) (mt : CFX_Matrix) (g : G) :
    ((env.font textobj.states.text_state.font).is_type3 = false →
      textobj.char_codes ≠ [] →
      textobj.states.text_state.text_mode ≠ .MODE_UNKNOWN →
      ProcessText env rso st textobj mt none g =
        match claimedPaint textobj.states.text_state.text_mode
            (env.font textobj.states.text_state.font).has_face with
        | none => .ok (true, st) g
        | some (fill, stroke) =>
          if IsAvailableMatrix textobj.text_matrix = false then .ok (true, st) g
          else if ProcessText.patterned textobj fill stroke = true then
            (ProcessText.patternPaint env rso st textobj mt fill stroke >>=
              fun st1 => pure (true, st1)) g
          else
            .ok (env.result g.log (ProcessText.painted env st textobj mt fill stroke), st)
              (said g [ProcessText.painted env st textobj mt fill stroke])) ∧
    (∀ fill : Bool,
      ProcessText.patternPaint env rso st textobj mt fill false =
        (alloc >>= fun address => alloc >>= fun clip_ref =>
          rso st (ProcessText.patternRect env st textobj address clip_ref) mt >>= fun st1 =>
            pure { st1 with cur_obj_ := st.cur_obj_ }) ∧
      ProcessText.patternPaint env rso st textobj mt fill true =
        (forEach (fun glyph => alloc >>= fun address =>
            ProcessPath env st
              (ProcessText.patternGlyph env textobj textobj.text_matrix fill address glyph) mt >>=
              fun _ => pure ())
          (glyphPaths (env.GetCharPosList textobj)) >>= fun _ => pure st)) ∧
    (∀ address clip_ref,
      (ProcessText.patternRect env st textobj address clip_ref).type = .kPath ∧
      (ProcessText.patternRect env st textobj address clip_ref).filltype = .kWinding ∧
      (ProcessText.patternRect env st textobj address clip_ref).stroke =
        env.new_path_object.stroke ∧
      (ProcessText.patternRect env st textobj address clip_ref).states.color_state =
        textobj.states.color_state ∧
      (ProcessText.patternRect env st textobj address clip_ref).path =
        .floatRect textobj.rect) ∧
    (∀ tm fill address glyph,
      (ProcessText.patternGlyph env textobj tm fill address glyph).type = .kPath ∧
      (ProcessText.patternGlyph env textobj tm fill address glyph).stroke = true ∧
      (ProcessText.patternGlyph env textobj tm fill address glyph).filltype =
        (if fill then FillType.kWinding else FillType.kNoFill) ∧
      (ProcessText.patternGlyph env textobj tm fill address glyph).states.color_state =
        textobj.states.color_state ∧
      (ProcessText.patternGlyph env textobj tm fill address glyph).path =
        .glyph glyph.1 (env.Concat glyph.2 tm)) ∧
    (textobj.char_codes = [] →
      ∀ clipping_path, ProcessText env rso st textobj mt clipping_path g = .ok (true, st) g) := by
  have hpaint : ∀ fill stroke,
      ProcessText.paint env rso st textobj mt none fill stroke false g =
      if IsAvailableMatrix textobj.text_matrix = false then .ok (true, st) g
      else if ProcessText.patterned textobj fill stroke = true then
        (ProcessText.patternPaint env rso st textobj mt fill stroke >>=
          fun st1 => pure (true, st1)) g
      else
        .ok (env.result g.log (ProcessText.painted env st textobj mt fill stroke), st)
          (said g [ProcessText.painted env st textobj mt fill stroke]) := by
    intro fill stroke
    rw [ProcessText_paint_cases, DrawTextPathWithPattern_eq]
  refine ⟨?_, fun fill => ⟨rfl, rfl⟩, fun _ _ => ⟨rfl, rfl, rfl, rfl, rfl⟩,
    fun _ _ _ _ => ⟨rfl, rfl, rfl, rfl, rfl⟩, ?_⟩
  · intro hfont hcodes hmode
    unfold ProcessText
    rw [if_neg hcodes, hfont]
    simp only [Bool.false_eq_true, if_false, Option.isSome_none]
    cases hm : textobj.states.text_state.text_mode with
    | MODE_UNKNOWN => exact absurd hm hmode
    | MODE_INVISIBLE => rfl
    | MODE_CLIP => rfl
    | MODE_FILL =>
      simp only [textPaint, claimedPaint, Bool.false_eq_true, if_false, reduceCtorEq]
      exact hpaint true false
    | MODE_FILL_CLIP =>
      simp only [textPaint, claimedPaint, Bool.false_eq_true, if_false, reduceCtorEq]
      exact hpaint true false
    | MODE_STROKE =>
      cases (env.font textobj.states.text_state.font).has_face
      · simp only [textPaint, claimedPaint, Bool.false_eq_true, if_false, reduceCtorEq]
        exact hpaint true false
      · simp only [textPaint, claimedPaint, Bool.false_eq_true, if_false, if_true, reduceCtorEq]
        exact hpaint false true
    | MODE_STROKE_CLIP =>
      cases (env.font textobj.states.text_state.font).has_face
      · simp only [textPaint, claimedPaint, Bool.false_eq_true, if_false, reduceCtorEq]
        exact hpaint true false
      · simp only [textPaint, claimedPaint, Bool.false_eq_true, if_false, if_true, reduceCtorEq]
        exact hpaint false true
    | MODE_FILL_STROKE =>
      cases (env.font textobj.states.text_state.font).has_face
      · simp only [textPaint, claimedPaint, Bool.false_eq_true, if_false, reduceCtorEq]
        exact hpaint true false
      · simp only [textPaint, claimedPaint, Bool.false_eq_true, if_false, if_true, reduceCtorEq]
        exact hpaint true true
    | MODE_FILL_STROKE_CLIP =>
      cases (env.font textobj.states.text_state.font).has_face
      · simp only [textPaint, claimedPaint, Bool.false_eq_true, if_false, reduceCtorEq]
        exact hpaint true false
      · simp only [textPaint, claimedPaint, Bool.false_eq_true, if_false, if_true, reduceCtorEq]
        exact hpaint true true
  · intro hcodes clipping_path
    unfold ProcessText
    rw [if_pos hcodes]
    rfl
/-- Witness of the amended C20: a text of the demo document in the mode Stroke, in a font
with a face that is not a Type-3 font.  With a plain stroke colour it makes one
`DrawTextPath` call with the fill colour 0 and its stroke colour, opaque black.  With a
shading pattern as stroke colour, its one glyph that has a path is stroked with the pattern:
the shading is loaded and drawn under the stroke of the glyph as a clip. -/
theorem ProcessText_mode_mapping_witness :
    ProcessText (Demo.recolored Demo.plainFonts)
        (RenderSingleObject (Demo.recolored Demo.plainFonts) (kRenderMaxRecursionDepth + 1))
        Demo.status (Demo.textIn .MODE_STROKE) CFX_Matrix.identity none Demo.start =
      .ok (true, Demo.status)
        (said Demo.start [⟨.given 0, .DrawTextPath (.given 20) 0 CFX_Matrix.identity
          (some CFX_Matrix.identity) 0 0xFF000000 none CFX_FillRenderOptions.default⟩]) ∧
    ProcessText Demo.glyphed (RenderSingleObject Demo.glyphed (kRenderMaxRecursionDepth + 1))
        Demo.status Demo.patternText CFX_Matrix.identity none Demo.start =
      .ok (true, Demo.status)
        (grown Demo.start [⟨.given 7, .ShadingLoad 7⟩, ⟨.given 0, .SaveState⟩,
          ⟨.given 0, .SetClip_PathStroke (.glyph 8 CFX_Matrix.identity) CFX_Matrix.identity 0⟩,
          ⟨.given 0, .ShadingDraw none 7 CFX_Matrix.identity ⟨0, 0, 10, 10⟩ 0
            CPDF_RenderOptions.default⟩,
          ⟨.given 0, .RestoreState false⟩]) := by
  constructor
  · rw [(ProcessText_mode_mapping (Demo.recolored Demo.plainFonts) _ Demo.status
      (Demo.textIn .MODE_STROKE) CFX_Matrix.identity Demo.start).1
      (by decide!) (by decide!) (by decide!)]
    decide!
  · rw [(ProcessText_mode_mapping Demo.glyphed _ Demo.status Demo.patternText
      CFX_Matrix.identity Demo.start).1 (by decide!) (by decide!) (by decide!)]
    decide!

/-! ## C21: objects with a rejected matrix -/

theorem ProcessPath_rejected (env : Env) (st : CPDF_RenderStatus) (obj : CPDF_PageObject)
    (mt : CFX_Matrix) (hm : IsAvailableMatrix (env.Concat obj.matrix mt) = false) :
    ProcessPath env st obj mt =
      (ProcessPathPattern env st obj mt obj.filltype obj.stroke >>= fun _ => pure true) := by
  unfold ProcessPath
  congr 1
  funext r
  simp only [hm, Bool.not_false, if_true]
  split <;> rfl

theorem ProcessPath_rejected_plain (env : Env) (st : CPDF_RenderStatus)
    (obj : CPDF_PageObject) (mt : CFX_Matrix) (g : G)
    (hm : IsAvailableMatrix (env.Concat obj.matrix mt) = false)
    (hf : obj.states.color_state.fill_color.is_pattern = false)
    (hs : obj.states.color_state.stroke_color.is_pattern = false) :
    ProcessPath env st obj mt g = .ok true g := by
  rw [ProcessPath_rejected env st obj mt hm]
  unfold ProcessPathPattern
  simp only [hf, hs, and_false, Bool.false_eq_true, if_false]
  rfl

theorem ProcessText_rejected (env : Env) (rso : Rso) (st : CPDF_RenderStatus)
    (obj : CPDF_PageObject) (mt : CFX_Matrix) (clipping_path : Option Ref) (g : G)
    (hm : IsAvailableMatrix obj.text_matrix = false)
    (hfont : (env.font obj.states.text_state.font).is_type3 = false)
    (hmode : obj.char_codes = [] ∨ obj.states.text_state.text_mode ≠ .MODE_UNKNOWN ∨
      clipping_path.isSome = true) :
    ProcessText env rso st obj mt clipping_path g = .ok (true, st) g := by
  unfold ProcessText
  by_cases hcodes : obj.char_codes = []
  · rw [if_pos hcodes]
    rfl
  rw [if_neg hcodes, hfont]
  simp only [Bool.false_eq_true, if_false]
  by_cases hi : obj.states.text_state.text_mode = .MODE_INVISIBLE
  · rw [if_pos hi]
    rfl
  · rw [if_neg hi]
    have hpaint : ∀ f s c, ProcessText.paint env rso st obj mt clipping_path f s c g =
        .ok (true, st) g := by
      intro f s c
      unfold ProcessText.paint
      simp only [hm, Bool.not_false, if_true]
      rfl
    cases hc : clipping_path with
    | some path =>
      simp only [textPaint, Option.isSome_some, if_true]
      rw [← hc]
      exact hpaint _ _ _
    | none =>
      have hu : obj.states.text_state.text_mode ≠ .MODE_UNKNOWN := by
        rcases hmode with h | h | h
        · exact absurd h hcodes
        · exact h
        · rw [hc] at h
          exact Bool.noConfusion h
      rw [← hc]
      cases hmd : obj.states.text_state.text_mode with
      | MODE_UNKNOWN => exact absurd hmd hu
      | MODE_INVISIBLE => exact absurd hmd hi
      | MODE_CLIP => rw [hc]; rfl
      | MODE_FILL =>
        rw [hc]
        simp only [textPaint, Option.isSome_none, Bool.false_eq_true, if_false]
        rw [← hc]
        exact hpaint _ _ _
      | MODE_FILL_CLIP =>
        rw [hc]
        simp only [textPaint, Option.isSome_none, Bool.false_eq_true, if_false]
        rw [← hc]
        exact hpaint _ _ _
      | MODE_STROKE =>
        rw [hc]
        simp only [textPaint, Option.isSome_none, Bool.false_eq_true, if_false]
        rw [← hc]
        split <;> exact hpaint _ _ _
      | MODE_STROKE_CLIP =>
        rw [hc]
        simp only [textPaint, Option.isSome_none, Bool.false_eq_true, if_false]
        rw [← hc]
        split <;> exact hpaint _ _ _
      | MODE_FILL_STROKE =>
        rw [hc]
        simp only [textPaint, Option.isSome_none, Bool.false_eq_true, if_false]
        rw [← hc]
        exact hpaint _ _ _
      | MODE_FILL_STROKE_CLIP =>
        rw [hc]
        simp only [textPaint, Option.isSome_none, Bool.false_eq_true, if_false]
        rw [← hc]
        exact hpaint _ _ _

theorem ProcessObjectNoClip_dropped (env : Env) (rso : Rso) (st : CPDF_RenderStatus)
    (obj : CPDF_PageObject) (mt : CFX_Matrix) (g : G) (h : droppedByMatrix env obj mt) :
    ProcessObjectNoClip env rso st obj mt g = .ok st g := by
  unfold ProcessObjectNoClip
  rcases h with ⟨ht, hm, hf, hs⟩ | ⟨ht, hm, hfont, hmode⟩
  · rw [ht]
    simp only
    rw [R_bind_apply, ProcessPath_rejected_plain env st obj mt g hm hf hs]
    rfl
  · rw [ht]
    simp only
    rw [R_bind_apply, ProcessText_rejected env rso st obj mt none g hm hfont
      (hmode.elim Or.inl (fun h => Or.inr (Or.inl h)))]
    rfl
theorem ProcessTransparency_unclipped (env : Env) (rso : Rso) (st : CPDF_RenderStatus)
    (obj : CPDF_PageObject) (mt : CFX_Matrix) (g : G) (hform : obj.type ≠ .kForm)
    (hplain : unclipped obj) :
    ProcessTransparency env rso st obj mt g = .ok (false, st) g := by
  obtain ⟨hclip, hmask, hblend⟩ := hplain
  unfold ProcessTransparency
  rw [R_bind_apply]
  simp only [ask]
  have hp : ProcessTransparency.plain
      (ProcessTransparency.locals env st obj (env.GetRenderCaps g.log st.device_)) = true := by
    simp [ProcessTransparency.plain, ProcessTransparency.locals, hclip, hmask, hblend, hform]
  simp only [hp, if_true]
  rfl

theorem ProcessClipPath_none (env : Env) (rso : Rso) (st : CPDF_RenderStatus)
    (mt : CFX_Matrix) (g : G) :
    ProcessClipPath env rso st none mt g =
      .ok { st with last_clip_path_ := none }
        (said g (if st.last_clip_path_.isSome then [⟨st.device_, .RestoreState true⟩]
          else [])) := by
  unfold ProcessClipPath
  cases hl : st.last_clip_path_ with
  | none =>
    simp only [Option.isSome_none, Bool.false_eq_true, if_false, said_nil]
    show Res.ok st g = _
    congr 1
    cases st
    simp only at hl
    simp only [hl]
  | some last =>
    simp only [Option.isSome_some, if_true]
    rfl

theorem RenderSingleObject_body_dropped (env : Env) (rso : Rso) (st : CPDF_RenderStatus)
    (obj : CPDF_PageObject) (mt : CFX_Matrix) (g : G) (h : droppedByMatrix env obj mt)
    (hplain : unclipped obj)
    (hvisible : env.CheckPageObjectVisible st.options_ obj = true) :
    RenderSingleObject.body env rso st obj mt g =
      .ok { st with cur_obj_ := some obj.self, last_clip_path_ := none }
        (said g (if st.last_clip_path_.isSome then [⟨st.device_, .RestoreState true⟩]
          else [])) := by
  have hform : obj.type ≠ .kForm := by
    rcases h with ⟨ht, _⟩ | ⟨ht, _⟩ <;> rw [ht] <;> decide
  unfold RenderSingleObject.body
  simp only [hvisible, Bool.not_true, Bool.false_eq_true, if_false]
  rw [R_bind_apply, hplain.1, ProcessClipPath_none]
  simp only
  rw [R_bind_apply, ProcessTransparency_unclipped env rso _ obj mt _ hform hplain]
  simp only [Bool.false_eq_true, if_false]
  rw [ProcessObjectNoClip_dropped env rso _ obj mt _ h]

theorem RenderObjectList_loop_dropped (env : Env) (fuel : Nat) (st : CPDF_RenderStatus)
    (mt : CFX_Matrix) (clip : CFX_FloatRect) (p : Ref) (rest : List (Option Ref)) (g : G)
    (h : droppedByMatrix env (env.deref p) mt) (hplain : unclipped (env.deref p))
    (hvisible : env.CheckPageObjectVisible st.options_ (env.deref p) = true)
    (hstop : some p ≠ st.stop_obj_) (hactive : (env.deref p).active = true)
    (hculled : culled clip (env.deref p) = false)
    (hdepth : g.depth < kRenderMaxRecursionDepth) (hflag : st.stopped_ = false) :
    RenderObjectList.loop env (RenderSingleObject env (fuel + 1)) mt clip (some p :: rest) st g =
      RenderObjectList.loop env (RenderSingleObject env (fuel + 1)) mt clip rest
        { st with cur_obj_ := some p, last_clip_path_ := none }
        { g with
          peak := max g.peak (g.depth + 1),
          log := g.log ++ (if st.last_clip_path_.isSome then
            [⟨st.device_, .RestoreState true⟩] else []) } := by
  have hguard : ¬ ((RenderSingleObject.enter g).depth > kRenderMaxRecursionDepth) := by
    simp only [RenderSingleObject.enter]
    omega
  have hrso : RenderSingleObject env (fuel + 1) st (env.deref p) mt g =
      .ok { st with cur_obj_ := some p, last_clip_path_ := none }
        { g with
          peak := max g.peak (g.depth + 1),
          log := g.log ++ (if st.last_clip_path_.isSome then
            [⟨st.device_, .RestoreState true⟩] else []) } := by
    conv_lhs => unfold RenderSingleObject
    simp only [hguard, if_false,
      RenderSingleObject_body_dropped env _ st (env.deref p) mt _ h hplain hvisible]
    rfl
  conv_lhs => unfold RenderObjectList.loop
  simp only [hstop, if_false, hactive, hculled, Bool.not_true, Bool.false_eq_true]
  rw [R_bind_apply, hrso]
  simp only [hflag, Bool.false_eq_true, if_false]
/-- C21, the claim fails as stated, in two places.  A text in a Type-3 font whose text
matrix (1 0 1 0 0 0) is rejected by `IsAvailableMatrix`, rendered with the object-to-device
matrix (1 1 0 1 0 0), is not dropped: `ProcessText` renders its glyph, whose two paths are
handed to `DrawPath` in opaque black with the matrix (1 1 1 1 0 0): the matrix test of
`ProcessText` stands after the dispatch of Type-3 fonts.  And a path that is stroked with a
shading pattern and whose combined matrix, the zero matrix, is rejected is not dropped
either: `ProcessPath` returns true without `DrawPath`, but the shading has been drawn: the
patterns are processed before the matrix test. -/
theorem rejected_matrix_object_still_painted :
    (IsAvailableMatrix Demo.flatText.text_matrix = false ∧
      (Demo.affine.font Demo.flatText.states.text_state.font).is_type3 = true ∧
      Demo.drawnWith (ProcessText Demo.affine
        (RenderSingleObject Demo.affine (kRenderMaxRecursionDepth + 1)) Demo.status
        Demo.flatText ⟨1, 1, 0, 1, 0, 0⟩ none Demo.start) =
        [(.doc 3, ⟨1, 1, 1, 1, 0, 0⟩, 0xFF000000), (.doc 4, ⟨1, 1, 1, 1, 0, 0⟩, 0xFF000000)]) ∧
    (IsAvailableMatrix (Demo.env.Concat Demo.collapsedPattern.matrix CFX_Matrix.identity) =
        false ∧
      ProcessPath Demo.env Demo.status Demo.collapsedPattern CFX_Matrix.identity Demo.start =
        .ok true (said Demo.start [⟨.given 7, .ShadingLoad 7⟩, ⟨.given 0, .SaveState⟩,
          ⟨.given 0, .SetClip_PathStroke (.doc 30) ⟨0, 0, 0, 0, 0, 0⟩ 0⟩,
          ⟨.given 0, .ShadingDraw none 7 CFX_Matrix.identity ⟨0, 0, 10, 10⟩ 0
            CPDF_RenderOptions.default⟩,
          ⟨.given 0, .RestoreState false⟩]) ∧
      Demo.shadings (ProcessPath Demo.env Demo.status Demo.collapsedPattern CFX_Matrix.identity
        Demo.start) = [7]) := by
  decide!

/-- C21, amended. `IsAvailableMatrix` rejects a matrix (a b c d e f) exactly when a scale
axis is zero (a = 0 or d = 0) and an off-diagonal term is zero too (b = 0 or c = 0); in
particular every matrix with non-zero determinant a*d - b*c is accepted.  When the combined
path matrix is rejected, `ProcessPath` is its pattern part, which comes before the test,
followed by the result true: it never runs out of fuel, it returns true when it returns, it
calls `DrawPath` in no case, and for a path without pattern colours it returns true without
any call; `ProcessObjectNoClip` on such a path object is the pattern part and nothing more.
When the text matrix is rejected, `ProcessText` returns true without any call for a text in
a font that is not a Type-3 font (in one of the eight text rendering modes, or without
character codes, or with a clipping path).  For a text in a Type-3 font, with character
codes and not in the mode Invisible, the text matrix is not tested: `ProcessText` is
`ProcessType3Text`.  So an object that the matrix test drops without a call (a path without
pattern colours, a text in a font that is not a Type-3 font) leaves the status as it is in
`ProcessObjectNoClip`, and its siblings still render: when such an object, without a clip
path, a soft mask or a blend mode, visible, stands first in an object list, the render of
the list is the render of the rest of the list, after at most the one `RestoreState` that
takes back the last clip path. -/
theorem IsAvailableMatrix_rejects (m : CFX_Matrix) (env : Env) (rso : Rso)
    (st : CPDF_RenderStatus) (obj : CPDF_PageObject) (mt : CFX_Matrix)
    (clipping_path : Option Ref) (g : G) :
    (IsAvailableMatrix m = false ↔ (m.a = 0 ∨ m.d = 0) ∧ (m.b = 0 ∨ m.c = 0)) ∧
    (m.a * m.d - m.b * m.c ≠ 0 → IsAvailableMatrix m = true) ∧
    (IsAvailableMatrix (env.Concat obj.matrix mt) = false →
      ProcessPath env st obj mt =
          (ProcessPathPattern env st obj mt obj.filltype obj.stroke >>= fun _ => pure true) ∧
        (match ProcessPath env st obj mt g with
          | .ok b g1 => b = true ∧ addedNoDrawPath g g1
          | .aborted g1 => addedNoDrawPath g g1
          | .starved => False) ∧
        (obj.states.color_state.fill_color.is_pattern = false →
          obj.states.color_state.stroke_color.is_pattern = false →
          ProcessPath env st obj mt g = .ok true g) ∧
        (obj.type = .kPath →
          ProcessObjectNoClip env rso st obj mt =
            (ProcessPathPattern env st obj mt obj.filltype obj.stroke >>= fun _ => pure st))) ∧
    (IsAvailableMatrix obj.text_matrix = false →
      (env.font obj.states.text_state.font).is_type3 = false →
      (obj.char_codes = [] ∨ obj.states.text_state.text_mode ≠ .MODE_UNKNOWN ∨
        clipping_path.isSome = true) →
      ProcessText env rso st obj mt clipping_path g = .ok (true, st) g) ∧
    ((env.font obj.states.text_state.font).is_type3 = true →
      obj.char_codes ≠ [] → obj.states.text_state.text_mode ≠ .MODE_INVISIBLE →
      ProcessText env rso st obj mt clipping_path =
        (ProcessType3Text env rso st obj mt >>= fun b => pure (b, st))) ∧
    (droppedByMatrix env obj mt → ProcessObjectNoClip env rso st obj mt g = .ok st g) ∧
    (∀ (fuel : Nat) (clip : CFX_FloatRect) (p : Ref) (rest : List (Option Ref)),
      obj = env.deref p → droppedByMatrix env obj mt → unclipped obj →
      env.CheckPageObjectVisible st.options_ obj = true → some p ≠ st.stop_obj_ →
      obj.active = true → culled clip obj = false →
      g.depth < kRenderMaxRecursionDepth → st.stopped_ = false →
      RenderObjectList.loop env (RenderSingleObject env (fuel + 1)) mt clip (some p :: rest)
          st g =
        RenderObjectList.loop env (RenderSingleObject env (fuel + 1)) mt clip rest
          { st with cur_obj_ := some p, last_clip_path_ := none }
          { g with
            peak := max g.peak (g.depth + 1),
            log := g.log ++ (if st.last_clip_path_.isSome then
              [⟨st.device_, .RestoreState true⟩] else []) }) := by
  refine ⟨IsAvailableMatrix_eq_false_iff m, fun hdet => ?_, fun hm => ?_, ?_, ?_, ?_, ?_⟩
  · cases h : IsAvailableMatrix m
    · exfalso
      apply hdet
      rcases (IsAvailableMatrix_eq_false_iff m).mp h with ⟨h1 | h1, h2 | h2⟩ <;>
        simp [h1, h2]
    · rfl
  · have heq := ProcessPath_rejected env st obj mt hm
    refine ⟨heq, ?_, ProcessPath_rejected_plain env st obj mt g hm, ?_⟩
    · rw [heq, R_bind_apply]
      have h1 := ProcessPathPattern_noDrawPath env st obj mt obj.filltype obj.stroke g
      have h2 := ProcessPathPattern_good env g.depth st obj mt obj.filltype obj.stroke g rfl
      cases hr : ProcessPathPattern env st obj mt obj.filltype obj.stroke g with
      | starved => rw [hr] at h2; exact h2
      | aborted g1 => rw [hr] at h1; exact h1
      | ok r g1 => rw [hr] at h1; exact ⟨rfl, h1⟩
    · intro ht
      unfold ProcessObjectNoClip
      rw [ht]
      simp only
      rw [heq, R_bind_assoc]
      simp only [R_pure_bind, Bool.not_true, Bool.false_eq_true, if_false]
  · exact ProcessText_rejected env rso st obj mt clipping_path g
  · intro hfont hcodes hmode
    unfold ProcessText
    simp only [hcodes, hmode, hfont, if_false, if_true]
  · exact ProcessObjectNoClip_dropped env rso st obj mt g
  · intro fuel clip p rest hobj hdrop hplain hvisible hstop hactive hculled hdepth hflag
    subst hobj
    exact RenderObjectList_loop_dropped env fuel st mt clip p rest g hdrop hplain hvisible hstop
      hactive hculled hdepth hflag

/-- Witness of the amended C21: the path of the demo document with the zero matrix is
dropped, and so is a text with the rejected matrix (1 0 1 0 0 0) in a font that is not a
Type-3 font; on the page of five paths whose second path has the zero matrix, the list from
the second path on renders as the list from the third path on, and the page paints the
paths 1, 3, 4 and 5. -/
theorem IsAvailableMatrix_rejects_witness :
    ProcessPath Demo.env Demo.status Demo.collapsed CFX_Matrix.identity Demo.start =
        .ok true Demo.start ∧
      ProcessText Demo.plainFonts
        (RenderSingleObject Demo.plainFonts (kRenderMaxRecursionDepth + 1)) Demo.status
        Demo.flatText CFX_Matrix.identity none Demo.start = .ok (true, Demo.status) Demo.start ∧
      RenderObjectList.loop Demo.withCollapsed
          (RenderSingleObject Demo.withCollapsed (kRenderMaxRecursionDepth + 1))
          CFX_Matrix.identity ⟨0, 0, 100, 100⟩
          [some (.given 2), some (.given 3), some (.given 4), some (.given 5)] Demo.status
          Demo.start =
        RenderObjectList.loop Demo.withCollapsed
          (RenderSingleObject Demo.withCollapsed (kRenderMaxRecursionDepth + 1))
          CFX_Matrix.identity ⟨0, 0, 100, 100⟩
          [some (.given 3), some (.given 4), some (.given 5)]
          { Demo.status with cur_obj_ := some (.given 2) } ⟨0, 1, 0, []⟩ ∧
      Demo.drawn (RenderObjectList Demo.withCollapsed
        (RenderSingleObject Demo.withCollapsed (kRenderMaxRecursionDepth + 1)) Demo.status 0
        CFX_Matrix.identity Demo.start) = [1, 3, 4, 5] :=
  ⟨((IsAvailableMatrix_rejects CFX_Matrix.identity Demo.env
      (RenderSingleObject Demo.env (kRenderMaxRecursionDepth + 1)) Demo.status Demo.collapsed
      CFX_Matrix.identity none Demo.start).2.2.1 (by decide!)).2.2.1 (by decide!) (by decide!),
    (IsAvailableMatrix_rejects CFX_Matrix.identity Demo.plainFonts
      (RenderSingleObject Demo.plainFonts (kRenderMaxRecursionDepth + 1)) Demo.status
      Demo.flatText CFX_Matrix.identity none Demo.start).2.2.2.1 (by decide!) (by decide!)
      (Or.inr (Or.inl (by decide!))),
    (IsAvailableMatrix_rejects CFX_Matrix.identity Demo.withCollapsed
      (RenderSingleObject Demo.withCollapsed (kRenderMaxRecursionDepth + 1)) Demo.status
      (Demo.withCollapsed.deref (.given 2)) CFX_Matrix.identity none Demo.start).2.2.2.2.2.2
      kRenderMaxRecursionDepth ⟨0, 0, 100, 100⟩ (.given 2)
      [some (.given 3), some (.given 4), some (.given 5)] rfl
      (Or.inl ⟨by decide!, by decide!, by decide!, by decide!⟩)
      ⟨by decide!, by decide!, by decide!⟩ (by decide!) (by decide!) (by decide!) (by decide!)
      (by decide!) (by decide!),
    by decide!⟩

end CPDF_RenderStatus

namespace CPDF_Action

/-! ### Theorems on actions -/

theorem GetType_loop_eq (csType : String) (table : List String) :
    ∀ i, GetType.loop csType table i =
      if csType ∈ table then some (i + table.indexOf csType + 1) else none := by
  induction table with
  | nil => intro i; simp [GetType.loop]
  | cons name rest ih =>
    intro i
    unfold GetType.loop
    by_cases h : csType = name
    · subst h
      simp
    · rw [if_neg h, ih, List.indexOf_cons_ne _ (Ne.symm h)]
      by_cases hm : csType ∈ rest
      · simp [hm]
        omega
      · simp [hm, h]

/-- C14, the claim fails as stated: a dictionary whose name at `S` is `GoTo`, the first name
of the table, but which `ValidateDictOptionalType` rejects (the guard at the head of
`GetType`), has the type `kUnknown`, not the type at the position of `GoTo`. -/
theorem GetType_unknown_for_rejected_dictionary :
    GetType TypeValues.table (Demo.helpers false) Demo.goTo = some TypeValues.table.kUnknown ∧
      Demo.goTo.dict_.map (claimedType TypeValues.table) = some TypeValues.table.kGoTo ∧
      TypeValues.table.kUnknown ≠ TypeValues.table.kGoTo := by
  decide!

/-- C14, amended. The accessors are gated by the action type.  For every action dictionary,
`GetType` returns `kUnknown` when `ValidateDictOptionalType` rejects the dictionary as an
action, when the name at `S` is missing or when it is not one of the 18 names of the table,
and otherwise the type at the position of the name in the table; `GetDest` returns the null
destination unless the type is `kGoTo`, `kGoToR` or `kGoToE`; `GetFilePath` returns the empty
string unless the type is `kGoToR`, `kGoToE`, `kLaunch`, `kSubmitForm` or `kImportData`;
`GetURI` returns the empty string unless the type is `kURI`. -/
theorem accessors_gated_by_type (T : TypeValues) (h : Helpers) (dict : CPDF_Dictionary)
    (doc : CPDF_Document) :
    ∃ type, GetType T h ⟨some dict⟩ = some type ∧
      kActionTypeStrings.length = 18 ∧
      (type = if h.ValidateDictOptionalType (some dict) "Action" = false ∨ dict.S = "" ∨
            dict.S ∉ kActionTypeStrings then T.kUnknown
          else kActionTypeStrings.indexOf dict.S + 1) ∧
      (type ≠ T.kGoTo ∧ type ≠ T.kGoToR ∧ type ≠ T.kGoToE →
        GetDest T h ⟨some dict⟩ doc = some none) ∧
      (type ≠ T.kGoToR ∧ type ≠ T.kGoToE ∧ type ≠ T.kLaunch ∧ type ≠ T.kSubmitForm ∧
          type ≠ T.kImportData →
        GetFilePath T h ⟨some dict⟩ = some "") ∧
      (type ≠ T.kURI → GetURI T h ⟨some dict⟩ doc = some "") := by
  have htype : ∃ type, GetType T h ⟨some dict⟩ = some type ∧
      type = if h.ValidateDictOptionalType (some dict) "Action" = false ∨ dict.S = "" ∨
            dict.S ∉ kActionTypeStrings then T.kUnknown
          else kActionTypeStrings.indexOf dict.S + 1 := by
    unfold GetType
    cases hv : h.ValidateDictOptionalType (some dict) "Action" with
    | false => exact ⟨T.kUnknown, by simp, by simp⟩
    | true =>
      by_cases hs : dict.S = ""
      · exact ⟨T.kUnknown, by simp [hs], by simp [hs]⟩
      · by_cases hm : dict.S ∈ kActionTypeStrings
        · refine ⟨kActionTypeStrings.indexOf dict.S + 1, ?_, by simp [hs, hm]⟩
          simp only [Bool.not_true, Bool.false_eq_true, if_false, hs]
          rw [GetType_loop_eq, if_pos hm]
          simp
        · refine ⟨T.kUnknown, ?_, by simp [hm]⟩
          simp only [Bool.not_true, Bool.false_eq_true, if_false, hs]
          rw [GetType_loop_eq, if_neg hm]
  obtain ⟨type, hget, hval⟩ := htype
  refine ⟨type, hget, rfl, hval, ?_, ?_, ?_⟩
  · intro hd
    unfold GetDest
    rw [hget]
    simp only [hd, ne_eq, not_false_eq_true, and_self, if_true]
  · intro hf
    unfold GetFilePath
    rw [hget]
    simp only [hf, ne_eq, not_false_eq_true, and_self, if_true]
  · intro hu
    unfold GetURI
    rw [hget]
    simp only [hu, ne_eq, not_false_eq_true, if_true]

/-- Witness of the amended C14: a launch action with a file specification has the type at
the position of `Launch`, the null destination, the file name of the specification and no
URI. -/
theorem accessors_gated_by_type_witness :
    GetType TypeValues.table (Demo.helpers true) Demo.launch = some TypeValues.table.kLaunch ∧
      GetDest TypeValues.table (Demo.helpers true) Demo.launch Demo.doc = some none ∧
      GetFilePath TypeValues.table (Demo.helpers true) Demo.launch = some "test.pdf" ∧
      GetURI TypeValues.table (Demo.helpers true) Demo.launch Demo.doc = some "" := by
  obtain ⟨type, hget, _, _, hdest, _, huri⟩ :=
    accessors_gated_by_type TypeValues.table (Demo.helpers true)
      ⟨"Launch", none, some 1, none, ""⟩ Demo.doc
  have hlaunch : GetType TypeValues.table (Demo.helpers true) Demo.launch =
      some TypeValues.table.kLaunch := by
    decide!
  have ht : type = TypeValues.table.kLaunch := Option.some.inj (hget.symm.trans hlaunch)
  subst ht
  exact ⟨hlaunch, hdest (by decide), by decide!, huri (by decide)⟩

end CPDF_Action

namespace CPDF_CMap

/-! ### Theorems on character maps -/

theorem toChar_of_lt {n : Nat} (h : n < 256) : toChar n = n := Nat.mod_eq_of_lt h

/-- C25. For the coding schemes `OneByte`, `TwoBytes` and `MixedTwoBytes` and every
character code `c` that `GetNextChar` returns from a complete character of the scheme
(`c < 256` for `OneByte`; `c < 65536` for `TwoBytes`; for `MixedTwoBytes` `c < 256` that is
not a leading byte, or `256 <= c < 65536` whose high byte is a leading byte): `AppendChar`
appends to the empty string a string from which `GetNextChar`, at the offset 0, returns `c`
and leaves the offset at the end of the string. -/
theorem AppendChar_GetNextChar_round_trip (cmap : CMap) (c : Nat)
    (h : roundTripCode cmap c) :
    ∃ s, AppendChar cmap [] c = some s ∧ GetNextChar cmap s 0 = some (c, s.length) := by
  unfold roundTripCode at h
  unfold AppendChar GetNextChar
  cases hs : cmap.coding_scheme_ with
  | OneByte =>
    rw [hs] at h
    simp only at h
    exact ⟨[c], by simp [toChar_of_lt h], by simp [GetNextChar.next]⟩
  | TwoBytes =>
    rw [hs] at h
    simp only at h
    have h1 : c / 256 < 256 := by omega
    have h2 : c % 256 < 256 := by omega
    refine ⟨[c / 256, c % 256], by simp [toChar_of_lt h1, toChar_of_lt h2], ?_⟩
    simp only [GetNextChar.next, List.getElem?_cons_zero, List.getElem?_cons_succ, zero_add,
      List.length_cons, List.length_nil]
    congr 2
    omega
  | MixedTwoBytes =>
    rw [hs] at h
    simp only at h
    rcases h with ⟨hlt, hlead⟩ | ⟨hge, hlt, hlead⟩
    · refine ⟨[c], ?_, ?_⟩
      · have : c < 0x100 := hlt
        simp only [this, if_true, hlead, List.nil_append, toChar_of_lt hlt]
      · simp only [GetNextChar.next, List.getElem?_cons_zero, hlead, List.length_cons,
          List.length_nil, zero_add]
    · have hshift : c >>> 8 = c / 256 := by
        rw [Nat.shiftRight_eq_div_pow]
      have h1 : c / 256 < 256 := by omega
      have hn : ¬ c < 0x100 := by omega
      refine ⟨[c / 256, c % 256], ?_, ?_⟩
      · simp only [hn, if_false, List.nil_append, hshift, toChar, Nat.mod_eq_of_lt h1]
      · simp only [GetNextChar.next, List.getElem?_cons_zero, List.getElem?_cons_succ, zero_add,
          hlead, List.length_cons, List.length_nil]
        congr 2
        omega
  | MixedFourBytes =>
    rw [hs] at h
    exact h.elim

/-- Witness of C25: the character code `0x8140` in a CMap with the leading bytes `0x81` to
`0xfe`. -/
theorem AppendChar_GetNextChar_round_trip_witness :
    ∃ s, AppendChar Demo.gbk [] 0x8140 = some s ∧
      GetNextChar Demo.gbk s 0 = some (0x8140, s.length) :=
  AppendChar_GetNextChar_round_trip Demo.gbk 0x8140 (Or.inr (by decide!))
theorem GetNextChar_next_of_lt (s : List Nat) (offset : Nat) (h : offset < s.length) :
    GetNextChar.next s offset = (s[offset], offset + 1) := by
  unfold GetNextChar.next
  rw [List.getElem?_eq_getElem h]

theorem GetNextChar_next_bounds (s : List Nat) (offset : Nat) (h : offset ≤ s.length) :
    offset ≤ (GetNextChar.next s offset).2 ∧ (GetNextChar.next s offset).2 ≤ s.length := by
  unfold GetNextChar.next
  cases hb : s[offset]? with
  | none => exact ⟨Nat.le_refl _, h⟩
  | some b =>
    have := (List.getElem?_eq_some_iff.mp hb).1
    exact ⟨Nat.le_succ _, this⟩

theorem GetNextChar_four_bounds (ranges : List CodeRange) (s : List Nat) :
    ∀ (room : Nat) (codes : List Nat) (offset : Nat), offset ≤ s.length →
      ∃ c off1, GetNextChar.four ranges s room codes offset = some (c, off1) ∧
        offset ≤ off1 ∧ off1 ≤ s.length := by
  intro room
  induction room with
  | zero =>
    intro codes offset h
    unfold GetNextChar.four
    split
    · exact ⟨_, _, rfl, Nat.le_refl _, h⟩
    · split
      · exact ⟨_, _, rfl, Nat.le_refl _, h⟩
      · exact ⟨_, _, rfl, Nat.le_refl _, h⟩
  | succ room ih =>
    intro codes offset h
    unfold GetNextChar.four
    split
    · exact ⟨_, _, rfl, Nat.le_refl _, h⟩
    · split
      · exact ⟨_, _, rfl, Nat.le_refl _, h⟩
      · by_cases he : offset = s.length
        · rw [if_pos he]
          exact ⟨_, _, rfl, Nat.le_refl _, h⟩
        · rw [if_neg he]
          have hlt : offset < s.length := Nat.lt_of_le_of_ne h he
          rw [List.getElem?_eq_getElem hlt]
          obtain ⟨c, off1, h1, h2, h3⟩ := ih (codes ++ [s[offset]]) (offset + 1) hlt
          exact ⟨c, off1, h1, by omega, h3⟩

theorem GetNextChar_consumes (cmap : CMap) (s : List Nat) (offset c off1 : Nat)
    (h : offset < s.length) (hnext : GetNextChar cmap s offset = some (c, off1)) :
    offset < off1 ∧ off1 ≤ s.length := by
  unfold GetNextChar at hnext
  have h0 := GetNextChar_next_of_lt s offset h
  have hb := GetNextChar_next_bounds s (offset + 1) h
  cases hs : cmap.coding_scheme_ with
  | OneByte =>
    rw [hs] at hnext
    simp only [h0, Option.some.injEq, Prod.mk.injEq] at hnext
    omega
  | TwoBytes =>
    rw [hs] at hnext
    simp only [h0, Option.some.injEq, Prod.mk.injEq] at hnext
    omega
  | MixedTwoBytes =>
    rw [hs] at hnext
    simp only [h0] at hnext
    split at hnext
    · cases hnext
    · simp only [Option.some.injEq, Prod.mk.injEq] at hnext
      omega
    · simp only [Option.some.injEq, Prod.mk.injEq] at hnext
      omega
  | MixedFourBytes =>
    rw [hs] at hnext
    simp only [h0] at hnext
    obtain ⟨c1, off2, h1, h2, h3⟩ :=
      GetNextChar_four_bounds cmap.mixed_four_byte_leading_ranges_ s 3 [s[offset]] (offset + 1) h
    rw [h1] at hnext
    simp only [Option.some.injEq, Prod.mk.injEq] at hnext
    omega

theorem callsToEnd_of_ge (cmap : CMap) (s : List Nat) (fuel offset : Nat)
    (h : s.length ≤ offset) : callsToEnd cmap s fuel offset = .count 0 := by
  have hn : ¬ offset < s.length := by omega
  cases fuel <;> simp [callsToEnd, hn]

theorem callsToEnd_fuel (cmap : CMap) (s : List Nat) :
    ∀ (fuel1 fuel2 offset : Nat), s.length - offset ≤ fuel1 → s.length - offset ≤ fuel2 →
      callsToEnd cmap s fuel1 offset = callsToEnd cmap s fuel2 offset ∧
        callsToEnd cmap s fuel1 offset ≠ .starved := by
  intro fuel1
  induction fuel1 with
  | zero =>
    intro fuel2 offset h1 h2
    have hge : s.length ≤ offset := by omega
    rw [callsToEnd_of_ge cmap s 0 offset hge, callsToEnd_of_ge cmap s fuel2 offset hge]
    exact ⟨rfl, by simp⟩
  | succ fuel1 ih =>
    intro fuel2 offset h1 h2
    by_cases hlt : offset < s.length
    · cases fuel2 with
      | zero => omega
      | succ fuel2 =>
        unfold callsToEnd
        rw [if_pos hlt, if_pos hlt]
        cases hn : GetNextChar cmap s offset with
        | none => exact ⟨rfl, by simp⟩
        | some next =>
          have hc := GetNextChar_consumes cmap s offset next.1 next.2 hlt hn
          have := ih fuel2 next.2 (by omega) (by omega)
          simp only
          rw [← this.1]
          refine ⟨rfl, ?_⟩
          cases hr : callsToEnd cmap s fuel1 next.2 with
          | starved => exact absurd hr this.2
          | fault => simp
          | count n => simp
    · have hge : s.length ≤ offset := by omega
      rw [callsToEnd_of_ge cmap s _ offset hge, callsToEnd_of_ge cmap s fuel2 offset hge]
      exact ⟨rfl, by simp⟩

theorem Steps_bump_succ (count : Nat) (r : Steps) :
    Steps.bump (count + 1) r =
      Steps.bump count (match r with
        | .count n => .count (n + 1)
        | .fault => .fault
        | .starved => .starved) := by
  cases r with
  | count n => simp only [Steps.bump]; congr 1; omega
  | fault => rfl
  | starved => rfl

theorem Steps_bump_zero (r : Steps) : Steps.bump 0 r = r := by
  cases r <;> simp [Steps.bump]

theorem callsToEnd_OneByte (cmap : CMap) (s : List Nat)
    (hs : cmap.coding_scheme_ = .OneByte) :
    ∀ (fuel offset : Nat), s.length - offset ≤ fuel →
      callsToEnd cmap s fuel offset = .count (s.length - offset) := by
  intro fuel
  induction fuel with
  | zero =>
    intro offset h
    rw [callsToEnd_of_ge cmap s 0 offset (by omega)]
    congr 1
    omega
  | succ fuel ih =>
    intro offset h
    by_cases hlt : offset < s.length
    · unfold callsToEnd
      rw [if_pos hlt]
      have hn : GetNextChar cmap s offset = some (s[offset], offset + 1) := by
        unfold GetNextChar
        rw [hs]
        simp only [GetNextChar_next_of_lt s offset hlt]
      rw [hn]
      simp only
      rw [ih (offset + 1) (by omega)]
      simp only [Steps.count.injEq]
      omega
    · rw [callsToEnd_of_ge cmap s _ offset (by omega)]
      congr 1
      omega

theorem callsToEnd_TwoBytes (cmap : CMap) (s : List Nat)
    (hs : cmap.coding_scheme_ = .TwoBytes) :
    ∀ (fuel offset : Nat), s.length - offset ≤ fuel →
      callsToEnd cmap s fuel offset = .count ((s.length - offset + 1) / 2) := by
  intro fuel
  induction fuel with
  | zero =>
    intro offset h
    rw [callsToEnd_of_ge cmap s 0 offset (by omega)]
    congr 1
    omega
  | succ fuel ih =>
    intro offset h
    by_cases hlt : offset < s.length
    · unfold callsToEnd
      rw [if_pos hlt]
      have hb := GetNextChar_next_bounds s (offset + 1) hlt
      have hn : GetNextChar cmap s offset =
          some (256 * s[offset] + (GetNextChar.next s (offset + 1)).1,
            (GetNextChar.next s (offset + 1)).2) := by
        unfold GetNextChar
        rw [hs]
        simp only [GetNextChar_next_of_lt s offset hlt]
      rw [hn]
      simp only
      by_cases h2 : offset + 1 < s.length
      · rw [GetNextChar_next_of_lt s (offset + 1) h2]
        simp only
        rw [ih (offset + 1 + 1) (by omega)]
        simp only [Steps.count.injEq]
        omega
      · have he : (GetNextChar.next s (offset + 1)).2 = s.length := by omega
        rw [he, callsToEnd_of_ge cmap s fuel s.length (Nat.le_refl _)]
        simp only [Steps.count.injEq]
        omega
    · rw [callsToEnd_of_ge cmap s _ offset (by omega)]
      congr 1
      omega

theorem CountChar_mixed_of_ge (leading : List Bool) (s : List Nat) (fuel i count : Nat)
    (h : s.length ≤ i) : CountChar.mixed leading s fuel i count = .count count := by
  have hn : ¬ i < s.length := by omega
  have hnone : s[i]? = none := List.getElem?_eq_none (by omega)
  cases fuel <;> simp [CountChar.mixed, hn, hnone]

theorem CountChar_mixed_calls (cmap : CMap) (s : List Nat)
    (hs : cmap.coding_scheme_ = .MixedTwoBytes) :
    ∀ (fuel i count : Nat), s.length - i ≤ fuel →
      CountChar.mixed cmap.mixed_two_byte_leading_bytes_ s fuel i count =
        Steps.bump count (callsToEnd cmap s fuel i) := by
  intro fuel
  induction fuel with
  | zero =>
    intro i count h
    rw [CountChar_mixed_of_ge _ s 0 i count (by omega),
      callsToEnd_of_ge cmap s 0 i (by omega)]
    rfl
  | succ fuel ih =>
    intro i count h
    by_cases hlt : i < s.length
    · unfold CountChar.mixed callsToEnd
      rw [if_pos hlt, List.getElem?_eq_getElem hlt]
      simp only
      unfold GetNextChar
      rw [hs]
      simp only [GetNextChar_next_of_lt s i hlt]
      cases hl : cmap.mixed_two_byte_leading_bytes_[s[i]]? with
      | none => rfl
      | some b =>
        cases b with
        | false =>
          simp only
          rw [ih (i + 1) (count + 1) (by omega), Steps_bump_succ]
        | true =>
          simp only
          rw [ih (i + 1 + 1) (count + 1) (by omega), Steps_bump_succ]
          by_cases h2 : i + 1 < s.length
          · rw [GetNextChar_next_of_lt s (i + 1) h2]
          · have hb := GetNextChar_next_bounds s (i + 1) hlt
            have he : (GetNextChar.next s (i + 1)).2 = s.length := by omega
            rw [he, callsToEnd_of_ge cmap s fuel s.length (Nat.le_refl _),
              callsToEnd_of_ge cmap s fuel (i + 1 + 1) (by omega)]
    · rw [CountChar_mixed_of_ge _ s _ i count (by omega),
        callsToEnd_of_ge cmap s _ i (by omega)]
      rfl

theorem CountChar_four_calls (cmap : CMap) (s : List Nat) :
    ∀ (fuel offset count : Nat),
      CountChar.four cmap s fuel offset count =
        Steps.bump count (callsToEnd cmap s fuel offset) := by
  intro fuel
  induction fuel with
  | zero =>
    intro offset count
    unfold CountChar.four callsToEnd
    split <;> rfl
  | succ fuel ih =>
    intro offset count
    unfold CountChar.four callsToEnd
    split
    · cases GetNextChar cmap s offset with
      | none => rfl
      | some next =>
        simp only
        rw [ih next.2 (count + 1), Steps_bump_succ]
    · rfl

/-- C26. For every coding scheme and every byte string `s`: `CountChar(s)` is the number of
successive `GetNextChar` calls that move the offset from 0 to the end of `s` (the same
number for every bound on the calls that is at least the length of `s`, and where one
indexes the vector of leading bytes out of range so does the other); the iteration
terminates, because every `GetNextChar` call made with an offset inside `s` that returns
consumes at least one byte and never moves the offset past the end, and in the scheme
`MixedFourBytes` it always returns. -/
theorem CountChar_counts_GetNextChar_calls (cmap : CMap) (s : List Nat) :
    (∀ fuel, s.length ≤ fuel → callsToEnd cmap s fuel 0 = CountChar cmap s) ∧
      CountChar cmap s ≠ .starved ∧
      (∀ offset c off1, offset < s.length → GetNextChar cmap s offset = some (c, off1) →
        offset < off1 ∧ off1 ≤ s.length) ∧
      (cmap.coding_scheme_ ≠ .MixedTwoBytes → ∀ offset, offset < s.length →
        ∃ c off1, GetNextChar cmap s offset = some (c, off1)) := by
  have hcount : ∀ fuel, s.length ≤ fuel → callsToEnd cmap s fuel 0 = CountChar cmap s := by
    intro fuel hfuel
    unfold CountChar
    cases hs : cmap.coding_scheme_ with
    | OneByte => exact callsToEnd_OneByte cmap s hs fuel 0 (by omega)
    | TwoBytes => exact callsToEnd_TwoBytes cmap s hs fuel 0 (by omega)
    | MixedTwoBytes =>
      simp only
      rw [CountChar_mixed_calls cmap s hs s.length 0 0 (by omega), Steps_bump_zero]
      exact (callsToEnd_fuel cmap s fuel s.length 0 (by omega) (by omega)).1
    | MixedFourBytes =>
      simp only
      rw [CountChar_four_calls cmap s s.length 0 0, Steps_bump_zero]
      exact (callsToEnd_fuel cmap s fuel s.length 0 (by omega) (by omega)).1
  refine ⟨hcount, ?_, fun offset c off1 h hn => GetNextChar_consumes cmap s offset c off1 h hn,
    ?_⟩
  · rw [← hcount s.length (Nat.le_refl _)]
    exact (callsToEnd_fuel cmap s s.length s.length 0 (by omega) (by omega)).2
  · intro hscheme offset hlt
    unfold GetNextChar
    cases hs : cmap.coding_scheme_ with
    | OneByte => exact ⟨_, _, rfl⟩
    | TwoBytes => exact ⟨_, _, rfl⟩
    | MixedTwoBytes => exact absurd hs hscheme
    | MixedFourBytes =>
      simp only [GetNextChar_next_of_lt s offset hlt]
      obtain ⟨c, off1, h1, _, _⟩ :=
        GetNextChar_four_bounds cmap.mixed_four_byte_leading_ranges_ s 3 [s[offset]]
          (offset + 1) hlt
      exact ⟨c, off1, h1⟩

/-- The demo CMap with four-byte ranges on a string of a one-byte character, a two-byte
character and a byte outside the ranges: three characters, in three calls. -/
theorem CountChar_on_demo :
    CountChar Demo.four [0x41, 0x81, 0x40, 0xff] = .count 3 ∧
      callsToEnd Demo.four [0x41, 0x81, 0x40, 0xff] 4 0 = .count 3 ∧
      GetNextChar Demo.four [0x41, 0x81, 0x40, 0xff] 1 = some (0x8140, 3) ∧
      CountChar Demo.gbk [0x41, 0x81, 0x40, 0x81] = .count 3 := by
  decide!

/-- C27, the claim fails as stated: of two ranges without a character code in common, the
first with its start code above its end code, the second containing `70004`, the lookup of
`70004` (above the direct table) gives 0, not the CID 8 of the second range: the search
stops at the first range, whose end code is not below `70004` and whose start code is above
it. -/
theorem CIDFromCharCode_misses_range_after_empty_one :
    Demo.ranges.Pairwise CIDRange.disjoint ∧
      (∃ r ∈ Demo.ranges, r.contains 70004 ∧ (r.start_cid_ + 70004 - r.start_code_) % 2 ^ 16 = 8) ∧
      Demo.four.direct_charcode_to_cidtable_.length ≤ 70004 ∧
      CIDFromCharCode (fun _ _ => 0) (SetAdditionalMappings Demo.four Demo.ranges) 70004 = 0 := by
  refine ⟨?_, ⟨⟨70001, 70007, 5⟩, by decide, ⟨by decide, by decide⟩, by decide⟩, by decide,
    by decide!⟩
  unfold Demo.ranges
  rw [List.pairwise_cons]
  refine ⟨?_, List.pairwise_singleton _ _⟩
  intro r hr c hc
  have h1 := hc.1.1
  have h2 := hc.1.2
  simp only at h1 h2
  omega

theorem lower_bound_of_contains (c : Nat) :
    ∀ (ranges : List CIDRange), ranges.Sorted endCodeLE → ranges.Pairwise CIDRange.disjoint →
      (∀ r ∈ ranges, r.start_code_ ≤ r.end_code_) →
      ∀ r ∈ ranges, r.contains c → lower_bound ranges c = some r := by
  intro ranges
  induction ranges with
  | nil => intro _ _ _ r hr; cases hr
  | cons x rest ih =>
    intro hsorted hdisjoint hwf r hr hc
    rw [List.sorted_cons] at hsorted
    rw [List.pairwise_cons] at hdisjoint
    unfold lower_bound
    by_cases hx : x.end_code_ < c
    · have hne : r ≠ x := by
        intro he
        rw [he] at hc
        exact absurd hc.2 (by omega)
      have hin : r ∈ rest := by
        rcases List.mem_cons.mp hr with h | h
        · exact absurd h hne
        · exact h
      rw [List.find?_cons_of_neg _ (by simp [hx])]
      exact ih hsorted.2 hdisjoint.2 (fun r1 h1 => hwf r1 (List.mem_cons_of_mem _ h1)) r hin hc
    · rw [List.find?_cons_of_pos _ (by simp [hx])]
      rcases List.mem_cons.mp hr with h | h
      · rw [h]
      · exfalso
        have hle : x.end_code_ ≤ r.end_code_ := hsorted.1 r h
        have hxwf := hwf x (List.mem_cons_self _ _)
        by_cases hs : x.start_code_ ≤ c
        · exact hdisjoint.1 r h c ⟨⟨hs, by omega⟩, hc⟩
        · exact hdisjoint.1 r h x.start_code_
            ⟨⟨Nat.le_refl _, hxwf⟩, ⟨by have := hc.1; omega, by omega⟩⟩

theorem SetAdditionalMappings_stored (cmap : CMap) (ranges : List CIDRange)
    (hscheme : cmap.coding_scheme_ = .MixedFourBytes)
    (hempty : cmap.additional_charcode_to_cidmappings_ = []) :
    (SetAdditionalMappings cmap ranges).additional_charcode_to_cidmappings_ =
      ranges.insertionSort endCodeLE := by
  unfold SetAdditionalMappings
  by_cases hr : ranges = []
  · simp [hr, hempty]
  · simp [hr, hscheme]

/-- C27, amended. For a `MixedFourBytes` CMap parsed from embedded data (no coding `kCID`,
no embedded map, a direct table that is not empty, no additional mappings yet),
`SetAdditionalMappings` stores a permutation of the given ranges sorted by end code, and
leaves the rest of the CMap as it is; if those ranges are pairwise disjoint and each has
its start code at or below its end code, then for every character code `c` at or above the
size of the direct table `CIDFromCharCode(c)` is `(start_cid + c - start_code) mod 2^16` for
the range with `start_code <= c <= end_code`, and 0 when no range contains `c`.  For an
Identity CMap (coding `kCID`) `CIDFromCharCode(c)` is `c mod 2^16`. -/
theorem CIDFromCharCode_ranges (embedded : Nat → Nat → Nat) (cmap : CMap)
    (ranges : List CIDRange) (c : Nat) :
    (cmap.coding_scheme_ = .MixedFourBytes → cmap.coding_ ≠ .kCID → cmap.embed_map_ = none →
      cmap.direct_charcode_to_cidtable_ ≠ [] →
      cmap.additional_charcode_to_cidmappings_ = [] →
      ((SetAdditionalMappings cmap ranges).additional_charcode_to_cidmappings_.Perm ranges ∧
        (SetAdditionalMappings cmap ranges).additional_charcode_to_cidmappings_.Sorted
          endCodeLE ∧
        SetAdditionalMappings cmap ranges =
          { cmap with additional_charcode_to_cidmappings_ :=
            (SetAdditionalMappings cmap ranges).additional_charcode_to_cidmappings_ }) ∧
      ((∀ r ∈ ranges, r.start_code_ ≤ r.end_code_) → ranges.Pairwise CIDRange.disjoint →
        cmap.direct_charcode_to_cidtable_.length ≤ c →
        (∀ r ∈ ranges, r.contains c →
          CIDFromCharCode embedded (SetAdditionalMappings cmap ranges) c =
            (r.start_cid_ + c - r.start_code_) % 2 ^ 16) ∧
        ((∀ r ∈ ranges, ¬ r.contains c) →
          CIDFromCharCode embedded (SetAdditionalMappings cmap ranges) c = 0))) ∧
    (cmap.coding_ = .kCID → CIDFromCharCode embedded cmap c = c % 2 ^ 16) := by
  refine ⟨fun hscheme hcoding hembed htable hempty => ?_, fun hid => ?_⟩
  · have hstored := SetAdditionalMappings_stored cmap ranges hscheme hempty
    have hperm : (ranges.insertionSort endCodeLE).Perm ranges := List.perm_insertionSort _ _
    have hsorted : (ranges.insertionSort endCodeLE).Sorted endCodeLE :=
      List.sorted_insertionSort _ _
    have hrest : SetAdditionalMappings cmap ranges =
        { cmap with additional_charcode_to_cidmappings_ := ranges.insertionSort endCodeLE } := by
      unfold SetAdditionalMappings
      by_cases hr : ranges = []
      · cases cmap
        simp only at hempty
        simp [hr, hempty]
      · simp [hr, hscheme]
    refine ⟨⟨by rw [hstored]; exact hperm, by rw [hstored]; exact hsorted,
      by rw [hstored]; exact hrest⟩, fun hwf hdisjoint hc => ?_⟩
    have hlookup : CIDFromCharCode embedded (SetAdditionalMappings cmap ranges) c =
        match lower_bound (ranges.insertionSort endCodeLE) c with
        | none => 0
        | some it =>
          if it.start_code_ > c then 0
          else (it.start_cid_ + c + 2 ^ 32 - it.start_code_) % 2 ^ 32 % 2 ^ 16 := by
      rw [hrest]
      unfold CIDFromCharCode
      simp only [hcoding, if_false, hembed, htable]
      rw [List.getElem?_eq_none hc]
    have hdis : (ranges.insertionSort endCodeLE).Pairwise CIDRange.disjoint := by
      refine (List.Perm.pairwise_iff ?_ hperm).mpr hdisjoint
      intro r1 r2 h x hx
      exact h x ⟨hx.2, hx.1⟩
    constructor
    · intro r hr hcont
      rw [hlookup, lower_bound_of_contains c _ hsorted hdis
        (fun r1 h1 => hwf r1 (hperm.mem_iff.mp h1)) r (hperm.mem_iff.mpr hr) hcont]
      have h1 := hcont.1
      simp only
      rw [if_neg (by omega)]
      have : r.start_cid_ + c + 2 ^ 32 - r.start_code_ =
          (r.start_cid_ + c - r.start_code_) + 2 ^ 32 := by omega
      rw [this, Nat.add_mod_right, Nat.mod_mod_of_dvd _ (by norm_num)]
    · intro hnone
      rw [hlookup]
      cases hf : lower_bound (ranges.insertionSort endCodeLE) c with
      | none => rfl
      | some it =>
        simp only
        have hmem : it ∈ ranges := hperm.mem_iff.mp (List.mem_of_find?_eq_some hf)
        have hend : ¬ it.end_code_ < c := by
          have := List.find?_some hf
          simpa using this
        have hnot := hnone it hmem
        unfold CIDRange.contains at hnot
        rw [if_pos (by omega)]
  · unfold CIDFromCharCode
    rw [if_pos hid]

/-- Witness of the amended C27: two ranges that contain character codes, given with the
higher one first, are stored with the lower one first, and `70004` has the CID 8. -/
theorem CIDFromCharCode_ranges_witness :
    (SetAdditionalMappings Demo.four Demo.sound).additional_charcode_to_cidmappings_ =
        [⟨70001, 70007, 5⟩, ⟨70010, 70020, 1⟩] ∧
      CIDFromCharCode (fun _ _ => 0) (SetAdditionalMappings Demo.four Demo.sound) 70004 = 8 := by
  refine ⟨by decide!, ?_⟩
  have h := ((CIDFromCharCode_ranges (fun _ _ => 0) Demo.four Demo.sound 70004).1 rfl
    (by decide) rfl (by decide) rfl).2 (by decide) ?_ (by decide)
  · exact h.1 ⟨70001, 70007, 5⟩ (by decide) ⟨by decide, by decide⟩
  · unfold Demo.sound
    rw [List.pairwise_cons]
    refine ⟨?_, List.pairwise_singleton _ _⟩
    intro r hr x hx
    rw [List.mem_singleton] at hr
    have h1 := hx.1.1
    have h2 := hx.2.2
    rw [hr] at h2
    simp only at h1 h2
    omega

end CPDF_CMap

namespace WideString

/-! ### Theorems on the UTF-8 decoder -/

theorem and_mask_6 (x : Nat) : x &&& 0x3f = x % 64 := Nat.and_pow_two_sub_one_eq_mod x 6

theorem and_mask_5 (x : Nat) : x &&& 0x1f = x % 32 := Nat.and_pow_two_sub_one_eq_mod x 5

theorem and_mask_4 (x : Nat) : x &&& 0x0f = x % 16 := Nat.and_pow_two_sub_one_eq_mod x 4

theorem and_mask_3 (x : Nat) : x &&& 0x07 = x % 8 := Nat.and_pow_two_sub_one_eq_mod x 3

theorem shift_or (cp low : Nat) (hcp : cp < 2 ^ 26) (hlow : low < 64) :
    (cp <<< 6) % 2 ^ 32 ||| low = cp * 64 + low := by
  rw [Nat.shiftLeft_eq, Nat.mod_eq_of_lt (by omega)]
  have h := Nat.mul_add_lt_is_or (i := 6) (b := low) (by omega) cp
  rw [show (2 : Nat) ^ 6 = 64 from rfl] at h
  rw [Nat.mul_comm cp 64, h]
theorem UTF8Decode_step_ascii (w : Bool) (pair : Nat → Nat × Nat) (st : DecodeState) (x : Nat)
    (hx : x < 0x80) :
    UTF8Decode.step w pair st x =
      { st with remaining := 0, buffer := AppendCodePointToWideString w pair x st.buffer } := by
  unfold UTF8Decode.step
  have h : x % 256 = x := Nat.mod_eq_of_lt (by omega)
  simp only [h, hx, if_true]

theorem UTF8Decode_step_lead2 (w : Bool) (pair : Nat → Nat × Nat) (st : DecodeState) (x : Nat)
    (hx : x < 32) :
    UTF8Decode.step w pair st (0xc0 + x) = { st with remaining := 1, code_point := x } := by
  unfold UTF8Decode.step
  have h : (0xc0 + x) % 256 = 0xc0 + x := Nat.mod_eq_of_lt (by omega)
  have h1 : ¬ 0xc0 + x < 0x80 := by omega
  have h2 : ¬ 0xc0 + x < 0xc0 := by omega
  have h3 : 0xc0 + x < 0xe0 := by omega
  have h4 : (0xc0 + x) % 32 = x := by omega
  simp only [h, h1, h2, h3, if_true, if_false, and_mask_5, h4]

theorem UTF8Decode_step_lead3 (w : Bool) (pair : Nat → Nat × Nat) (st : DecodeState) (x : Nat)
    (hx : x < 16) :
    UTF8Decode.step w pair st (0xe0 + x) = { st with remaining := 2, code_point := x } := by
  unfold UTF8Decode.step
  have h : (0xe0 + x) % 256 = 0xe0 + x := Nat.mod_eq_of_lt (by omega)
  have h1 : ¬ 0xe0 + x < 0x80 := by omega
  have h2 : ¬ 0xe0 + x < 0xc0 := by omega
  have h3 : ¬ 0xe0 + x < 0xe0 := by omega
  have h4 : 0xe0 + x < 0xf0 := by omega
  have h5 : (0xe0 + x) % 16 = x := by omega
  simp only [h, h1, h2, h3, h4, if_true, if_false, and_mask_4, h5]

theorem UTF8Decode_step_lead4 (w : Bool) (pair : Nat → Nat × Nat) (st : DecodeState) (x : Nat)
    (hx : x < 8) :
    UTF8Decode.step w pair st (0xf0 + x) = { st with remaining := 3, code_point := x } := by
  unfold UTF8Decode.step
  have h : (0xf0 + x) % 256 = 0xf0 + x := Nat.mod_eq_of_lt (by omega)
  have h1 : ¬ 0xf0 + x < 0x80 := by omega
  have h2 : ¬ 0xf0 + x < 0xc0 := by omega
  have h3 : ¬ 0xf0 + x < 0xe0 := by omega
  have h4 : ¬ 0xf0 + x < 0xf0 := by omega
  have h5 : 0xf0 + x < 0xf8 := by omega
  have h6 : (0xf0 + x) % 8 = x := by omega
  simp only [h, h1, h2, h3, h4, h5, if_true, if_false, and_mask_3, h6]

theorem UTF8Decode_step_continue (w : Bool) (pair : Nat → Nat × Nat) (buffer : List Nat) (r : Int)
    (cp x : Nat) (hr : r > 1) (hcp : cp < 2 ^ 26) (hx : x < 64) :
    UTF8Decode.step w pair ⟨buffer, r, cp⟩ (0x80 + x) = ⟨buffer, r - 1, cp * 64 + x⟩ := by
  unfold UTF8Decode.step
  have h : (0x80 + x) % 256 = 0x80 + x := Nat.mod_eq_of_lt (by omega)
  have h1 : ¬ 0x80 + x < 0x80 := by omega
  have h2 : 0x80 + x < 0xc0 := by omega
  have h3 : (0x80 + x) % 64 = x := by omega
  have h4 : r > 0 := by omega
  have h5 : ¬ r - 1 = 0 := by omega
  simp only [h, h1, h2, h4, h5, if_true, if_false, and_mask_6, h3, shift_or cp x hcp hx]

theorem UTF8Decode_step_complete (w : Bool) (pair : Nat → Nat × Nat) (buffer : List Nat)
    (cp x : Nat) (hcp : cp < 2 ^ 26) (hx : x < 64) :
    UTF8Decode.step w pair ⟨buffer, 1, cp⟩ (0x80 + x) =
      ⟨AppendCodePointToWideString w pair (cp * 64 + x) buffer, 0, cp * 64 + x⟩ := by
  unfold UTF8Decode.step
  have h : (0x80 + x) % 256 = 0x80 + x := Nat.mod_eq_of_lt (by omega)
  have h1 : ¬ 0x80 + x < 0x80 := by omega
  have h2 : 0x80 + x < 0xc0 := by omega
  have h3 : (0x80 + x) % 64 = x := by omega
  simp only [h, h1, h2, if_true, if_false, and_mask_6, h3, shift_or cp x hcp hx]
  rfl

theorem UTF8Decode_step_stray (w : Bool) (pair : Nat → Nat × Nat) (st : DecodeState) (byte : Nat)
    (hr : st.remaining = 0)
    (hb : (0x80 ≤ byte ∧ byte < 0xc0) ∨ (0xf8 ≤ byte ∧ byte < 0x100)) :
    UTF8Decode.step w pair st byte = st := by
  unfold UTF8Decode.step
  have h : byte % 256 = byte := Nat.mod_eq_of_lt (by omega)
  rcases hb with ⟨h1, h2⟩ | ⟨h1, h2⟩
  · have h3 : ¬ byte < 0x80 := by omega
    have h4 : ¬ st.remaining > 0 := by omega
    simp only [h, h3, h2, h4, if_true, if_false]
  · have h3 : ¬ byte < 0x80 := by omega
    have h4 : ¬ byte < 0xc0 := by omega
    have h5 : ¬ byte < 0xe0 := by omega
    have h6 : ¬ byte < 0xf0 := by omega
    have h7 : ¬ byte < 0xf8 := by omega
    simp only [h, h3, h4, h5, h6, h7, if_false]
    cases st
    simp only at hr
    simp [hr]

theorem UTF8Decode_loop_append (w : Bool) (pair : Nat → Nat × Nat) :
    ∀ (s1 s2 : List Nat) (st : DecodeState),
      UTF8Decode.loop w pair (s1 ++ s2) st =
        UTF8Decode.loop w pair s2 (UTF8Decode.loop w pair s1 st) := by
  intro s1
  induction s1 with
  | nil => intro s2 st; rfl
  | cons b rest ih => intro s2 st; exact ih s2 _

theorem UTF8Decode_loop_encode (w : Bool) (pair : Nat → Nat × Nat) (value : Nat) (hv : value < 0x200000)
    (st : DecodeState) :
    (UTF8Decode.loop w pair (encode value) st).buffer =
        AppendCodePointToWideString w pair value st.buffer ∧
      (UTF8Decode.loop w pair (encode value) st).remaining = 0 := by
  unfold encode
  cases st with
  | mk buffer r cp =>
  by_cases h1 : value < 0x80
  · rw [if_pos h1]
    simp only [UTF8Decode.loop, UTF8Decode_step_ascii w pair _ value h1]
    refine ⟨?_, ?_⟩ <;> first | rfl | trivial
  · rw [if_neg h1]
    by_cases h2 : value < 0x800
    · rw [if_pos h2]
      simp only [UTF8Decode.loop, UTF8Decode_step_lead2 w pair _ (value / 64) (by omega)]
      rw [UTF8Decode_step_complete w pair buffer (value / 64) (value % 64) (by omega) (by omega)]
      have : value / 64 * 64 + value % 64 = value := by omega
      rw [this]
      refine ⟨?_, ?_⟩ <;> first | rfl | trivial
    · rw [if_neg h2]
      by_cases h3 : value < 0x10000
      · rw [if_pos h3]
        simp only [UTF8Decode.loop, UTF8Decode_step_lead3 w pair _ (value / 4096) (by omega)]
        rw [UTF8Decode_step_continue w pair buffer 2 (value / 4096) (value / 64 % 64) (by omega) (by omega)
          (by omega)]
        have hr : (2 : Int) - 1 = 1 := rfl
        rw [hr, UTF8Decode_step_complete w pair buffer _ (value % 64) (by omega) (by omega)]
        have : (value / 4096 * 64 + value / 64 % 64) * 64 + value % 64 = value := by omega
        rw [this]
        refine ⟨?_, ?_⟩ <;> first | rfl | trivial
      · rw [if_neg h3]
        simp only [UTF8Decode.loop, UTF8Decode_step_lead4 w pair _ (value / 262144) (by omega)]
        rw [UTF8Decode_step_continue w pair buffer 3 (value / 262144) (value / 4096 % 64) (by omega)
          (by omega) (by omega)]
        have hr3 : (3 : Int) - 1 = 2 := rfl
        rw [hr3, UTF8Decode_step_continue w pair buffer 2 _ (value / 64 % 64) (by omega) (by omega)
          (by omega)]
        have hr : (2 : Int) - 1 = 1 := rfl
        rw [hr, UTF8Decode_step_complete w pair buffer _ (value % 64) (by omega) (by omega)]
        have : ((value / 262144 * 64 + value / 4096 % 64) * 64 + value / 64 % 64) * 64 +
            value % 64 = value := by omega
        rw [this]
        refine ⟨?_, ?_⟩ <;> first | rfl | trivial

theorem AppendCodePoint_character (pair : Nat → Nat × Nat) (value : Nat) (buffer : List Nat) :
    AppendCodePointToWideString false pair value buffer =
      buffer ++ (Piece.character (.sequence value)).toList := by
  unfold AppendCodePointToWideString Piece.character kMaximumSupplementaryCodePoint
  by_cases h : value ≤ 0x10FFFF
  · have hn : ¬ value > 0x10FFFF := by omega
    simp [h, hn]
  · have hn : value > 0x10FFFF := by omega
    simp [h, hn]

theorem UTF8Decode_loop_pieces (pair : Nat → Nat × Nat) :
    ∀ (pieces : List Piece) (st : DecodeState), st.remaining = 0 →
      (∀ p ∈ pieces, p.wellFormed) →
      (UTF8Decode.loop false pair (pieces.flatMap Piece.bytes) st).buffer =
        st.buffer ++ pieces.filterMap Piece.character := by
  intro pieces
  induction pieces with
  | nil => intro st _ _; simp [UTF8Decode.loop]
  | cons p rest ih =>
    intro st hr hwf
    have hp := hwf p (List.mem_cons_self _ _)
    have hrest : ∀ q ∈ rest, q.wellFormed := fun q hq => hwf q (List.mem_cons_of_mem _ hq)
    rw [List.flatMap_cons, UTF8Decode_loop_append]
    cases p with
    | sequence value =>
      have hl := UTF8Decode_loop_encode false pair value hp st
      rw [show Piece.bytes (.sequence value) = encode value from rfl,
        ih _ hl.2 hrest, hl.1, AppendCodePoint_character, List.append_assoc]
      congr 1
      unfold Piece.character
      by_cases h : value ≤ 0x10FFFF <;> simp [List.filterMap_cons, h, Piece.character]
    | stray byte =>
      rw [show Piece.bytes (.stray byte) = [byte] from rfl]
      simp only [UTF8Decode.loop]
      rw [UTF8Decode_step_stray false pair st byte hr hp, ih st hr hrest]
      simp [List.filterMap_cons, Piece.character]

theorem UTF8Decode_step_length (w : Bool) (pair : Nat → Nat × Nat) (st : DecodeState) (byte n : Nat)
    (hlen : st.buffer.length ≤ n)
    (hpair : st.remaining = 1 → st.code_point ≥ 1024 → st.buffer.length + 1 ≤ n) :
    (UTF8Decode.step w pair st byte).buffer.length ≤ n + 1 ∧
      ((UTF8Decode.step w pair st byte).remaining = 1 →
        (UTF8Decode.step w pair st byte).code_point ≥ 1024 →
        (UTF8Decode.step w pair st byte).buffer.length + 1 ≤ n + 1) := by
  have happ : ∀ cp, (AppendCodePointToWideString w pair cp st.buffer).length ≤
      st.buffer.length + (if cp < 0x10000 then 1 else 2) := by
    intro cp
    unfold AppendCodePointToWideString kMinimumSupplementaryCodePoint
    split
    · split <;> omega
    · split
      · split
        · rename_i h
          simp [h]
        · rename_i h
          simp [h]
      · simp
        split <;> omega
  unfold UTF8Decode.step
  simp only
  split
  · rename_i h1
    have happ1 := happ (byte % 256)
    rw [if_pos (by omega)] at happ1
    exact ⟨by simp only; omega, fun h => by simp at h⟩
  · split
    · split
      · rename_i h2 h3
        split
        · rename_i h4
          have hone : st.remaining = 1 := by omega
          have happ2 := happ ((st.code_point <<< 6) % 2 ^ 32 ||| (byte % 256 &&& 0x3f))
          refine ⟨?_, fun h => ?_⟩
          · simp only
            by_cases hbig : st.code_point ≥ 1024
            · have hp := hpair hone hbig
              split at happ2 <;> omega
            · have hsmall : (st.code_point <<< 6) % 2 ^ 32 ||| (byte % 256 &&& 0x3f) < 0x10000 := by
                have h6 : byte % 256 &&& 0x3f < 2 ^ 16 := by
                  rw [and_mask_6]
                  omega
                have h7 : (st.code_point <<< 6) % 2 ^ 32 < 2 ^ 16 := by
                  rw [Nat.shiftLeft_eq]
                  have : st.code_point * 2 ^ 6 < 2 ^ 16 := by omega
                  rw [Nat.mod_eq_of_lt (by omega)]
                  exact this
                exact Nat.or_lt_two_pow h7 h6
              rw [if_pos hsmall] at happ2
              omega
          · simp only at h
            omega
        · refine ⟨by simpa using Nat.le_succ_of_le hlen, fun _ _ => ?_⟩
          simp only
          omega
      · exact ⟨Nat.le_succ_of_le hlen, fun h1 h2 => by have := hpair h1 h2; omega⟩
    · split
      · refine ⟨by simpa using Nat.le_succ_of_le hlen, fun _ h => ?_⟩
        simp only [and_mask_5] at h
        omega
      · split
        · exact ⟨by simpa using Nat.le_succ_of_le hlen, fun h => by simp at h⟩
        · split
          · exact ⟨by simpa using Nat.le_succ_of_le hlen, fun h => by simp at h⟩
          · exact ⟨by simpa using Nat.le_succ_of_le hlen, fun h => by simp at h⟩

theorem UTF8Decode_loop_length (w : Bool) (pair : Nat → Nat × Nat) :
    ∀ (s : List Nat) (st : DecodeState) (n : Nat), st.buffer.length ≤ n →
      (st.remaining = 1 → st.code_point ≥ 1024 → st.buffer.length + 1 ≤ n) →
      (UTF8Decode.loop w pair s st).buffer.length ≤ n + s.length := by
  intro s
  induction s with
  | nil => intro st n h _; simpa [UTF8Decode.loop] using h
  | cons b rest ih =>
    intro st n h1 h2
    have hs := UTF8Decode_step_length w pair st b n h1 h2
    have := ih (UTF8Decode.step w pair st b) (n + 1) hs.1 hs.2
    simp only [UTF8Decode.loop, List.length_cons]
    omega

/-- C28. UTF-8 decoding.  Where `wchar_t` is 32 bits wide, `WideString::FromUTF8` applied to
the standard UTF-8 encoding of a sequence of code points, each at most U+10FFFF, yields
exactly that sequence, one wide character per code point; more generally, for an input made
of sequences of values below `0x200000` and of bytes that cannot start or continue a
sequence where they stand (continuation bytes outside a sequence, bytes from `0xf8` on), the
result is the code points among the values, in order: the stray bytes are skipped without
output and a decoded value above U+10FFFF produces no character.  On either width of
`wchar_t` a value above U+10FFFF is not appended, and the result of decoding, which is
defined for every input, is no longer than the input. -/
theorem FromUTF8_decodes (pair : Nat → Nat × Nat) :
    (∀ cps : List Nat, (∀ cp ∈ cps, cp ≤ 0x10FFFF) →
      FromUTF8 false pair (cps.flatMap encode) = cps) ∧
    (∀ pieces : List Piece, (∀ p ∈ pieces, p.wellFormed) →
      FromUTF8 false pair (pieces.flatMap Piece.bytes) = pieces.filterMap Piece.character) ∧
    (∀ (wchar16 : Bool) (value : Nat) (buffer : List Nat), value > 0x10FFFF →
      AppendCodePointToWideString wchar16 pair value buffer = buffer) ∧
    (∀ (wchar16 : Bool) (str : List Nat),
      (FromUTF8 wchar16 pair str).length ≤ str.length) := by
  have hpieces : ∀ pieces : List Piece, (∀ p ∈ pieces, p.wellFormed) →
      FromUTF8 false pair (pieces.flatMap Piece.bytes) = pieces.filterMap Piece.character := by
    intro pieces hwf
    unfold FromUTF8 UTF8Decode
    rw [UTF8Decode_loop_pieces pair pieces ⟨[], 0, 0⟩ rfl hwf]
    rfl
  refine ⟨fun cps hcps => ?_, hpieces, fun wchar16 value buffer hv => ?_, fun wchar16 str => ?_⟩
  · have h := hpieces (cps.map Piece.sequence) (by
      intro p hp
      obtain ⟨cp, hcp, rfl⟩ := List.mem_map.mp hp
      have := hcps cp hcp
      show cp < 0x200000
      omega)
    have h1 : (cps.map Piece.sequence).flatMap Piece.bytes = cps.flatMap encode := by
      rw [List.flatMap_map]
      rfl
    have h2 : (cps.map Piece.sequence).filterMap Piece.character = cps := by
      rw [List.filterMap_map]
      have : ∀ cp ∈ cps, (Piece.character ∘ Piece.sequence) cp = some cp := by
        intro cp hcp
        simp [Piece.character, hcps cp hcp]
      rw [List.filterMap_congr this, List.filterMap_some]
    rw [h1, h2] at h
    exact h
  · unfold AppendCodePointToWideString kMaximumSupplementaryCodePoint
    rw [if_pos hv]
  · unfold FromUTF8 UTF8Decode
    have := UTF8Decode_loop_length wchar16 pair str ⟨[], 0, 0⟩ 0 (by simp) (by simp)
    omega

/-- The decoder on closed inputs: the encodings of U+0041, U+00E9, U+20AC and U+1F600 with a
stray continuation byte and a byte `0xff` between them; a four-byte sequence of the value
`0x1FFFFF`, which gives nothing; and the same code points where `wchar_t` is 16 bits wide
(with surrogates computed the usual way). -/
theorem FromUTF8_on_examples :
    FromUTF8 false (fun _ => (0, 0))
        [0x41, 0x80, 0xc3, 0xa9, 0xff, 0xe2, 0x82, 0xac, 0xf0, 0x9f, 0x98, 0x80] =
        [0x41, 0xe9, 0x20ac, 0x1f600] ∧
      FromUTF8 false (fun _ => (0, 0)) [0xf7, 0xbf, 0xbf, 0xbf] = [] ∧
      FromUTF8 true (fun cp => (0xd800 + (cp - 0x10000) / 1024, 0xdc00 + (cp - 0x10000) % 1024))
        [0x41, 0xf0, 0x9f, 0x98, 0x80] = [0x41, 0xd83d, 0xde00] := by
  decide!

end WideString

namespace CJS_Global

/-! ### Theorems on the JavaScript globals -/

theorem find_assign (f : JSGlobalData → JSGlobalData) (p : String) :
    ∀ m : List (String × JSGlobalData), find (assign f p m) p = (find m p).map f := by
  intro m
  induction m with
  | nil => rfl
  | cons entry rest ih =>
    unfold assign
    by_cases h : entry.1 = p
    · rw [if_pos h]
      simp [find, List.find?_cons, h]
    · rw [if_neg h]
      have : find (entry :: assign f p rest) p = find (assign f p rest) p := by
        simp [find, List.find?_cons, h]
      rw [this, ih]
      simp [find, List.find?_cons, h]

theorem find_eq_none_of_not_mem (p : String) :
    ∀ m : List (String × JSGlobalData), p ∉ m.map (fun entry => entry.1) → find m p = none := by
  intro m
  induction m with
  | nil => intro _; rfl
  | cons entry rest ih =>
    intro h
    rw [List.map_cons, List.mem_cons, not_or] at h
    have hne : ¬ entry.1 = p := fun he => h.1 he.symm
    have : find (entry :: rest) p = find rest p := by
      simp [find, List.find?_cons, hne]
    rw [this]
    exact ih h.2

theorem EnumProperties_of_not_mem (p : String) (self : Nat) (data : List Element) :
    ∀ m : List (String × JSGlobalData), p ∉ m.map (fun entry => entry.1) →
      V8Value.string p ∉ EnumProperties ⟨m, data, self⟩ := by
  intro m hm hin
  unfold EnumProperties at hin
  rw [List.mem_filterMap] at hin
  obtain ⟨it, hit, hv⟩ := hin
  split at hv
  · cases hv
  · simp only [Option.some.injEq, V8Value.string.injEq] at hv
    exact hm (List.mem_map.mpr ⟨it, hit, hv⟩)

theorem EnumProperties_assign_deleted (p : String) (self : Nat) (data : List Element) :
    ∀ m : List (String × JSGlobalData), (m.map (fun entry => entry.1)).Nodup →
      V8Value.string p ∉
        EnumProperties ⟨assign (fun d => { d with bDeleted := true }) p m, data, self⟩ := by
  intro m
  induction m with
  | nil => intro _ h; simp [assign, EnumProperties] at h
  | cons entry rest ih =>
    intro hnodup
    rw [List.map_cons, List.nodup_cons] at hnodup
    unfold assign
    by_cases h : entry.1 = p
    · rw [if_pos h]
      intro hin
      unfold EnumProperties at hin
      simp only [List.filterMap_cons, if_true] at hin
      have hrest := EnumProperties_of_not_mem p self data rest (by rw [← h]; exact hnodup.1)
      exact hrest hin
    · rw [if_neg h]
      intro hin
      unfold EnumProperties at hin
      rw [List.filterMap_cons] at hin
      split at hin
      · exact ih hnodup.2 hin
      · rename_i v hv
        rw [List.mem_cons] at hin
        rcases hin with hin | hin
        · split at hv
          · cases hv
          · simp only [Option.some.injEq] at hv
            rw [← hv] at hin
            simp only [V8Value.string.injEq] at hin
            exact h hin.symm
        · exact ih hnodup.2 hin

/-- C29. For a property name `p` present in the global map (whose keys are distinct),
`DelProperty(p)` returns true and marks the entry as deleted without removing it.
Afterwards `GetProperty(p)` succeeds without a return value, `EnumProperties` does not list
`p`, and `setPersistent` on `p` fails with the not-found error and changes nothing, until
`p` is set again (after `SetProperty(p)` with a number `GetProperty(p)` returns the number);
but `HasProperty(p)` is still true, and so `queryprop_static` still answers for `p`.
`DelProperty` on a name that is not in the map returns false and changes nothing. -/
theorem DelProperty_marks_deleted (engine : Engine) (g : Global) (p : String) :
    (find g.map_global_ p ≠ none → (g.map_global_.map (fun entry => entry.1)).Nodup →
      (DelProperty g p).1 = true ∧
        HasProperty (DelProperty g p).2 p = true ∧
        queryprop_static (some (DelProperty g p).2) p = (.kYes, some 0) ∧
        GetProperty (DelProperty g p).2 p = .Success none ∧
        V8Value.string p ∉ EnumProperties (DelProperty g p).2 ∧
        (∀ name flag, engine.ToByteString name = p →
          setPersistent engine (DelProperty g p).2 [name, flag] =
            (.Failure .kGlobalNotFoundError, (DelProperty g p).2)) ∧
        (∀ d, p ≠ "" →
          GetProperty (SetProperty engine (DelProperty g p).2 p (.number d)).2 p =
            .Success (some (.number (engine.ToDouble (.number d)))))) ∧
    (find g.map_global_ p = none → DelProperty g p = (false, g)) := by
  constructor
  · intro hfind hnodup
    cases hf : find g.map_global_ p with
    | none => exact absurd hf hfind
    | some data =>
      have hdel : DelProperty g p = (true, { g with
          map_global_ := assign (fun d => { d with bDeleted := true }) p g.map_global_ }) := by
        unfold DelProperty
        rw [hf]
      have hfind2 : find (assign (fun d => { d with bDeleted := true }) p g.map_global_) p =
          some { data with bDeleted := true } := by
        rw [find_assign, hf]
        rfl
      rw [hdel]
      have hhas : HasProperty { g with
          map_global_ := assign (fun d => { d with bDeleted := true }) p g.map_global_ } p =
          true := by
        unfold HasProperty
        simp only [hfind2, Option.isSome_some]
      refine ⟨rfl, hhas, ?_, ?_, ?_, ?_, ?_⟩
      · unfold queryprop_static
        simp only [hhas, Bool.not_true, Bool.false_eq_true, if_false]
      · unfold GetProperty
        simp only [hfind2, if_true]
      · exact EnumProperties_assign_deleted p g.self g.global_data_ g.map_global_ hnodup
      · intro name flag hname
        unfold setPersistent
        simp only [hname, hfind2, if_true]
      · intro d hp
        unfold SetProperty SetGlobalVariables
        simp only [hp, if_false, hfind2]
        unfold GetProperty
        simp only [find_assign, hfind2, Option.map_some', true_or, if_true, Bool.false_eq_true,
          if_false]
  · intro hf
    unfold DelProperty
    rw [hf]

/-- Witness of C29: the global `x` of the demo, deleted: `HasProperty` is still true while
`GetProperty` returns no value and `EnumProperties` lists nothing. -/
theorem DelProperty_marks_deleted_witness :
    (DelProperty Demo.global "x").1 = true ∧
      HasProperty (DelProperty Demo.global "x").2 "x" = true ∧
      GetProperty (DelProperty Demo.global "x").2 "x" = .Success none ∧
      EnumProperties (DelProperty Demo.global "x").2 = [] := by
  have h := (DelProperty_marks_deleted Demo.engine Demo.global "x").1 (by decide) (by decide)
  exact ⟨h.1, h.2.1, h.2.2.2.1, by decide⟩

theorem PutObjectProperty_live (engine : Engine) (heap : Heap) (pObj : Nat)
    (pData : CFX_KeyValue) : PutObjectProperty engine true heap pObj pData = some heap := by
  cases pData with
  | mk sKey nType dData bData sData objData =>
    unfold PutObjectProperty
    rfl

/-- C30. With a live runtime `CJS_Global::PutObjectProperty` returns at once and sets no
property: the heap is as before, whatever the stored list holds.  So for a stored global of
type object (when the engine gives a new object) `UpdateGlobalPersistentVariables` makes a
new object, leaves it without properties, stores it as the global and sets it on the
JavaScript object of the global object under the key; the elements of the stored list are
not restored. -/
theorem PutObjectProperty_restores_nothing (engine : Engine) (g : Global) (heap : Heap)
    (pData : Element) (rest : List Element) (pObj : Nat) :
    PutObjectProperty engine true heap pObj pData.data = some heap ∧
    (pData.data.nType = .kObject → engine.emptyHandle heap.length = false →
      UpdateGlobalPersistentVariables.loop engine true (pData :: rest) g heap =
        UpdateGlobalPersistentVariables.loop engine true rest
          (SetGlobalVariables engine g pData.data.sKey .kObject 0 false "" (some heap.length)
            pData.bPersistent).2
          (RuntimePutObjectProperty (heap ++ [[]]) g.self pData.data.sKey
            (.object heap.length))) := by
  refine ⟨PutObjectProperty_live engine heap pObj pData.data, fun htype hhandle => ?_⟩
  simp only [UpdateGlobalPersistentVariables.loop, htype, NewObject, hhandle,
    Bool.false_eq_true, if_false, PutObjectProperty_live]

/-- Witness of C30: the stored object `obj` with the element `a`, restored with a live
runtime whose heap holds the JavaScript object of the global object: the new object, at the
address 1, has no property, where the stored data has the key `a`. -/
theorem PutObjectProperty_restores_nothing_witness :
    (UpdateGlobalPersistentVariables Demo.engine (some [[]]) Demo.stored).map
        (fun r => r.2) = some (some [[("obj", .object 1)], []]) ∧
      ((UpdateGlobalPersistentVariables Demo.engine (some [[]]) Demo.stored).map
        (fun r => GetProperty r.1 "obj")) = some (.Success (some (.object 1))) ∧
      (Demo.stored.global_data_.map fun pData => claimedKeys pData.data) = [["a"]] := by
  have h := (PutObjectProperty_restores_nothing Demo.engine Demo.stored [[]]
    ⟨.mk "obj" .kObject 0 false "" [.mk "a" .kNumber 1 false "" []], true⟩ [] 1).2 rfl rfl
  unfold UpdateGlobalPersistentVariables
  simp only
  rw [show Demo.stored.global_data_ =
    [⟨.mk "obj" .kObject 0 false "" [.mk "a" .kNumber 1 false "" []], true⟩] from rfl, h]
  refine ⟨by decide!, by decide!, by decide!⟩

end CJS_Global

end PDFium
